import Mathlib

/-!
# Match/action table capability encoding (`net/core/flow_table.c`)

A shallow embedding of the netlink encoders of `net/core/flow_table.c` and of the
data types of `include/uapi/linux/if_match.h`.

Conventions of the embedding.

* A byte is a natural number below 256.  Multi-byte scalars are laid out in
  little-endian order (netlink attributes use host byte order).
* A socket buffer is the byte string between `skb->data` and `skb->tail`
  together with the total room between `skb->data` and `skb->end`.
* A `struct nlattr *` into the buffer is the offset of the attribute from
  `skb->data`; `NULL` is `none`.
* A `char name[IFNAMSIZ]` member is the list of its bytes; the string it holds
  ends before its first zero byte (or where the list ends).
* An array that the C code walks up to a sentinel element is the list of its
  elements, sentinel included.  Walking off the end of the list is a read
  outside the array: the encoders then have no result (`none`).
* A `NULL`-terminated array of pointers is the list of the objects pointed to.
-/

namespace FlowTable

/-! ## Error numbers -/

def ENOMEM : Int := 12
def EBUSY : Int := 16
def EINVAL : Int := 22
def EMSGSIZE : Int := 90
def EOPNOTSUPP : Int := 95
def ENOBUFS : Int := 105

/-! ## Attribute types (`if_match.h`) -/

def NET_MAT_FIELD : Nat := 1

def NET_MAT_FIELD_ATTR_NAME : Nat := 1
def NET_MAT_FIELD_ATTR_UID : Nat := 2
def NET_MAT_FIELD_ATTR_BITWIDTH : Nat := 3

def NET_MAT_HEADER : Nat := 1

def NET_MAT_HEADER_ATTR_NAME : Nat := 1
def NET_MAT_HEADER_ATTR_UID : Nat := 2
def NET_MAT_HEADER_ATTR_FIELDS : Nat := 3

def NET_MAT_FIELD_REF_NEXT_NODE : Nat := 1
def NET_MAT_FIELD_REF_INSTANCE : Nat := 2
def NET_MAT_FIELD_REF_HEADER : Nat := 3
def NET_MAT_FIELD_REF_FIELD : Nat := 4
def NET_MAT_FIELD_REF_MASK_TYPE : Nat := 5
def NET_MAT_FIELD_REF_TYPE : Nat := 6
def NET_MAT_FIELD_REF_VALUE : Nat := 7
def NET_MAT_FIELD_REF_MASK : Nat := 8

def NET_MAT_FIELD_REF : Nat := 1

def NET_MAT_FIELD_REF_ATTR_TYPE_UNSPEC : Int := 0
def NET_MAT_FIELD_REF_ATTR_TYPE_U8 : Int := 1
def NET_MAT_FIELD_REF_ATTR_TYPE_U16 : Int := 2
def NET_MAT_FIELD_REF_ATTR_TYPE_U32 : Int := 3
def NET_MAT_FIELD_REF_ATTR_TYPE_U64 : Int := 4

def NET_MAT_ACTION_ARG_TYPE_UNSPEC : Nat := 0
def NET_MAT_ACTION_ARG_TYPE_NULL : Nat := 1
def NET_MAT_ACTION_ARG_TYPE_U8 : Nat := 2
def NET_MAT_ACTION_ARG_TYPE_U16 : Nat := 3
def NET_MAT_ACTION_ARG_TYPE_U32 : Nat := 4
def NET_MAT_ACTION_ARG_TYPE_U64 : Nat := 5

def NET_MAT_ACTION_ARG_NAME : Nat := 1
def NET_MAT_ACTION_ARG_TYPE : Nat := 2
def NET_MAT_ACTION_ARG_VALUE : Nat := 3

def NET_MAT_ACTION_ARGS : Nat := 1

def NET_MAT_ACTION : Nat := 1

def NET_MAT_ACTION_ATTR_NAME : Nat := 1
def NET_MAT_ACTION_ATTR_UID : Nat := 2
def NET_MAT_ACTION_ATTR_SIGNATURE : Nat := 3

def NET_MAT_JUMP_TABLE_DONE : Int := -1

def NET_MAT_JUMP_ENTRY : Nat := 1

def NET_MAT_HEADER_NODE_HDRS_VALUE : Nat := 1

def NET_MAT_HEADER_NODE_NAME : Nat := 1
def NET_MAT_HEADER_NODE_UID : Nat := 2
def NET_MAT_HEADER_NODE_HDRS : Nat := 3
def NET_MAT_HEADER_NODE_JUMP : Nat := 4

def NET_MAT_HEADER_GRAPH_NODE : Nat := 1

def NET_MAT_TABLE : Nat := 1

def NET_MAT_TABLE_ATTR_NAME : Nat := 1
def NET_MAT_TABLE_ATTR_UID : Nat := 2
def NET_MAT_TABLE_ATTR_SOURCE : Nat := 3
def NET_MAT_TABLE_ATTR_APPLY : Nat := 4
def NET_MAT_TABLE_ATTR_SIZE : Nat := 5
def NET_MAT_TABLE_ATTR_TYPE : Nat := 6
def NET_MAT_TABLE_ATTR_TYPE_ARG : Nat := 7
def NET_MAT_TABLE_ATTR_MATCHES : Nat := 8
def NET_MAT_TABLE_ATTR_ACTIONS : Nat := 9

def NET_MAT_IDENTIFIER_IFINDEX : Nat := 1

def NET_MAT_IDENTIFIER_TYPE : Nat := 1
def NET_MAT_IDENTIFIER : Nat := 2
def NET_MAT_TABLES : Nat := 3
def NET_MAT_HEADERS : Nat := 4
def NET_MAT_ACTIONS : Nat := 5
def NET_MAT_HEADER_GRAPH : Nat := 6

/-! ## Data types (`if_match.h`) -/

/-- The C type `struct net_mat_field`. -/
structure net_mat_field where
  name : List Nat
  uid : Int
  bitwidth : Int
deriving DecidableEq, Repr

/-- The C type `struct net_mat_header`; `fields` is the array `h->fields`. -/
structure net_mat_header where
  name : List Nat
  uid : Int
  field_sz : Int
  fields : List net_mat_field
deriving DecidableEq, Repr

/-- The C type `struct net_mat_field_ref`.  `value` and `mask` are the 64-bit
storages of the two anonymous unions. -/
structure net_mat_field_ref where
  «instance» : Int
  header : Int
  field : Int
  mask_type : Int
  type : Int
  value : Nat
  mask : Nat
deriving DecidableEq, Repr

/-- The C type `struct net_mat_action_arg`; `value` is the 64-bit storage of the
anonymous union. -/
structure net_mat_action_arg where
  name : List Nat
  type : Nat
  value : Nat
deriving DecidableEq, Repr

/-- The C type `struct net_mat_action`; `args = none` is a `NULL` pointer. -/
structure net_mat_action where
  name : List Nat
  uid : Nat
  args : Option (List net_mat_action_arg)
deriving DecidableEq, Repr

/-- The C type `struct net_mat_jump_table`. -/
structure net_mat_jump_table where
  field : net_mat_field_ref
  node : Nat
deriving DecidableEq, Repr

/-- The C type `struct net_mat_header_node`. -/
structure net_mat_header_node where
  name : List Nat
  uid : Nat
  hdrs : List Nat
  jump : List net_mat_jump_table
deriving DecidableEq, Repr

/-- The C type `struct net_mat_table`. -/
structure net_mat_table where
  name : List Nat
  uid : Nat
  source : Nat
  apply_action : Nat
  size : Nat
  type : Nat
  bpf_map_arg : Nat
  «matches» : List net_mat_field_ref
  actions : List Nat
deriving DecidableEq, Repr

/-! ## Socket buffer and netlink attribute primitives (`net/netlink.h`) -/

/-- The written part of a socket buffer (`skb->data` up to `skb->tail`) and the
room between `skb->data` and `skb->end`. -/
structure sk_buff where
  data : List Nat
  room : Nat
deriving DecidableEq, Repr

/-- Free bytes behind the written part. -/
def skb_tailroom (skb : sk_buff) : Nat := skb.room - skb.data.length

def NLA_HDRLEN : Nat := 4

/-- Round up to a multiple of `NLA_ALIGNTO = 4`. -/
def NLA_ALIGN (len : Nat) : Nat := (len + 3) / 4 * 4

def nla_attr_size (payload : Nat) : Nat := NLA_HDRLEN + payload

def nla_total_size (payload : Nat) : Nat := NLA_ALIGN (nla_attr_size payload)

def nla_padlen (payload : Nat) : Nat := nla_total_size payload - nla_attr_size payload

/-- The `w` low bytes of `v`, least significant first. -/
def le_bytes : Nat → Nat → List Nat
  | 0, _ => []
  | w + 1, v => (v % 256) :: le_bytes w (v / 256)

/-- Conversion of a C `int` to `u32`. -/
def u32_of_int (x : Int) : Nat := (x % 4294967296).toNat

/-- The bytes `__nla_put` writes: the header (`nla_len`, `nla_type`, both
16 bit), the payload and the zeroed padding. -/
def nla_bytes (attrtype : Nat) (payload : List Nat) : List Nat :=
  le_bytes 2 (nla_attr_size payload.length) ++ le_bytes 2 attrtype ++ payload ++
    List.replicate (nla_padlen payload.length) 0

/-- The kernel function `nla_put`: fails with `-EMSGSIZE` when the tailroom is
smaller than the aligned attribute, and appends the attribute otherwise. -/
def nla_put (skb : sk_buff) (attrtype : Nat) (payload : List Nat) : Int × sk_buff :=
  if skb_tailroom skb < nla_total_size payload.length then (-EMSGSIZE, skb)
  else (0, { skb with data := skb.data ++ nla_bytes attrtype payload })

def nla_put_u8 (skb : sk_buff) (attrtype : Nat) (value : Nat) : Int × sk_buff :=
  nla_put skb attrtype (le_bytes 1 value)

def nla_put_u16 (skb : sk_buff) (attrtype : Nat) (value : Nat) : Int × sk_buff :=
  nla_put skb attrtype (le_bytes 2 value)

def nla_put_u32 (skb : sk_buff) (attrtype : Nat) (value : Nat) : Int × sk_buff :=
  nla_put skb attrtype (le_bytes 4 value)

def nla_put_u64 (skb : sk_buff) (attrtype : Nat) (value : Nat) : Int × sk_buff :=
  nla_put skb attrtype (le_bytes 8 value)

/-- The string held by a character array: the bytes before the first zero. -/
def cstr (s : List Nat) : List Nat := s.takeWhile (fun c => decide (c ≠ 0))

def strlen (s : List Nat) : Nat := (cstr s).length

/-- The kernel function `nla_put_string`: the payload is the string and its
terminating zero byte. -/
def nla_put_string (skb : sk_buff) (attrtype : Nat) (str : List Nat) : Int × sk_buff :=
  nla_put skb attrtype (cstr str ++ [0])

/-- The kernel function `nla_nest_start`: remembers the tail and writes an
attribute header with an empty payload. -/
def nla_nest_start (skb : sk_buff) (attrtype : Nat) : Option Nat × sk_buff :=
  let start := skb.data.length
  let r := nla_put skb attrtype []
  if r.1 ≠ 0 then (none, r.2) else (some start, r.2)

/-- Overwrite the 16-bit word at offset `ofs`. -/
def put16 (d : List Nat) (ofs : Nat) (v : Nat) : List Nat :=
  (d.set ofs (v % 256)).set (ofs + 1) (v / 256 % 256)

/-- The kernel function `nla_nest_end`: stores the distance from the nest header
to the tail in the 16-bit member `nla_len` of the nest header. -/
def nla_nest_end (skb : sk_buff) (start : Nat) : sk_buff :=
  { skb with data := put16 skb.data start ((skb.data.length - start) % 65536) }

/-- The kernel function `nla_nest_cancel` (`nlmsg_trim`): with a non-`NULL` mark
the buffer is trimmed back to the mark. -/
def nla_nest_cancel (skb : sk_buff) (start : Option Nat) : sk_buff :=
  match start with
  | none => skb
  | some mark => { skb with data := skb.data.take mark }

/-! ## Union members (little-endian storage) -/

def net_mat_field_ref.value_u8 (ref : net_mat_field_ref) : Nat := ref.value % 2 ^ 8
def net_mat_field_ref.value_u16 (ref : net_mat_field_ref) : Nat := ref.value % 2 ^ 16
def net_mat_field_ref.value_u32 (ref : net_mat_field_ref) : Nat := ref.value % 2 ^ 32
def net_mat_field_ref.value_u64 (ref : net_mat_field_ref) : Nat := ref.value % 2 ^ 64
def net_mat_field_ref.mask_u8 (ref : net_mat_field_ref) : Nat := ref.mask % 2 ^ 8
def net_mat_field_ref.mask_u16 (ref : net_mat_field_ref) : Nat := ref.mask % 2 ^ 16
def net_mat_field_ref.mask_u32 (ref : net_mat_field_ref) : Nat := ref.mask % 2 ^ 32
def net_mat_field_ref.mask_u64 (ref : net_mat_field_ref) : Nat := ref.mask % 2 ^ 64
def net_mat_action_arg.value_u8 (a : net_mat_action_arg) : Nat := a.value % 2 ^ 8
def net_mat_action_arg.value_u16 (a : net_mat_action_arg) : Nat := a.value % 2 ^ 16
def net_mat_action_arg.value_u32 (a : net_mat_action_arg) : Nat := a.value % 2 ^ 32
def net_mat_action_arg.value_u64 (a : net_mat_action_arg) : Nat := a.value % 2 ^ 64

/-! ## The encoders of `flow_table.c` -/

/-- The C expression `a || b` over two writes: `b` runs only when `a` returned 0;
the value is non-zero exactly when one of them failed. -/
def or_put (a : Int × sk_buff) (b : sk_buff → Int × sk_buff) : Int × sk_buff :=
  if a.1 ≠ 0 then a else b a.2

/-- The `switch` of `net_mat_put_act_args` that writes the argument value. -/
def net_mat_put_act_arg_value (skb : sk_buff) (a : net_mat_action_arg) : Int × sk_buff :=
  if a.type = NET_MAT_ACTION_ARG_TYPE_U8 then
    nla_put_u8 skb NET_MAT_ACTION_ARG_VALUE a.value_u8
  else if a.type = NET_MAT_ACTION_ARG_TYPE_U16 then
    nla_put_u16 skb NET_MAT_ACTION_ARG_VALUE a.value_u16
  else if a.type = NET_MAT_ACTION_ARG_TYPE_U32 then
    nla_put_u32 skb NET_MAT_ACTION_ARG_VALUE a.value_u32
  else if a.type = NET_MAT_ACTION_ARG_TYPE_U64 then
    nla_put_u64 skb NET_MAT_ACTION_ARG_VALUE a.value_u64
  else (0, skb)

/-- The function `net_mat_put_act_args`: one `NET_MAT_ACTION_ARGS` nest per
element before the first element with `type == 0`. -/
def net_mat_put_act_args : sk_buff → List net_mat_action_arg → Option (Int × sk_buff)
  | _, [] => none
  | skb, a :: rest =>
    if a.type = 0 then some (0, skb)
    else
      match nla_nest_start skb NET_MAT_ACTION_ARGS with
      | (none, skb1) => some (-ENOMEM, skb1)
      | (some arg, skb1) =>
        let r1 := nla_put_string skb1 NET_MAT_ACTION_ARG_NAME a.name
        if r1.1 ≠ 0 then some (-EMSGSIZE, nla_nest_cancel r1.2 (some arg))
        else
          let r2 := nla_put_u32 r1.2 NET_MAT_ACTION_ARG_TYPE a.type
          if r2.1 ≠ 0 then some (-EMSGSIZE, nla_nest_cancel r2.2 (some arg))
          else
            let r3 := net_mat_put_act_arg_value r2.2 a
            if r3.1 ≠ 0 then some (-EMSGSIZE, nla_nest_cancel r3.2 (some arg))
            else net_mat_put_act_args (nla_nest_end r3.2 arg) rest

/-- The counting loop of `net_mat_put_action`: the number of elements before the
first element with an empty name. -/
def count_args : List net_mat_action_arg → Option Nat
  | [] => none
  | a :: rest => if strlen a.name > 0 then (count_args rest).map (fun n => n + 1) else some 0

/-- The function `net_mat_put_action`.  The member `name` is an array, so the
test `a->name` is always true. -/
def net_mat_put_action (skb : sk_buff) (a : net_mat_action) : Option (Int × sk_buff) :=
  let r1 := nla_put_string skb NET_MAT_ACTION_ATTR_NAME a.name
  if r1.1 ≠ 0 then some (-EMSGSIZE, r1.2)
  else
    let r2 := nla_put_u32 r1.2 NET_MAT_ACTION_ATTR_UID a.uid
    if r2.1 ≠ 0 then some (-EMSGSIZE, r2.2)
    else
      match a.args with
      | none => some (0, r2.2)
      | some args =>
        match count_args args with
        | none => none
        | some n =>
          if n ≠ 0 then
            match nla_nest_start r2.2 NET_MAT_ACTION_ATTR_SIGNATURE with
            | (none, skb3) => some (-EMSGSIZE, skb3)
            | (some nest, skb3) =>
              match net_mat_put_act_args skb3 args with
              | none => none
              | some (err, skb4) =>
                if err ≠ 0 then some (err, nla_nest_cancel skb4 (some nest))
                else some (0, nla_nest_end skb4 nest)
          else some (0, r2.2)

/-- The loop of `net_mat_put_actions`; `actions` is the enclosing nest. -/
def net_mat_put_actions_loop (actions : Nat) :
    sk_buff → List net_mat_action → Option (Int × sk_buff)
  | skb, [] => some (0, nla_nest_end skb actions)
  | skb, a :: rest =>
    match nla_nest_start skb NET_MAT_ACTION with
    | (none, skb1) => some (-EMSGSIZE, nla_nest_cancel skb1 (some actions))
    | (some action, skb1) =>
      match net_mat_put_action skb1 a with
      | none => none
      | some (err, skb2) =>
        if err ≠ 0 then some (-EMSGSIZE, nla_nest_cancel skb2 (some actions))
        else net_mat_put_actions_loop actions (nla_nest_end skb2 action) rest

/-- The function `net_mat_put_actions`. -/
def net_mat_put_actions (skb : sk_buff) (acts : List net_mat_action) :
    Option (Int × sk_buff) :=
  match nla_nest_start skb NET_MAT_ACTIONS with
  | (none, skb1) => some (-EMSGSIZE, skb1)
  | (some actions, skb1) => net_mat_put_actions_loop actions skb1 acts

/-- The function `net_mat_put_field_ref_top`. -/
def net_mat_put_field_ref_top (skb : sk_buff) (ref : net_mat_field_ref) : Int × sk_buff :=
  let r :=
    or_put (nla_put_u32 skb NET_MAT_FIELD_REF_INSTANCE (u32_of_int ref.«instance»)) fun s =>
    or_put (nla_put_u32 s NET_MAT_FIELD_REF_HEADER (u32_of_int ref.header)) fun s =>
    or_put (nla_put_u32 s NET_MAT_FIELD_REF_FIELD (u32_of_int ref.field)) fun s =>
    or_put (nla_put_u32 s NET_MAT_FIELD_REF_MASK_TYPE (u32_of_int ref.mask_type)) fun s =>
    nla_put_u32 s NET_MAT_FIELD_REF_TYPE (u32_of_int ref.type)
  if r.1 ≠ 0 then (-EMSGSIZE, r.2) else (0, r.2)

/-- The function `net_mat_put_field_ref_vals`. -/
def net_mat_put_field_ref_vals (skb : sk_buff) (ref : net_mat_field_ref) : Int × sk_buff :=
  if ref.type = 0 then (0, skb)
  else if ref.type = NET_MAT_FIELD_REF_ATTR_TYPE_U8 then
    let r := or_put (nla_put_u8 skb NET_MAT_FIELD_REF_VALUE ref.value_u8) fun s =>
      nla_put_u8 s NET_MAT_FIELD_REF_MASK ref.mask_u8
    if r.1 ≠ 0 then (-EMSGSIZE, r.2) else (0, r.2)
  else if ref.type = NET_MAT_FIELD_REF_ATTR_TYPE_U16 then
    let r := or_put (nla_put_u16 skb NET_MAT_FIELD_REF_VALUE ref.value_u16) fun s =>
      nla_put_u16 s NET_MAT_FIELD_REF_MASK ref.mask_u16
    if r.1 ≠ 0 then (-EMSGSIZE, r.2) else (0, r.2)
  else if ref.type = NET_MAT_FIELD_REF_ATTR_TYPE_U32 then
    let r := or_put (nla_put_u32 skb NET_MAT_FIELD_REF_VALUE ref.value_u32) fun s =>
      nla_put_u32 s NET_MAT_FIELD_REF_MASK ref.mask_u32
    if r.1 ≠ 0 then (-EMSGSIZE, r.2) else (0, r.2)
  else if ref.type = NET_MAT_FIELD_REF_ATTR_TYPE_U64 then
    let r := or_put (nla_put_u64 skb NET_MAT_FIELD_REF_VALUE ref.value_u64) fun s =>
      nla_put_u64 s NET_MAT_FIELD_REF_MASK ref.mask_u64
    if r.1 ≠ 0 then (-EMSGSIZE, r.2) else (0, r.2)
  else (0, skb)

/-- The loop of `net_mat_put_fields`: `count` is the loop counter, the list is the
array from `f` on. -/
def net_mat_put_fields_loop : sk_buff → Int → List net_mat_field → Option (Int × sk_buff)
  | skb, count, [] => if count = 0 then some (0, skb) else none
  | skb, count, f :: rest =>
    if count = 0 then some (0, skb)
    else
      match nla_nest_start skb NET_MAT_FIELD with
      | (none, skb1) => some (-EMSGSIZE, skb1)
      | (some field, skb1) =>
        let r :=
          or_put (nla_put_string skb1 NET_MAT_FIELD_ATTR_NAME f.name) fun s =>
          or_put (nla_put_u32 s NET_MAT_FIELD_ATTR_UID (u32_of_int f.uid)) fun s =>
          nla_put_u32 s NET_MAT_FIELD_ATTR_BITWIDTH (u32_of_int f.bitwidth)
        if r.1 ≠ 0 then some (-EMSGSIZE, nla_nest_cancel r.2 (some field))
        else net_mat_put_fields_loop (nla_nest_end r.2 field) (count - 1) rest

/-- The function `net_mat_put_fields`. -/
def net_mat_put_fields (skb : sk_buff) (h : net_mat_header) : Option (Int × sk_buff) :=
  net_mat_put_fields_loop skb h.field_sz h.fields

/-- The loop of `net_mat_put_headers`; `nest` is the enclosing nest. -/
def net_mat_put_headers_loop (nest : Nat) :
    sk_buff → List net_mat_header → Option (Int × sk_buff)
  | skb, [] => some (0, nla_nest_end skb nest)
  | skb, h :: rest =>
    match nla_nest_start skb NET_MAT_HEADER with
    | (none, skb1) => some (-EMSGSIZE, nla_nest_cancel skb1 (some nest))
    | (some hdr, skb1) =>
      let r :=
        or_put (nla_put_string skb1 NET_MAT_HEADER_ATTR_NAME h.name) fun s =>
        nla_put_u32 s NET_MAT_HEADER_ATTR_UID (u32_of_int h.uid)
      if r.1 ≠ 0 then
        some (-EMSGSIZE, nla_nest_cancel (nla_nest_cancel r.2 (some hdr)) (some nest))
      else
        match nla_nest_start r.2 NET_MAT_HEADER_ATTR_FIELDS with
        | (none, skb2) =>
          some (-EMSGSIZE, nla_nest_cancel (nla_nest_cancel skb2 (some hdr)) (some nest))
        | (some fields, skb2) =>
          match net_mat_put_fields skb2 h with
          | none => none
          | some (err, skb3) =>
            if err ≠ 0 then
              some (err, nla_nest_cancel (nla_nest_cancel (nla_nest_cancel skb3
                (some fields)) (some hdr)) (some nest))
            else
              net_mat_put_headers_loop nest
                (nla_nest_end (nla_nest_end skb3 fields) hdr) rest

/-- The function `net_mat_put_headers`. -/
def net_mat_put_headers (skb : sk_buff) (headers : List net_mat_header) :
    Option (Int × sk_buff) :=
  match nla_nest_start skb NET_MAT_HEADERS with
  | (none, skb1) => some (-EMSGSIZE, skb1)
  | (some nest, skb1) => net_mat_put_headers_loop nest skb1 headers

/-- The first loop of `net_mat_put_header_node`, over `node->hdrs`; `hdrs` is the
enclosing nest.  A non-zero result is the value the function returns from inside
the loop. -/
def net_mat_put_hdrs_loop (hdrs : Nat) : sk_buff → List Nat → Option (Int × sk_buff)
  | _, [] => none
  | skb, h :: rest =>
    if h = 0 then some (0, skb)
    else
      let r := nla_put_u32 skb NET_MAT_HEADER_NODE_HDRS_VALUE h
      if r.1 ≠ 0 then some (-EMSGSIZE, nla_nest_cancel r.2 (some hdrs))
      else net_mat_put_hdrs_loop hdrs r.2 rest

/-- The second loop of `net_mat_put_header_node`, over `node->jump`; `jumps` is the
enclosing nest.  The label `errout` cancels `entry` (a no-op when the entry nest
could not be started) and then `jumps`. -/
def net_mat_put_jump_loop (jumps : Nat) :
    sk_buff → List net_mat_jump_table → Option (Int × sk_buff)
  | _, [] => none
  | skb, j :: rest =>
    if j.node = 0 then some (0, skb)
    else
      match nla_nest_start skb NET_MAT_JUMP_ENTRY with
      | (none, skb1) =>
        some (-EMSGSIZE, nla_nest_cancel (nla_nest_cancel skb1 none) (some jumps))
      | (some entry, skb1) =>
        let r1 := nla_put_u32 skb1 NET_MAT_FIELD_REF_NEXT_NODE j.node
        if r1.1 ≠ 0 then
          some (-EMSGSIZE, nla_nest_cancel (nla_nest_cancel r1.2 (some entry)) (some jumps))
        else
          let r2 := net_mat_put_field_ref_top r1.2 j.field
          if r2.1 ≠ 0 then
            some (-EMSGSIZE, nla_nest_cancel (nla_nest_cancel r2.2 (some entry)) (some jumps))
          else
            let r3 := net_mat_put_field_ref_vals r2.2 j.field
            if r3.1 ≠ 0 then
              some (-EMSGSIZE,
                nla_nest_cancel (nla_nest_cancel r3.2 (some entry)) (some jumps))
            else net_mat_put_jump_loop jumps (nla_nest_end r3.2 entry) rest

/-- The function `net_mat_put_header_node`. -/
def net_mat_put_header_node (skb : sk_buff) (node : net_mat_header_node) :
    Option (Int × sk_buff) :=
  let r :=
    or_put (nla_put_string skb NET_MAT_HEADER_NODE_NAME node.name) fun s =>
    nla_put_u32 s NET_MAT_HEADER_NODE_UID node.uid
  if r.1 ≠ 0 then some (-EMSGSIZE, r.2)
  else
    match nla_nest_start r.2 NET_MAT_HEADER_NODE_HDRS with
    | (none, skb1) => some (-EMSGSIZE, skb1)
    | (some hdrs, skb1) =>
      match net_mat_put_hdrs_loop hdrs skb1 node.hdrs with
      | none => none
      | some (e1, skb2) =>
        if e1 ≠ 0 then some (e1, skb2)
        else
          match nla_nest_start (nla_nest_end skb2 hdrs) NET_MAT_HEADER_NODE_JUMP with
          | (none, skb3) => some (-EMSGSIZE, skb3)
          | (some jumps, skb3) =>
            match net_mat_put_jump_loop jumps skb3 node.jump with
            | none => none
            | some (e2, skb4) =>
              if e2 ≠ 0 then some (e2, skb4)
              else some (0, nla_nest_end skb4 jumps)

/-- The loop of `net_mat_put_header_graph`; `nodes` is the enclosing nest. -/
def net_mat_put_header_graph_loop (nodes : Nat) :
    sk_buff → List net_mat_header_node → Option (Int × sk_buff)
  | skb, [] => some (0, nla_nest_end skb nodes)
  | skb, n :: rest =>
    match nla_nest_start skb NET_MAT_HEADER_GRAPH_NODE with
    | (none, skb1) => some (-EMSGSIZE, nla_nest_cancel skb1 (some nodes))
    | (some node, skb1) =>
      match net_mat_put_header_node skb1 n with
      | none => none
      | some (err, skb2) =>
        if err ≠ 0 then
          some (err, nla_nest_cancel (nla_nest_cancel skb2 (some node)) (some nodes))
        else net_mat_put_header_graph_loop nodes (nla_nest_end skb2 node) rest

/-- The function `net_mat_put_header_graph`. -/
def net_mat_put_header_graph (skb : sk_buff) (g : List net_mat_header_node) :
    Option (Int × sk_buff) :=
  match nla_nest_start skb NET_MAT_HEADER_GRAPH with
  | (none, skb1) => some (-EMSGSIZE, skb1)
  | (some nodes, skb1) => net_mat_put_header_graph_loop nodes skb1 g

/-- The first loop of `net_mat_put_table`, over `t->matches`; `matches` is the
enclosing nest.  A non-zero result is the value the function returns from inside
the loop. -/
def net_mat_put_matches_loop (mnest : Nat) :
    sk_buff → List net_mat_field_ref → Option (Int × sk_buff)
  | _, [] => none
  | skb, m :: rest =>
    if m.«instance» = 0 then some (0, skb)
    else
      match nla_nest_start skb NET_MAT_FIELD_REF with
      | (none, skb1) => some (-EMSGSIZE, nla_nest_cancel skb1 (some mnest))
      | (some field, skb1) =>
        let r := net_mat_put_field_ref_top skb1 m
        if r.1 ≠ 0 then
          some (-EMSGSIZE, nla_nest_cancel (nla_nest_cancel r.2 (some field)) (some mnest))
        else net_mat_put_matches_loop mnest (nla_nest_end r.2 field) rest

/-- The second loop of `net_mat_put_table`, over `t->actions`; `actions` is the
enclosing nest. -/
def net_mat_put_table_actions_loop (actions : Nat) :
    sk_buff → List Nat → Option (Int × sk_buff)
  | _, [] => none
  | skb, a :: rest =>
    if a = 0 then some (0, skb)
    else
      let r := nla_put_u32 skb NET_MAT_ACTION_ATTR_UID a
      if r.1 ≠ 0 then some (-EMSGSIZE, nla_nest_cancel r.2 (some actions))
      else net_mat_put_table_actions_loop actions r.2 rest

/-- The function `net_mat_put_table` (the argument `dev` is unused). -/
def net_mat_put_table (skb : sk_buff) (t : net_mat_table) : Option (Int × sk_buff) :=
  let r :=
    or_put (nla_put_string skb NET_MAT_TABLE_ATTR_NAME t.name) fun s =>
    or_put (nla_put_u32 s NET_MAT_TABLE_ATTR_UID t.uid) fun s =>
    or_put (nla_put_u32 s NET_MAT_TABLE_ATTR_SOURCE t.source) fun s =>
    or_put (nla_put_u32 s NET_MAT_TABLE_ATTR_APPLY t.apply_action) fun s =>
    nla_put_u32 s NET_MAT_TABLE_ATTR_SIZE t.size
  if r.1 ≠ 0 then some (-EMSGSIZE, r.2)
  else
    match nla_nest_start r.2 NET_MAT_TABLE_ATTR_MATCHES with
    | (none, skb1) => some (-EMSGSIZE, skb1)
    | (some mnest, skb1) =>
      match net_mat_put_matches_loop mnest skb1 t.«matches» with
      | none => none
      | some (e1, skb2) =>
        if e1 ≠ 0 then some (e1, skb2)
        else
          match nla_nest_start (nla_nest_end skb2 mnest) NET_MAT_TABLE_ATTR_ACTIONS with
          | (none, skb3) => some (-EMSGSIZE, skb3)
          | (some actions, skb3) =>
            match net_mat_put_table_actions_loop actions skb3 t.actions with
            | none => none
            | some (e2, skb4) =>
              if e2 ≠ 0 then some (e2, skb4)
              else some (0, nla_nest_end skb4 actions)

/-- The loop of `net_mat_put_tables`, over `tables[i]`; `nest` is the enclosing
nest.  A `NULL` slot (`none`) is dereferenced by the loop test: no result. -/
def net_mat_put_tables_loop (nest : Nat) :
    sk_buff → List (Option net_mat_table) → Option (Int × sk_buff)
  | _, [] => none
  | _, none :: _ => none
  | skb, some tbl :: rest =>
    if tbl.uid = 0 then some (0, nla_nest_end skb nest)
    else
      match nla_nest_start skb NET_MAT_TABLE with
      | (none, skb1) => some (-EMSGSIZE, nla_nest_cancel skb1 (some nest))
      | (some t, skb1) =>
        match net_mat_put_table skb1 tbl with
        | none => none
        | some (err, skb2) =>
          if err ≠ 0 then
            some (err, nla_nest_cancel (nla_nest_cancel skb2 (some t)) (some nest))
          else net_mat_put_tables_loop nest (nla_nest_end skb2 t) rest

/-- The function `net_mat_put_tables` (the argument `dev` is unused).  A `NULL`
first slot jumps to `errout` with `err == 0`. -/
def net_mat_put_tables (skb : sk_buff) (tables : List (Option net_mat_table)) :
    Option (Int × sk_buff) :=
  match nla_nest_start skb NET_MAT_TABLES with
  | (none, skb1) => some (-EMSGSIZE, skb1)
  | (some nest, skb1) =>
    match tables with
    | [] => none
    | none :: _ => some (0, nla_nest_cancel skb1 (some nest))
    | some _ :: _ => net_mat_put_tables_loop nest skb1 tables

/-! ## Buffer extension -/

/-- The buffer `s` has the room of `skb` and its written bytes start with those of `skb`. -/
def Ext (skb s : sk_buff) : Prop :=
  s.room = skb.room ∧ ∃ t, s.data = skb.data ++ t

/-! ## Encoded forms -/

/-- The buffer after `bs` has been appended. -/
def sk_buff.append (skb : sk_buff) (bs : List Nat) : sk_buff :=
  { skb with data := skb.data ++ bs }

/-- A nested attribute: the attribute header, whose 16-bit length member holds the
length of header and children (modulo `2 ^ 16`), followed by the children. -/
def nest_bytes (attrtype : Nat) (children : List Nat) : List Nat :=
  le_bytes 2 (NLA_HDRLEN + children.length) ++ le_bytes 2 attrtype ++ children

def u8_attr (attrtype value : Nat) : List Nat := nla_bytes attrtype (le_bytes 1 value)
def u16_attr (attrtype value : Nat) : List Nat := nla_bytes attrtype (le_bytes 2 value)
def u32_attr (attrtype value : Nat) : List Nat := nla_bytes attrtype (le_bytes 4 value)
def u64_attr (attrtype value : Nat) : List Nat := nla_bytes attrtype (le_bytes 8 value)

/-- A string attribute: the string and its terminating zero byte. -/
def string_attr (attrtype : Nat) (str : List Nat) : List Nat :=
  nla_bytes attrtype (cstr str ++ [0])

/-- A step `w` writes `bs`: with enough tailroom it returns 0 and appends `bs`,
otherwise it returns non-zero. -/
def Writes (w : sk_buff → Int × sk_buff) (bs : List Nat) : Prop :=
  ∀ skb, (bs.length ≤ skb_tailroom skb → w skb = (0, skb.append bs)) ∧
    (skb_tailroom skb < bs.length → (w skb).1 ≠ 0)

/-- The result `r` of an encoder: 0 and the buffer `s` when `fits` holds, and an
error otherwise. -/
def Results (r : Option (Int × sk_buff)) (fits : Prop) (s : sk_buff) : Prop :=
  (fits → r = some (0, s)) ∧ (¬fits → ∃ e s', r = some (e, s') ∧ e ≠ 0)

/-- The children of the header-id nest of a node: one u32 per id before the first
zero id. -/
def hdrs_bytes (hdrs : List Nat) : List Nat :=
  (hdrs.takeWhile (fun h => decide (h ≠ 0))).flatMap
    (fun h => u32_attr NET_MAT_HEADER_NODE_HDRS_VALUE h)

/-- The five structural attributes of a field reference, in the order written by
`net_mat_put_field_ref_top`. -/
def field_ref_top_bytes (ref : net_mat_field_ref) : List Nat :=
  u32_attr NET_MAT_FIELD_REF_INSTANCE (u32_of_int ref.«instance») ++
  u32_attr NET_MAT_FIELD_REF_HEADER (u32_of_int ref.header) ++
  u32_attr NET_MAT_FIELD_REF_FIELD (u32_of_int ref.field) ++
  u32_attr NET_MAT_FIELD_REF_MASK_TYPE (u32_of_int ref.mask_type) ++
  u32_attr NET_MAT_FIELD_REF_TYPE (u32_of_int ref.type)

/-- The value/mask pair of a field reference: present for the types u8, u16, u32
and u64, in the width of the type, and absent otherwise. -/
def field_ref_vals_bytes (ref : net_mat_field_ref) : List Nat :=
  if ref.type = NET_MAT_FIELD_REF_ATTR_TYPE_U8 then
    u8_attr NET_MAT_FIELD_REF_VALUE ref.value_u8 ++ u8_attr NET_MAT_FIELD_REF_MASK ref.mask_u8
  else if ref.type = NET_MAT_FIELD_REF_ATTR_TYPE_U16 then
    u16_attr NET_MAT_FIELD_REF_VALUE ref.value_u16 ++
      u16_attr NET_MAT_FIELD_REF_MASK ref.mask_u16
  else if ref.type = NET_MAT_FIELD_REF_ATTR_TYPE_U32 then
    u32_attr NET_MAT_FIELD_REF_VALUE ref.value_u32 ++
      u32_attr NET_MAT_FIELD_REF_MASK ref.mask_u32
  else if ref.type = NET_MAT_FIELD_REF_ATTR_TYPE_U64 then
    u64_attr NET_MAT_FIELD_REF_VALUE ref.value_u64 ++
      u64_attr NET_MAT_FIELD_REF_MASK ref.mask_u64
  else []

/-- One jump entry record: the next node, the field reference and its value/mask
pair. -/
def jump_entry_bytes (j : net_mat_jump_table) : List Nat :=
  nest_bytes NET_MAT_JUMP_ENTRY
    (u32_attr NET_MAT_FIELD_REF_NEXT_NODE j.node ++ field_ref_top_bytes j.field ++
      field_ref_vals_bytes j.field)

/-- The entries of a jump table before the first entry with `node == 0`. -/
def jump_entries (jump : List net_mat_jump_table) : List net_mat_jump_table :=
  jump.takeWhile (fun j => decide (j.node ≠ 0))

/-- The children of the jump nest of a node: one record per jump entry, in array
order. -/
def jump_bytes (jump : List net_mat_jump_table) : List Nat :=
  (jump_entries jump).flatMap jump_entry_bytes

/-- What a header node is encoded as: name, uid, the header-id nest and the jump
nest. -/
def header_node_bytes (node : net_mat_header_node) : List Nat :=
  string_attr NET_MAT_HEADER_NODE_NAME node.name ++
  u32_attr NET_MAT_HEADER_NODE_UID node.uid ++
  nest_bytes NET_MAT_HEADER_NODE_HDRS (hdrs_bytes node.hdrs) ++
  nest_bytes NET_MAT_HEADER_NODE_JUMP (jump_bytes node.jump)

/-- The arrays of a header node end in their sentinels. -/
def node_terminated (node : net_mat_header_node) : Prop :=
  0 ∈ node.hdrs ∧ ∃ j ∈ node.jump, j.node = 0

instance (node : net_mat_header_node) : Decidable (node_terminated node) := by
  unfold node_terminated
  infer_instance

/-- One field record: name, uid and bitwidth. -/
def field_bytes (f : net_mat_field) : List Nat :=
  nest_bytes NET_MAT_FIELD
    (string_attr NET_MAT_FIELD_ATTR_NAME f.name ++
     u32_attr NET_MAT_FIELD_ATTR_UID (u32_of_int f.uid) ++
     u32_attr NET_MAT_FIELD_ATTR_BITWIDTH (u32_of_int f.bitwidth))

def fields_bytes (fs : List net_mat_field) : List Nat := fs.flatMap field_bytes

/-- The fields of a header that `net_mat_put_fields` visits: the first `field_sz`
elements of the array. -/
def header_fields (h : net_mat_header) : List net_mat_field := h.fields.take h.field_sz.toNat

/-- One header record: name, uid and the nest of its fields. -/
def header_bytes (h : net_mat_header) : List Nat :=
  nest_bytes NET_MAT_HEADER
    (string_attr NET_MAT_HEADER_ATTR_NAME h.name ++
     u32_attr NET_MAT_HEADER_ATTR_UID (u32_of_int h.uid) ++
     nest_bytes NET_MAT_HEADER_ATTR_FIELDS (fields_bytes (header_fields h)))

/-- The encoding of a header list: the `NET_MAT_HEADERS` nest of its header records. -/
def headers_bytes (hs : List net_mat_header) : List Nat :=
  nest_bytes NET_MAT_HEADERS (hs.flatMap header_bytes)

/-- The count `field_sz` is not negative and stays within the array `fields`. -/
def header_counted (h : net_mat_header) : Prop :=
  0 ≤ h.field_sz ∧ h.field_sz.toNat ≤ h.fields.length

instance (h : net_mat_header) : Decidable (header_counted h) := by
  unfold header_counted
  infer_instance

def IFNAMSIZ : Nat := 16

/-- The string held by a name array is terminated within the array. -/
def name_ok (name : List Nat) : Prop := strlen name < IFNAMSIZ

instance (name : List Nat) : Decidable (name_ok name) := by
  unfold name_ok
  infer_instance

/-- The value range of the C type `int`. -/
def int_ok (x : Int) : Prop := -2147483648 ≤ x ∧ x < 2147483648

instance (x : Int) : Decidable (int_ok x) := by
  unfold int_ok
  infer_instance

/-- The value range of the C type `__u32`. -/
def u32_ok (x : Nat) : Prop := x < 4294967296

instance (x : Nat) : Decidable (u32_ok x) := by
  unfold u32_ok
  infer_instance

def field_valid (f : net_mat_field) : Prop :=
  name_ok f.name ∧ int_ok f.uid ∧ int_ok f.bitwidth

instance (f : net_mat_field) : Decidable (field_valid f) := by
  unfold field_valid
  infer_instance

/-- A valid header: the name is terminated within `IFNAMSIZ`, `field_sz` is the number
of fields, and every field is valid. -/
def header_valid (h : net_mat_header) : Prop :=
  name_ok h.name ∧ int_ok h.uid ∧ h.field_sz = h.fields.length ∧ ∀ f ∈ h.fields, field_valid f

instance (h : net_mat_header) : Decidable (header_valid h) := by
  unfold header_valid
  infer_instance

/-- What a field describes: the name string, the uid and the bit width. -/
def field_view (f : net_mat_field) : List Nat × Int × Int := (cstr f.name, f.uid, f.bitwidth)

/-- What a header describes: the name string, the uid and the fields in order. -/
def header_view (h : net_mat_header) : List Nat × Int × List (List Nat × Int × Int) :=
  (cstr h.name, h.uid, h.fields.map field_view)

/-- The byte string `y` is empty or starts with a record: a nest header followed by a
name attribute (attribute type 1) with a string shorter than `IFNAMSIZ`. -/
def StartsRecord (y : List Nat) : Prop :=
  y = [] ∨ ∃ (hdr n rest : List Nat), hdr.length = 4 ∧ name_ok n ∧
    y = hdr ++ (string_attr 1 n ++ rest)

/-- One node record of the header graph. -/
def node_bytes (n : net_mat_header_node) : List Nat :=
  nest_bytes NET_MAT_HEADER_GRAPH_NODE (header_node_bytes n)

/-- The encoding of a header graph: the `NET_MAT_HEADER_GRAPH` nest of its node
records. -/
def header_graph_bytes (g : List net_mat_header_node) : List Nat :=
  nest_bytes NET_MAT_HEADER_GRAPH (g.flatMap node_bytes)

/-- A typed field reference holds its value and its mask within the width of its type;
a reference of any other type carries no value and no mask. -/
def ref_vals_ok (r : net_mat_field_ref) : Prop :=
  if r.type = NET_MAT_FIELD_REF_ATTR_TYPE_U8 then r.value < 2 ^ 8 ∧ r.mask < 2 ^ 8
  else if r.type = NET_MAT_FIELD_REF_ATTR_TYPE_U16 then r.value < 2 ^ 16 ∧ r.mask < 2 ^ 16
  else if r.type = NET_MAT_FIELD_REF_ATTR_TYPE_U32 then r.value < 2 ^ 32 ∧ r.mask < 2 ^ 32
  else if r.type = NET_MAT_FIELD_REF_ATTR_TYPE_U64 then r.value < 2 ^ 64 ∧ r.mask < 2 ^ 64
  else r.value = 0 ∧ r.mask = 0

instance (r : net_mat_field_ref) : Decidable (ref_vals_ok r) := by
  unfold ref_vals_ok
  infer_instance

/-- A valid field reference: the members hold C `int` values and the value and mask fit
the type. -/
def ref_valid (r : net_mat_field_ref) : Prop :=
  int_ok r.«instance» ∧ int_ok r.header ∧ int_ok r.field ∧ int_ok r.mask_type ∧
  int_ok r.type ∧ ref_vals_ok r

instance (r : net_mat_field_ref) : Decidable (ref_valid r) := by
  unfold ref_valid
  infer_instance

def jump_valid (j : net_mat_jump_table) : Prop := u32_ok j.node ∧ ref_valid j.field

instance (j : net_mat_jump_table) : Decidable (jump_valid j) := by
  unfold jump_valid
  infer_instance

/-- The header ids of a node: the elements of `hdrs` before the first zero. -/
def header_ids (hdrs : List Nat) : List Nat := hdrs.takeWhile (fun h => decide (h ≠ 0))

/-- A valid header node: the name is terminated within `IFNAMSIZ`, both arrays end in
their sentinels, and the uid, the header ids and the jump entries are valid. -/
def node_valid (n : net_mat_header_node) : Prop :=
  name_ok n.name ∧ u32_ok n.uid ∧ node_terminated n ∧ (∀ h ∈ header_ids n.hdrs, u32_ok h) ∧
  ∀ j ∈ jump_entries n.jump, jump_valid j

instance (n : net_mat_header_node) : Decidable (node_valid n) := by
  unfold node_valid
  infer_instance

/-- What a header node describes: the name string, the uid, the header ids and the jump
entries in order. -/
def node_view (n : net_mat_header_node) :
    List Nat × Nat × List Nat × List net_mat_jump_table :=
  (cstr n.name, n.uid, header_ids n.hdrs, jump_entries n.jump)

/-- The matches of a table: the elements of `matches` before the first element with
`instance == 0`. -/
def match_entries (ms : List net_mat_field_ref) : List net_mat_field_ref :=
  ms.takeWhile (fun m => decide (m.«instance» ≠ 0))

/-- One match record of a table: the structural attributes of the field reference. -/
def match_bytes (m : net_mat_field_ref) : List Nat :=
  nest_bytes NET_MAT_FIELD_REF (field_ref_top_bytes m)

def matches_bytes (ms : List net_mat_field_ref) : List Nat :=
  (match_entries ms).flatMap match_bytes

/-- The action uids of a table: the elements of `actions` before the first zero. -/
def table_action_ids (as : List Nat) : List Nat := as.takeWhile (fun a => decide (a ≠ 0))

def table_actions_bytes (as : List Nat) : List Nat :=
  (table_action_ids as).flatMap (fun a => u32_attr NET_MAT_ACTION_ATTR_UID a)

/-- What a table is encoded as: name, uid, source, apply and size, the matches nest and
the actions nest. -/
def table_bytes (t : net_mat_table) : List Nat :=
  string_attr NET_MAT_TABLE_ATTR_NAME t.name ++
  u32_attr NET_MAT_TABLE_ATTR_UID t.uid ++
  u32_attr NET_MAT_TABLE_ATTR_SOURCE t.source ++
  u32_attr NET_MAT_TABLE_ATTR_APPLY t.apply_action ++
  u32_attr NET_MAT_TABLE_ATTR_SIZE t.size ++
  nest_bytes NET_MAT_TABLE_ATTR_MATCHES (matches_bytes t.«matches») ++
  nest_bytes NET_MAT_TABLE_ATTR_ACTIONS (table_actions_bytes t.actions)

/-- One table record. -/
def table_record_bytes (t : net_mat_table) : List Nat :=
  nest_bytes NET_MAT_TABLE (table_bytes t)

/-- The tables of a table array: the tables before the first table with `uid == 0`. -/
def table_entries : List (Option net_mat_table) → List net_mat_table
  | [] => []
  | none :: _ => []
  | some t :: rest => if t.uid = 0 then [] else t :: table_entries rest

/-- The table array ends in a table with `uid == 0` and has no `NULL` slot before it. -/
def tables_terminated : List (Option net_mat_table) → Prop
  | [] => False
  | none :: _ => False
  | some t :: rest => t.uid = 0 ∨ tables_terminated rest

instance tables_terminated_decidable :
    (ts : List (Option net_mat_table)) → Decidable (tables_terminated ts)
  | [] => isFalse (fun h => h)
  | none :: _ => isFalse (fun h => h)
  | some t :: rest =>
    match decEq t.uid 0, tables_terminated_decidable rest with
    | isTrue h, _ => isTrue (Or.inl h)
    | isFalse _, isTrue h => isTrue (Or.inr h)
    | isFalse h1, isFalse h2 => isFalse (fun h => h.elim h1 h2)

/-- The arrays of a table end in their sentinels. -/
def table_terminated (t : net_mat_table) : Prop :=
  (∃ m ∈ t.«matches», m.«instance» = 0) ∧ 0 ∈ t.actions

instance (t : net_mat_table) : Decidable (table_terminated t) := by
  unfold table_terminated
  infer_instance

/-- The encoding of a table array whose first slot is not `NULL`: the `NET_MAT_TABLES`
nest of its table records. -/
def tables_bytes (ts : List (Option net_mat_table)) : List Nat :=
  nest_bytes NET_MAT_TABLES ((table_entries ts).flatMap table_record_bytes)

/-- What the encoding of a table keeps of a match: the structural members of the field
reference. -/
def match_view (m : net_mat_field_ref) : Int × Int × Int × Int × Int :=
  (m.«instance», m.header, m.field, m.mask_type, m.type)

/-- The structural members of a match hold C `int` values. -/
def match_valid (m : net_mat_field_ref) : Prop :=
  int_ok m.«instance» ∧ int_ok m.header ∧ int_ok m.field ∧ int_ok m.mask_type ∧ int_ok m.type

instance (m : net_mat_field_ref) : Decidable (match_valid m) := by
  unfold match_valid
  infer_instance

/-- What the encoding of a table keeps of the table: the name string, uid, source,
apply_action and size, the structural members of its matches and its action uids. -/
def table_view (t : net_mat_table) :
    List Nat × Nat × Nat × Nat × Nat × List (Int × Int × Int × Int × Int) × List Nat :=
  (cstr t.name, t.uid, t.source, t.apply_action, t.size,
    (match_entries t.«matches»).map match_view, table_action_ids t.actions)

/-- A valid table: the name is terminated within `IFNAMSIZ`, the scalar members hold
`__u32` values, both arrays end in their sentinels and their elements are valid. -/
def table_valid (t : net_mat_table) : Prop :=
  name_ok t.name ∧ u32_ok t.uid ∧ u32_ok t.source ∧ u32_ok t.apply_action ∧ u32_ok t.size ∧
  table_terminated t ∧ (∀ m ∈ match_entries t.«matches», match_valid m) ∧
  ∀ a ∈ table_action_ids t.actions, u32_ok a

instance (t : net_mat_table) : Decidable (table_valid t) := by
  unfold table_valid
  infer_instance

/-- A valid table array: it ends in a table with `uid == 0`, and the tables before it
are valid. -/
def tables_valid (ts : List (Option net_mat_table)) : Prop :=
  tables_terminated ts ∧ ∀ t ∈ table_entries ts, table_valid t

instance (ts : List (Option net_mat_table)) : Decidable (tables_valid ts) := by
  unfold tables_valid
  infer_instance

/-! ## Default catalogs (`if_match_hdrs.h`, `if_match_acts.h`) -/

/-- The bytes of a string literal. -/
def ascii (s : String) : List Nat := s.toList.map Char.toNat

/-! The enumeration `net_mat_linux_header_ids`. -/

def HEADER_ETHERNET : Nat := 1
def HEADER_VLAN : Nat := 2
def HEADER_VXLAN : Nat := 3
def HEADER_IPV4 : Nat := 4
def HEADER_TCP : Nat := 5
def HEADER_UDP : Nat := 6

/-! The enumeration `net_mat_linux_header_ethernet_ids`. -/

def HEADER_ETHERNET_SRC_MAC : Nat := 1
def HEADER_ETHERNET_DST_MAC : Nat := 2
def HEADER_ETHERNET_ETHERTYPE : Nat := 3

/-! The enumeration `net_mat_linux_header_vlan_ids`. -/

def HEADER_VLAN_PCP : Nat := 1
def HEADER_VLAN_CFI : Nat := 2
def HEADER_VLAN_VID : Nat := 3
def HEADER_VLAN_ETHERTYPE : Nat := 4

/-! The enumeration `net_mat_linux_header_vxlan_ids`. -/

def HEADER_VXLAN_FLAGS : Nat := 1
def HEADER_VXLAN_RESERVED1 : Nat := 2
def HEADER_VXLAN_VNI : Nat := 3
def HEADER_VXLAN_RESERVED2 : Nat := 4

/-! The enumeration `net_mat_linux_header_ipv4_ids`. -/

def HEADER_IPV4_VERSION : Nat := 1
def HEADER_IPV4_IHL : Nat := 2
def HEADER_IPV4_TOS : Nat := 3
def HEADER_IPV4_LENGTH : Nat := 4
def HEADER_IPV4_IDENTIFICATION : Nat := 5
def HEADER_IPV4_FLAGS : Nat := 6
def HEADER_IPV4_FRAGMENT_OFFSET : Nat := 7
def HEADER_IPV4_TTL : Nat := 8
def HEADER_IPV4_PROTOCOL : Nat := 9
def HEADER_IPV4_CSUM : Nat := 10
def HEADER_IPV4_SRC_IP : Nat := 11
def HEADER_IPV4_DST_IP : Nat := 12
def HEADER_IPV4_OPTIONS : Nat := 13

/-! The enumeration `net_mat_linux_header_tcp_ids`. -/

def HEADER_TCP_SRC_PORT : Nat := 1
def HEADER_TCP_DST_PORT : Nat := 2
def HEADER_TCP_SEQ : Nat := 3
def HEADER_TCP_ACK : Nat := 4
def HEADER_TCP_OFFSET : Nat := 5
def HEADER_TCP_RESERVED : Nat := 6
def HEADER_TCP_FLAGS : Nat := 7
def HEADER_TCP_WINDOW : Nat := 8
def HEADER_TCP_CSUM : Nat := 9
def HEADER_TCP_URGENT : Nat := 10

/-! The enumeration `net_mat_linux_header_udp_ids`. -/

def HEADER_UDP_SRC_PORT : Nat := 1
def HEADER_UDP_DST_PORT : Nat := 2
def HEADER_UDP_LENGTH : Nat := 3
def HEADER_UDP_CSUM : Nat := 4

/-! The enumeration `net_mat_header_instance`. -/

def HEADER_INSTANCE_ETHERNET : Nat := 1
def HEADER_INSTANCE_VLAN_OUTER : Nat := 2
def HEADER_INSTANCE_VLAN_INNER : Nat := 3
def HEADER_INSTANCE_IPV4 : Nat := 4
def HEADER_INSTANCE_TCP : Nat := 5
def HEADER_INSTANCE_UDP : Nat := 6
def HEADER_INSTANCE_VXLAN : Nat := 7
def HEADER_INSTANCE_ETHERNET_INNER : Nat := 8
def HEADER_INSTANCE_VLAN_OUTER_INNER : Nat := 9
def HEADER_INSTANCE_VLAN_INNER_INNER : Nat := 10
def HEADER_INSTANCE_IPV4_INNER : Nat := 11
def HEADER_INSTANCE_TCP_INNER : Nat := 12
def HEADER_INSTANCE_UDP_INNER : Nat := 13

def VXLAN_UDP_PORT : Nat := 1234
def VXLAN_GPE_UDP_PORT : Nat := 4790

def net_mat_ethernet_fields : List net_mat_field := [
  { name := ascii "src_mac", uid := HEADER_ETHERNET_SRC_MAC, bitwidth := 48 },
  { name := ascii "dst_mac", uid := HEADER_ETHERNET_DST_MAC, bitwidth := 48 },
  { name := ascii "ethertype", uid := HEADER_ETHERNET_ETHERTYPE, bitwidth := 16 }]

def net_mat_vlan_fields : List net_mat_field := [
  { name := ascii "pcp", uid := HEADER_VLAN_PCP, bitwidth := 3 },
  { name := ascii "cfi", uid := HEADER_VLAN_CFI, bitwidth := 1 },
  { name := ascii "vid", uid := HEADER_VLAN_VID, bitwidth := 12 },
  { name := ascii "ethertype", uid := HEADER_VLAN_ETHERTYPE, bitwidth := 16 }]

def net_mat_vxlan_fields : List net_mat_field := [
  { name := ascii "flags", uid := HEADER_VXLAN_FLAGS, bitwidth := 8 },
  { name := ascii "reserved1", uid := HEADER_VXLAN_RESERVED1, bitwidth := 24 },
  { name := ascii "vni", uid := HEADER_VXLAN_VNI, bitwidth := 24 },
  { name := ascii "reserved2", uid := HEADER_VXLAN_RESERVED2, bitwidth := 8 }]

def net_mat_ipv4_fields : List net_mat_field := [
  { name := ascii "version", uid := HEADER_IPV4_VERSION, bitwidth := 4 },
  { name := ascii "ihl", uid := HEADER_IPV4_IHL, bitwidth := 4 },
  { name := ascii "tos", uid := HEADER_IPV4_TOS, bitwidth := 8 },
  { name := ascii "length", uid := HEADER_IPV4_LENGTH, bitwidth := 8 },
  { name := ascii "ident", uid := HEADER_IPV4_IDENTIFICATION, bitwidth := 8 },
  { name := ascii "flags", uid := HEADER_IPV4_FLAGS, bitwidth := 3 },
  { name := ascii "frag_off", uid := HEADER_IPV4_FRAGMENT_OFFSET, bitwidth := 13 },
  { name := ascii "ttl", uid := HEADER_IPV4_TTL, bitwidth := 1 },
  { name := ascii "protocol", uid := HEADER_IPV4_PROTOCOL, bitwidth := 8 },
  { name := ascii "csum", uid := HEADER_IPV4_CSUM, bitwidth := 8 },
  { name := ascii "src_ip", uid := HEADER_IPV4_SRC_IP, bitwidth := 32 },
  { name := ascii "dst_ip", uid := HEADER_IPV4_DST_IP, bitwidth := 32 },
  { name := ascii "options", uid := HEADER_IPV4_OPTIONS, bitwidth := 0 }]

def net_mat_tcp_fields : List net_mat_field := [
  { name := ascii "src_port", uid := HEADER_TCP_SRC_PORT, bitwidth := 16 },
  { name := ascii "dst_port", uid := HEADER_TCP_DST_PORT, bitwidth := 16 },
  { name := ascii "seq", uid := HEADER_TCP_SEQ, bitwidth := 32 },
  { name := ascii "ack", uid := HEADER_TCP_ACK, bitwidth := 32 },
  { name := ascii "offset", uid := HEADER_TCP_OFFSET, bitwidth := 4 },
  { name := ascii "reserved", uid := HEADER_TCP_RESERVED, bitwidth := 3 },
  { name := ascii "flags", uid := HEADER_TCP_FLAGS, bitwidth := 9 },
  { name := ascii "window", uid := HEADER_TCP_WINDOW, bitwidth := 8 },
  { name := ascii "csum", uid := HEADER_TCP_CSUM, bitwidth := 16 },
  { name := ascii "urgent", uid := HEADER_TCP_URGENT, bitwidth := 16 }]

def net_mat_udp_fields : List net_mat_field := [
  { name := ascii "src_port", uid := HEADER_UDP_SRC_PORT, bitwidth := 16 },
  { name := ascii "dst_port", uid := HEADER_UDP_DST_PORT, bitwidth := 16 },
  { name := ascii "length", uid := HEADER_UDP_LENGTH, bitwidth := 16 },
  { name := ascii "csum", uid := HEADER_UDP_CSUM, bitwidth := 16 }]

def net_mat_ethernet : net_mat_header :=
  { name := ascii "ether", uid := HEADER_ETHERNET, field_sz := net_mat_ethernet_fields.length,
    fields := net_mat_ethernet_fields }

def net_mat_vlan : net_mat_header :=
  { name := ascii "vlan", uid := HEADER_VLAN, field_sz := net_mat_vlan_fields.length,
    fields := net_mat_vlan_fields }

def net_mat_vxlan : net_mat_header :=
  { name := ascii "vxlan", uid := HEADER_VXLAN, field_sz := net_mat_vxlan_fields.length,
    fields := net_mat_vxlan_fields }

def net_mat_ipv4 : net_mat_header :=
  { name := ascii "ipv4", uid := HEADER_IPV4, field_sz := net_mat_ipv4_fields.length,
    fields := net_mat_ipv4_fields }

def net_mat_tcp : net_mat_header :=
  { name := ascii "tcp", uid := HEADER_TCP, field_sz := net_mat_tcp_fields.length,
    fields := net_mat_tcp_fields }

def net_mat_udp : net_mat_header :=
  { name := ascii "udp", uid := HEADER_UDP, field_sz := net_mat_udp_fields.length,
    fields := net_mat_udp_fields }

def net_mat_linux_header_list : List net_mat_header :=
  [net_mat_ethernet, net_mat_vlan, net_mat_ipv4, net_mat_tcp, net_mat_udp, net_mat_vxlan]

def net_mat_parse_ethernet : List net_mat_jump_table := [
  { node := HEADER_INSTANCE_IPV4,
    field :=
      { «instance» := 0, header := HEADER_ETHERNET, field := HEADER_ETHERNET_ETHERTYPE,
        mask_type := 0, type := NET_MAT_FIELD_REF_ATTR_TYPE_U16, value := 2048, mask := 65535 } },
  { node := HEADER_INSTANCE_VLAN_OUTER,
    field :=
      { «instance» := 0, header := HEADER_ETHERNET, field := HEADER_ETHERNET_ETHERTYPE,
        mask_type := 0, type := NET_MAT_FIELD_REF_ATTR_TYPE_U16, value := 33024, mask := 65535 } },
  { node := 0,
    field :=
      { «instance» := 0, header := 0, field := 0,
        mask_type := 0, type := 0, value := 0, mask := 0 } }]

def net_mat_parse_vlan : List net_mat_jump_table := [
  { node := HEADER_INSTANCE_IPV4,
    field :=
      { «instance» := 0, header := HEADER_ETHERNET, field := HEADER_ETHERNET_ETHERTYPE,
        mask_type := 0, type := NET_MAT_FIELD_REF_ATTR_TYPE_U16, value := 2048, mask := 65535 } },
  { node := 0,
    field :=
      { «instance» := 0, header := 0, field := 0,
        mask_type := 0, type := 0, value := 0, mask := 0 } }]

def net_mat_terminal_headers : List net_mat_jump_table := [
  { node := u32_of_int NET_MAT_JUMP_TABLE_DONE,
    field :=
      { «instance» := 0, header := 0, field := 0,
        mask_type := 0, type := 0, value := 0, mask := 0 } },
  { node := 0,
    field :=
      { «instance» := 0, header := 0, field := 0,
        mask_type := 0, type := 0, value := 0, mask := 0 } }]

def net_mat_parse_ipv4 : List net_mat_jump_table := [
  { node := HEADER_INSTANCE_TCP,
    field :=
      { «instance» := 0, header := HEADER_IPV4, field := HEADER_IPV4_PROTOCOL,
        mask_type := 0, type := NET_MAT_FIELD_REF_ATTR_TYPE_U16, value := 6, mask := 65535 } },
  { node := HEADER_INSTANCE_UDP,
    field :=
      { «instance» := 0, header := HEADER_IPV4, field := HEADER_IPV4_PROTOCOL,
        mask_type := 0, type := NET_MAT_FIELD_REF_ATTR_TYPE_U16, value := 17, mask := 65535 } },
  { node := 0,
    field :=
      { «instance» := 0, header := 0, field := 0,
        mask_type := 0, type := 0, value := 0, mask := 0 } }]

def net_mat_parse_udp : List net_mat_jump_table := [
  { node := HEADER_INSTANCE_VXLAN,
    field :=
      { «instance» := 0, header := HEADER_UDP, field := HEADER_UDP_SRC_PORT,
        mask_type := 0, type := NET_MAT_FIELD_REF_ATTR_TYPE_U16, value := VXLAN_UDP_PORT, mask := 65535 } },
  { node := 0,
    field :=
      { «instance» := 0, header := 0, field := 0,
        mask_type := 0, type := 0, value := 0, mask := 0 } }]

def net_mat_parse_vxlan : List net_mat_jump_table := [
  { node := HEADER_INSTANCE_ETHERNET_INNER,
    field :=
      { «instance» := 0, header := 0, field := 0,
        mask_type := 0, type := 0, value := 0, mask := 0 } },
  { node := 0,
    field :=
      { «instance» := 0, header := 0, field := 0,
        mask_type := 0, type := 0, value := 0, mask := 0 } }]

def net_mat_parse_ethernet_inner : List net_mat_jump_table := [
  { node := HEADER_INSTANCE_IPV4_INNER,
    field :=
      { «instance» := 0, header := HEADER_ETHERNET, field := HEADER_ETHERNET_ETHERTYPE,
        mask_type := 0, type := NET_MAT_FIELD_REF_ATTR_TYPE_U16, value := 2048, mask := 65535 } },
  { node := HEADER_INSTANCE_VLAN_OUTER_INNER,
    field :=
      { «instance» := 0, header := HEADER_ETHERNET, field := HEADER_ETHERNET_ETHERTYPE,
        mask_type := 0, type := NET_MAT_FIELD_REF_ATTR_TYPE_U16, value := 33024, mask := 65535 } },
  { node := 0,
    field :=
      { «instance» := 0, header := 0, field := 0,
        mask_type := 0, type := 0, value := 0, mask := 0 } }]

def net_mat_parse_vlan_inner : List net_mat_jump_table := [
  { node := HEADER_INSTANCE_IPV4_INNER,
    field :=
      { «instance» := 0, header := HEADER_ETHERNET, field := HEADER_ETHERNET_ETHERTYPE,
        mask_type := 0, type := NET_MAT_FIELD_REF_ATTR_TYPE_U16, value := 2048, mask := 65535 } },
  { node := 0,
    field :=
      { «instance» := 0, header := 0, field := 0,
        mask_type := 0, type := 0, value := 0, mask := 0 } }]

def net_mat_parse_ipv4_inner : List net_mat_jump_table := [
  { node := HEADER_INSTANCE_TCP_INNER,
    field :=
      { «instance» := 0, header := HEADER_IPV4, field := HEADER_IPV4_PROTOCOL,
        mask_type := 0, type := NET_MAT_FIELD_REF_ATTR_TYPE_U16, value := 6, mask := 65535 } },
  { node := HEADER_INSTANCE_UDP_INNER,
    field :=
      { «instance» := 0, header := HEADER_IPV4, field := HEADER_IPV4_PROTOCOL,
        mask_type := 0, type := NET_MAT_FIELD_REF_ATTR_TYPE_U16, value := 17, mask := 65535 } },
  { node := 0,
    field :=
      { «instance» := 0, header := 0, field := 0,
        mask_type := 0, type := 0, value := 0, mask := 0 } }]

def net_mat_ethernet_headers : List Nat := [HEADER_ETHERNET, 0]

def net_mat_vlan_headers : List Nat := [HEADER_VLAN, 0]

def net_mat_tcp_headers : List Nat := [HEADER_TCP, 0]

def net_mat_ipv4_headers : List Nat := [HEADER_IPV4, 0]

def net_mat_udp_headers : List Nat := [HEADER_UDP, 0]

def net_mat_vxlan_headers : List Nat := [HEADER_VXLAN, 0]

def net_mat_node_ethernet : net_mat_header_node :=
  { name := ascii "ethernet", uid := HEADER_INSTANCE_ETHERNET, hdrs := net_mat_ethernet_headers,
    jump := net_mat_parse_ethernet }

def net_mat_node_vlan : net_mat_header_node :=
  { name := ascii "vlan", uid := HEADER_INSTANCE_VLAN_OUTER, hdrs := net_mat_vlan_headers,
    jump := net_mat_parse_vlan }

def net_mat_node_tcp : net_mat_header_node :=
  { name := ascii "tcp", uid := HEADER_INSTANCE_TCP, hdrs := net_mat_tcp_headers,
    jump := net_mat_terminal_headers }

def net_mat_node_ipv4 : net_mat_header_node :=
  { name := ascii "ipv4", uid := HEADER_INSTANCE_IPV4, hdrs := net_mat_ipv4_headers,
    jump := net_mat_parse_ipv4 }

def net_mat_node_udp : net_mat_header_node :=
  { name := ascii "udp", uid := HEADER_INSTANCE_UDP, hdrs := net_mat_udp_headers,
    jump := net_mat_parse_udp }

def net_mat_node_vxlan : net_mat_header_node :=
  { name := ascii "vxlan", uid := HEADER_INSTANCE_VXLAN, hdrs := net_mat_vxlan_headers,
    jump := net_mat_parse_vxlan }

def net_mat_node_ethernet_inner : net_mat_header_node :=
  { name := ascii "inner_ethernet", uid := HEADER_INSTANCE_ETHERNET_INNER, hdrs := net_mat_ethernet_headers,
    jump := net_mat_parse_ethernet_inner }

def net_mat_node_vlan_inner : net_mat_header_node :=
  { name := ascii "inner_vlan", uid := HEADER_INSTANCE_VLAN_OUTER_INNER, hdrs := net_mat_vlan_headers,
    jump := net_mat_parse_vlan_inner }

def net_mat_node_tcp_inner : net_mat_header_node :=
  { name := ascii "inner_tcp", uid := HEADER_INSTANCE_TCP_INNER, hdrs := net_mat_tcp_headers,
    jump := net_mat_terminal_headers }

def net_mat_node_udp_inner : net_mat_header_node :=
  { name := ascii "inner_udp", uid := HEADER_INSTANCE_UDP_INNER, hdrs := net_mat_udp_headers,
    jump := net_mat_terminal_headers }

def net_mat_node_ipv4_inner : net_mat_header_node :=
  { name := ascii "inner_ipv4", uid := HEADER_INSTANCE_IPV4_INNER, hdrs := net_mat_ipv4_headers,
    jump := net_mat_parse_ipv4_inner }

def net_mat_linux_header_graph : List net_mat_header_node :=
  [net_mat_node_ethernet,
   net_mat_node_vlan,
   net_mat_node_ipv4,
   net_mat_node_udp,
   net_mat_node_tcp,
   net_mat_node_vxlan,
   net_mat_node_ethernet_inner,
   net_mat_node_vlan_inner,
   net_mat_node_ipv4_inner,
   net_mat_node_udp_inner,
   net_mat_node_tcp_inner]

/-! The enumeration `net_mat_linux_action_ids`. -/

def ACTION_SET_EGRESS_PORT : Nat := 1
def ACTION_DROP_PACKET : Nat := 2
def ACTION_PERMIT : Nat := 3
def ACTION_COUNT : Nat := 4

def set_egress_port_args : List net_mat_action_arg := [
  { name := ascii "egress_port", type := NET_MAT_ACTION_ARG_TYPE_U32, value := 0 },
  { name := ascii "", type := NET_MAT_ACTION_ARG_TYPE_UNSPEC, value := 0 }]

def set_egress_port : net_mat_action :=
  { name := ascii "set_egress_port", uid := ACTION_SET_EGRESS_PORT,
    args := some set_egress_port_args }

def drop_packet : net_mat_action :=
  { name := ascii "drop", uid := ACTION_DROP_PACKET, args := none }

def permit : net_mat_action :=
  { name := ascii "permit", uid := ACTION_PERMIT, args := none }

def count : net_mat_action :=
  { name := ascii "count", uid := ACTION_COUNT, args := none }

def net_mat_linux_action_list : List net_mat_action :=
  [set_egress_port, drop_packet, permit, count]

/-! ## Jump-table evaluation -/

/-- Modelled from the spec: the test a downstream parser applies to one jump entry (the
repository describes the graph and has no evaluator).  An entry matches when the value
of the field it names and the value of the entry agree under the mask of the entry;
`pkt header field` is the value of that field in the packet. -/
def jump_entry_matches (pkt : Int → Int → Nat) (j : net_mat_jump_table) : Bool :=
  (pkt j.field.header j.field.field) &&& j.field.mask == j.field.value &&& j.field.mask

/-- Modelled from the spec: first-match-wins evaluation of a jump table by a downstream
parser (the repository has no evaluator).  The entries before the terminating entry
(`node == 0`) are tried in list order; the first one that matches selects the next node;
`none` means that no entry matched. -/
def select_next_node (pkt : Int → Int → Nat) : List net_mat_jump_table → Option Nat
  | [] => none
  | j :: rest =>
    if j.node = 0 then none
    else if jump_entry_matches pkt j then some j.node
    else select_next_node pkt rest

/-! ## Generic netlink messages and devices (kernel interfaces) -/

def NLMSG_HDRLEN : Nat := 16
def GENL_HDRLEN : Nat := 4
def NET_MAT_GENL_VERSION : Nat := 1

def NET_MAT_TABLE_CMD_GET_TABLES : Nat := 0
def NET_MAT_TABLE_CMD_GET_HEADERS : Nat := 1
def NET_MAT_TABLE_CMD_GET_ACTIONS : Nat := 2
def NET_MAT_TABLE_CMD_GET_HEADER_GRAPH : Nat := 3
def NET_MAT_TABLE_CMD_GET_TABLE_GRAPH : Nat := 4
def NET_MAT_TABLE_CMD_CREATE_TABLE : Nat := 5
def NET_MAT_TABLE_CMD_DESTROY_TABLE : Nat := 6

/-- The operations of `dev->netdev_ops` that the handlers use.  An operation that the
driver does not provide is `none`; a provided operation is given by the catalog it
returns, where `none` is a `NULL` return value. -/
structure net_device_ops where
  ndo_mat_get_headers : Option (Option (List net_mat_header))
  ndo_mat_get_hdr_graph : Option (Option (List net_mat_header_node))
  ndo_mat_get_tables : Option (Option (List (Option net_mat_table)))
deriving DecidableEq, Repr

/-- The members of `struct net_device` that the handlers use. -/
structure net_device where
  ifindex : Int
  netdev_ops : net_device_ops
deriving DecidableEq, Repr

/-- The members of `struct genl_info` that the handlers use: the payloads of the two
identifier attributes (`none` for an absent attribute), the sender, and the devices of
the network namespace of the request. -/
structure genl_info where
  attr_identifier_type : Option Nat
  attr_identifier : Option Nat
  snd_portid : Nat
  snd_seq : Nat
  net : List net_device
deriving DecidableEq, Repr

/-- What the handlers need from the kernel around them: the room of the buffer that
`nlmsg_new (NLMSG_DEFAULT_SIZE, GFP_KERNEL)` returns (`none` when the allocation
fails), the id the generic netlink family got at registration, and the value
`genlmsg_reply` returns for a message. -/
structure kernel_env where
  nlmsg_new : Option Nat
  family_id : Nat
  genlmsg_reply : sk_buff → Int

/-- What a handler did to its environment: the number of `dev_put` calls, of buffers
allocated by `nlmsg_new` and freed by `nlmsg_free`, and the messages handed to
`genlmsg_reply`. -/
structure handler_effects where
  dev_put : Nat
  nlmsg_new : Nat
  nlmsg_free : Nat
  replies : List sk_buff
deriving DecidableEq, Repr

def no_effects : handler_effects := ⟨0, 0, 0, []⟩

/-- Conversion of a `u32` to the C type `int`. -/
def int_of_u32 (v : Nat) : Int :=
  if v % 4294967296 < 2147483648 then (v % 4294967296 : Nat) else (v % 4294967296 : Nat) - 4294967296

/-- The kernel function `dev_get_by_index`: the device of the namespace with this
interface index, with a reference taken. -/
def dev_get_by_index (net : List net_device) (ifindex : Int) : Option net_device :=
  net.find? (fun d => decide (d.ifindex = ifindex))

/-- The kernel function `genlmsg_put`: appends the netlink message header (length, type,
flags, sequence number, port id) and the generic netlink header (command, version,
reserved), or fails when they do not fit.  The result is the offset of the message
header. -/
def genlmsg_put (skb : sk_buff) (portid seq family_id flags cmd : Nat) : Option Nat × sk_buff :=
  if skb_tailroom skb < NLMSG_HDRLEN + GENL_HDRLEN then (none, skb)
  else (some skb.data.length,
    { skb with data := skb.data ++
        (le_bytes 4 (NLMSG_HDRLEN + GENL_HDRLEN) ++ le_bytes 2 family_id ++ le_bytes 2 flags ++
         le_bytes 4 seq ++ le_bytes 4 portid ++
         (le_bytes 1 cmd ++ le_bytes 1 NET_MAT_GENL_VERSION ++ le_bytes 2 0)) })

/-- Overwrite the 32-bit word at offset `ofs`. -/
def put32 (d : List Nat) (ofs : Nat) (v : Nat) : List Nat :=
  (((d.set ofs (v % 256)).set (ofs + 1) (v / 256 % 256)).set (ofs + 2)
    (v / 65536 % 256)).set (ofs + 3) (v / 16777216 % 256)

/-- The kernel function `genlmsg_end`: stores the length of the message in its netlink
message header. -/
def genlmsg_end (skb : sk_buff) (hdr : Nat) : sk_buff :=
  { skb with data := put32 skb.data hdr (skb.data.length - hdr) }

/-- The function `net_mat_get_dev`. -/
def net_mat_get_dev (info : genl_info) : Option net_device :=
  match info.attr_identifier_type, info.attr_identifier with
  | some type, some id =>
    if int_of_u32 type = NET_MAT_IDENTIFIER_IFINDEX then
      dev_get_by_index info.net (int_of_u32 id)
    else none
  | _, _ => none

/-- The common body of `net_mat_build_headers_msg`, `net_mat_build_actions_msg`,
`net_mat_build_header_graph_msg` and `net_mat_build_tables_msg`, which differ in the
encoder `put` of the message body only.  The result is the message or the error of
`ERR_PTR`. -/
def net_mat_build_msg (env : kernel_env) (put : sk_buff → Option (Int × sk_buff))
    (dev : net_device) (portid seq cmd : Nat) (eff : handler_effects) :
    Option (Except Int sk_buff × handler_effects) :=
  match env.nlmsg_new with
  | none => some (.error (-ENOBUFS), eff)
  | some room =>
    let eff1 := { eff with nlmsg_new := eff.nlmsg_new + 1 }
    let free := { eff1 with nlmsg_free := eff1.nlmsg_free + 1 }
    match genlmsg_put ⟨[], room⟩ portid seq env.family_id 0 cmd with
    | (none, _) => some (.error (-ENOBUFS), free)
    | (some hdr, skb) =>
      let r :=
        or_put (nla_put_u32 skb NET_MAT_IDENTIFIER_TYPE NET_MAT_IDENTIFIER_IFINDEX) fun s =>
        nla_put_u32 s NET_MAT_IDENTIFIER (u32_of_int dev.ifindex)
      if r.1 ≠ 0 then some (.error (-ENOBUFS), free)
      else
        match put r.2 with
        | none => none
        | some (err, skb2) =>
          if err < 0 then some (.error err, free)
          else some (.ok (genlmsg_end skb2 hdr), eff1)

/-- The function `net_mat_build_headers_msg`. -/
def net_mat_build_headers_msg (env : kernel_env) (h : List net_mat_header) (dev : net_device)
    (portid seq cmd : Nat) (eff : handler_effects) :
    Option (Except Int sk_buff × handler_effects) :=
  net_mat_build_msg env (fun skb => net_mat_put_headers skb h) dev portid seq cmd eff

/-- The function `net_mat_build_actions_msg`. -/
def net_mat_build_actions_msg (env : kernel_env) (a : List net_mat_action) (dev : net_device)
    (portid seq cmd : Nat) (eff : handler_effects) :
    Option (Except Int sk_buff × handler_effects) :=
  net_mat_build_msg env (fun skb => net_mat_put_actions skb a) dev portid seq cmd eff

/-- The function `net_mat_build_header_graph_msg`. -/
def net_mat_build_header_graph_msg (env : kernel_env) (g : List net_mat_header_node)
    (dev : net_device) (portid seq cmd : Nat) (eff : handler_effects) :
    Option (Except Int sk_buff × handler_effects) :=
  net_mat_build_msg env (fun skb => net_mat_put_header_graph skb g) dev portid seq cmd eff

/-- The function `net_mat_build_tables_msg`. -/
def net_mat_build_tables_msg (env : kernel_env) (t : List (Option net_mat_table))
    (dev : net_device) (portid seq cmd : Nat) (eff : handler_effects) :
    Option (Except Int sk_buff × handler_effects) :=
  net_mat_build_msg env (fun skb => net_mat_put_tables skb t) dev portid seq cmd eff

/-- The common tail of the four handlers: `dev_put`, then the error of the message
builder or the value of `genlmsg_reply`. -/
def net_mat_reply (env : kernel_env)
    (built : Option (Except Int sk_buff × handler_effects)) : Option (Int × handler_effects) :=
  match built with
  | none => none
  | some (msg, eff) =>
    let eff1 := { eff with dev_put := eff.dev_put + 1 }
    match msg with
    | .error err => some (err, eff1)
    | .ok skb => some (env.genlmsg_reply skb, { eff1 with replies := eff1.replies ++ [skb] })

/-- The function `net_mat_table_cmd_get_headers`. -/
def net_mat_table_cmd_get_headers (env : kernel_env) (info : genl_info) :
    Option (Int × handler_effects) :=
  match net_mat_get_dev info with
  | none => some (-EINVAL, no_effects)
  | some dev =>
    let h :=
      match dev.netdev_ops.ndo_mat_get_headers with
      | some op => op
      | none => some net_mat_linux_header_list
    match h with
    | none => some (-EBUSY, { no_effects with dev_put := 1 })
    | some h =>
      net_mat_reply env (net_mat_build_headers_msg env h dev info.snd_portid info.snd_seq
        NET_MAT_TABLE_CMD_GET_HEADERS no_effects)

/-- The function `net_mat_table_cmd_get_actions`. -/
def net_mat_table_cmd_get_actions (env : kernel_env) (info : genl_info) :
    Option (Int × handler_effects) :=
  match net_mat_get_dev info with
  | none => some (-EINVAL, no_effects)
  | some dev =>
    net_mat_reply env (net_mat_build_actions_msg env net_mat_linux_action_list dev
      info.snd_portid info.snd_seq NET_MAT_TABLE_CMD_GET_ACTIONS no_effects)

/-- The function `net_mat_table_cmd_get_header_graph`.  With a `NULL` graph it returns
`-EBUSY` right away. -/
def net_mat_table_cmd_get_header_graph (env : kernel_env) (info : genl_info) :
    Option (Int × handler_effects) :=
  match net_mat_get_dev info with
  | none => some (-EINVAL, no_effects)
  | some dev =>
    let h :=
      match dev.netdev_ops.ndo_mat_get_hdr_graph with
      | some op => op
      | none => some net_mat_linux_header_graph
    match h with
    | none => some (-EBUSY, no_effects)
    | some h =>
      net_mat_reply env (net_mat_build_header_graph_msg env h dev info.snd_portid info.snd_seq
        NET_MAT_TABLE_CMD_GET_HEADER_GRAPH no_effects)

/-- The function `net_mat_table_cmd_get_tables`. -/
def net_mat_table_cmd_get_tables (env : kernel_env) (info : genl_info) :
    Option (Int × handler_effects) :=
  match net_mat_get_dev info with
  | none => some (-EINVAL, no_effects)
  | some dev =>
    match dev.netdev_ops.ndo_mat_get_tables with
    | none => some (-EOPNOTSUPP, { no_effects with dev_put := 1 })
    | some none => some (-EBUSY, { no_effects with dev_put := 1 })
    | some (some tables) =>
      net_mat_reply env (net_mat_build_tables_msg env tables dev info.snd_portid info.snd_seq
        NET_MAT_TABLE_CMD_GET_TABLES no_effects)

/-! ## Replies -/

/-- The head of a reply: the netlink message header and the generic netlink header as
`genlmsg_put` writes them, then the two identifier attributes. -/
def reply_head (family_id portid seq cmd : Nat) (ifindex : Int) : List Nat :=
  le_bytes 4 (NLMSG_HDRLEN + GENL_HDRLEN) ++ le_bytes 2 family_id ++ le_bytes 2 0 ++
    le_bytes 4 seq ++ le_bytes 4 portid ++
    (le_bytes 1 cmd ++ le_bytes 1 NET_MAT_GENL_VERSION ++ le_bytes 2 0) ++
  (u32_attr NET_MAT_IDENTIFIER_TYPE NET_MAT_IDENTIFIER_IFINDEX ++
   u32_attr NET_MAT_IDENTIFIER (u32_of_int ifindex))

/-- The reply with head `head` and body `body` in a buffer of `room` bytes, with the
message length stored in the netlink message header. -/
def reply_msg (head body : List Nat) (room : Nat) : sk_buff :=
  genlmsg_end ⟨head ++ body, room⟩ 0

/-- The effects of a handler that took a device reference, built one message and sent
it: one `dev_put`, one allocation, no free, one reply. -/
def replied (msg : sk_buff) : handler_effects := ⟨1, 1, 0, [msg]⟩

/-- The value attribute of an action argument: present for the types u8, u16, u32 and
u64, absent for every other type. -/
def act_arg_value_bytes (a : net_mat_action_arg) : List Nat :=
  if a.type = NET_MAT_ACTION_ARG_TYPE_U8 then u8_attr NET_MAT_ACTION_ARG_VALUE a.value_u8
  else if a.type = NET_MAT_ACTION_ARG_TYPE_U16 then
    u16_attr NET_MAT_ACTION_ARG_VALUE a.value_u16
  else if a.type = NET_MAT_ACTION_ARG_TYPE_U32 then
    u32_attr NET_MAT_ACTION_ARG_VALUE a.value_u32
  else if a.type = NET_MAT_ACTION_ARG_TYPE_U64 then
    u64_attr NET_MAT_ACTION_ARG_VALUE a.value_u64
  else []

/-- One argument record: name, type and value in a `NET_MAT_ACTION_ARGS` nest. -/
def act_arg_bytes (a : net_mat_action_arg) : List Nat :=
  nest_bytes NET_MAT_ACTION_ARGS
    (string_attr NET_MAT_ACTION_ARG_NAME a.name ++ u32_attr NET_MAT_ACTION_ARG_TYPE a.type ++
      act_arg_value_bytes a)

/-- The arguments that `net_mat_put_act_args` visits: the elements before the first
element with `type == 0`. -/
def act_arg_entries (args : List net_mat_action_arg) : List net_mat_action_arg :=
  args.takeWhile (fun a => decide (a.type ≠ 0))

def act_args_bytes (args : List net_mat_action_arg) : List Nat :=
  (act_arg_entries args).flatMap act_arg_bytes

/-- The signature of an action: nothing without an argument array or when the first
argument has an empty name, the `NET_MAT_ACTION_ATTR_SIGNATURE` nest of the argument
records otherwise. -/
def signature_bytes (args : Option (List net_mat_action_arg)) : List Nat :=
  match args with
  | none => []
  | some as =>
    if count_args as = some 0 then []
    else nest_bytes NET_MAT_ACTION_ATTR_SIGNATURE (act_args_bytes as)

/-- What an action is encoded as: name, uid and signature. -/
def action_bytes (a : net_mat_action) : List Nat :=
  string_attr NET_MAT_ACTION_ATTR_NAME a.name ++ u32_attr NET_MAT_ACTION_ATTR_UID a.uid ++
    signature_bytes a.args

def action_record_bytes (a : net_mat_action) : List Nat :=
  nest_bytes NET_MAT_ACTION (action_bytes a)

/-- The encoding of an action list: the `NET_MAT_ACTIONS` nest of its action records. -/
def actions_bytes (acts : List net_mat_action) : List Nat :=
  nest_bytes NET_MAT_ACTIONS (acts.flatMap action_record_bytes)

/-- The argument array of an action, when there is one, holds an element with an empty
name, which ends the counting loop, and, unless that is the first element, an element
with `type == 0`, which ends the loop of `net_mat_put_act_args`. -/
def action_terminated (a : net_mat_action) : Prop :=
  match a.args with
  | none => True
  | some as =>
    (∃ x ∈ as, strlen x.name = 0) ∧ (count_args as ≠ some 0 → ∃ x ∈ as, x.type = 0)

instance (a : net_mat_action) : Decidable (action_terminated a) := by
  unfold action_terminated
  cases a.args <;> infer_instance




/-! ## Attribute trees -/

/-- A sequence of netlink attributes: empty, or a plain attribute (type and payload)
followed by a sequence, or a nest (type and the sequence of its children) followed by a
sequence. -/
inductive Attrs where
  | nil : Attrs
  | leaf (ty : Nat) (payload : List Nat) (rest : Attrs) : Attrs
  | nest (ty : Nat) (kids : Attrs) (rest : Attrs) : Attrs
deriving Repr

/-- The bytes of a sequence of attributes: a plain attribute is written as `nla_put`
writes it, a nest as `nla_nest_start` and `nla_nest_end` leave it. -/
def Attrs.bytes : Attrs → List Nat
  | .nil => []
  | .leaf ty p rest => nla_bytes ty p ++ rest.bytes
  | .nest ty kids rest => nest_bytes ty kids.bytes ++ rest.bytes

/-- The value of the 16-bit member `nla_len` of the attribute header that the bytes `b`
start with. -/
def nla_len (b : List Nat) : Nat := b.getD 0 0 + 256 * b.getD 1 0

/-- The sum of the 4-byte-aligned sizes of the attributes of a sequence, each size read
from the length member of the attribute. -/
def Attrs.sizes : Attrs → Nat
  | .nil => 0
  | .leaf ty p rest => NLA_ALIGN (nla_len (nla_bytes ty p)) + rest.sizes
  | .nest ty kids rest => NLA_ALIGN (nla_len (nest_bytes ty kids.bytes)) + rest.sizes

/-- A sequence of attributes is well formed: the length member of every plain attribute
is its header plus its payload; the length member of every nest is its header plus the
aligned sizes of its children, the children fill the payload of the nest, and the
children are well formed. -/
def Attrs.wf : Attrs → Prop
  | .nil => True
  | .leaf ty p rest => nla_len (nla_bytes ty p) = NLA_HDRLEN + p.length ∧ rest.wf
  | .nest ty kids rest =>
    (nla_len (nest_bytes ty kids.bytes) = NLA_HDRLEN + kids.sizes ∧
      kids.bytes.length = kids.sizes ∧ kids.wf) ∧ rest.wf

instance Attrs.wf_decidable : (t : Attrs) → Decidable t.wf
  | .nil => isTrue trivial
  | .leaf ty p rest =>
    have := Attrs.wf_decidable rest
    inferInstanceAs (Decidable (nla_len (nla_bytes ty p) = NLA_HDRLEN + p.length ∧ rest.wf))
  | .nest ty kids rest =>
    have := Attrs.wf_decidable rest
    have := Attrs.wf_decidable kids
    inferInstanceAs (Decidable ((nla_len (nest_bytes ty kids.bytes) = NLA_HDRLEN + kids.sizes ∧
      kids.bytes.length = kids.sizes ∧ kids.wf) ∧ rest.wf))

/-- The sequence `a` followed by the sequence `b`. -/
def Attrs.append : Attrs → Attrs → Attrs
  | .nil, b => b
  | .leaf ty p rest, b => .leaf ty p (rest.append b)
  | .nest ty kids rest, b => .nest ty kids (rest.append b)

/-- The sequences of the elements of a list, one after the other. -/
def Attrs.seq {α : Type} (f : α → Attrs) : List α → Attrs
  | [] => .nil
  | x :: xs => (f x).append (Attrs.seq f xs)

/-- A sequence is one nest. -/
def Attrs.one_nest : Attrs → Prop
  | .nest _ _ .nil => True
  | _ => False

/-! ## The attribute trees of the encoders -/

/-- The attributes of a field record, as `net_mat_put_fields` nests them. -/
def field_tree (f : net_mat_field) : Attrs :=
  .nest NET_MAT_FIELD
    (.leaf NET_MAT_FIELD_ATTR_NAME (cstr f.name ++ [0])
      (.leaf NET_MAT_FIELD_ATTR_UID (le_bytes 4 (u32_of_int f.uid))
        (.leaf NET_MAT_FIELD_ATTR_BITWIDTH (le_bytes 4 (u32_of_int f.bitwidth)) .nil))) .nil

/-- The attributes of a header record, as `net_mat_put_headers` nests them. -/
def header_tree (h : net_mat_header) : Attrs :=
  .nest NET_MAT_HEADER
    (.leaf NET_MAT_HEADER_ATTR_NAME (cstr h.name ++ [0])
      (.leaf NET_MAT_HEADER_ATTR_UID (le_bytes 4 (u32_of_int h.uid))
        (.nest NET_MAT_HEADER_ATTR_FIELDS (Attrs.seq field_tree (header_fields h)) .nil))) .nil

/-- The nest that `net_mat_put_headers` builds. -/
def headers_tree (hs : List net_mat_header) : Attrs :=
  .nest NET_MAT_HEADERS (Attrs.seq header_tree hs) .nil

/-- The five attributes that `net_mat_put_field_ref_top` writes, followed by `rest`. -/
def field_ref_top_tree (ref : net_mat_field_ref) (rest : Attrs) : Attrs :=
  .leaf NET_MAT_FIELD_REF_INSTANCE (le_bytes 4 (u32_of_int ref.«instance»))
    (.leaf NET_MAT_FIELD_REF_HEADER (le_bytes 4 (u32_of_int ref.header))
      (.leaf NET_MAT_FIELD_REF_FIELD (le_bytes 4 (u32_of_int ref.field))
        (.leaf NET_MAT_FIELD_REF_MASK_TYPE (le_bytes 4 (u32_of_int ref.mask_type))
          (.leaf NET_MAT_FIELD_REF_TYPE (le_bytes 4 (u32_of_int ref.type)) rest))))

/-- The value and mask attributes that `net_mat_put_field_ref_vals` writes. -/
def field_ref_vals_tree (ref : net_mat_field_ref) : Attrs :=
  if ref.type = NET_MAT_FIELD_REF_ATTR_TYPE_U8 then
    .leaf NET_MAT_FIELD_REF_VALUE (le_bytes 1 ref.value_u8)
      (.leaf NET_MAT_FIELD_REF_MASK (le_bytes 1 ref.mask_u8) .nil)
  else if ref.type = NET_MAT_FIELD_REF_ATTR_TYPE_U16 then
    .leaf NET_MAT_FIELD_REF_VALUE (le_bytes 2 ref.value_u16)
      (.leaf NET_MAT_FIELD_REF_MASK (le_bytes 2 ref.mask_u16) .nil)
  else if ref.type = NET_MAT_FIELD_REF_ATTR_TYPE_U32 then
    .leaf NET_MAT_FIELD_REF_VALUE (le_bytes 4 ref.value_u32)
      (.leaf NET_MAT_FIELD_REF_MASK (le_bytes 4 ref.mask_u32) .nil)
  else if ref.type = NET_MAT_FIELD_REF_ATTR_TYPE_U64 then
    .leaf NET_MAT_FIELD_REF_VALUE (le_bytes 8 ref.value_u64)
      (.leaf NET_MAT_FIELD_REF_MASK (le_bytes 8 ref.mask_u64) .nil)
  else .nil

/-- The attributes of a jump entry, as `net_mat_put_header_node` nests them. -/
def jump_entry_tree (j : net_mat_jump_table) : Attrs :=
  .nest NET_MAT_JUMP_ENTRY
    (.leaf NET_MAT_FIELD_REF_NEXT_NODE (le_bytes 4 j.node)
      (field_ref_top_tree j.field (field_ref_vals_tree j.field))) .nil

/-- The attributes of a header node record, as `net_mat_put_header_graph` and
`net_mat_put_header_node` nest them. -/
def node_tree (n : net_mat_header_node) : Attrs :=
  .nest NET_MAT_HEADER_GRAPH_NODE
    (.leaf NET_MAT_HEADER_NODE_NAME (cstr n.name ++ [0])
      (.leaf NET_MAT_HEADER_NODE_UID (le_bytes 4 n.uid)
        (.nest NET_MAT_HEADER_NODE_HDRS
          (Attrs.seq (fun h => .leaf NET_MAT_HEADER_NODE_HDRS_VALUE (le_bytes 4 h) .nil)
            (header_ids n.hdrs))
          (.nest NET_MAT_HEADER_NODE_JUMP (Attrs.seq jump_entry_tree (jump_entries n.jump))
            .nil)))) .nil

/-- The nest that `net_mat_put_header_graph` builds. -/
def header_graph_tree (g : List net_mat_header_node) : Attrs :=
  .nest NET_MAT_HEADER_GRAPH (Attrs.seq node_tree g) .nil

/-- The attributes of a match, as `net_mat_put_table` nests them. -/
def match_tree (m : net_mat_field_ref) : Attrs :=
  .nest NET_MAT_FIELD_REF (field_ref_top_tree m .nil) .nil

/-- The attributes of a table record, as `net_mat_put_tables` and `net_mat_put_table`
nest them. -/
def table_tree (t : net_mat_table) : Attrs :=
  .nest NET_MAT_TABLE
    (.leaf NET_MAT_TABLE_ATTR_NAME (cstr t.name ++ [0])
      (.leaf NET_MAT_TABLE_ATTR_UID (le_bytes 4 t.uid)
        (.leaf NET_MAT_TABLE_ATTR_SOURCE (le_bytes 4 t.source)
          (.leaf NET_MAT_TABLE_ATTR_APPLY (le_bytes 4 t.apply_action)
            (.leaf NET_MAT_TABLE_ATTR_SIZE (le_bytes 4 t.size)
              (.nest NET_MAT_TABLE_ATTR_MATCHES
                (Attrs.seq match_tree (match_entries t.«matches»))
                (.nest NET_MAT_TABLE_ATTR_ACTIONS
                  (Attrs.seq (fun a => .leaf NET_MAT_ACTION_ATTR_UID (le_bytes 4 a) .nil)
                    (table_action_ids t.actions)) .nil))))))) .nil

/-- The nest that `net_mat_put_tables` builds for a table array whose first slot is not
`NULL`. -/
def tables_tree (ts : List (Option net_mat_table)) : Attrs :=
  .nest NET_MAT_TABLES (Attrs.seq table_tree (table_entries ts)) .nil

/-- The value attribute of an action argument. -/
def act_arg_value_tree (a : net_mat_action_arg) : Attrs :=
  if a.type = NET_MAT_ACTION_ARG_TYPE_U8 then
    .leaf NET_MAT_ACTION_ARG_VALUE (le_bytes 1 a.value_u8) .nil
  else if a.type = NET_MAT_ACTION_ARG_TYPE_U16 then
    .leaf NET_MAT_ACTION_ARG_VALUE (le_bytes 2 a.value_u16) .nil
  else if a.type = NET_MAT_ACTION_ARG_TYPE_U32 then
    .leaf NET_MAT_ACTION_ARG_VALUE (le_bytes 4 a.value_u32) .nil
  else if a.type = NET_MAT_ACTION_ARG_TYPE_U64 then
    .leaf NET_MAT_ACTION_ARG_VALUE (le_bytes 8 a.value_u64) .nil
  else .nil

/-- The attributes of an argument record, as `net_mat_put_act_args` nests them. -/
def act_arg_tree (a : net_mat_action_arg) : Attrs :=
  .nest NET_MAT_ACTION_ARGS
    (.leaf NET_MAT_ACTION_ARG_NAME (cstr a.name ++ [0])
      (.leaf NET_MAT_ACTION_ARG_TYPE (le_bytes 4 a.type) (act_arg_value_tree a))) .nil

/-- The signature nest of an action, when `net_mat_put_action` writes one. -/
def signature_tree (args : Option (List net_mat_action_arg)) : Attrs :=
  match args with
  | none => .nil
  | some as =>
    if count_args as = some 0 then .nil
    else .nest NET_MAT_ACTION_ATTR_SIGNATURE (Attrs.seq act_arg_tree (act_arg_entries as)) .nil

/-- The attributes of an action record, as `net_mat_put_actions` and
`net_mat_put_action` nest them. -/
def action_tree (a : net_mat_action) : Attrs :=
  .nest NET_MAT_ACTION
    (.leaf NET_MAT_ACTION_ATTR_NAME (cstr a.name ++ [0])
      (.leaf NET_MAT_ACTION_ATTR_UID (le_bytes 4 a.uid) (signature_tree a.args))) .nil

/-- The nest that `net_mat_put_actions` builds. -/
def actions_tree (acts : List net_mat_action) : Attrs :=
  .nest NET_MAT_ACTIONS (Attrs.seq action_tree acts) .nil




instance (t : Attrs) : Decidable t.one_nest := by
  unfold Attrs.one_nest
  split <;> infer_instance

/-- The buffer `s` is the buffer `skb` followed by one well-formed nest, the tree `t`,
and the length member of that nest is the number of bytes appended. -/
def appends_nest (skb s : sk_buff) (t : Attrs) : Prop :=
  t.one_nest ∧ s.data = skb.data ++ t.bytes ∧ t.wf ∧
  nla_len (s.data.drop skb.data.length) = (s.data.drop skb.data.length).length

/-! ## The default header graph as a graph -/

/-- The next nodes of a node: the `node` members of its jump entries before the
terminating entry, without the done sentinel. -/
def node_targets (n : net_mat_header_node) : List Nat :=
  ((jump_entries n.jump).map (fun j => j.node)).filter
    (fun v => decide (v ≠ u32_of_int NET_MAT_JUMP_TABLE_DONE))

/-- An edge of a header graph: a node with uid `u` has a jump entry whose next node is
`v`, and `v` is not the done sentinel. -/
def graph_edge (g : List net_mat_header_node) (u v : Nat) : Prop :=
  ∃ n ∈ g, n.uid = u ∧ v ∈ node_targets n

instance (g : List net_mat_header_node) (u v : Nat) : Decidable (graph_edge g u v) := by
  unfold graph_edge
  infer_instance

/-- The next nodes of the nodes with uid `u`. -/
def graph_succs (g : List net_mat_header_node) (u : Nat) : List Nat :=
  (g.filter (fun n => decide (n.uid = u))).flatMap node_targets

/-- The uids reached from the uids `s` in at most `k` steps along the edges. -/
def graph_reach (g : List net_mat_header_node) : Nat → List Nat → List Nat
  | 0, s => s
  | k + 1, s => graph_reach g k (s ++ s.flatMap (graph_succs g))

/-- No jump entry of the graph leads to the node `n`. -/
def no_incoming (g : List net_mat_header_node) (n : net_mat_header_node) : Prop :=
  ∀ m ∈ g, n.uid ∉ node_targets m

instance (g : List net_mat_header_node) (n : net_mat_header_node) :
    Decidable (no_incoming g n) := by
  unfold no_incoming
  infer_instance

/-- The jump entry `j` of the node `n` tests a field of the node: the header of its
field reference is one of the header ids of the node, and its field is a field of that
header in the header list `hs`. -/
def jump_on_own_field (hs : List net_mat_header) (n : net_mat_header_node)
    (j : net_mat_jump_table) : Prop :=
  (∃ h ∈ header_ids n.hdrs, (h : Int) = j.field.header) ∧
  ∃ hd ∈ hs, hd.uid = j.field.header ∧ ∃ f ∈ hd.fields, f.uid = j.field.field

instance (hs : List net_mat_header) (n : net_mat_header_node) (j : net_mat_jump_table) :
    Decidable (jump_on_own_field hs n j) := by
  unfold jump_on_own_field
  infer_instance

/-- The sum of the 4-byte-aligned sizes of the attributes of a sequence: a plain
attribute counts its header and payload, rounded up; a nest its header and its
children. -/
def Attrs.total : Attrs → Nat
  | .nil => 0
  | .leaf _ p rest => NLA_ALIGN (NLA_HDRLEN + p.length) + rest.total
  | .nest _ kids rest => NLA_HDRLEN + kids.total + rest.total

/-- The field reference `m` without its value and its mask: two field references with
the same image differ in value and mask only. -/
def clear_vals (m : net_mat_field_ref) : net_mat_field_ref :=
  { m with value := 0, mask := 0 }

/-- The sentinel convention of an argument array, as the arrays of `if_match_acts.h`
follow it: the array ends in an element with an empty name and `type == 0`, and every
element before it has a name and a type. -/
def args_conventional : List net_mat_action_arg → Prop
  | [] => False
  | a :: rest =>
    (strlen a.name = 0 ∧ a.type = 0) ∨ (0 < strlen a.name ∧ a.type ≠ 0 ∧ args_conventional rest)

instance args_conventional_decidable :
    (as : List net_mat_action_arg) → Decidable (args_conventional as)
  | [] => isFalse (fun h => h)
  | a :: rest =>
    match decEq (strlen a.name) 0, decEq a.type 0, args_conventional_decidable rest with
    | isTrue hn, isTrue ht, _ => isTrue (Or.inl ⟨hn, ht⟩)
    | isTrue hn, isFalse ht, _ =>
      isFalse (fun h => h.elim (fun h1 => ht h1.2) (fun h2 => absurd hn (by omega)))
    | isFalse hn, isTrue ht, _ =>
      isFalse (fun h => h.elim (fun h1 => hn h1.1) (fun h2 => h2.2.1 ht))
    | isFalse hn, isFalse ht, isTrue hr => isTrue (Or.inr ⟨by omega, ht, hr⟩)
    | isFalse hn, isFalse _, isFalse hr =>
      isFalse (fun h => h.elim (fun h1 => hn h1.1) (fun h2 => hr h2.2.2))

/-! # Theorems -/

/-! ## Every write extends the buffer; a cancel undoes it -/

theorem Ext.refl (skb : sk_buff) : Ext skb skb := ⟨rfl, [], by simp⟩

theorem Ext.trans {a b c : sk_buff} (h1 : Ext a b) (h2 : Ext b c) : Ext a c := by
  obtain ⟨r1, t1, d1⟩ := h1
  obtain ⟨r2, t2, d2⟩ := h2
  exact ⟨r2.trans r1, t1 ++ t2, by rw [d2, d1, List.append_assoc]⟩

theorem Ext.length_le {a b : sk_buff} (h : Ext a b) : a.data.length ≤ b.data.length := by
  obtain ⟨_, t, d⟩ := h
  rw [d, List.length_append]; omega

theorem nla_put_ext (skb : sk_buff) (ty : Nat) (p : List Nat) : Ext skb (nla_put skb ty p).2 := by
  unfold nla_put
  split
  · exact Ext.refl skb
  · exact ⟨rfl, _, rfl⟩

theorem nla_nest_start_ext {skb s : sk_buff} {ty : Nat} {m : Option Nat}
    (h : nla_nest_start skb ty = (m, s)) : Ext skb s := by
  have := nla_put_ext skb ty []
  simp only [nla_nest_start] at h
  split at h <;> (cases h; exact this)

theorem nla_nest_start_mark {skb s : sk_buff} {ty m : Nat}
    (h : nla_nest_start skb ty = (some m, s)) : m = skb.data.length := by
  simp only [nla_nest_start] at h
  split at h <;> cases h
  rfl

theorem put16_append (a t : List Nat) (m v : Nat) (h : a.length ≤ m) :
    put16 (a ++ t) m v = a ++ put16 t (m - a.length) v := by
  unfold put16
  rw [List.set_append, if_neg (by omega), List.set_append, if_neg (by omega)]
  congr 2
  omega

theorem nla_nest_end_ext {skb s : sk_buff} {m : Nat} (h : Ext skb s)
    (hm : skb.data.length ≤ m) : Ext skb (nla_nest_end s m) := by
  obtain ⟨r, t, d⟩ := h
  refine ⟨r, put16 t (m - skb.data.length) ((s.data.length - m) % 65536), ?_⟩
  simp only [nla_nest_end]
  rw [d, put16_append _ _ _ _ hm]

theorem nla_nest_cancel_ext {skb s : sk_buff} {m : Option Nat} (h : Ext skb s)
    (hm : ∀ k, m = some k → skb.data.length ≤ k) : Ext skb (nla_nest_cancel s m) := by
  cases m with
  | none => exact h
  | some k =>
    obtain ⟨r, t, d⟩ := h
    refine ⟨r, t.take (k - skb.data.length), ?_⟩
    simp only [nla_nest_cancel]
    rw [d, List.take_append_eq_append_take, List.take_of_length_le (hm k rfl)]

theorem nla_nest_cancel_eq {skb s : sk_buff} (h : Ext skb s) :
    nla_nest_cancel s (some skb.data.length) = skb := by
  obtain ⟨r, t, d⟩ := h
  cases skb; cases s
  simp_all [nla_nest_cancel]

theorem or_put_ext {skb : sk_buff} {a : Int × sk_buff} {b : sk_buff → Int × sk_buff}
    (ha : Ext skb a.2) (hb : ∀ s, Ext skb s → Ext skb (b s).2) : Ext skb (or_put a b).2 := by
  unfold or_put
  split
  · exact ha
  · exact hb _ ha

theorem nla_put_u32_ext {skb0 skb : sk_buff} (h : Ext skb0 skb) (ty v : Nat) :
    Ext skb0 (nla_put_u32 skb ty v).2 := h.trans (nla_put_ext _ _ _)

theorem nla_put_string_ext {skb0 skb : sk_buff} (h : Ext skb0 skb) (ty : Nat) (v : List Nat) :
    Ext skb0 (nla_put_string skb ty v).2 := h.trans (nla_put_ext _ _ _)

theorem net_mat_put_fields_loop_ext (fs : List net_mat_field) :
    ∀ (skb : sk_buff) (count : Int) (e : Int) (s : sk_buff),
      net_mat_put_fields_loop skb count fs = some (e, s) → Ext skb s := by
  induction fs with
  | nil =>
    intro skb count e s h
    simp only [net_mat_put_fields_loop] at h
    split at h
    · cases h; exact Ext.refl _
    · cases h
  | cons f rest ih =>
    intro skb count e s h
    simp only [net_mat_put_fields_loop] at h
    split at h
    · cases h; exact Ext.refl _
    · split at h
      · rename_i skb1 hs
        cases h
        exact nla_nest_start_ext hs
      · rename_i field skb1 hs
        have e1 := nla_nest_start_ext hs
        have hm := nla_nest_start_mark hs
        have e2 : Ext skb (or_put (nla_put_string skb1 NET_MAT_FIELD_ATTR_NAME f.name) fun s =>
            or_put (nla_put_u32 s NET_MAT_FIELD_ATTR_UID (u32_of_int f.uid)) fun s =>
            nla_put_u32 s NET_MAT_FIELD_ATTR_BITWIDTH (u32_of_int f.bitwidth)).2 :=
          or_put_ext (nla_put_string_ext e1 _ _) fun s hs =>
            or_put_ext (nla_put_u32_ext hs _ _) fun s hs => nla_put_u32_ext hs _ _
        split at h
        · cases h
          exact nla_nest_cancel_ext e2 (by intro k hk; cases hk; omega)
        · exact (nla_nest_end_ext e2 (by omega)).trans (ih _ _ _ _ h)

theorem nla_put_fail {skb : sk_buff} {ty : Nat} {p : List Nat}
    (h : (nla_put skb ty p).1 ≠ 0) : (nla_put skb ty p).2 = skb := by
  unfold nla_put at *
  split
  · rfl
  · rename_i h2; simp [h2] at h

theorem nla_nest_start_none {skb s : sk_buff} {ty : Nat}
    (h : nla_nest_start skb ty = (none, s)) : s = skb := by
  simp only [nla_nest_start] at h
  split at h
  · rename_i h1
    cases h
    exact nla_put_fail h1
  · cases h

theorem nla_put_u8_ext {skb0 skb : sk_buff} (h : Ext skb0 skb) (ty v : Nat) :
    Ext skb0 (nla_put_u8 skb ty v).2 := h.trans (nla_put_ext _ _ _)

theorem nla_put_u16_ext {skb0 skb : sk_buff} (h : Ext skb0 skb) (ty v : Nat) :
    Ext skb0 (nla_put_u16 skb ty v).2 := h.trans (nla_put_ext _ _ _)

theorem nla_put_u64_ext {skb0 skb : sk_buff} (h : Ext skb0 skb) (ty v : Nat) :
    Ext skb0 (nla_put_u64 skb ty v).2 := h.trans (nla_put_ext _ _ _)

theorem net_mat_put_act_arg_value_ext {skb0 skb : sk_buff} (h : Ext skb0 skb)
    (a : net_mat_action_arg) : Ext skb0 (net_mat_put_act_arg_value skb a).2 := by
  unfold net_mat_put_act_arg_value
  split_ifs
  · exact nla_put_u8_ext h _ _
  · exact nla_put_u16_ext h _ _
  · exact nla_put_u32_ext h _ _
  · exact nla_put_u64_ext h _ _
  · exact h

theorem net_mat_put_act_args_ext (args : List net_mat_action_arg) :
    ∀ (skb : sk_buff) (e : Int) (s : sk_buff),
      net_mat_put_act_args skb args = some (e, s) → Ext skb s := by
  induction args with
  | nil => intro skb e s h; simp [net_mat_put_act_args] at h
  | cons a rest ih =>
    intro skb e s h
    simp only [net_mat_put_act_args] at h
    split at h
    · cases h; exact Ext.refl _
    · split at h
      · rename_i skb1 hs
        cases h
        exact nla_nest_start_ext hs
      · rename_i arg skb1 hs
        have e1 := nla_nest_start_ext hs
        have hm := nla_nest_start_mark hs
        have e2 := nla_put_string_ext e1 NET_MAT_ACTION_ARG_NAME a.name
        have e3 := nla_put_u32_ext e2 NET_MAT_ACTION_ARG_TYPE a.type
        have e4 := net_mat_put_act_arg_value_ext e3 a
        split at h
        · cases h
          exact nla_nest_cancel_ext e2 (by intro k hk; cases hk; omega)
        · split at h
          · cases h
            exact nla_nest_cancel_ext e3 (by intro k hk; cases hk; omega)
          · split at h
            · cases h
              exact nla_nest_cancel_ext e4 (by intro k hk; cases hk; omega)
            · exact (nla_nest_end_ext e4 (by omega)).trans (ih _ _ _ h)

theorem net_mat_put_action_ext {skb : sk_buff} {a : net_mat_action} {e : Int} {s : sk_buff}
    (h : net_mat_put_action skb a = some (e, s)) : Ext skb s := by
  have e1 := nla_put_string_ext (Ext.refl skb) NET_MAT_ACTION_ATTR_NAME a.name
  have e2 := nla_put_u32_ext e1 NET_MAT_ACTION_ATTR_UID a.uid
  simp only [net_mat_put_action] at h
  split at h
  · cases h; exact e1
  · split at h
    · cases h; exact e2
    · split at h
      · cases h; exact e2
      · split at h
        · cases h
        · split at h
          · split at h
            · rename_i skb3 hs
              cases h
              exact e2.trans (nla_nest_start_ext hs)
            · rename_i nest skb3 hs
              have e3 := e2.trans (nla_nest_start_ext hs)
              have hm := nla_nest_start_mark hs
              have l2 := e2.length_le
              split at h
              · cases h
              · rename_i err skb4 h4
                have e4 := e3.trans (net_mat_put_act_args_ext _ _ _ _ h4)
                split at h
                · cases h
                  exact nla_nest_cancel_ext e4 (by intro k hk; cases hk; omega)
                · cases h
                  exact nla_nest_end_ext e4 (by omega)
          · cases h; exact e2

theorem net_mat_put_actions_loop_rollback (skb0 : sk_buff) (acts : List net_mat_action) :
    ∀ (skb : sk_buff) (e : Int) (s : sk_buff), Ext skb0 skb →
      net_mat_put_actions_loop skb0.data.length skb acts = some (e, s) → e ≠ 0 → s = skb0 := by
  induction acts with
  | nil =>
    intro skb e s _ h he
    simp only [net_mat_put_actions_loop] at h
    cases h
    exact absurd rfl he
  | cons a rest ih =>
    intro skb e s hx h he
    simp only [net_mat_put_actions_loop] at h
    split at h
    · rename_i skb1 hs
      cases h
      exact nla_nest_cancel_eq (hx.trans (nla_nest_start_ext hs))
    · rename_i action skb1 hs
      have e1 := hx.trans (nla_nest_start_ext hs)
      have hm := nla_nest_start_mark hs
      have l1 := hx.length_le
      split at h
      · cases h
      · rename_i err skb2 h2
        have e2 := e1.trans (net_mat_put_action_ext h2)
        split at h
        · cases h
          exact nla_nest_cancel_eq e2
        · exact ih _ _ _ (nla_nest_end_ext e2 (by omega)) h he

theorem net_mat_put_actions_rollback {skb : sk_buff} {acts : List net_mat_action} {e : Int}
    {s : sk_buff} (h : net_mat_put_actions skb acts = some (e, s)) (he : e ≠ 0) : s = skb := by
  simp only [net_mat_put_actions] at h
  split at h
  · rename_i skb1 hs
    cases h
    exact nla_nest_start_none hs
  · rename_i actions skb1 hs
    have hm := nla_nest_start_mark hs
    subst hm
    exact net_mat_put_actions_loop_rollback skb acts _ _ _ (nla_nest_start_ext hs) h he

theorem errno_pair_snd (c : Prop) [Decidable c] (a b : Int) (s : sk_buff) :
    (if c then (a, s) else (b, s)).2 = s := by
  split <;> rfl

theorem net_mat_put_field_ref_top_ext {skb0 skb : sk_buff} (h : Ext skb0 skb)
    (ref : net_mat_field_ref) : Ext skb0 (net_mat_put_field_ref_top skb ref).2 := by
  have : Ext skb0 (or_put (nla_put_u32 skb NET_MAT_FIELD_REF_INSTANCE (u32_of_int ref.«instance»))
      fun s => or_put (nla_put_u32 s NET_MAT_FIELD_REF_HEADER (u32_of_int ref.header))
      fun s => or_put (nla_put_u32 s NET_MAT_FIELD_REF_FIELD (u32_of_int ref.field))
      fun s => or_put (nla_put_u32 s NET_MAT_FIELD_REF_MASK_TYPE (u32_of_int ref.mask_type))
      fun s => nla_put_u32 s NET_MAT_FIELD_REF_TYPE (u32_of_int ref.type)).2 :=
    or_put_ext (nla_put_u32_ext h _ _) fun s hs =>
      or_put_ext (nla_put_u32_ext hs _ _) fun s hs =>
      or_put_ext (nla_put_u32_ext hs _ _) fun s hs =>
      or_put_ext (nla_put_u32_ext hs _ _) fun s hs => nla_put_u32_ext hs _ _
  simp only [net_mat_put_field_ref_top]
  rw [errno_pair_snd]
  exact this

theorem net_mat_put_field_ref_vals_ext {skb0 skb : sk_buff} (h : Ext skb0 skb)
    (ref : net_mat_field_ref) : Ext skb0 (net_mat_put_field_ref_vals skb ref).2 := by
  simp only [net_mat_put_field_ref_vals]
  split
  · exact h
  · split
    · rw [errno_pair_snd]
      exact or_put_ext (nla_put_u8_ext h _ _) fun s hs => nla_put_u8_ext hs _ _
    · split
      · rw [errno_pair_snd]
        exact or_put_ext (nla_put_u16_ext h _ _) fun s hs => nla_put_u16_ext hs _ _
      · split
        · rw [errno_pair_snd]
          exact or_put_ext (nla_put_u32_ext h _ _) fun s hs => nla_put_u32_ext hs _ _
        · split
          · rw [errno_pair_snd]
            exact or_put_ext (nla_put_u64_ext h _ _) fun s hs => nla_put_u64_ext hs _ _
          · exact h

theorem nla_nest_cancel_cancel_eq {skb0 s : sk_buff} {m : Option Nat} (h : Ext skb0 s)
    (hm : ∀ k, m = some k → skb0.data.length ≤ k) :
    nla_nest_cancel (nla_nest_cancel s m) (some skb0.data.length) = skb0 :=
  nla_nest_cancel_eq (nla_nest_cancel_ext h hm)

theorem net_mat_put_headers_loop_rollback (skb0 : sk_buff) (hs : List net_mat_header) :
    ∀ (skb : sk_buff) (e : Int) (s : sk_buff), Ext skb0 skb →
      net_mat_put_headers_loop skb0.data.length skb hs = some (e, s) → e ≠ 0 → s = skb0 := by
  induction hs with
  | nil =>
    intro skb e s _ h he
    simp only [net_mat_put_headers_loop] at h
    cases h
    exact absurd rfl he
  | cons hd rest ih =>
    intro skb e s hx h he
    simp only [net_mat_put_headers_loop] at h
    have l0 := hx.length_le
    split at h
    · rename_i skb1 h1
      cases h
      exact nla_nest_cancel_eq (hx.trans (nla_nest_start_ext h1))
    · rename_i hdr skb1 h1
      have e1 := hx.trans (nla_nest_start_ext h1)
      have hm := nla_nest_start_mark h1
      have e2 : Ext skb0 (or_put (nla_put_string skb1 NET_MAT_HEADER_ATTR_NAME hd.name) fun s =>
          nla_put_u32 s NET_MAT_HEADER_ATTR_UID (u32_of_int hd.uid)).2 :=
        or_put_ext (nla_put_string_ext e1 _ _) fun s hs => nla_put_u32_ext hs _ _
      split at h
      · cases h
        exact nla_nest_cancel_cancel_eq e2 (by intro k hk; cases hk; omega)
      · split at h
        · rename_i skb2 h2
          cases h
          exact nla_nest_cancel_cancel_eq (e2.trans (nla_nest_start_ext h2))
            (by intro k hk; cases hk; omega)
        · rename_i fields skb2 h2
          have e3 := e2.trans (nla_nest_start_ext h2)
          have hm2 := nla_nest_start_mark h2
          have l2 := e2.length_le
          split at h
          · cases h
          · rename_i err skb3 h3
            have e4 := e3.trans (net_mat_put_fields_loop_ext _ _ _ _ _ h3)
            split at h
            · cases h
              exact nla_nest_cancel_cancel_eq
                (nla_nest_cancel_ext e4 (by intro k hk; cases hk; omega))
                (by intro k hk; cases hk; omega)
            · exact ih _ _ _ (nla_nest_end_ext (nla_nest_end_ext e4 (by omega)) (by omega)) h he

theorem net_mat_put_headers_rollback {skb : sk_buff} {hs : List net_mat_header} {e : Int}
    {s : sk_buff} (h : net_mat_put_headers skb hs = some (e, s)) (he : e ≠ 0) : s = skb := by
  simp only [net_mat_put_headers] at h
  split at h
  · rename_i skb1 h1
    cases h
    exact nla_nest_start_none h1
  · rename_i nest skb1 h1
    have hm := nla_nest_start_mark h1
    subst hm
    exact net_mat_put_headers_loop_rollback skb hs _ _ _ (nla_nest_start_ext h1) h he

theorem net_mat_put_hdrs_loop_ext (skb0 : sk_buff) (hdrs : Nat) (l : List Nat) :
    ∀ (skb : sk_buff) (e : Int) (s : sk_buff), Ext skb0 skb → skb0.data.length ≤ hdrs →
      net_mat_put_hdrs_loop hdrs skb l = some (e, s) → Ext skb0 s := by
  induction l with
  | nil => intro skb e s _ _ h; simp [net_mat_put_hdrs_loop] at h
  | cons x rest ih =>
    intro skb e s hx hm h
    simp only [net_mat_put_hdrs_loop] at h
    split at h
    · cases h; exact hx
    · have e1 := nla_put_u32_ext hx NET_MAT_HEADER_NODE_HDRS_VALUE x
      split at h
      · cases h
        exact nla_nest_cancel_ext e1 (by intro k hk; cases hk; omega)
      · exact ih _ _ _ e1 hm h

theorem net_mat_put_jump_loop_ext (skb0 : sk_buff) (jumps : Nat) (l : List net_mat_jump_table) :
    ∀ (skb : sk_buff) (e : Int) (s : sk_buff), Ext skb0 skb → skb0.data.length ≤ jumps →
      net_mat_put_jump_loop jumps skb l = some (e, s) → Ext skb0 s := by
  induction l with
  | nil => intro skb e s _ _ h; simp [net_mat_put_jump_loop] at h
  | cons j rest ih =>
    intro skb e s hx hm h
    simp only [net_mat_put_jump_loop] at h
    have l0 := hx.length_le
    split at h
    · cases h; exact hx
    · split at h
      · rename_i skb1 h1
        cases h
        exact nla_nest_cancel_ext (nla_nest_cancel_ext (hx.trans (nla_nest_start_ext h1))
          (by intro k hk; cases hk)) (by intro k hk; cases hk; omega)
      · rename_i entry skb1 h1
        have e1 := hx.trans (nla_nest_start_ext h1)
        have hm1 := nla_nest_start_mark h1
        have e2 := nla_put_u32_ext e1 NET_MAT_FIELD_REF_NEXT_NODE j.node
        have e3 := net_mat_put_field_ref_top_ext e2 j.field
        have e4 := net_mat_put_field_ref_vals_ext e3 j.field
        split at h
        · cases h
          exact nla_nest_cancel_ext (nla_nest_cancel_ext e2 (by intro k hk; cases hk; omega))
            (by intro k hk; cases hk; omega)
        · split at h
          · cases h
            exact nla_nest_cancel_ext (nla_nest_cancel_ext e3 (by intro k hk; cases hk; omega))
              (by intro k hk; cases hk; omega)
          · split at h
            · cases h
              exact nla_nest_cancel_ext (nla_nest_cancel_ext e4 (by intro k hk; cases hk; omega))
                (by intro k hk; cases hk; omega)
            · exact ih _ _ _ (nla_nest_end_ext e4 (by omega)) hm h

theorem net_mat_put_header_node_ext {skb : sk_buff} {n : net_mat_header_node} {e : Int}
    {s : sk_buff} (h : net_mat_put_header_node skb n = some (e, s)) : Ext skb s := by
  have e1 : Ext skb (or_put (nla_put_string skb NET_MAT_HEADER_NODE_NAME n.name) fun s =>
      nla_put_u32 s NET_MAT_HEADER_NODE_UID n.uid).2 :=
    or_put_ext (nla_put_string_ext (Ext.refl _) _ _) fun s hs => nla_put_u32_ext hs _ _
  simp only [net_mat_put_header_node] at h
  split at h
  · cases h; exact e1
  · split at h
    · rename_i skb1 h1
      cases h
      exact e1.trans (nla_nest_start_ext h1)
    · rename_i hdrs skb1 h1
      have e2 := e1.trans (nla_nest_start_ext h1)
      have hm1 := nla_nest_start_mark h1
      have l1 := e1.length_le
      split at h
      · cases h
      · rename_i e1 skb2 h2
        have e3 := net_mat_put_hdrs_loop_ext skb hdrs _ _ _ _ e2 (by omega) h2
        split at h
        · cases h; exact e3
        · have e4 := nla_nest_end_ext e3 (show skb.data.length ≤ hdrs by omega)
          split at h
          · rename_i skb3 h3
            cases h
            exact e4.trans (nla_nest_start_ext h3)
          · rename_i jumps skb3 h3
            have e5 := e4.trans (nla_nest_start_ext h3)
            have hm3 := nla_nest_start_mark h3
            have l4 := e4.length_le
            split at h
            · cases h
            · rename_i e2 skb4 h4
              have e6 := net_mat_put_jump_loop_ext skb jumps _ _ _ _ e5 (by omega) h4
              split at h
              · cases h; exact e6
              · cases h
                exact nla_nest_end_ext e6 (by omega)

theorem net_mat_put_header_graph_loop_rollback (skb0 : sk_buff) (g : List net_mat_header_node) :
    ∀ (skb : sk_buff) (e : Int) (s : sk_buff), Ext skb0 skb →
      net_mat_put_header_graph_loop skb0.data.length skb g = some (e, s) → e ≠ 0 →
      s = skb0 := by
  induction g with
  | nil =>
    intro skb e s _ h he
    simp only [net_mat_put_header_graph_loop] at h
    cases h
    exact absurd rfl he
  | cons n rest ih =>
    intro skb e s hx h he
    simp only [net_mat_put_header_graph_loop] at h
    have l0 := hx.length_le
    split at h
    · rename_i skb1 h1
      cases h
      exact nla_nest_cancel_eq (hx.trans (nla_nest_start_ext h1))
    · rename_i node skb1 h1
      have e1 := hx.trans (nla_nest_start_ext h1)
      have hm := nla_nest_start_mark h1
      split at h
      · cases h
      · rename_i err skb2 h2
        have e2 := e1.trans (net_mat_put_header_node_ext h2)
        split at h
        · cases h
          exact nla_nest_cancel_cancel_eq e2 (by intro k hk; cases hk; omega)
        · exact ih _ _ _ (nla_nest_end_ext e2 (by omega)) h he

theorem net_mat_put_header_graph_rollback {skb : sk_buff} {g : List net_mat_header_node}
    {e : Int} {s : sk_buff} (h : net_mat_put_header_graph skb g = some (e, s)) (he : e ≠ 0) :
    s = skb := by
  simp only [net_mat_put_header_graph] at h
  split at h
  · rename_i skb1 h1
    cases h
    exact nla_nest_start_none h1
  · rename_i nest skb1 h1
    have hm := nla_nest_start_mark h1
    subst hm
    exact net_mat_put_header_graph_loop_rollback skb g _ _ _ (nla_nest_start_ext h1) h he

theorem net_mat_put_matches_loop_ext (skb0 : sk_buff) (mnest : Nat)
    (l : List net_mat_field_ref) :
    ∀ (skb : sk_buff) (e : Int) (s : sk_buff), Ext skb0 skb → skb0.data.length ≤ mnest →
      net_mat_put_matches_loop mnest skb l = some (e, s) → Ext skb0 s := by
  induction l with
  | nil => intro skb e s _ _ h; simp [net_mat_put_matches_loop] at h
  | cons m rest ih =>
    intro skb e s hx hm h
    simp only [net_mat_put_matches_loop] at h
    have l0 := hx.length_le
    split at h
    · cases h; exact hx
    · split at h
      · rename_i skb1 h1
        cases h
        exact nla_nest_cancel_ext (hx.trans (nla_nest_start_ext h1))
          (by intro k hk; cases hk; omega)
      · rename_i field skb1 h1
        have e1 := hx.trans (nla_nest_start_ext h1)
        have hm1 := nla_nest_start_mark h1
        have e2 := net_mat_put_field_ref_top_ext e1 m
        split at h
        · cases h
          exact nla_nest_cancel_ext (nla_nest_cancel_ext e2 (by intro k hk; cases hk; omega))
            (by intro k hk; cases hk; omega)
        · exact ih _ _ _ (nla_nest_end_ext e2 (by omega)) hm h

theorem net_mat_put_table_actions_loop_ext (skb0 : sk_buff) (actions : Nat) (l : List Nat) :
    ∀ (skb : sk_buff) (e : Int) (s : sk_buff), Ext skb0 skb → skb0.data.length ≤ actions →
      net_mat_put_table_actions_loop actions skb l = some (e, s) → Ext skb0 s := by
  induction l with
  | nil => intro skb e s _ _ h; simp [net_mat_put_table_actions_loop] at h
  | cons x rest ih =>
    intro skb e s hx hm h
    simp only [net_mat_put_table_actions_loop] at h
    split at h
    · cases h; exact hx
    · have e1 := nla_put_u32_ext hx NET_MAT_ACTION_ATTR_UID x
      split at h
      · cases h
        exact nla_nest_cancel_ext e1 (by intro k hk; cases hk; omega)
      · exact ih _ _ _ e1 hm h

theorem net_mat_put_table_ext {skb : sk_buff} {t : net_mat_table} {e : Int}
    {s : sk_buff} (h : net_mat_put_table skb t = some (e, s)) : Ext skb s := by
  have e1 : Ext skb (or_put (nla_put_string skb NET_MAT_TABLE_ATTR_NAME t.name) fun s =>
      or_put (nla_put_u32 s NET_MAT_TABLE_ATTR_UID t.uid) fun s =>
      or_put (nla_put_u32 s NET_MAT_TABLE_ATTR_SOURCE t.source) fun s =>
      or_put (nla_put_u32 s NET_MAT_TABLE_ATTR_APPLY t.apply_action) fun s =>
      nla_put_u32 s NET_MAT_TABLE_ATTR_SIZE t.size).2 :=
    or_put_ext (nla_put_string_ext (Ext.refl _) _ _) fun s hs =>
      or_put_ext (nla_put_u32_ext hs _ _) fun s hs =>
      or_put_ext (nla_put_u32_ext hs _ _) fun s hs =>
      or_put_ext (nla_put_u32_ext hs _ _) fun s hs => nla_put_u32_ext hs _ _
  simp only [net_mat_put_table] at h
  split at h
  · cases h; exact e1
  · split at h
    · rename_i skb1 h1
      cases h
      exact e1.trans (nla_nest_start_ext h1)
    · rename_i mnest skb1 h1
      have e2 := e1.trans (nla_nest_start_ext h1)
      have hm1 := nla_nest_start_mark h1
      have l1 := e1.length_le
      split at h
      · cases h
      · rename_i e1 skb2 h2
        have e3 := net_mat_put_matches_loop_ext skb mnest _ _ _ _ e2 (by omega) h2
        split at h
        · cases h; exact e3
        · have e4 := nla_nest_end_ext e3 (show skb.data.length ≤ mnest by omega)
          split at h
          · rename_i skb3 h3
            cases h
            exact e4.trans (nla_nest_start_ext h3)
          · rename_i actions skb3 h3
            have e5 := e4.trans (nla_nest_start_ext h3)
            have hm3 := nla_nest_start_mark h3
            have l4 := e4.length_le
            split at h
            · cases h
            · rename_i e2 skb4 h4
              have e6 := net_mat_put_table_actions_loop_ext skb actions _ _ _ _ e5 (by omega) h4
              split at h
              · cases h; exact e6
              · cases h
                exact nla_nest_end_ext e6 (by omega)

theorem net_mat_put_tables_loop_rollback (skb0 : sk_buff) (ts : List (Option net_mat_table)) :
    ∀ (skb : sk_buff) (e : Int) (s : sk_buff), Ext skb0 skb →
      net_mat_put_tables_loop skb0.data.length skb ts = some (e, s) → e ≠ 0 → s = skb0 := by
  induction ts with
  | nil => intro skb e s _ h; simp [net_mat_put_tables_loop] at h
  | cons ot rest ih =>
    intro skb e s hx h he
    cases ot with
    | none => simp [net_mat_put_tables_loop] at h
    | some tbl =>
      simp only [net_mat_put_tables_loop] at h
      have l0 := hx.length_le
      split at h
      · cases h
        exact absurd rfl he
      · split at h
        · rename_i skb1 h1
          cases h
          exact nla_nest_cancel_eq (hx.trans (nla_nest_start_ext h1))
        · rename_i t skb1 h1
          have e1 := hx.trans (nla_nest_start_ext h1)
          have hm := nla_nest_start_mark h1
          split at h
          · cases h
          · rename_i err skb2 h2
            have e2 := e1.trans (net_mat_put_table_ext h2)
            split at h
            · cases h
              exact nla_nest_cancel_cancel_eq e2 (by intro k hk; cases hk; omega)
            · exact ih _ _ _ (nla_nest_end_ext e2 (by omega)) h he

theorem net_mat_put_tables_rollback {skb : sk_buff} {ts : List (Option net_mat_table)}
    {e : Int} {s : sk_buff} (h : net_mat_put_tables skb ts = some (e, s)) (he : e ≠ 0) :
    s = skb := by
  simp only [net_mat_put_tables] at h
  split at h
  · rename_i skb1 h1
    cases h
    exact nla_nest_start_none h1
  · rename_i nest skb1 h1
    have hm := nla_nest_start_mark h1
    subst hm
    split at h
    · cases h
    · cases h
      exact absurd rfl he
    · exact net_mat_put_tables_loop_rollback skb _ _ _ _ (nla_nest_start_ext h1) h he

/-! ## What a successful encoder appends -/

@[simp] theorem sk_buff.append_nil (skb : sk_buff) : skb.append [] = skb := by
  cases skb; simp [sk_buff.append]

@[simp] theorem sk_buff.append_append (skb : sk_buff) (a b : List Nat) :
    (skb.append a).append b = skb.append (a ++ b) := by
  simp [sk_buff.append]

@[simp] theorem sk_buff.append_data (skb : sk_buff) (a : List Nat) :
    (skb.append a).data = skb.data ++ a := rfl

@[simp] theorem sk_buff.append_room (skb : sk_buff) (a : List Nat) :
    (skb.append a).room = skb.room := rfl

theorem skb_tailroom_append (skb : sk_buff) (a : List Nat) :
    skb_tailroom (skb.append a) = skb_tailroom skb - a.length := by
  simp [skb_tailroom, sk_buff.append]; omega

theorem le_bytes_length (w v : Nat) : (le_bytes w v).length = w := by
  induction w generalizing v with
  | zero => rfl
  | succ n ih => simp [le_bytes, ih]

theorem nla_bytes_length (ty : Nat) (p : List Nat) :
    (nla_bytes ty p).length = nla_total_size p.length := by
  simp only [nla_bytes, List.length_append, le_bytes_length, List.length_replicate, nla_padlen,
    nla_total_size, nla_attr_size, NLA_ALIGN, NLA_HDRLEN]
  omega

theorem nla_put_ok {skb : sk_buff} {ty : Nat} {p : List Nat}
    (h : (nla_bytes ty p).length ≤ skb_tailroom skb) :
    nla_put skb ty p = (0, skb.append (nla_bytes ty p)) := by
  rw [nla_bytes_length] at h
  simp only [nla_put, sk_buff.append]
  rw [if_neg (by omega)]

theorem nla_put_short {skb : sk_buff} {ty : Nat} {p : List Nat}
    (h : skb_tailroom skb < (nla_bytes ty p).length) :
    nla_put skb ty p = (-EMSGSIZE, skb) := by
  rw [nla_bytes_length] at h
  simp only [nla_put]
  rw [if_pos h]

theorem EMSGSIZE_ne : -EMSGSIZE ≠ 0 := by decide

theorem Writes_nla_put (ty : Nat) (p : List Nat) :
    Writes (fun s => nla_put s ty p) (nla_bytes ty p) := by
  intro skb
  constructor
  · intro h; exact nla_put_ok h
  · intro h; simp only [nla_put_short h]; exact EMSGSIZE_ne

theorem Writes_nil : Writes (fun s => ((0 : Int), s)) [] := by
  intro skb
  constructor
  · intro _; simp
  · intro h; simp at h

theorem Writes.or {w1 w2 : sk_buff → Int × sk_buff} {b1 b2 : List Nat}
    (h1 : Writes w1 b1) (h2 : Writes w2 b2) :
    Writes (fun s => or_put (w1 s) w2) (b1 ++ b2) := by
  intro skb
  simp only [List.length_append, or_put]
  by_cases hc : b1.length ≤ skb_tailroom skb
  · have e1 := (h1 skb).1 hc
    rw [e1, if_neg (by simp)]
    constructor
    · intro h
      rw [(h2 _).1 (by rw [skb_tailroom_append]; omega), sk_buff.append_append]
    · intro h
      exact (h2 _).2 (by rw [skb_tailroom_append]; omega)
  · have e1 := (h1 skb).2 (by omega)
    rw [if_pos e1]
    constructor
    · intro h; omega
    · intro _; exact e1

theorem Writes.errno {w : sk_buff → Int × sk_buff} {b : List Nat} (h : Writes w b) :
    Writes (fun s => if (w s).1 ≠ 0 then (-EMSGSIZE, (w s).2) else (0, (w s).2)) b := by
  intro skb
  constructor
  · intro hc
    simp [(h skb).1 hc]
  · intro hc
    have := (h skb).2 hc
    simp only [ne_eq, this, not_false_eq_true, if_true]
    exact EMSGSIZE_ne

theorem Writes_u8 (ty v : Nat) : Writes (fun s => nla_put_u8 s ty v) (u8_attr ty v) :=
  Writes_nla_put _ _

theorem Writes_u16 (ty v : Nat) : Writes (fun s => nla_put_u16 s ty v) (u16_attr ty v) :=
  Writes_nla_put _ _

theorem Writes_u32 (ty v : Nat) : Writes (fun s => nla_put_u32 s ty v) (u32_attr ty v) :=
  Writes_nla_put _ _

theorem Writes_u64 (ty v : Nat) : Writes (fun s => nla_put_u64 s ty v) (u64_attr ty v) :=
  Writes_nla_put _ _

theorem Writes_string (ty : Nat) (v : List Nat) :
    Writes (fun s => nla_put_string s ty v) (string_attr ty v) :=
  Writes_nla_put _ _

theorem Results.of_fail {r : Option (Int × sk_buff)} {fits : Prop} {s s' : sk_buff} {e : Int}
    (hr : r = some (e, s')) (he : e ≠ 0) (hf : ¬fits) : Results r fits s :=
  ⟨fun h => absurd h hf, fun _ => ⟨e, s', hr, he⟩⟩

theorem Results.of_ok {r : Option (Int × sk_buff)} {fits : Prop} {s : sk_buff}
    (hr : r = some (0, s)) (hf : fits) : Results r fits s :=
  ⟨fun _ => hr, fun h => absurd hf h⟩

theorem Results.congr {r : Option (Int × sk_buff)} {fits fits' : Prop} {s s' : sk_buff}
    (h : Results r fits s) (hf : fits ↔ fits') (hs : s = s') : Results r fits' s' := by
  subst hs
  exact ⟨fun h' => h.1 (hf.2 h'), fun h' => h.2 (fun x => h' (hf.1 x))⟩

theorem u32_attr_length (ty v : Nat) : (u32_attr ty v).length = 8 := by
  simp [u32_attr, nla_bytes_length, le_bytes_length, nla_total_size, nla_attr_size, NLA_ALIGN,
    NLA_HDRLEN]

theorem net_mat_put_hdrs_loop_results (hdrs : Nat) (l : List Nat) :
    ∀ skb : sk_buff, 0 ∈ l →
      Results (net_mat_put_hdrs_loop hdrs skb l)
        ((hdrs_bytes l).length ≤ skb_tailroom skb) (skb.append (hdrs_bytes l)) := by
  induction l with
  | nil => intro skb h; simp at h
  | cons x rest ih =>
    intro skb hmem
    simp only [net_mat_put_hdrs_loop]
    by_cases hx : x = 0
    · subst hx
      exact Results.of_ok (by simp [hdrs_bytes]) (by simp [hdrs_bytes])
    · have hrest : 0 ∈ rest := by
        rcases List.mem_cons.1 hmem with h | h
        · exact absurd h.symm hx
        · exact h
      have hb : hdrs_bytes (x :: rest) =
          u32_attr NET_MAT_HEADER_NODE_HDRS_VALUE x ++ hdrs_bytes rest := by
        simp [hdrs_bytes, hx]
      rw [if_neg hx, hb]
      have hw := Writes_u32 NET_MAT_HEADER_NODE_HDRS_VALUE x skb
      beta_reduce at hw
      have hlen := u32_attr_length NET_MAT_HEADER_NODE_HDRS_VALUE x
      by_cases hc : 8 ≤ skb_tailroom skb
      · rw [hw.1 (by omega), if_neg (by simp)]
        exact (ih _ hrest).congr
          (by rw [skb_tailroom_append, List.length_append]; omega) (by simp)
      · rw [if_pos (hw.2 (by omega))]
        exact Results.of_fail rfl EMSGSIZE_ne (by rw [List.length_append]; omega)

theorem nest_bytes_length (ty : Nat) (b : List Nat) : (nest_bytes ty b).length = 4 + b.length := by
  simp [nest_bytes, le_bytes_length]; omega

theorem nla_nest_start_ok {skb : sk_buff} (ty : Nat) (h : 4 ≤ skb_tailroom skb) :
    nla_nest_start skb ty = (some skb.data.length, skb.append (nla_bytes ty [])) := by
  have hl : (nla_bytes ty []).length ≤ skb_tailroom skb := by
    rw [nla_bytes_length]; exact h
  simp only [nla_nest_start, nla_put_ok hl]
  rw [if_neg (by simp)]

theorem nla_nest_start_short {skb : sk_buff} (ty : Nat) (h : skb_tailroom skb < 4) :
    nla_nest_start skb ty = (none, skb) := by
  have hl : skb_tailroom skb < (nla_bytes ty []).length := by
    rw [nla_bytes_length]; exact h
  simp only [nla_nest_start, nla_put_short hl]
  rw [if_pos EMSGSIZE_ne]

theorem nla_nest_end_append (skb : sk_buff) (ty : Nat) (body : List Nat) :
    nla_nest_end (skb.append (nla_bytes ty [] ++ body)) skb.data.length =
      skb.append (nest_bytes ty body) := by
  simp only [nla_nest_end, sk_buff.append, nla_bytes, nest_bytes, le_bytes, nla_attr_size,
    NLA_HDRLEN, nla_padlen, nla_total_size, NLA_ALIGN, List.length_nil, List.replicate,
    List.append_nil, List.nil_append, List.cons_append, List.length_append, List.length_cons]
  rw [put16_append _ _ _ _ (le_refl _)]
  simp only [Nat.sub_self, put16, List.set_cons_zero, List.set_cons_succ, sk_buff.mk.injEq,
    List.append_cancel_left_eq, List.cons.injEq, and_true]
  constructor <;> omega

theorem Writes_field_ref_top (ref : net_mat_field_ref) :
    Writes (fun s => net_mat_put_field_ref_top s ref) (field_ref_top_bytes ref) := by
  have h := ((Writes_u32 NET_MAT_FIELD_REF_INSTANCE (u32_of_int ref.«instance»)).or
    ((Writes_u32 NET_MAT_FIELD_REF_HEADER (u32_of_int ref.header)).or
    ((Writes_u32 NET_MAT_FIELD_REF_FIELD (u32_of_int ref.field)).or
    ((Writes_u32 NET_MAT_FIELD_REF_MASK_TYPE (u32_of_int ref.mask_type)).or
    (Writes_u32 NET_MAT_FIELD_REF_TYPE (u32_of_int ref.type)))))).errno
  simpa only [field_ref_top_bytes, List.append_assoc] using h

theorem field_ref_type_consts :
    NET_MAT_FIELD_REF_ATTR_TYPE_U8 = 1 ∧ NET_MAT_FIELD_REF_ATTR_TYPE_U16 = 2 ∧
    NET_MAT_FIELD_REF_ATTR_TYPE_U32 = 3 ∧ NET_MAT_FIELD_REF_ATTR_TYPE_U64 = 4 :=
  ⟨rfl, rfl, rfl, rfl⟩

theorem Writes_field_ref_vals (ref : net_mat_field_ref) :
    Writes (fun s => net_mat_put_field_ref_vals s ref) (field_ref_vals_bytes ref) := by
  obtain ⟨c1, c2, c3, c4⟩ := field_ref_type_consts
  unfold net_mat_put_field_ref_vals field_ref_vals_bytes
  by_cases h1 : ref.type = NET_MAT_FIELD_REF_ATTR_TYPE_U8
  · have h0 : ref.type ≠ 0 := by rw [h1, c1]; decide
    simp only [h0, h1, if_true, if_false]
    exact ((Writes_u8 _ _).or (Writes_u8 _ _)).errno
  · by_cases h2 : ref.type = NET_MAT_FIELD_REF_ATTR_TYPE_U16
    · have h0 : ref.type ≠ 0 := by rw [h2, c2]; decide
      simp only [h0, h1, h2, if_true, if_false]
      exact ((Writes_u16 _ _).or (Writes_u16 _ _)).errno
    · by_cases h3 : ref.type = NET_MAT_FIELD_REF_ATTR_TYPE_U32
      · have h0 : ref.type ≠ 0 := by rw [h3, c3]; decide
        simp only [h0, h1, h2, h3, if_true, if_false]
        exact ((Writes_u32 _ _).or (Writes_u32 _ _)).errno
      · by_cases h4 : ref.type = NET_MAT_FIELD_REF_ATTR_TYPE_U64
        · have h0 : ref.type ≠ 0 := by rw [h4, c4]; decide
          simp only [h0, h1, h2, h3, h4, if_true, if_false]
          exact ((Writes_u64 _ _).or (Writes_u64 _ _)).errno
        · simp only [h1, h2, h3, h4, if_false, ite_self]
          exact Writes_nil

theorem jump_bytes_cons_ne {j : net_mat_jump_table} (rest : List net_mat_jump_table)
    (h : j.node ≠ 0) : jump_bytes (j :: rest) = jump_entry_bytes j ++ jump_bytes rest := by
  simp [jump_bytes, jump_entries, h]

theorem jump_bytes_cons_zero {j : net_mat_jump_table} (rest : List net_mat_jump_table)
    (h : j.node = 0) : jump_bytes (j :: rest) = [] := by
  simp [jump_bytes, jump_entries, h]

theorem net_mat_put_jump_loop_results (jumps : Nat) (l : List net_mat_jump_table) :
    ∀ skb : sk_buff, (∃ j ∈ l, j.node = 0) →
      Results (net_mat_put_jump_loop jumps skb l)
        ((jump_bytes l).length ≤ skb_tailroom skb) (skb.append (jump_bytes l)) := by
  induction l with
  | nil => intro skb h; simp at h
  | cons j rest ih =>
    intro skb hmem
    simp only [net_mat_put_jump_loop]
    by_cases hj : j.node = 0
    · rw [if_pos hj, jump_bytes_cons_zero rest hj]
      exact Results.of_ok (by simp) (by simp)
    · have hrest : ∃ j ∈ rest, j.node = 0 := by
        obtain ⟨k, hk, hk0⟩ := hmem
        rcases List.mem_cons.1 hk with h | h
        · subst h; exact absurd hk0 hj
        · exact ⟨k, h, hk0⟩
      rw [if_neg hj, jump_bytes_cons_ne rest hj]
      simp only [jump_entry_bytes, List.length_append, nest_bytes_length]
      by_cases hc : 4 ≤ skb_tailroom skb
      · rw [nla_nest_start_ok _ hc]
        simp only []
        have w1 := Writes_u32 NET_MAT_FIELD_REF_NEXT_NODE j.node
          (skb.append (nla_bytes NET_MAT_JUMP_ENTRY []))
        beta_reduce at w1
        have t1 := skb_tailroom_append skb (nla_bytes NET_MAT_JUMP_ENTRY [])
        have n1 : (nla_bytes NET_MAT_JUMP_ENTRY []).length = 4 := by
          rw [nla_bytes_length]; rfl
        by_cases hc1 : (u32_attr NET_MAT_FIELD_REF_NEXT_NODE j.node).length ≤
            skb_tailroom skb - 4
        · rw [w1.1 (by omega), if_neg (by simp)]
          simp only [sk_buff.append_append]
          have w2 := Writes_field_ref_top j.field (skb.append (nla_bytes NET_MAT_JUMP_ENTRY [] ++
            u32_attr NET_MAT_FIELD_REF_NEXT_NODE j.node))
          beta_reduce at w2
          have t2 := skb_tailroom_append skb (nla_bytes NET_MAT_JUMP_ENTRY [] ++
            u32_attr NET_MAT_FIELD_REF_NEXT_NODE j.node)
          rw [List.length_append] at t2
          by_cases hc2 : (field_ref_top_bytes j.field).length ≤ skb_tailroom skb - 4 -
              (u32_attr NET_MAT_FIELD_REF_NEXT_NODE j.node).length
          · rw [w2.1 (by omega), if_neg (by simp)]
            simp only [sk_buff.append_append]
            have w3 := Writes_field_ref_vals j.field (skb.append
              (nla_bytes NET_MAT_JUMP_ENTRY [] ++
              u32_attr NET_MAT_FIELD_REF_NEXT_NODE j.node ++ field_ref_top_bytes j.field))
            beta_reduce at w3
            have t3 := skb_tailroom_append skb (nla_bytes NET_MAT_JUMP_ENTRY [] ++
              u32_attr NET_MAT_FIELD_REF_NEXT_NODE j.node ++ field_ref_top_bytes j.field)
            rw [List.length_append, List.length_append] at t3
            by_cases hc3 : (field_ref_vals_bytes j.field).length ≤ skb_tailroom skb - 4 -
                (u32_attr NET_MAT_FIELD_REF_NEXT_NODE j.node).length -
                (field_ref_top_bytes j.field).length
            · rw [w3.1 (by omega), if_neg (by simp)]
              simp only [sk_buff.append_append, List.append_assoc]
              rw [nla_nest_end_append]
              refine (ih _ hrest).congr ?_ (by simp [nest_bytes, List.append_assoc])
              rw [skb_tailroom_append, nest_bytes_length]
              simp only [List.length_append]
              omega
            · rw [if_pos (w3.2 (by omega))]
              exact Results.of_fail rfl EMSGSIZE_ne (by omega)
          · rw [if_pos (w2.2 (by omega))]
            exact Results.of_fail rfl EMSGSIZE_ne (by omega)
        · rw [if_pos (w1.2 (by omega))]
          exact Results.of_fail rfl EMSGSIZE_ne (by omega)
      · rw [nla_nest_start_short _ (by omega)]
        exact Results.of_fail rfl EMSGSIZE_ne (by omega)

theorem nla_bytes_nil_length (ty : Nat) : (nla_bytes ty []).length = 4 := by
  rw [nla_bytes_length]; rfl

theorem net_mat_put_header_node_results (node : net_mat_header_node) (skb : sk_buff)
    (ht : node_terminated node) :
    Results (net_mat_put_header_node skb node)
      ((header_node_bytes node).length ≤ skb_tailroom skb)
      (skb.append (header_node_bytes node)) := by
  obtain ⟨th, tj⟩ := ht
  simp only [net_mat_put_header_node, header_node_bytes, List.length_append, nest_bytes_length]
  have w0 := ((Writes_string NET_MAT_HEADER_NODE_NAME node.name).or
    (Writes_u32 NET_MAT_HEADER_NODE_UID node.uid)) skb
  beta_reduce at w0
  rw [List.length_append] at w0
  generalize string_attr NET_MAT_HEADER_NODE_NAME node.name = b1 at *
  generalize u32_attr NET_MAT_HEADER_NODE_UID node.uid = b2 at *
  by_cases hc0 : b1.length + b2.length ≤ skb_tailroom skb
  · rw [w0.1 hc0, if_neg (by simp)]
    simp only []
    have t0 := skb_tailroom_append skb (b1 ++ b2)
    rw [List.length_append] at t0
    by_cases hc1 : 4 ≤ skb_tailroom skb - (b1.length + b2.length)
    · rw [nla_nest_start_ok _ (by omega)]
      simp only [sk_buff.append_append, sk_buff.append_data]
      have r1 := net_mat_put_hdrs_loop_results (skb.data ++ (b1 ++ b2)).length node.hdrs
        (skb.append (b1 ++ b2 ++ nla_bytes NET_MAT_HEADER_NODE_HDRS [])) th
      have t1 := skb_tailroom_append skb (b1 ++ b2 ++ nla_bytes NET_MAT_HEADER_NODE_HDRS [])
      rw [List.length_append, List.length_append, nla_bytes_nil_length] at t1
      by_cases hc2 : (hdrs_bytes node.hdrs).length ≤ skb_tailroom skb -
          (b1.length + b2.length) - 4
      · rw [r1.1 (by omega)]
        simp only [ne_eq, not_true_eq_false, if_false, sk_buff.append_append]
        have ne1 := nla_nest_end_append (skb.append (b1 ++ b2)) NET_MAT_HEADER_NODE_HDRS
          (hdrs_bytes node.hdrs)
        simp only [sk_buff.append_append, sk_buff.append_data, List.append_assoc] at ne1
        simp only [List.append_assoc]
        rw [ne1]
        have t2 := skb_tailroom_append skb (b1 ++ (b2 ++
          nest_bytes NET_MAT_HEADER_NODE_HDRS (hdrs_bytes node.hdrs)))
        rw [List.length_append, List.length_append, nest_bytes_length] at t2
        by_cases hc3 : 4 ≤ skb_tailroom skb - (b1.length + b2.length) - 4 -
            (hdrs_bytes node.hdrs).length
        · rw [nla_nest_start_ok _ (by omega)]
          simp only [sk_buff.append_append, sk_buff.append_data]
          have r2 := net_mat_put_jump_loop_results (skb.data ++ (b1 ++ (b2 ++
            nest_bytes NET_MAT_HEADER_NODE_HDRS (hdrs_bytes node.hdrs)))).length node.jump
            (skb.append ((b1 ++ (b2 ++ nest_bytes NET_MAT_HEADER_NODE_HDRS
              (hdrs_bytes node.hdrs))) ++ nla_bytes NET_MAT_HEADER_NODE_JUMP [])) tj
          have t3 := skb_tailroom_append skb ((b1 ++ (b2 ++
            nest_bytes NET_MAT_HEADER_NODE_HDRS (hdrs_bytes node.hdrs))) ++
            nla_bytes NET_MAT_HEADER_NODE_JUMP [])
          rw [List.length_append, List.length_append, List.length_append, nest_bytes_length,
            nla_bytes_nil_length] at t3
          by_cases hc4 : (jump_bytes node.jump).length ≤ skb_tailroom skb -
              (b1.length + b2.length) - 4 - (hdrs_bytes node.hdrs).length - 4
          · rw [r2.1 (by omega)]
            simp only [ne_eq, not_true_eq_false, if_false, sk_buff.append_append]
            have ne2 := nla_nest_end_append (skb.append (b1 ++ (b2 ++
              nest_bytes NET_MAT_HEADER_NODE_HDRS (hdrs_bytes node.hdrs))))
              NET_MAT_HEADER_NODE_JUMP (jump_bytes node.jump)
            simp only [sk_buff.append_append, sk_buff.append_data, List.append_assoc] at ne2
            simp only [List.append_assoc]
            rw [ne2]
            exact Results.of_ok rfl (by omega)
          · obtain ⟨e, s', hr, he⟩ := r2.2 (by omega)
            rw [hr]
            simp only [ne_eq, he, not_false_eq_true, if_true]
            exact Results.of_fail rfl he (by omega)
        · rw [nla_nest_start_short _ (by omega)]
          exact Results.of_fail rfl EMSGSIZE_ne (by omega)
      · obtain ⟨e, s', hr, he⟩ := r1.2 (by omega)
        rw [hr]
        simp only [ne_eq, he, not_false_eq_true, if_true]
        exact Results.of_fail rfl he (by omega)
    · rw [nla_nest_start_short _ (by omega)]
      exact Results.of_fail rfl EMSGSIZE_ne (by omega)
  · rw [if_pos (w0.2 (by omega))]
    exact Results.of_fail rfl EMSGSIZE_ne (by omega)

theorem jump_entries_get (l : List net_mat_jump_table) :
    ∀ (k : Nat) (j : net_mat_jump_table), (jump_entries l)[k]? = some j →
      l[k]? = some j ∧ j.node ≠ 0 := by
  induction l with
  | nil => intro k j h; simp [jump_entries] at h
  | cons x rest ih =>
    intro k j h
    by_cases hx : x.node = 0
    · simp [jump_entries, hx] at h
    · have hc : jump_entries (x :: rest) = x :: jump_entries rest := by
        simp [jump_entries, hx]
      rw [hc] at h
      cases k with
      | zero =>
        simp only [List.getElem?_cons_zero, Option.some.injEq] at h
        subst h
        exact ⟨by simp, hx⟩
      | succ n =>
        simp only [List.getElem?_cons_succ] at h ⊢
        exact ih n j h


theorem net_mat_put_fields_loop_results (fs : List net_mat_field) :
    ∀ (n : Nat) (skb : sk_buff), n ≤ fs.length →
      Results (net_mat_put_fields_loop skb (n : Int) fs)
        ((fields_bytes (fs.take n)).length ≤ skb_tailroom skb)
        (skb.append (fields_bytes (fs.take n))) := by
  induction fs with
  | nil =>
    intro n skb hn
    have : n = 0 := by simpa using hn
    subst this
    simp only [net_mat_put_fields_loop]
    exact Results.of_ok (by simp [fields_bytes]) (by simp [fields_bytes])
  | cons f rest ih =>
    intro n skb hn
    cases n with
    | zero =>
      simp only [net_mat_put_fields_loop]
      exact Results.of_ok (by simp [fields_bytes]) (by simp [fields_bytes])
    | succ k =>
      have hk : k ≤ rest.length := by simpa using hn
      have hne : ((k + 1 : Nat) : Int) ≠ 0 := by omega
      have hsub : ((k + 1 : Nat) : Int) - 1 = (k : Int) := by omega
      simp only [net_mat_put_fields_loop]
      rw [if_neg hne, hsub]
      have hb : fields_bytes ((f :: rest).take (k + 1)) =
          field_bytes f ++ fields_bytes (rest.take k) := by
        simp [fields_bytes]
      rw [hb]
      simp only [field_bytes]
      have w := ((Writes_string NET_MAT_FIELD_ATTR_NAME f.name).or
        ((Writes_u32 NET_MAT_FIELD_ATTR_UID (u32_of_int f.uid)).or
        (Writes_u32 NET_MAT_FIELD_ATTR_BITWIDTH (u32_of_int f.bitwidth))))
        (skb.append (nla_bytes NET_MAT_FIELD []))
      beta_reduce at w
      rw [← List.append_assoc] at w
      generalize string_attr NET_MAT_FIELD_ATTR_NAME f.name ++
        u32_attr NET_MAT_FIELD_ATTR_UID (u32_of_int f.uid) ++
        u32_attr NET_MAT_FIELD_ATTR_BITWIDTH (u32_of_int f.bitwidth) = body at *
      simp only [List.length_append, nest_bytes_length]
      have t1 := skb_tailroom_append skb (nla_bytes NET_MAT_FIELD [])
      rw [nla_bytes_nil_length] at t1
      by_cases hc : 4 ≤ skb_tailroom skb
      · rw [nla_nest_start_ok _ hc]
        simp only []
        by_cases hc1 : body.length ≤ skb_tailroom skb - 4
        · rw [w.1 (by omega), if_neg (by simp)]
          simp only [sk_buff.append_append]
          rw [nla_nest_end_append]
          refine (ih k _ hk).congr ?_ (by simp)
          rw [skb_tailroom_append, nest_bytes_length]
          omega
        · rw [if_pos (w.2 (by omega))]
          exact Results.of_fail rfl EMSGSIZE_ne (by omega)
      · rw [nla_nest_start_short _ (by omega)]
        exact Results.of_fail rfl EMSGSIZE_ne (by omega)

theorem net_mat_put_fields_results (h : net_mat_header) (skb : sk_buff)
    (hw : header_counted h) :
    Results (net_mat_put_fields skb h)
      ((fields_bytes (header_fields h)).length ≤ skb_tailroom skb)
      (skb.append (fields_bytes (header_fields h))) := by
  have := net_mat_put_fields_loop_results h.fields h.field_sz.toNat skb hw.2
  rw [Int.toNat_of_nonneg hw.1] at this
  exact this

/-- The state in which `net_mat_put_headers_loop` leaves the buffer after the records
`body` were appended behind the nest header at `skb0`. -/
theorem net_mat_put_headers_loop_results (skb0 : sk_buff) (hs : List net_mat_header) :
    ∀ (pre : List Nat), (∀ h ∈ hs, header_counted h) →
      Results (net_mat_put_headers_loop skb0.data.length
          (skb0.append (nla_bytes NET_MAT_HEADERS [] ++ pre)) hs)
        ((hs.flatMap header_bytes).length ≤
          skb_tailroom (skb0.append (nla_bytes NET_MAT_HEADERS [] ++ pre)))
        (skb0.append (nest_bytes NET_MAT_HEADERS (pre ++ hs.flatMap header_bytes))) := by
  induction hs with
  | nil =>
    intro pre _
    simp only [net_mat_put_headers_loop]
    exact Results.of_ok (by rw [nla_nest_end_append]; simp) (by simp)
  | cons h rest ih =>
    intro pre hwf
    have hh : header_counted h := hwf h (List.mem_cons_self _ _)
    have hr : ∀ x ∈ rest, header_counted x := fun x hx => hwf x (List.mem_cons_of_mem _ hx)
    simp only [net_mat_put_headers_loop, List.flatMap_cons, List.length_append]
    generalize hS : skb0.append (nla_bytes NET_MAT_HEADERS [] ++ pre) = S
    have w := ((Writes_string NET_MAT_HEADER_ATTR_NAME h.name).or
      (Writes_u32 NET_MAT_HEADER_ATTR_UID (u32_of_int h.uid)))
      (S.append (nla_bytes NET_MAT_HEADER []))
    beta_reduce at w
    have hbl : (header_bytes h).length = 4 + ((string_attr NET_MAT_HEADER_ATTR_NAME h.name ++
        u32_attr NET_MAT_HEADER_ATTR_UID (u32_of_int h.uid)).length + (4 +
        (fields_bytes (header_fields h)).length)) := by
      simp only [header_bytes, nest_bytes_length, List.length_append]
    have hbe : header_bytes h = nest_bytes NET_MAT_HEADER
        ((string_attr NET_MAT_HEADER_ATTR_NAME h.name ++
        u32_attr NET_MAT_HEADER_ATTR_UID (u32_of_int h.uid)) ++
        nest_bytes NET_MAT_HEADER_ATTR_FIELDS (fields_bytes (header_fields h))) := by
      simp only [header_bytes, List.append_assoc]
    generalize string_attr NET_MAT_HEADER_ATTR_NAME h.name ++
        u32_attr NET_MAT_HEADER_ATTR_UID (u32_of_int h.uid) = b1 at *
    have t1 := skb_tailroom_append S (nla_bytes NET_MAT_HEADER [])
    rw [nla_bytes_nil_length] at t1
    by_cases hc : 4 ≤ skb_tailroom S
    · rw [nla_nest_start_ok _ hc]
      simp only []
      by_cases hc1 : b1.length ≤ skb_tailroom S - 4
      · rw [w.1 (by omega), if_neg (by simp)]
        simp only [sk_buff.append_append]
        have t2 := skb_tailroom_append S (nla_bytes NET_MAT_HEADER [] ++ b1)
        rw [List.length_append, nla_bytes_nil_length] at t2
        by_cases hc2 : 4 ≤ skb_tailroom S - 4 - b1.length
        · rw [nla_nest_start_ok _ (by omega)]
          simp only [sk_buff.append_append, sk_buff.append_data]
          have rf := net_mat_put_fields_results h (S.append (nla_bytes NET_MAT_HEADER [] ++ b1 ++
            nla_bytes NET_MAT_HEADER_ATTR_FIELDS [])) hh
          have t3 := skb_tailroom_append S (nla_bytes NET_MAT_HEADER [] ++ b1 ++
            nla_bytes NET_MAT_HEADER_ATTR_FIELDS [])
          rw [List.length_append, List.length_append, nla_bytes_nil_length,
            nla_bytes_nil_length] at t3
          by_cases hc3 : (fields_bytes (header_fields h)).length ≤
              skb_tailroom S - 4 - b1.length - 4
          · rw [rf.1 (by omega)]
            simp only [ne_eq, not_true_eq_false, if_false, sk_buff.append_append]
            have ne1 := nla_nest_end_append (S.append (nla_bytes NET_MAT_HEADER [] ++ b1))
              NET_MAT_HEADER_ATTR_FIELDS (fields_bytes (header_fields h))
            simp only [sk_buff.append_append, sk_buff.append_data, List.append_assoc] at ne1
            simp only [List.append_assoc]
            rw [ne1]
            have ne2 := nla_nest_end_append S NET_MAT_HEADER
              (b1 ++ nest_bytes NET_MAT_HEADER_ATTR_FIELDS (fields_bytes (header_fields h)))
            simp only [sk_buff.append_append, sk_buff.append_data, List.append_assoc] at ne2
            rw [ne2, ← hbe, ← hS]
            simp only [sk_buff.append_append, List.append_assoc]
            have := ih (pre ++ header_bytes h) hr
            simp only [List.append_assoc] at this
            refine this.congr ?_ rfl
            subst hS
            simp only [skb_tailroom_append, List.length_append, nla_bytes_nil_length]
              at hc hc1 hc2 hc3 ⊢
            omega
          · obtain ⟨e, s', hr', he⟩ := rf.2 (by omega)
            rw [hr']
            simp only [ne_eq, he, not_false_eq_true, if_true]
            exact Results.of_fail rfl he (by omega)
        · rw [nla_nest_start_short _ (by omega)]
          exact Results.of_fail rfl EMSGSIZE_ne (by omega)
      · rw [if_pos (w.2 (by omega))]
        exact Results.of_fail rfl EMSGSIZE_ne (by omega)
    · rw [nla_nest_start_short _ (by omega)]
      exact Results.of_fail rfl EMSGSIZE_ne (by omega)

theorem net_mat_put_headers_results (skb : sk_buff) (hs : List net_mat_header)
    (hwf : ∀ h ∈ hs, header_counted h) :
    Results (net_mat_put_headers skb hs) ((headers_bytes hs).length ≤ skb_tailroom skb)
      (skb.append (headers_bytes hs)) := by
  simp only [net_mat_put_headers, headers_bytes, nest_bytes_length]
  by_cases hc : 4 ≤ skb_tailroom skb
  · rw [nla_nest_start_ok _ hc]
    simp only []
    have := net_mat_put_headers_loop_results skb hs [] hwf
    simp only [List.append_nil, List.nil_append] at this
    refine this.congr ?_ rfl
    rw [skb_tailroom_append, nla_bytes_nil_length]
    omega
  · rw [nla_nest_start_short _ (by omega)]
    exact Results.of_fail rfl EMSGSIZE_ne (by omega)

/-! ## Reading an encoding back -/

theorem le_bytes_two (v : Nat) : le_bytes 2 v = [v % 256, v / 256 % 256] := rfl

theorem le_bytes_four (v : Nat) :
    le_bytes 4 v = [v % 256, v / 256 % 256, v / 256 / 256 % 256, v / 256 / 256 / 256 % 256] :=
  rfl

theorem le_bytes_four_inj {a b : Nat} (h : le_bytes 4 a = le_bytes 4 b) :
    a % 4294967296 = b % 4294967296 := by
  simp only [le_bytes_four, List.cons.injEq, and_true] at h
  omega

theorem u32_of_int_inj {x y : Int} (hx : int_ok x) (hy : int_ok y)
    (h : u32_of_int x % 4294967296 = u32_of_int y % 4294967296) : x = y := by
  unfold u32_of_int at h
  unfold int_ok at hx hy
  omega

theorem u32_attr_eq (ty v : Nat) :
    u32_attr ty v = [8, 0, ty % 256, ty / 256 % 256] ++ le_bytes 4 v := by
  simp [u32_attr, nla_bytes, le_bytes_two, le_bytes_length, nla_attr_size, NLA_HDRLEN, nla_padlen,
    nla_total_size, NLA_ALIGN]

theorem u32_attr_append_inj {ty ty' v v' : Nat} {r r' : List Nat}
    (h : u32_attr ty v ++ r = u32_attr ty' v' ++ r') :
    v % 4294967296 = v' % 4294967296 ∧ r = r' := by
  have h1 := List.append_inj h (by rw [u32_attr_length, u32_attr_length])
  refine ⟨?_, h1.2⟩
  have h2 := h1.1
  rw [u32_attr_eq, u32_attr_eq] at h2
  have h3 := List.append_inj h2 (by simp)
  exact le_bytes_four_inj h3.2

theorem nest_bytes_eq (ty : Nat) (b : List Nat) :
    nest_bytes ty b = [(4 + b.length) % 256, (4 + b.length) / 256 % 256, ty % 256,
      ty / 256 % 256] ++ b := by
  simp [nest_bytes, le_bytes_two, NLA_HDRLEN]

theorem string_attr_eq (ty : Nat) (n : List Nat) :
    string_attr ty n = [(5 + strlen n) % 256, (5 + strlen n) / 256 % 256, ty % 256,
      ty / 256 % 256] ++ (cstr n ++ 0 :: List.replicate (nla_padlen (strlen n + 1)) 0) := by
  simp only [string_attr, nla_bytes, le_bytes_two, nla_attr_size, NLA_HDRLEN, strlen,
    List.length_append, List.length_cons, List.length_nil, List.append_assoc, List.cons_append,
    List.nil_append, List.singleton_append]
  have : 4 + ((cstr n).length + (0 + 1)) = 5 + (cstr n).length := by omega
  rw [this]

theorem string_attr_length (ty : Nat) (n : List Nat) :
    (string_attr ty n).length = (strlen n + 8) / 4 * 4 := by
  simp only [string_attr, nla_bytes_length, nla_total_size, nla_attr_size, NLA_ALIGN, NLA_HDRLEN,
    strlen, List.length_append, List.length_cons, List.length_nil]
  omega

theorem string_attr_append_inj {ty ty' : Nat} {n n' r r' : List Nat}
    (hn : name_ok n) (hn' : name_ok n')
    (h : string_attr ty n ++ r = string_attr ty' n' ++ r') : cstr n = cstr n' ∧ r = r' := by
  unfold name_ok IFNAMSIZ at hn hn'
  have hl : strlen n = strlen n' := by
    have h0 := h
    rw [string_attr_eq, string_attr_eq] at h0
    simp only [List.cons_append, List.cons.injEq] at h0
    omega
  have h1 := List.append_inj h (by rw [string_attr_length, string_attr_length, hl])
  refine ⟨?_, h1.2⟩
  have h2 := h1.1
  rw [string_attr_eq, string_attr_eq] at h2
  have h3 := (List.append_inj h2 (by simp)).2
  exact (List.append_inj h3 (by simpa [strlen] using hl)).1

theorem cstr_ne_zero {n : List Nat} {x : Nat} (h : x ∈ cstr n) : x ≠ 0 := by
  have := List.mem_takeWhile_imp h
  simpa using this

theorem nest_bytes_split (ty : Nat) (b : List Nat) :
    ∃ hdr : List Nat, hdr.length = 4 ∧ nest_bytes ty b = hdr ++ b :=
  ⟨_, by simp, nest_bytes_eq ty b⟩

theorem nest_bytes_append_inj {ty ty' : Nat} {b b' r r' : List Nat}
    (h : nest_bytes ty b ++ r = nest_bytes ty' b' ++ r') : b ++ r = b' ++ r' := by
  obtain ⟨h1, l1, e1⟩ := nest_bytes_split ty b
  obtain ⟨h2, l2, e2⟩ := nest_bytes_split ty' b'
  rw [e1, e2, List.append_assoc, List.append_assoc] at h
  exact (List.append_inj h (by rw [l1, l2])).2

theorem nest_bytes_inj {ty ty' : Nat} {b b' : List Nat}
    (h : nest_bytes ty b = nest_bytes ty' b') : b = b' := by
  have h1 : nest_bytes ty b ++ [] = nest_bytes ty' b' ++ [] := by
    rw [List.append_nil, List.append_nil]; exact h
  simpa using nest_bytes_append_inj h1

theorem field_bytes_append_inj {f f' : net_mat_field} {r r' : List Nat}
    (hf : field_valid f) (hf' : field_valid f')
    (h : field_bytes f ++ r = field_bytes f' ++ r') : field_view f = field_view f' ∧ r = r' := by
  obtain ⟨n1, u1, b1⟩ := hf
  obtain ⟨n2, u2, b2⟩ := hf'
  have h1 := nest_bytes_append_inj h
  simp only [List.append_assoc] at h1
  obtain ⟨e1, h2⟩ := string_attr_append_inj n1 n2 h1
  obtain ⟨e2, h3⟩ := u32_attr_append_inj h2
  obtain ⟨e3, h4⟩ := u32_attr_append_inj h3
  refine ⟨?_, h4⟩
  simp only [field_view, Prod.mk.injEq]
  exact ⟨e1, u32_of_int_inj u1 u2 e2, u32_of_int_inj b1 b2 e3⟩

theorem field_bytes_ne_nil (f : net_mat_field) (r : List Nat) : field_bytes f ++ r ≠ [] := by
  simp [field_bytes, nest_bytes_eq]

theorem header_bytes_ne_nil (h : net_mat_header) (r : List Nat) : header_bytes h ++ r ≠ [] := by
  simp [header_bytes, nest_bytes_eq]

theorem field_bytes_startsRecord (f : net_mat_field) (r : List Nat) (hf : field_valid f) :
    StartsRecord (field_bytes f ++ r) := by
  right
  obtain ⟨hdr, hl, he⟩ := nest_bytes_split NET_MAT_FIELD
    (string_attr NET_MAT_FIELD_ATTR_NAME f.name ++
     u32_attr NET_MAT_FIELD_ATTR_UID (u32_of_int f.uid) ++
     u32_attr NET_MAT_FIELD_ATTR_BITWIDTH (u32_of_int f.bitwidth))
  refine ⟨hdr, f.name, u32_attr NET_MAT_FIELD_ATTR_UID (u32_of_int f.uid) ++
     u32_attr NET_MAT_FIELD_ATTR_BITWIDTH (u32_of_int f.bitwidth) ++ r, hl, hf.1, ?_⟩
  simp only [field_bytes]
  rw [he]
  simp only [List.append_assoc, NET_MAT_FIELD_ATTR_NAME]

theorem header_bytes_startsRecord (h : net_mat_header) (r : List Nat) (hh : name_ok h.name) :
    StartsRecord (header_bytes h ++ r) := by
  right
  obtain ⟨hdr, hl, he⟩ := nest_bytes_split NET_MAT_HEADER
    (string_attr NET_MAT_HEADER_ATTR_NAME h.name ++
     u32_attr NET_MAT_HEADER_ATTR_UID (u32_of_int h.uid) ++
     nest_bytes NET_MAT_HEADER_ATTR_FIELDS (fields_bytes (header_fields h)))
  refine ⟨hdr, h.name, u32_attr NET_MAT_HEADER_ATTR_UID (u32_of_int h.uid) ++
     nest_bytes NET_MAT_HEADER_ATTR_FIELDS (fields_bytes (header_fields h)) ++ r, hl, hh, ?_⟩
  simp only [header_bytes]
  rw [he]
  simp only [List.append_assoc, NET_MAT_HEADER_ATTR_NAME]

/-- A name string cannot be read as the header of a name attribute. -/
theorem string_payload_not_record {gn n z rest : List Nat} (hn : name_ok n)
    (h : cstr gn ++ 0 :: (List.replicate (nla_padlen (strlen gn + 1)) 0 ++ z) =
      string_attr 1 n ++ rest) : False := by
  unfold name_ok IFNAMSIZ at hn
  rw [string_attr_eq] at h
  have hz : ∀ x ∈ cstr gn, x ≠ 0 := fun x hx => cstr_ne_zero hx
  unfold strlen at h
  generalize cstr gn = c at h hz
  match c, h, hz with
  | [], h, _ =>
    simp only [List.nil_append, List.cons_append, List.cons.injEq] at h
    have := h.1
    unfold strlen at hn
    omega
  | [x], h, _ =>
    have hp : nla_padlen (1 + 1) = 2 := by decide
    simp only [List.length_singleton, hp] at h
    simp [List.replicate] at h
  | x :: y :: t, h, hz =>
    simp only [List.cons_append, List.cons.injEq] at h
    have hy : y ≠ 0 := hz y (by simp)
    have := h.2.1
    unfold strlen at hn
    omega

/-- A header record cannot be read as a field record followed by a record or by the
end of the encoding: the length member of the fields nest would have to be 8 and its
first field would have to be read as a bit width followed by a record. -/
theorem header_not_field {h : net_mat_header} {f : net_mat_field} {x y : List Nat}
    (hh : name_ok h.name) (hf : name_ok f.name) (hy : StartsRecord y)
    (he : header_bytes h ++ x = field_bytes f ++ y) : False := by
  have h1 := nest_bytes_append_inj he
  simp only [List.append_assoc] at h1
  obtain ⟨-, h2⟩ := string_attr_append_inj hh hf h1
  obtain ⟨-, h3⟩ := u32_attr_append_inj h2
  rw [nest_bytes_eq, u32_attr_eq, le_bytes_four] at h3
  simp only [List.cons_append, List.nil_append, List.cons.injEq] at h3
  obtain ⟨l0, l1, -, -, h4⟩ := h3
  cases hfs : header_fields h with
  | nil =>
    rw [hfs] at l0
    simp [fields_bytes] at l0
  | cons g r2 =>
    rw [hfs] at h4
    simp only [fields_bytes, List.flatMap_cons, field_bytes, nest_bytes_eq, string_attr_eq,
      List.cons_append, List.nil_append, List.append_assoc, List.cons.injEq] at h4
    obtain ⟨-, -, -, -, h5⟩ := h4
    rcases hy with hy | ⟨hdr, n, rest, hl, hn, hy⟩
    · subst hy
      simp at h5
    · subst hy
      match hdr, hl with
      | [a, b, c, d], _ =>
        simp only [List.cons_append, List.nil_append, List.cons.injEq] at h5
        obtain ⟨-, -, -, -, h6⟩ := h5
        exact string_payload_not_record hn h6

theorem Results.eq_of_ok {r : Option (Int × sk_buff)} {fits : Prop} {s s1 : sk_buff}
    (h : Results r fits s) (hr : r = some (0, s1)) : s1 = s ∧ fits := by
  by_cases hf : fits
  · have := h.1 hf
    rw [hr] at this
    simp only [Option.some.injEq, Prod.mk.injEq, true_and] at this
    exact ⟨this, hf⟩
  · obtain ⟨e, s', h1, h2⟩ := h.2 hf
    rw [hr] at h1
    simp only [Option.some.injEq, Prod.mk.injEq] at h1
    exact absurd h1.1.symm h2

theorem record_stream_startsRecord (fs : List net_mat_field) (t : List net_mat_header)
    (hfs : ∀ f ∈ fs, field_valid f) (ht : ∀ h ∈ t, name_ok h.name) :
    StartsRecord (fields_bytes fs ++ t.flatMap header_bytes) := by
  cases fs with
  | nil =>
    cases t with
    | nil => left; simp [fields_bytes]
    | cons h t2 =>
      simp only [fields_bytes, List.flatMap_nil, List.nil_append, List.flatMap_cons]
      exact header_bytes_startsRecord h _ (ht h (List.mem_cons_self _ _))
  | cons f r =>
    simp only [fields_bytes, List.flatMap_cons, List.append_assoc]
    exact field_bytes_startsRecord f _ (hfs f (List.mem_cons_self _ _))

theorem fields_headers_sync (fs : List net_mat_field) :
    ∀ (fs' : List net_mat_field) (t t' : List net_mat_header),
      (∀ f ∈ fs, field_valid f) → (∀ f ∈ fs', field_valid f) →
      (∀ h ∈ t, name_ok h.name) → (∀ h ∈ t', name_ok h.name) →
      fields_bytes fs ++ t.flatMap header_bytes = fields_bytes fs' ++ t'.flatMap header_bytes →
      fs.map field_view = fs'.map field_view ∧
        t.flatMap header_bytes = t'.flatMap header_bytes := by
  induction fs with
  | nil =>
    intro fs' t t' _ hv' ht ht' he
    cases fs' with
    | nil => simpa [fields_bytes] using he
    | cons f' r' =>
      exfalso
      cases t with
      | nil =>
        simp only [fields_bytes, List.flatMap_nil, List.nil_append, List.flatMap_cons,
          List.append_assoc] at he
        exact field_bytes_ne_nil f' _ he.symm
      | cons h2 t2 =>
        simp only [fields_bytes, List.flatMap_nil, List.nil_append, List.flatMap_cons,
          List.append_assoc] at he
        exact header_not_field (ht h2 (List.mem_cons_self _ _))
          (hv' f' (List.mem_cons_self _ _)).1
          (record_stream_startsRecord r' t' (fun f hf => hv' f (List.mem_cons_of_mem _ hf)) ht')
          he
  | cons f r ih =>
    intro fs' t t' hv hv' ht ht' he
    cases fs' with
    | nil =>
      exfalso
      cases t' with
      | nil =>
        simp only [fields_bytes, List.flatMap_nil, List.nil_append, List.flatMap_cons,
          List.append_assoc] at he
        exact field_bytes_ne_nil f _ he
      | cons h2 t2 =>
        simp only [fields_bytes, List.flatMap_nil, List.nil_append, List.flatMap_cons,
          List.append_assoc] at he
        exact header_not_field (ht' h2 (List.mem_cons_self _ _))
          (hv f (List.mem_cons_self _ _)).1
          (record_stream_startsRecord r t (fun f hf => hv f (List.mem_cons_of_mem _ hf)) ht)
          he.symm
    | cons f' r' =>
      simp only [fields_bytes, List.flatMap_cons, List.append_assoc] at he
      obtain ⟨e1, e2⟩ := field_bytes_append_inj (hv f (List.mem_cons_self _ _))
        (hv' f' (List.mem_cons_self _ _)) he
      obtain ⟨e3, e4⟩ := ih r' t t' (fun f hf => hv f (List.mem_cons_of_mem _ hf))
        (fun f hf => hv' f (List.mem_cons_of_mem _ hf)) ht ht' e2
      exact ⟨by simp only [List.map_cons, e1, e3], e4⟩

theorem header_fields_of_valid {h : net_mat_header} (hv : header_valid h) :
    header_fields h = h.fields := by
  obtain ⟨-, -, hs, -⟩ := hv
  simp [header_fields, hs]

theorem headers_stream_inj (hs : List net_mat_header) :
    ∀ hs' : List net_mat_header, (∀ h ∈ hs, header_valid h) → (∀ h ∈ hs', header_valid h) →
      hs.flatMap header_bytes = hs'.flatMap header_bytes →
      hs.map header_view = hs'.map header_view := by
  induction hs with
  | nil =>
    intro hs' _ _ he
    cases hs' with
    | nil => rfl
    | cons h' t' =>
      simp only [List.flatMap_nil, List.flatMap_cons] at he
      exact absurd he.symm (header_bytes_ne_nil h' _)
  | cons h t ih =>
    intro hs' hv hv' he
    cases hs' with
    | nil =>
      simp only [List.flatMap_nil, List.flatMap_cons] at he
      exact absurd he (header_bytes_ne_nil h _)
    | cons h' t' =>
      have vh := hv h (List.mem_cons_self _ _)
      have vh' := hv' h' (List.mem_cons_self _ _)
      have vt : ∀ x ∈ t, header_valid x := fun x hx => hv x (List.mem_cons_of_mem _ hx)
      have vt' : ∀ x ∈ t', header_valid x := fun x hx => hv' x (List.mem_cons_of_mem _ hx)
      simp only [List.flatMap_cons] at he
      have h1 := nest_bytes_append_inj he
      simp only [List.append_assoc] at h1
      obtain ⟨e1, h2⟩ := string_attr_append_inj vh.1 vh'.1 h1
      obtain ⟨e2, h3⟩ := u32_attr_append_inj h2
      have h4 := nest_bytes_append_inj h3
      rw [header_fields_of_valid vh, header_fields_of_valid vh'] at h4
      obtain ⟨e3, e4⟩ := fields_headers_sync h.fields h'.fields t t' vh.2.2.2 vh'.2.2.2
        (fun x hx => (vt x hx).1) (fun x hx => (vt' x hx).1) h4
      have e5 := ih t' vt vt' e4
      simp only [List.map_cons, header_view, e1, e3, e5, u32_of_int_inj vh.2.1 vh'.2.1 e2]

theorem header_valid_counted {h : net_mat_header} (hv : header_valid h) : header_counted h := by
  obtain ⟨-, -, hs, -⟩ := hv
  unfold header_counted
  rw [hs]
  simp

theorem net_mat_put_headers_data {skb s : sk_buff} {hs : List net_mat_header}
    (hv : ∀ h ∈ hs, header_valid h) (hr : net_mat_put_headers skb hs = some (0, s)) :
    s.data.drop skb.data.length = headers_bytes hs := by
  have := ((net_mat_put_headers_results skb hs
    (fun h hh => header_valid_counted (hv h hh))).eq_of_ok hr).1
  rw [this]
  simp

theorem net_mat_put_header_graph_loop_results (skb0 : sk_buff) (g : List net_mat_header_node) :
    ∀ (pre : List Nat), (∀ n ∈ g, node_terminated n) →
      Results (net_mat_put_header_graph_loop skb0.data.length
          (skb0.append (nla_bytes NET_MAT_HEADER_GRAPH [] ++ pre)) g)
        ((g.flatMap node_bytes).length ≤
          skb_tailroom (skb0.append (nla_bytes NET_MAT_HEADER_GRAPH [] ++ pre)))
        (skb0.append (nest_bytes NET_MAT_HEADER_GRAPH (pre ++ g.flatMap node_bytes))) := by
  induction g with
  | nil =>
    intro pre _
    simp only [net_mat_put_header_graph_loop]
    exact Results.of_ok (by rw [nla_nest_end_append]; simp) (by simp)
  | cons n rest ih =>
    intro pre hwf
    have hn : node_terminated n := hwf n (List.mem_cons_self _ _)
    have hr : ∀ x ∈ rest, node_terminated x := fun x hx => hwf x (List.mem_cons_of_mem _ hx)
    simp only [net_mat_put_header_graph_loop, List.flatMap_cons, List.length_append]
    have hbl : (node_bytes n).length = 4 + (header_node_bytes n).length := by
      simp only [node_bytes, nest_bytes_length]
    generalize hS : skb0.append (nla_bytes NET_MAT_HEADER_GRAPH [] ++ pre) = S
    have t1 := skb_tailroom_append S (nla_bytes NET_MAT_HEADER_GRAPH_NODE [])
    rw [nla_bytes_nil_length] at t1
    by_cases hc : 4 ≤ skb_tailroom S
    · rw [nla_nest_start_ok _ hc]
      simp only []
      have rn := net_mat_put_header_node_results n
        (S.append (nla_bytes NET_MAT_HEADER_GRAPH_NODE [])) hn
      by_cases hc1 : (header_node_bytes n).length ≤ skb_tailroom S - 4
      · rw [rn.1 (by omega)]
        simp only [ne_eq, not_true_eq_false, if_false, sk_buff.append_append]
        rw [nla_nest_end_append, ← hS]
        simp only [sk_buff.append_append, List.append_assoc]
        have := ih (pre ++ node_bytes n) hr
        simp only [List.append_assoc, node_bytes] at this
        refine this.congr ?_ (by simp only [node_bytes])
        subst hS
        simp only [skb_tailroom_append, List.length_append, nla_bytes_nil_length,
          nest_bytes_length, node_bytes] at hc hc1 ⊢
        omega
      · obtain ⟨e, s', hr', he⟩ := rn.2 (by omega)
        rw [hr']
        simp only [ne_eq, he, not_false_eq_true, if_true]
        exact Results.of_fail rfl he (by omega)
    · rw [nla_nest_start_short _ (by omega)]
      exact Results.of_fail rfl EMSGSIZE_ne (by omega)

theorem net_mat_put_header_graph_results (skb : sk_buff) (g : List net_mat_header_node)
    (hwf : ∀ n ∈ g, node_terminated n) :
    Results (net_mat_put_header_graph skb g)
      ((header_graph_bytes g).length ≤ skb_tailroom skb)
      (skb.append (header_graph_bytes g)) := by
  simp only [net_mat_put_header_graph, header_graph_bytes, nest_bytes_length]
  by_cases hc : 4 ≤ skb_tailroom skb
  · rw [nla_nest_start_ok _ hc]
    simp only []
    have := net_mat_put_header_graph_loop_results skb g [] hwf
    simp only [List.append_nil, List.nil_append] at this
    refine this.congr ?_ rfl
    rw [skb_tailroom_append, nla_bytes_nil_length]
    omega
  · rw [nla_nest_start_short _ (by omega)]
    exact Results.of_fail rfl EMSGSIZE_ne (by omega)

theorem u8_attr_eq (ty v : Nat) :
    u8_attr ty v = [5, 0, ty % 256, ty / 256 % 256, v % 256, 0, 0, 0] := by
  simp [u8_attr, nla_bytes, le_bytes, nla_attr_size, NLA_HDRLEN, nla_padlen,
    nla_total_size, NLA_ALIGN, List.replicate]

theorem u16_attr_eq (ty v : Nat) :
    u16_attr ty v = [6, 0, ty % 256, ty / 256 % 256, v % 256, v / 256 % 256, 0, 0] := by
  simp [u16_attr, nla_bytes, le_bytes, nla_attr_size, NLA_HDRLEN, nla_padlen,
    nla_total_size, NLA_ALIGN, List.replicate]

theorem u64_attr_eq (ty v : Nat) :
    u64_attr ty v = [12, 0, ty % 256, ty / 256 % 256] ++ le_bytes 8 v := by
  simp [u64_attr, nla_bytes, le_bytes_two, le_bytes_length, nla_attr_size, NLA_HDRLEN,
    nla_padlen, nla_total_size, NLA_ALIGN]

theorem le_bytes_eight_inj {a b : Nat} (h : le_bytes 8 a = le_bytes 8 b) :
    a % 2 ^ 64 = b % 2 ^ 64 := by
  simp only [le_bytes, List.cons.injEq, and_true] at h
  omega

theorem u8_attr_append_inj {ty ty' v v' : Nat} {r r' : List Nat}
    (h : u8_attr ty v ++ r = u8_attr ty' v' ++ r') : v % 2 ^ 8 = v' % 2 ^ 8 ∧ r = r' := by
  rw [u8_attr_eq, u8_attr_eq] at h
  simp only [List.cons_append, List.nil_append, List.cons.injEq] at h
  exact ⟨by omega, h.2.2.2.2.2.2.2.2⟩

theorem u16_attr_append_inj {ty ty' v v' : Nat} {r r' : List Nat}
    (h : u16_attr ty v ++ r = u16_attr ty' v' ++ r') : v % 2 ^ 16 = v' % 2 ^ 16 ∧ r = r' := by
  rw [u16_attr_eq, u16_attr_eq] at h
  simp only [List.cons_append, List.nil_append, List.cons.injEq] at h
  exact ⟨by omega, h.2.2.2.2.2.2.2.2⟩

theorem u64_attr_append_inj {ty ty' v v' : Nat} {r r' : List Nat}
    (h : u64_attr ty v ++ r = u64_attr ty' v' ++ r') : v % 2 ^ 64 = v' % 2 ^ 64 ∧ r = r' := by
  rw [u64_attr_eq, u64_attr_eq] at h
  have h1 := List.append_inj h (by simp [le_bytes_length])
  exact ⟨le_bytes_eight_inj (List.append_inj h1.1 (by simp)).2, h1.2⟩

theorem field_ref_vals_append_inj {a b : net_mat_field_ref} {r r' : List Nat}
    (ha : ref_valid a) (hb : ref_valid b) (ht : a.type = b.type)
    (h : field_ref_vals_bytes a ++ r = field_ref_vals_bytes b ++ r') :
    a.value = b.value ∧ a.mask = b.mask ∧ r = r' := by
  obtain ⟨-, -, -, -, -, va⟩ := ha
  obtain ⟨-, -, -, -, -, vb⟩ := hb
  unfold field_ref_vals_bytes at h
  unfold ref_vals_ok at va vb
  rw [← ht] at h vb
  by_cases h1 : a.type = NET_MAT_FIELD_REF_ATTR_TYPE_U8
  · rw [if_pos h1] at va vb
    rw [if_pos h1, if_pos h1] at h
    simp only [List.append_assoc, net_mat_field_ref.value_u8, net_mat_field_ref.mask_u8] at h
    obtain ⟨e1, h2⟩ := u8_attr_append_inj h
    obtain ⟨e2, h3⟩ := u8_attr_append_inj h2
    exact ⟨by omega, by omega, h3⟩
  · rw [if_neg h1] at va vb
    rw [if_neg h1, if_neg h1] at h
    by_cases h2 : a.type = NET_MAT_FIELD_REF_ATTR_TYPE_U16
    · rw [if_pos h2] at va vb
      rw [if_pos h2, if_pos h2] at h
      simp only [List.append_assoc, net_mat_field_ref.value_u16,
        net_mat_field_ref.mask_u16] at h
      obtain ⟨e1, h2'⟩ := u16_attr_append_inj h
      obtain ⟨e2, h3⟩ := u16_attr_append_inj h2'
      exact ⟨by omega, by omega, h3⟩
    · rw [if_neg h2] at va vb
      rw [if_neg h2, if_neg h2] at h
      by_cases h3 : a.type = NET_MAT_FIELD_REF_ATTR_TYPE_U32
      · rw [if_pos h3] at va vb
        rw [if_pos h3, if_pos h3] at h
        simp only [List.append_assoc, net_mat_field_ref.value_u32,
          net_mat_field_ref.mask_u32] at h
        obtain ⟨e1, h2'⟩ := u32_attr_append_inj h
        obtain ⟨e2, h3'⟩ := u32_attr_append_inj h2'
        exact ⟨by omega, by omega, h3'⟩
      · rw [if_neg h3] at va vb
        rw [if_neg h3, if_neg h3] at h
        by_cases h4 : a.type = NET_MAT_FIELD_REF_ATTR_TYPE_U64
        · rw [if_pos h4] at va vb
          rw [if_pos h4, if_pos h4] at h
          simp only [List.append_assoc, net_mat_field_ref.value_u64,
            net_mat_field_ref.mask_u64] at h
          obtain ⟨e1, h2'⟩ := u64_attr_append_inj h
          obtain ⟨e2, h3'⟩ := u64_attr_append_inj h2'
          exact ⟨by omega, by omega, h3'⟩
        · rw [if_neg h4] at va vb
          rw [if_neg h4, if_neg h4] at h
          simp only [List.nil_append] at h
          exact ⟨by omega, by omega, h⟩

theorem jump_entry_bytes_append_inj {j j' : net_mat_jump_table} {r r' : List Nat}
    (hj : jump_valid j) (hj' : jump_valid j')
    (h : jump_entry_bytes j ++ r = jump_entry_bytes j' ++ r') : j = j' ∧ r = r' := by
  have h1 := nest_bytes_append_inj h
  simp only [field_ref_top_bytes, List.append_assoc] at h1
  obtain ⟨e0, h2⟩ := u32_attr_append_inj h1
  obtain ⟨e1, h3⟩ := u32_attr_append_inj h2
  obtain ⟨e2, h4⟩ := u32_attr_append_inj h3
  obtain ⟨e3, h5⟩ := u32_attr_append_inj h4
  obtain ⟨e4, h6⟩ := u32_attr_append_inj h5
  obtain ⟨e5, h7⟩ := u32_attr_append_inj h6
  obtain ⟨n1, v1⟩ := hj
  obtain ⟨n2, v2⟩ := hj'
  have t1 := u32_of_int_inj v1.1 v2.1 e1
  have t2 := u32_of_int_inj v1.2.1 v2.2.1 e2
  have t3 := u32_of_int_inj v1.2.2.1 v2.2.2.1 e3
  have t4 := u32_of_int_inj v1.2.2.2.1 v2.2.2.2.1 e4
  have t5 := u32_of_int_inj v1.2.2.2.2.1 v2.2.2.2.2.1 e5
  obtain ⟨t6, t7, t8⟩ := field_ref_vals_append_inj v1 v2 t5 h7
  refine ⟨?_, t8⟩
  unfold u32_ok at n1 n2
  have t0 : j.node = j'.node := by omega
  cases j with
  | mk f n =>
    cases j' with
    | mk f' n' =>
      cases f; cases f'
      simp_all

theorem hdrs_bytes_eq (l : List Nat) :
    hdrs_bytes l = (header_ids l).flatMap (fun h => u32_attr NET_MAT_HEADER_NODE_HDRS_VALUE h) :=
  rfl

theorem ids_bytes_length (a : List Nat) :
    (a.flatMap (fun h => u32_attr NET_MAT_HEADER_NODE_HDRS_VALUE h)).length = 8 * a.length := by
  induction a with
  | nil => rfl
  | cons x r ih =>
    simp only [List.flatMap_cons, List.length_append, u32_attr_length, ih, List.length_cons]
    omega

theorem ids_stream_sync (a : List Nat) :
    ∀ (b x x' r r' : List Nat), (∀ h ∈ a, u32_ok h) → (∀ h ∈ b, u32_ok h) →
      a.flatMap (fun h => u32_attr NET_MAT_HEADER_NODE_HDRS_VALUE h) ++
          (nest_bytes NET_MAT_HEADER_NODE_JUMP x ++ r) =
        b.flatMap (fun h => u32_attr NET_MAT_HEADER_NODE_HDRS_VALUE h) ++
          (nest_bytes NET_MAT_HEADER_NODE_JUMP x' ++ r') →
      a = b ∧ nest_bytes NET_MAT_HEADER_NODE_JUMP x ++ r =
        nest_bytes NET_MAT_HEADER_NODE_JUMP x' ++ r' := by
  induction a with
  | nil =>
    intro b x x' r r' _ _ he
    cases b with
    | nil => exact ⟨rfl, by simpa using he⟩
    | cons y t =>
      exfalso
      simp only [List.flatMap_nil, List.nil_append, List.flatMap_cons, List.append_assoc] at he
      simp [nest_bytes_eq, u32_attr_eq, NET_MAT_HEADER_NODE_JUMP,
        NET_MAT_HEADER_NODE_HDRS_VALUE] at he
  | cons y t ih =>
    intro b x x' r r' ha hb he
    cases b with
    | nil =>
      exfalso
      simp only [List.flatMap_nil, List.nil_append, List.flatMap_cons, List.append_assoc] at he
      simp [nest_bytes_eq, u32_attr_eq, NET_MAT_HEADER_NODE_JUMP,
        NET_MAT_HEADER_NODE_HDRS_VALUE] at he
    | cons y' t' =>
      simp only [List.flatMap_cons, List.append_assoc] at he
      obtain ⟨e1, e2⟩ := u32_attr_append_inj he
      obtain ⟨e3, e4⟩ := ih t' x x' r r' (fun h hh => ha h (List.mem_cons_of_mem _ hh))
        (fun h hh => hb h (List.mem_cons_of_mem _ hh)) e2
      have u1 := ha y (List.mem_cons_self _ _)
      have u2 := hb y' (List.mem_cons_self _ _)
      unfold u32_ok at u1 u2
      refine ⟨?_, e4⟩
      rw [e3]
      congr 1
      omega

/-- A node record cannot be read as a jump entry: its name attribute would have to be
the next-node attribute and the length member of its header-id nest would have to
be 8, which is not 4 plus a multiple of 8. -/
theorem node_not_entry {n : net_mat_header_node} {j : net_mat_jump_table} {x y : List Nat}
    (hn : name_ok n.name) (he : node_bytes n ++ x = jump_entry_bytes j ++ y) : False := by
  unfold name_ok IFNAMSIZ at hn
  have h1 := nest_bytes_append_inj he
  simp only [header_node_bytes, field_ref_top_bytes, List.append_assoc] at h1
  have hl : strlen n.name = 3 := by
    have h0 := h1
    simp only [string_attr_eq, u32_attr_eq, List.cons_append, List.cons.injEq] at h0
    omega
  have h2 := (List.append_inj h1 (by rw [string_attr_length, u32_attr_length, hl])).2
  obtain ⟨-, h3⟩ := u32_attr_append_inj h2
  have hlen := ids_bytes_length (header_ids n.hdrs)
  rw [hdrs_bytes_eq] at h3
  generalize (header_ids n.hdrs).flatMap
    (fun h => u32_attr NET_MAT_HEADER_NODE_HDRS_VALUE h) = ids at h3 hlen
  simp only [nest_bytes_eq, u32_attr_eq, List.cons_append, List.cons.injEq] at h3
  omega

theorem node_bytes_ne_nil (n : net_mat_header_node) (r : List Nat) : node_bytes n ++ r ≠ [] := by
  simp [node_bytes, nest_bytes_eq]

theorem jump_entry_bytes_ne_nil (j : net_mat_jump_table) (r : List Nat) :
    jump_entry_bytes j ++ r ≠ [] := by
  simp [jump_entry_bytes, nest_bytes_eq]

theorem entries_nodes_sync (es : List net_mat_jump_table) :
    ∀ (es' : List net_mat_jump_table) (t t' : List net_mat_header_node),
      (∀ j ∈ es, jump_valid j) → (∀ j ∈ es', jump_valid j) →
      (∀ n ∈ t, name_ok n.name) → (∀ n ∈ t', name_ok n.name) →
      es.flatMap jump_entry_bytes ++ t.flatMap node_bytes =
        es'.flatMap jump_entry_bytes ++ t'.flatMap node_bytes →
      es = es' ∧ t.flatMap node_bytes = t'.flatMap node_bytes := by
  induction es with
  | nil =>
    intro es' t t' _ _ ht _ he
    cases es' with
    | nil => exact ⟨rfl, by simpa using he⟩
    | cons j' r' =>
      exfalso
      simp only [List.flatMap_nil, List.nil_append, List.flatMap_cons, List.append_assoc] at he
      cases t with
      | nil => exact jump_entry_bytes_ne_nil j' _ he.symm
      | cons n2 t2 =>
        simp only [List.flatMap_cons, List.append_assoc] at he
        exact node_not_entry (ht n2 (List.mem_cons_self _ _)) he
  | cons j r ih =>
    intro es' t t' hv hv' ht ht' he
    cases es' with
    | nil =>
      exfalso
      simp only [List.flatMap_nil, List.nil_append, List.flatMap_cons, List.append_assoc] at he
      cases t' with
      | nil => exact jump_entry_bytes_ne_nil j _ he
      | cons n2 t2 =>
        simp only [List.flatMap_cons, List.append_assoc] at he
        exact node_not_entry (ht' n2 (List.mem_cons_self _ _)) he.symm
    | cons j' r' =>
      simp only [List.flatMap_cons, List.append_assoc] at he
      obtain ⟨e1, e2⟩ := jump_entry_bytes_append_inj (hv j (List.mem_cons_self _ _))
        (hv' j' (List.mem_cons_self _ _)) he
      obtain ⟨e3, e4⟩ := ih r' t t' (fun x hx => hv x (List.mem_cons_of_mem _ hx))
        (fun x hx => hv' x (List.mem_cons_of_mem _ hx)) ht ht' e2
      exact ⟨by rw [e1, e3], e4⟩

theorem nodes_stream_inj (g : List net_mat_header_node) :
    ∀ g' : List net_mat_header_node, (∀ n ∈ g, node_valid n) → (∀ n ∈ g', node_valid n) →
      g.flatMap node_bytes = g'.flatMap node_bytes → g.map node_view = g'.map node_view := by
  induction g with
  | nil =>
    intro g' _ _ he
    cases g' with
    | nil => rfl
    | cons n' t' =>
      simp only [List.flatMap_nil, List.flatMap_cons] at he
      exact absurd he.symm (node_bytes_ne_nil n' _)
  | cons n t ih =>
    intro g' hv hv' he
    cases g' with
    | nil =>
      simp only [List.flatMap_nil, List.flatMap_cons] at he
      exact absurd he (node_bytes_ne_nil n _)
    | cons n' t' =>
      have vn := hv n (List.mem_cons_self _ _)
      have vn' := hv' n' (List.mem_cons_self _ _)
      have vt : ∀ x ∈ t, node_valid x := fun x hx => hv x (List.mem_cons_of_mem _ hx)
      have vt' : ∀ x ∈ t', node_valid x := fun x hx => hv' x (List.mem_cons_of_mem _ hx)
      simp only [List.flatMap_cons] at he
      have h1 := nest_bytes_append_inj he
      simp only [header_node_bytes, List.append_assoc] at h1
      obtain ⟨e1, h2⟩ := string_attr_append_inj vn.1 vn'.1 h1
      obtain ⟨e2, h3⟩ := u32_attr_append_inj h2
      have h4 := nest_bytes_append_inj h3
      rw [hdrs_bytes_eq, hdrs_bytes_eq] at h4
      obtain ⟨e3, h5⟩ := ids_stream_sync _ _ _ _ _ _ vn.2.2.2.1 vn'.2.2.2.1 h4
      have h6 := nest_bytes_append_inj h5
      obtain ⟨e4, e5⟩ := entries_nodes_sync _ _ t t' vn.2.2.2.2 vn'.2.2.2.2
        (fun x hx => (vt x hx).1) (fun x hx => (vt' x hx).1) h6
      have e6 := ih t' vt vt' e5
      have u1 := vn.2.1
      have u2 := vn'.2.1
      unfold u32_ok at u1 u2
      have e7 : n.uid = n'.uid := by omega
      simp only [List.map_cons, node_view, e1, e3, e4, e6, e7]

theorem net_mat_put_header_graph_data {skb s : sk_buff} {g : List net_mat_header_node}
    (hv : ∀ n ∈ g, node_valid n) (hr : net_mat_put_header_graph skb g = some (0, s)) :
    s.data.drop skb.data.length = header_graph_bytes g := by
  have := ((net_mat_put_header_graph_results skb g (fun n hn => (hv n hn).2.2.1)).eq_of_ok hr).1
  rw [this]
  simp

theorem net_mat_put_matches_loop_results (mnest : Nat) (l : List net_mat_field_ref) :
    ∀ skb : sk_buff, (∃ m ∈ l, m.«instance» = 0) →
      Results (net_mat_put_matches_loop mnest skb l)
        ((matches_bytes l).length ≤ skb_tailroom skb) (skb.append (matches_bytes l)) := by
  induction l with
  | nil => intro skb h; simp at h
  | cons m rest ih =>
    intro skb hmem
    simp only [net_mat_put_matches_loop]
    by_cases hm : m.«instance» = 0
    · rw [if_pos hm]
      have : matches_bytes (m :: rest) = [] := by simp [matches_bytes, match_entries, hm]
      rw [this]
      exact Results.of_ok (by simp) (by simp)
    · have hrest : ∃ k ∈ rest, k.«instance» = 0 := by
        obtain ⟨k, hk, hk0⟩ := hmem
        rcases List.mem_cons.1 hk with h | h
        · subst h; exact absurd hk0 hm
        · exact ⟨k, h, hk0⟩
      have hb : matches_bytes (m :: rest) = match_bytes m ++ matches_bytes rest := by
        simp [matches_bytes, match_entries, hm]
      rw [if_neg hm, hb]
      simp only [match_bytes, List.length_append, nest_bytes_length]
      have t1 := skb_tailroom_append skb (nla_bytes NET_MAT_FIELD_REF [])
      rw [nla_bytes_nil_length] at t1
      by_cases hc : 4 ≤ skb_tailroom skb
      · rw [nla_nest_start_ok _ hc]
        simp only []
        have w := Writes_field_ref_top m (skb.append (nla_bytes NET_MAT_FIELD_REF []))
        beta_reduce at w
        by_cases hc1 : (field_ref_top_bytes m).length ≤ skb_tailroom skb - 4
        · rw [w.1 (by omega), if_neg (by simp)]
          simp only [sk_buff.append_append]
          rw [nla_nest_end_append]
          refine (ih _ hrest).congr ?_ (by simp)
          rw [skb_tailroom_append, nest_bytes_length]
          omega
        · rw [if_pos (w.2 (by omega))]
          exact Results.of_fail rfl EMSGSIZE_ne (by omega)
      · rw [nla_nest_start_short _ (by omega)]
        exact Results.of_fail rfl EMSGSIZE_ne (by omega)

theorem net_mat_put_table_actions_loop_results (actions : Nat) (l : List Nat) :
    ∀ skb : sk_buff, 0 ∈ l →
      Results (net_mat_put_table_actions_loop actions skb l)
        ((table_actions_bytes l).length ≤ skb_tailroom skb)
        (skb.append (table_actions_bytes l)) := by
  induction l with
  | nil => intro skb h; simp at h
  | cons x rest ih =>
    intro skb hmem
    simp only [net_mat_put_table_actions_loop]
    by_cases hx : x = 0
    · subst hx
      exact Results.of_ok (by simp [table_actions_bytes, table_action_ids])
        (by simp [table_actions_bytes, table_action_ids])
    · have hrest : 0 ∈ rest := by
        rcases List.mem_cons.1 hmem with h | h
        · exact absurd h.symm hx
        · exact h
      have hb : table_actions_bytes (x :: rest) =
          u32_attr NET_MAT_ACTION_ATTR_UID x ++ table_actions_bytes rest := by
        simp [table_actions_bytes, table_action_ids, hx]
      rw [if_neg hx, hb]
      have hw := Writes_u32 NET_MAT_ACTION_ATTR_UID x skb
      beta_reduce at hw
      have hlen := u32_attr_length NET_MAT_ACTION_ATTR_UID x
      by_cases hc : 8 ≤ skb_tailroom skb
      · rw [hw.1 (by omega), if_neg (by simp)]
        exact (ih _ hrest).congr
          (by rw [skb_tailroom_append, List.length_append]; omega) (by simp)
      · rw [if_pos (hw.2 (by omega))]
        exact Results.of_fail rfl EMSGSIZE_ne (by rw [List.length_append]; omega)

theorem net_mat_put_table_results (t : net_mat_table) (skb : sk_buff)
    (ht : table_terminated t) :
    Results (net_mat_put_table skb t) ((table_bytes t).length ≤ skb_tailroom skb)
      (skb.append (table_bytes t)) := by
  obtain ⟨tm, ta⟩ := ht
  simp only [net_mat_put_table, table_bytes]
  have w0 := ((Writes_string NET_MAT_TABLE_ATTR_NAME t.name).or
    ((Writes_u32 NET_MAT_TABLE_ATTR_UID t.uid).or
    ((Writes_u32 NET_MAT_TABLE_ATTR_SOURCE t.source).or
    ((Writes_u32 NET_MAT_TABLE_ATTR_APPLY t.apply_action).or
    (Writes_u32 NET_MAT_TABLE_ATTR_SIZE t.size))))) skb
  beta_reduce at w0
  simp only [← List.append_assoc] at w0
  generalize string_attr NET_MAT_TABLE_ATTR_NAME t.name ++
    u32_attr NET_MAT_TABLE_ATTR_UID t.uid ++
    u32_attr NET_MAT_TABLE_ATTR_SOURCE t.source ++
    u32_attr NET_MAT_TABLE_ATTR_APPLY t.apply_action ++
    u32_attr NET_MAT_TABLE_ATTR_SIZE t.size = b at *
  simp only [List.length_append, nest_bytes_length]
  by_cases hc0 : b.length ≤ skb_tailroom skb
  · rw [w0.1 hc0, if_neg (by simp)]
    simp only []
    have t0 := skb_tailroom_append skb b
    by_cases hc1 : 4 ≤ skb_tailroom skb - b.length
    · rw [nla_nest_start_ok _ (by omega)]
      simp only [sk_buff.append_append, sk_buff.append_data]
      have r1 := net_mat_put_matches_loop_results (skb.data ++ b).length t.«matches»
        (skb.append (b ++ nla_bytes NET_MAT_TABLE_ATTR_MATCHES [])) tm
      have t1 := skb_tailroom_append skb (b ++ nla_bytes NET_MAT_TABLE_ATTR_MATCHES [])
      rw [List.length_append, nla_bytes_nil_length] at t1
      by_cases hc2 : (matches_bytes t.«matches»).length ≤ skb_tailroom skb - b.length - 4
      · rw [r1.1 (by omega)]
        simp only [ne_eq, not_true_eq_false, if_false, sk_buff.append_append]
        have ne1 := nla_nest_end_append (skb.append b) NET_MAT_TABLE_ATTR_MATCHES
          (matches_bytes t.«matches»)
        simp only [sk_buff.append_append, sk_buff.append_data, List.append_assoc] at ne1
        simp only [List.append_assoc]
        rw [ne1]
        have t2 := skb_tailroom_append skb (b ++
          nest_bytes NET_MAT_TABLE_ATTR_MATCHES (matches_bytes t.«matches»))
        rw [List.length_append, nest_bytes_length] at t2
        by_cases hc3 : 4 ≤ skb_tailroom skb - b.length - 4 -
            (matches_bytes t.«matches»).length
        · rw [nla_nest_start_ok _ (by omega)]
          simp only [sk_buff.append_append, sk_buff.append_data]
          have r2 := net_mat_put_table_actions_loop_results (skb.data ++ (b ++
            nest_bytes NET_MAT_TABLE_ATTR_MATCHES (matches_bytes t.«matches»))).length t.actions
            (skb.append ((b ++ nest_bytes NET_MAT_TABLE_ATTR_MATCHES
              (matches_bytes t.«matches»)) ++ nla_bytes NET_MAT_TABLE_ATTR_ACTIONS [])) ta
          have t3 := skb_tailroom_append skb ((b ++
            nest_bytes NET_MAT_TABLE_ATTR_MATCHES (matches_bytes t.«matches»)) ++
            nla_bytes NET_MAT_TABLE_ATTR_ACTIONS [])
          rw [List.length_append, List.length_append, nest_bytes_length,
            nla_bytes_nil_length] at t3
          by_cases hc4 : (table_actions_bytes t.actions).length ≤ skb_tailroom skb -
              b.length - 4 - (matches_bytes t.«matches»).length - 4
          · rw [r2.1 (by omega)]
            simp only [ne_eq, not_true_eq_false, if_false, sk_buff.append_append]
            have ne2 := nla_nest_end_append (skb.append (b ++
              nest_bytes NET_MAT_TABLE_ATTR_MATCHES (matches_bytes t.«matches»)))
              NET_MAT_TABLE_ATTR_ACTIONS (table_actions_bytes t.actions)
            simp only [sk_buff.append_append, sk_buff.append_data, List.append_assoc] at ne2
            simp only [List.append_assoc]
            rw [ne2]
            exact Results.of_ok rfl (by omega)
          · obtain ⟨e, s', hr, he⟩ := r2.2 (by omega)
            rw [hr]
            simp only [ne_eq, he, not_false_eq_true, if_true]
            exact Results.of_fail rfl he (by omega)
        · rw [nla_nest_start_short _ (by omega)]
          exact Results.of_fail rfl EMSGSIZE_ne (by omega)
      · obtain ⟨e, s', hr, he⟩ := r1.2 (by omega)
        rw [hr]
        simp only [ne_eq, he, not_false_eq_true, if_true]
        exact Results.of_fail rfl he (by omega)
    · rw [nla_nest_start_short _ (by omega)]
      exact Results.of_fail rfl EMSGSIZE_ne (by omega)
  · rw [if_pos (w0.2 (by omega))]
    exact Results.of_fail rfl EMSGSIZE_ne (by omega)

theorem net_mat_put_tables_loop_results (skb0 : sk_buff) (ts : List (Option net_mat_table)) :
    ∀ (pre : List Nat), tables_terminated ts → (∀ t ∈ table_entries ts, table_terminated t) →
      Results (net_mat_put_tables_loop skb0.data.length
          (skb0.append (nla_bytes NET_MAT_TABLES [] ++ pre)) ts)
        (((table_entries ts).flatMap table_record_bytes).length ≤
          skb_tailroom (skb0.append (nla_bytes NET_MAT_TABLES [] ++ pre)))
        (skb0.append (nest_bytes NET_MAT_TABLES
          (pre ++ (table_entries ts).flatMap table_record_bytes))) := by
  induction ts with
  | nil => intro pre h; exact absurd h (by simp [tables_terminated])
  | cons ot rest ih =>
    intro pre hterm hwf
    cases ot with
    | none => exact absurd hterm (by simp [tables_terminated])
    | some tbl =>
      simp only [net_mat_put_tables_loop]
      by_cases hu : tbl.uid = 0
      · rw [if_pos hu]
        have : table_entries (some tbl :: rest) = [] := by simp [table_entries, hu]
        rw [this]
        exact Results.of_ok (by rw [nla_nest_end_append]; simp) (by simp)
      · have he : table_entries (some tbl :: rest) = tbl :: table_entries rest := by
          simp [table_entries, hu]
        rw [he] at hwf ⊢
        have hn : table_terminated tbl := hwf tbl (List.mem_cons_self _ _)
        have hr : ∀ x ∈ table_entries rest, table_terminated x :=
          fun x hx => hwf x (List.mem_cons_of_mem _ hx)
        have hterm' : tables_terminated rest := by
          simp only [tables_terminated] at hterm
          exact hterm.resolve_left hu
        rw [if_neg hu]
        simp only [List.flatMap_cons, List.length_append]
        generalize hS : skb0.append (nla_bytes NET_MAT_TABLES [] ++ pre) = S
        have t1 := skb_tailroom_append S (nla_bytes NET_MAT_TABLE [])
        rw [nla_bytes_nil_length] at t1
        by_cases hc : 4 ≤ skb_tailroom S
        · rw [nla_nest_start_ok _ hc]
          simp only []
          have rn := net_mat_put_table_results tbl (S.append (nla_bytes NET_MAT_TABLE [])) hn
          by_cases hc1 : (table_bytes tbl).length ≤ skb_tailroom S - 4
          · rw [rn.1 (by omega)]
            simp only [ne_eq, not_true_eq_false, if_false, sk_buff.append_append]
            rw [nla_nest_end_append, ← hS]
            simp only [sk_buff.append_append, List.append_assoc]
            have := ih (pre ++ table_record_bytes tbl) hterm' hr
            simp only [List.append_assoc, table_record_bytes] at this
            refine this.congr ?_ (by simp only [table_record_bytes])
            subst hS
            simp only [skb_tailroom_append, List.length_append, nla_bytes_nil_length,
              nest_bytes_length, table_record_bytes] at hc hc1 ⊢
            omega
          · obtain ⟨e, s', hr', he'⟩ := rn.2 (by omega)
            rw [hr']
            simp only [ne_eq, he', not_false_eq_true, if_true]
            exact Results.of_fail rfl he'
              (by simp only [table_record_bytes, nest_bytes_length]; omega)
        · rw [nla_nest_start_short _ (by omega)]
          exact Results.of_fail rfl EMSGSIZE_ne
            (by simp only [table_record_bytes, nest_bytes_length]; omega)

theorem net_mat_put_tables_results (skb : sk_buff) (ts : List (Option net_mat_table))
    (hterm : tables_terminated ts) (hwf : ∀ t ∈ table_entries ts, table_terminated t) :
    Results (net_mat_put_tables skb ts) ((tables_bytes ts).length ≤ skb_tailroom skb)
      (skb.append (tables_bytes ts)) := by
  simp only [net_mat_put_tables, tables_bytes, nest_bytes_length]
  by_cases hc : 4 ≤ skb_tailroom skb
  · rw [nla_nest_start_ok _ hc]
    simp only []
    match ts, hterm, hwf with
    | some t :: rest, hterm, hwf =>
      simp only []
      have := net_mat_put_tables_loop_results skb (some t :: rest) [] hterm hwf
      simp only [List.append_nil, List.nil_append] at this
      refine this.congr ?_ rfl
      rw [skb_tailroom_append, nla_bytes_nil_length]
      omega
  · rw [nla_nest_start_short _ (by omega)]
    exact Results.of_fail rfl EMSGSIZE_ne (by omega)

theorem match_bytes_append_inj {m m' : net_mat_field_ref} {r r' : List Nat}
    (hm : match_valid m) (hm' : match_valid m')
    (h : match_bytes m ++ r = match_bytes m' ++ r') : match_view m = match_view m' ∧ r = r' := by
  have h1 := nest_bytes_append_inj h
  simp only [field_ref_top_bytes, List.append_assoc] at h1
  obtain ⟨e1, h3⟩ := u32_attr_append_inj h1
  obtain ⟨e2, h4⟩ := u32_attr_append_inj h3
  obtain ⟨e3, h5⟩ := u32_attr_append_inj h4
  obtain ⟨e4, h6⟩ := u32_attr_append_inj h5
  obtain ⟨e5, h7⟩ := u32_attr_append_inj h6
  refine ⟨?_, h7⟩
  simp only [match_view, Prod.mk.injEq]
  exact ⟨u32_of_int_inj hm.1 hm'.1 e1, u32_of_int_inj hm.2.1 hm'.2.1 e2,
    u32_of_int_inj hm.2.2.1 hm'.2.2.1 e3, u32_of_int_inj hm.2.2.2.1 hm'.2.2.2.1 e4,
    u32_of_int_inj hm.2.2.2.2 hm'.2.2.2.2 e5⟩

theorem matches_stream_sync (ms : List net_mat_field_ref) :
    ∀ (ms' : List net_mat_field_ref) (x x' r r' : List Nat),
      (∀ m ∈ ms, match_valid m) → (∀ m ∈ ms', match_valid m) →
      ms.flatMap match_bytes ++ (nest_bytes NET_MAT_TABLE_ATTR_ACTIONS x ++ r) =
        ms'.flatMap match_bytes ++ (nest_bytes NET_MAT_TABLE_ATTR_ACTIONS x' ++ r') →
      ms.map match_view = ms'.map match_view ∧
        nest_bytes NET_MAT_TABLE_ATTR_ACTIONS x ++ r =
          nest_bytes NET_MAT_TABLE_ATTR_ACTIONS x' ++ r' := by
  induction ms with
  | nil =>
    intro ms' x x' r r' _ _ he
    cases ms' with
    | nil => exact ⟨rfl, by simpa using he⟩
    | cons y t =>
      exfalso
      simp [match_bytes, nest_bytes_eq, NET_MAT_TABLE_ATTR_ACTIONS, NET_MAT_FIELD_REF] at he
  | cons y t ih =>
    intro ms' x x' r r' ha hb he
    cases ms' with
    | nil =>
      exfalso
      simp [match_bytes, nest_bytes_eq, NET_MAT_TABLE_ATTR_ACTIONS, NET_MAT_FIELD_REF] at he
    | cons y' t' =>
      simp only [List.flatMap_cons, List.append_assoc] at he
      obtain ⟨e1, e2⟩ := match_bytes_append_inj (ha y (List.mem_cons_self _ _))
        (hb y' (List.mem_cons_self _ _)) he
      obtain ⟨e3, e4⟩ := ih t' x x' r r' (fun h hh => ha h (List.mem_cons_of_mem _ hh))
        (fun h hh => hb h (List.mem_cons_of_mem _ hh)) e2
      exact ⟨by simp only [List.map_cons, e1, e3], e4⟩

theorem table_record_bytes_ne_nil (t : net_mat_table) (r : List Nat) :
    table_record_bytes t ++ r ≠ [] := by
  simp [table_record_bytes, nest_bytes_eq]

theorem actions_tables_sync (as : List Nat) :
    ∀ (as' : List Nat) (t t' : List net_mat_table),
      (∀ a ∈ as, u32_ok a) → (∀ a ∈ as', u32_ok a) →
      as.flatMap (fun a => u32_attr NET_MAT_ACTION_ATTR_UID a) ++
          t.flatMap table_record_bytes =
        as'.flatMap (fun a => u32_attr NET_MAT_ACTION_ATTR_UID a) ++
          t'.flatMap table_record_bytes →
      as = as' ∧ t.flatMap table_record_bytes = t'.flatMap table_record_bytes := by
  induction as with
  | nil =>
    intro as' t t' _ _ he
    cases as' with
    | nil => exact ⟨rfl, by simpa using he⟩
    | cons y r =>
      exfalso
      cases t with
      | nil => simp [u32_attr_eq] at he
      | cons t1 t2 =>
        simp [table_record_bytes, nest_bytes_eq, u32_attr_eq, NET_MAT_TABLE,
          NET_MAT_ACTION_ATTR_UID] at he
  | cons y r ih =>
    intro as' t t' ha hb he
    cases as' with
    | nil =>
      exfalso
      cases t' with
      | nil => simp [u32_attr_eq] at he
      | cons t1 t2 =>
        simp [table_record_bytes, nest_bytes_eq, u32_attr_eq, NET_MAT_TABLE,
          NET_MAT_ACTION_ATTR_UID] at he
    | cons y' r' =>
      simp only [List.flatMap_cons, List.append_assoc] at he
      obtain ⟨e1, e2⟩ := u32_attr_append_inj he
      obtain ⟨e3, e4⟩ := ih r' t t' (fun h hh => ha h (List.mem_cons_of_mem _ hh))
        (fun h hh => hb h (List.mem_cons_of_mem _ hh)) e2
      have u1 := ha y (List.mem_cons_self _ _)
      have u2 := hb y' (List.mem_cons_self _ _)
      unfold u32_ok at u1 u2
      refine ⟨?_, e4⟩
      rw [e3]
      congr 1
      omega

theorem tables_stream_inj (ts : List net_mat_table) :
    ∀ ts' : List net_mat_table, (∀ t ∈ ts, table_valid t) → (∀ t ∈ ts', table_valid t) →
      ts.flatMap table_record_bytes = ts'.flatMap table_record_bytes →
      ts.map table_view = ts'.map table_view := by
  induction ts with
  | nil =>
    intro ts' _ _ he
    cases ts' with
    | nil => rfl
    | cons n' t' =>
      simp only [List.flatMap_nil, List.flatMap_cons] at he
      exact absurd he.symm (table_record_bytes_ne_nil n' _)
  | cons n t ih =>
    intro ts' hv hv' he
    cases ts' with
    | nil =>
      simp only [List.flatMap_nil, List.flatMap_cons] at he
      exact absurd he (table_record_bytes_ne_nil n _)
    | cons n' t' =>
      obtain ⟨v1, v2, v3, v4, v5, -, v7, v8⟩ := hv n (List.mem_cons_self _ _)
      obtain ⟨w1, w2, w3, w4, w5, -, w7, w8⟩ := hv' n' (List.mem_cons_self _ _)
      have vt : ∀ x ∈ t, table_valid x := fun x hx => hv x (List.mem_cons_of_mem _ hx)
      have vt' : ∀ x ∈ t', table_valid x := fun x hx => hv' x (List.mem_cons_of_mem _ hx)
      simp only [List.flatMap_cons] at he
      have h1 := nest_bytes_append_inj he
      simp only [table_bytes, List.append_assoc] at h1
      obtain ⟨e1, h2⟩ := string_attr_append_inj v1 w1 h1
      obtain ⟨e2, h3⟩ := u32_attr_append_inj h2
      obtain ⟨e3, h4⟩ := u32_attr_append_inj h3
      obtain ⟨e4, h5⟩ := u32_attr_append_inj h4
      obtain ⟨e5, h6⟩ := u32_attr_append_inj h5
      have h7 := nest_bytes_append_inj h6
      obtain ⟨e6, h8⟩ := matches_stream_sync _ _ _ _ _ _ v7 w7 h7
      have h9 := nest_bytes_append_inj h8
      obtain ⟨e7, e8⟩ := actions_tables_sync _ _ t t' v8 w8 h9
      have e9 := ih t' vt vt' e8
      unfold u32_ok at v2 v3 v4 v5 w2 w3 w4 w5
      have f2 : n.uid = n'.uid := by omega
      have f3 : n.source = n'.source := by omega
      have f4 : n.apply_action = n'.apply_action := by omega
      have f5 : n.size = n'.size := by omega
      simp only [List.map_cons, table_view, e1, f2, f3, f4, f5, e6, e7, e9]

theorem net_mat_put_tables_data {skb s : sk_buff} {ts : List (Option net_mat_table)}
    (hv : tables_valid ts) (hr : net_mat_put_tables skb ts = some (0, s)) :
    s.data.drop skb.data.length = tables_bytes ts := by
  have := ((net_mat_put_tables_results skb ts hv.1
    (fun t ht => (hv.2 t ht).2.2.2.2.2.1)).eq_of_ok hr).1
  rw [this]
  simp

theorem net_mat_put_table_actions_loop_ok_mem (actions : Nat) (l : List Nat) :
    ∀ (skb s : sk_buff), net_mat_put_table_actions_loop actions skb l = some (0, s) → 0 ∈ l := by
  induction l with
  | nil => intro skb s h; simp [net_mat_put_table_actions_loop] at h
  | cons x rest ih =>
    intro skb s h
    simp only [net_mat_put_table_actions_loop] at h
    split at h
    · rename_i hx; simp [hx]
    · split at h
      · simp only [Option.some.injEq, Prod.mk.injEq] at h
        exact absurd h.1 EMSGSIZE_ne
      · exact List.mem_cons_of_mem _ (ih _ _ h)

theorem net_mat_put_matches_loop_ok_mem (mnest : Nat) (l : List net_mat_field_ref) :
    ∀ (skb s : sk_buff), net_mat_put_matches_loop mnest skb l = some (0, s) →
      ∃ m ∈ l, m.«instance» = 0 := by
  induction l with
  | nil => intro skb s h; simp [net_mat_put_matches_loop] at h
  | cons x rest ih =>
    intro skb s h
    simp only [net_mat_put_matches_loop] at h
    split at h
    · rename_i hx; exact ⟨x, List.mem_cons_self _ _, hx⟩
    · split at h
      · simp only [Option.some.injEq, Prod.mk.injEq] at h
        exact absurd h.1 EMSGSIZE_ne
      · split at h
        · simp only [Option.some.injEq, Prod.mk.injEq] at h
          exact absurd h.1 EMSGSIZE_ne
        · obtain ⟨m, hm, h0⟩ := ih _ _ h
          exact ⟨m, List.mem_cons_of_mem _ hm, h0⟩

theorem net_mat_put_table_ok_terminated {skb s : sk_buff} {t : net_mat_table}
    (h : net_mat_put_table skb t = some (0, s)) : table_terminated t := by
  simp only [net_mat_put_table] at h
  split at h
  · simp only [Option.some.injEq, Prod.mk.injEq] at h
    exact absurd h.1 EMSGSIZE_ne
  · split at h
    · simp only [Option.some.injEq, Prod.mk.injEq] at h
      exact absurd h.1 EMSGSIZE_ne
    · split at h
      · cases h
      · rename_i e1 skb2 h2
        split at h
        · rename_i he
          simp only [Option.some.injEq, Prod.mk.injEq] at h
          exact absurd h.1 he
        · rename_i he
          have he0 : e1 = 0 := by simpa using he
          subst he0
          split at h
          · simp only [Option.some.injEq, Prod.mk.injEq] at h
            exact absurd h.1 EMSGSIZE_ne
          · split at h
            · cases h
            · rename_i e2 skb4 h4
              split at h
              · rename_i he2
                simp only [Option.some.injEq, Prod.mk.injEq] at h
                exact absurd h.1 he2
              · rename_i he2
                have he20 : e2 = 0 := by simpa using he2
                subst he20
                exact ⟨net_mat_put_matches_loop_ok_mem _ _ _ _ h2,
                  net_mat_put_table_actions_loop_ok_mem _ _ _ _ h4⟩

theorem net_mat_put_table_data {skb s : sk_buff} {t : net_mat_table}
    (h : net_mat_put_table skb t = some (0, s)) : s = skb.append (table_bytes t) :=
  ((net_mat_put_table_results t skb (net_mat_put_table_ok_terminated h)).eq_of_ok h).1

/-! ## The query handlers -/

theorem reply_head_length (f p s c : Nat) (i : Int) : (reply_head f p s c i).length = 36 := by
  simp [reply_head, u32_attr_length, le_bytes_length]

theorem put32_drop (d : List Nat) (v : Nat) : (put32 d 0 v).drop 4 = d.drop 4 := by
  match d with
  | [] => rfl
  | [_] => rfl
  | [_, _] => rfl
  | [_, _, _] => rfl
  | _ :: _ :: _ :: _ :: _ => rfl

theorem reply_msg_body (head body : List Nat) (room : Nat) (h : head.length = 36) :
    (reply_msg head body room).data.drop 36 = body := by
  have : (reply_msg head body room).data.drop 36 =
      ((put32 (head ++ body) 0 ((head ++ body).length - 0)).drop 4).drop 32 := by
    rw [List.drop_drop]
    rfl
  rw [this, put32_drop, List.drop_drop]
  have e : 4 + 32 = head.length := by omega
  rw [e, List.drop_left]

/-- The message builders after the head has been written: the result is decided by the
encoder of the body. -/
theorem net_mat_build_msg_eq (env : kernel_env) (put : sk_buff → Option (Int × sk_buff))
    (dev : net_device) (portid seq cmd : Nat) (eff : handler_effects) (room : Nat)
    (hn : env.nlmsg_new = some room) (hr : 36 ≤ room) :
    net_mat_build_msg env put dev portid seq cmd eff =
      match put ⟨reply_head env.family_id portid seq cmd dev.ifindex, room⟩ with
      | none => none
      | some (err, skb2) =>
        if err < 0 then
          some (.error err,
            { eff with nlmsg_new := eff.nlmsg_new + 1, nlmsg_free := eff.nlmsg_free + 1 })
        else some (.ok (genlmsg_end skb2 0), { eff with nlmsg_new := eff.nlmsg_new + 1 }) := by
  have w := (Writes_u32 NET_MAT_IDENTIFIER_TYPE NET_MAT_IDENTIFIER_IFINDEX).or
    (Writes_u32 NET_MAT_IDENTIFIER (u32_of_int dev.ifindex))
  simp only [net_mat_build_msg, hn, genlmsg_put]
  have h20 : ¬ skb_tailroom ⟨[], room⟩ < NLMSG_HDRLEN + GENL_HDRLEN := by
    simp [skb_tailroom, NLMSG_HDRLEN, GENL_HDRLEN]; omega
  rw [if_neg h20]
  simp only []
  have hw := (w ⟨[] ++ (le_bytes 4 (NLMSG_HDRLEN + GENL_HDRLEN) ++ le_bytes 2 env.family_id ++
      le_bytes 2 0 ++ le_bytes 4 seq ++ le_bytes 4 portid ++
      (le_bytes 1 cmd ++ le_bytes 1 NET_MAT_GENL_VERSION ++ le_bytes 2 0)), room⟩).1
    (by simp [skb_tailroom, u32_attr_length, le_bytes_length]; omega)
  beta_reduce at hw
  rw [hw]
  simp only [ne_eq, not_true_eq_false, if_false, sk_buff.append, reply_head, List.nil_append,
    List.length_nil]

theorem net_mat_build_msg_ok {env : kernel_env} {put : sk_buff → Option (Int × sk_buff)}
    {dev : net_device} {portid seq cmd : Nat} {eff : handler_effects} {room : Nat}
    {body : List Nat}
    (hn : env.nlmsg_new = some room) (hr : 36 ≤ room)
    (hp : put ⟨reply_head env.family_id portid seq cmd dev.ifindex, room⟩ =
      some (0, sk_buff.append ⟨reply_head env.family_id portid seq cmd dev.ifindex, room⟩ body)) :
    net_mat_build_msg env put dev portid seq cmd eff =
      some (.ok (reply_msg (reply_head env.family_id portid seq cmd dev.ifindex) body room),
        { eff with nlmsg_new := eff.nlmsg_new + 1 }) := by
  rw [net_mat_build_msg_eq env put dev portid seq cmd eff room hn hr, hp]
  rfl

theorem net_mat_build_msg_fits (env : kernel_env) (put : sk_buff → Option (Int × sk_buff))
    (dev : net_device) (portid seq cmd : Nat) (eff : handler_effects) {room : Nat}
    {body : List Nat}
    (hn : env.nlmsg_new = some room) (hr : 36 + body.length ≤ room)
    (hp : ∀ skb : sk_buff, Results (put skb) (body.length ≤ skb_tailroom skb) (skb.append body)) :
    net_mat_build_msg env put dev portid seq cmd eff =
      some (.ok (reply_msg (reply_head env.family_id portid seq cmd dev.ifindex) body room),
        { eff with nlmsg_new := eff.nlmsg_new + 1 }) := by
  refine net_mat_build_msg_ok hn (by omega) ((hp _).1 ?_)
  simp only [skb_tailroom, reply_head_length]
  omega

theorem get_headers_reply {env : kernel_env} {info : genl_info} {dev : net_device}
    {h : List net_mat_header} {room : Nat}
    (hd : net_mat_get_dev info = some dev)
    (hsel : dev.netdev_ops.ndo_mat_get_headers = some (some h) ∨
      (dev.netdev_ops.ndo_mat_get_headers = none ∧ h = net_mat_linux_header_list))
    (hc : ∀ x ∈ h, header_counted x)
    (hn : env.nlmsg_new = some room) (hr : 36 + (headers_bytes h).length ≤ room) :
    net_mat_table_cmd_get_headers env info =
      some (env.genlmsg_reply (reply_msg (reply_head env.family_id info.snd_portid info.snd_seq
          NET_MAT_TABLE_CMD_GET_HEADERS dev.ifindex) (headers_bytes h) room),
        replied (reply_msg (reply_head env.family_id info.snd_portid info.snd_seq
          NET_MAT_TABLE_CMD_GET_HEADERS dev.ifindex) (headers_bytes h) room)) := by
  have hb := net_mat_build_msg_fits env (fun skb => net_mat_put_headers skb h) dev
    info.snd_portid info.snd_seq NET_MAT_TABLE_CMD_GET_HEADERS no_effects hn hr
    (fun skb => net_mat_put_headers_results skb h hc)
  simp only [net_mat_table_cmd_get_headers, hd]
  rcases hsel with hs | ⟨hs, rfl⟩
  · simp only [hs, net_mat_build_headers_msg, hb]
    rfl
  · simp only [hs, net_mat_build_headers_msg, hb]
    rfl

theorem get_header_graph_reply {env : kernel_env} {info : genl_info} {dev : net_device}
    {g : List net_mat_header_node} {room : Nat}
    (hd : net_mat_get_dev info = some dev)
    (hsel : dev.netdev_ops.ndo_mat_get_hdr_graph = some (some g) ∨
      (dev.netdev_ops.ndo_mat_get_hdr_graph = none ∧ g = net_mat_linux_header_graph))
    (hc : ∀ x ∈ g, node_terminated x)
    (hn : env.nlmsg_new = some room) (hr : 36 + (header_graph_bytes g).length ≤ room) :
    net_mat_table_cmd_get_header_graph env info =
      some (env.genlmsg_reply (reply_msg (reply_head env.family_id info.snd_portid info.snd_seq
          NET_MAT_TABLE_CMD_GET_HEADER_GRAPH dev.ifindex) (header_graph_bytes g) room),
        replied (reply_msg (reply_head env.family_id info.snd_portid info.snd_seq
          NET_MAT_TABLE_CMD_GET_HEADER_GRAPH dev.ifindex) (header_graph_bytes g) room)) := by
  have hb := net_mat_build_msg_fits env (fun skb => net_mat_put_header_graph skb g) dev
    info.snd_portid info.snd_seq NET_MAT_TABLE_CMD_GET_HEADER_GRAPH no_effects hn hr
    (fun skb => net_mat_put_header_graph_results skb g hc)
  simp only [net_mat_table_cmd_get_header_graph, hd]
  rcases hsel with hs | ⟨hs, rfl⟩
  · simp only [hs, net_mat_build_header_graph_msg, hb]
    rfl
  · simp only [hs, net_mat_build_header_graph_msg, hb]
    rfl

set_option maxRecDepth 100000 in
theorem default_headers_valid : ∀ h ∈ net_mat_linux_header_list, header_valid h := by
  decide

set_option maxRecDepth 100000 in
theorem default_headers_length : (headers_bytes net_mat_linux_header_list).length = 1388 := by
  decide

set_option maxRecDepth 100000 in
theorem default_graph_valid : ∀ n ∈ net_mat_linux_header_graph, node_valid n := by
  decide

set_option maxRecDepth 100000 in
theorem default_graph_length : (header_graph_bytes net_mat_linux_header_graph).length = 1420 := by
  decide

theorem net_mat_put_tables_null_first (skb : sk_buff) (rest : List (Option net_mat_table))
    (hc : 4 ≤ skb_tailroom skb) : net_mat_put_tables skb (none :: rest) = some (0, skb) := by
  simp only [net_mat_put_tables, nla_nest_start_ok _ hc, nla_nest_cancel, sk_buff.append,
    List.take_left]

theorem net_mat_put_tables_uid_zero_first (skb : sk_buff) (t : net_mat_table)
    (rest : List (Option net_mat_table)) (hu : t.uid = 0) (hc : 4 ≤ skb_tailroom skb) :
    net_mat_put_tables skb (some t :: rest) =
      some (0, skb.append (nest_bytes NET_MAT_TABLES [])) := by
  have := nla_nest_end_append skb NET_MAT_TABLES []
  rw [List.append_nil] at this
  simp only [net_mat_put_tables, nla_nest_start_ok _ hc, net_mat_put_tables_loop, if_pos hu, this]

theorem get_tables_reply {env : kernel_env} {info : genl_info} {dev : net_device}
    {ts : List (Option net_mat_table)} {room : Nat} {body : List Nat}
    (hd : net_mat_get_dev info = some dev)
    (hop : dev.netdev_ops.ndo_mat_get_tables = some (some ts))
    (hn : env.nlmsg_new = some room) (hr : 36 ≤ room)
    (hp : net_mat_put_tables ⟨reply_head env.family_id info.snd_portid info.snd_seq
        NET_MAT_TABLE_CMD_GET_TABLES dev.ifindex, room⟩ ts =
      some (0, sk_buff.append ⟨reply_head env.family_id info.snd_portid info.snd_seq
        NET_MAT_TABLE_CMD_GET_TABLES dev.ifindex, room⟩ body)) :
    net_mat_table_cmd_get_tables env info =
      some (env.genlmsg_reply (reply_msg (reply_head env.family_id info.snd_portid info.snd_seq
          NET_MAT_TABLE_CMD_GET_TABLES dev.ifindex) body room),
        replied (reply_msg (reply_head env.family_id info.snd_portid info.snd_seq
          NET_MAT_TABLE_CMD_GET_TABLES dev.ifindex) body room)) := by
  have hb : net_mat_build_msg env (fun skb => net_mat_put_tables skb ts) dev info.snd_portid
      info.snd_seq NET_MAT_TABLE_CMD_GET_TABLES no_effects = _ :=
    net_mat_build_msg_ok hn hr hp
  simp only [net_mat_table_cmd_get_tables, hd, hop, net_mat_build_tables_msg, hb]
  rfl

/-! ## What the action encoders append -/

theorem ENOMEM_ne : -ENOMEM ≠ 0 := by decide

theorem Writes_act_arg_value (a : net_mat_action_arg) :
    Writes (fun s => net_mat_put_act_arg_value s a) (act_arg_value_bytes a) := by
  unfold net_mat_put_act_arg_value act_arg_value_bytes
  by_cases h1 : a.type = NET_MAT_ACTION_ARG_TYPE_U8
  · simp only [h1, if_true]
    exact Writes_u8 _ _
  · by_cases h2 : a.type = NET_MAT_ACTION_ARG_TYPE_U16
    · simp only [h1, h2, if_true, if_false]
      exact Writes_u16 _ _
    · by_cases h3 : a.type = NET_MAT_ACTION_ARG_TYPE_U32
      · simp only [h1, h2, h3, if_true, if_false]
        exact Writes_u32 _ _
      · by_cases h4 : a.type = NET_MAT_ACTION_ARG_TYPE_U64
        · simp only [h1, h2, h3, h4, if_true, if_false]
          exact Writes_u64 _ _
        · simp only [h1, h2, h3, h4, if_false]
          exact Writes_nil

theorem act_args_bytes_cons_ne {a : net_mat_action_arg} (rest : List net_mat_action_arg)
    (h : a.type ≠ 0) : act_args_bytes (a :: rest) = act_arg_bytes a ++ act_args_bytes rest := by
  simp [act_args_bytes, act_arg_entries, h]

theorem act_args_bytes_cons_zero {a : net_mat_action_arg} (rest : List net_mat_action_arg)
    (h : a.type = 0) : act_args_bytes (a :: rest) = [] := by
  simp [act_args_bytes, act_arg_entries, h]

theorem net_mat_put_act_args_results (l : List net_mat_action_arg) :
    ∀ skb : sk_buff, (∃ a ∈ l, a.type = 0) →
      Results (net_mat_put_act_args skb l)
        ((act_args_bytes l).length ≤ skb_tailroom skb) (skb.append (act_args_bytes l)) := by
  induction l with
  | nil => intro skb h; simp at h
  | cons a rest ih =>
    intro skb hmem
    simp only [net_mat_put_act_args]
    by_cases ha : a.type = 0
    · rw [if_pos ha, act_args_bytes_cons_zero rest ha]
      exact Results.of_ok (by simp) (by simp)
    · have hrest : ∃ x ∈ rest, x.type = 0 := by
        obtain ⟨k, hk, hk0⟩ := hmem
        rcases List.mem_cons.1 hk with h | h
        · subst h; exact absurd hk0 ha
        · exact ⟨k, h, hk0⟩
      rw [if_neg ha, act_args_bytes_cons_ne rest ha]
      simp only [act_arg_bytes, List.length_append, nest_bytes_length]
      by_cases hc : 4 ≤ skb_tailroom skb
      · rw [nla_nest_start_ok _ hc]
        simp only []
        have w1 := Writes_string NET_MAT_ACTION_ARG_NAME a.name
          (skb.append (nla_bytes NET_MAT_ACTION_ARGS []))
        beta_reduce at w1
        have t1 := skb_tailroom_append skb (nla_bytes NET_MAT_ACTION_ARGS [])
        have n1 : (nla_bytes NET_MAT_ACTION_ARGS []).length = 4 := by
          rw [nla_bytes_length]; rfl
        by_cases hc1 : (string_attr NET_MAT_ACTION_ARG_NAME a.name).length ≤
            skb_tailroom skb - 4
        · rw [w1.1 (by omega), if_neg (by simp)]
          simp only [sk_buff.append_append]
          have w2 := Writes_u32 NET_MAT_ACTION_ARG_TYPE a.type
            (skb.append (nla_bytes NET_MAT_ACTION_ARGS [] ++
            string_attr NET_MAT_ACTION_ARG_NAME a.name))
          beta_reduce at w2
          have t2 := skb_tailroom_append skb (nla_bytes NET_MAT_ACTION_ARGS [] ++
            string_attr NET_MAT_ACTION_ARG_NAME a.name)
          rw [List.length_append] at t2
          by_cases hc2 : (u32_attr NET_MAT_ACTION_ARG_TYPE a.type).length ≤
              skb_tailroom skb - 4 - (string_attr NET_MAT_ACTION_ARG_NAME a.name).length
          · rw [w2.1 (by omega), if_neg (by simp)]
            simp only [sk_buff.append_append]
            have w3 := Writes_act_arg_value a (skb.append
              (nla_bytes NET_MAT_ACTION_ARGS [] ++
              string_attr NET_MAT_ACTION_ARG_NAME a.name ++
              u32_attr NET_MAT_ACTION_ARG_TYPE a.type))
            beta_reduce at w3
            have t3 := skb_tailroom_append skb (nla_bytes NET_MAT_ACTION_ARGS [] ++
              string_attr NET_MAT_ACTION_ARG_NAME a.name ++
              u32_attr NET_MAT_ACTION_ARG_TYPE a.type)
            rw [List.length_append, List.length_append] at t3
            by_cases hc3 : (act_arg_value_bytes a).length ≤ skb_tailroom skb - 4 -
                (string_attr NET_MAT_ACTION_ARG_NAME a.name).length -
                (u32_attr NET_MAT_ACTION_ARG_TYPE a.type).length
            · rw [w3.1 (by omega), if_neg (by simp)]
              simp only [sk_buff.append_append, List.append_assoc]
              rw [nla_nest_end_append]
              refine (ih _ hrest).congr ?_ (by simp [nest_bytes, List.append_assoc])
              rw [skb_tailroom_append, nest_bytes_length]
              simp only [List.length_append]
              omega
            · rw [if_pos (w3.2 (by omega))]
              exact Results.of_fail rfl EMSGSIZE_ne (by omega)
          · rw [if_pos (w2.2 (by omega))]
            exact Results.of_fail rfl EMSGSIZE_ne (by omega)
        · rw [if_pos (w1.2 (by omega))]
          exact Results.of_fail rfl EMSGSIZE_ne (by omega)
      · rw [nla_nest_start_short _ (by omega)]
        exact Results.of_fail rfl ENOMEM_ne (by omega)

theorem count_args_some (l : List net_mat_action_arg) (h : ∃ a ∈ l, strlen a.name = 0) :
    ∃ n, count_args l = some n := by
  induction l with
  | nil => simp at h
  | cons a rest ih =>
    simp only [count_args]
    by_cases ha : strlen a.name > 0
    · rw [if_pos ha]
      obtain ⟨k, hk, hk0⟩ := h
      rcases List.mem_cons.1 hk with e | e
      · subst e; omega
      · obtain ⟨n, hn⟩ := ih ⟨k, e, hk0⟩
        exact ⟨n + 1, by rw [hn]; rfl⟩
    · rw [if_neg ha]
      exact ⟨0, rfl⟩

theorem net_mat_put_action_results (a : net_mat_action) (skb : sk_buff)
    (ht : action_terminated a) :
    Results (net_mat_put_action skb a) ((action_bytes a).length ≤ skb_tailroom skb)
      (skb.append (action_bytes a)) := by
  simp only [net_mat_put_action, action_bytes, List.length_append]
  have w1 := Writes_string NET_MAT_ACTION_ATTR_NAME a.name skb
  beta_reduce at w1
  have t1 := skb_tailroom_append skb (string_attr NET_MAT_ACTION_ATTR_NAME a.name)
  have w2 := Writes_u32 NET_MAT_ACTION_ATTR_UID a.uid
    (skb.append (string_attr NET_MAT_ACTION_ATTR_NAME a.name))
  beta_reduce at w2
  have t2 := skb_tailroom_append skb (string_attr NET_MAT_ACTION_ATTR_NAME a.name ++
    u32_attr NET_MAT_ACTION_ATTR_UID a.uid)
  rw [List.length_append] at t2
  generalize hb1 : string_attr NET_MAT_ACTION_ATTR_NAME a.name = b1 at *
  generalize hb2 : u32_attr NET_MAT_ACTION_ATTR_UID a.uid = b2 at *
  by_cases hc1 : b1.length ≤ skb_tailroom skb
  · rw [w1.1 hc1, if_neg (by simp)]
    simp only []
    by_cases hc2 : b2.length ≤ skb_tailroom skb - b1.length
    · rw [w2.1 (by omega), if_neg (by simp)]
      simp only [sk_buff.append_append]
      unfold action_terminated at ht
      cases hargs : a.args with
      | none =>
        simp only [signature_bytes]
        exact Results.of_ok (by simp) (by simp; omega)
      | some as =>
        rw [hargs] at ht
        simp only [] at ht
        obtain ⟨n, hn⟩ := count_args_some as ht.1
        simp only [signature_bytes, hn]
        by_cases h0 : n = 0
        · subst h0
          simp only [ne_eq, not_true_eq_false, if_false, if_true]
          exact Results.of_ok (by simp) (by simp; omega)
        · have hne : ¬ (some n = some 0) := by simpa using h0
          rw [if_pos h0, if_neg hne]
          simp only [nest_bytes_length]
          by_cases hc3 : 4 ≤ skb_tailroom skb - b1.length - b2.length
          · rw [nla_nest_start_ok _ (by omega)]
            simp only [sk_buff.append_append, sk_buff.append_data]
            have ra := net_mat_put_act_args_results as (skb.append (b1 ++ b2 ++
              nla_bytes NET_MAT_ACTION_ATTR_SIGNATURE [])) (ht.2 (by rw [hn]; exact hne))
            have t3 := skb_tailroom_append skb (b1 ++ b2 ++
              nla_bytes NET_MAT_ACTION_ATTR_SIGNATURE [])
            rw [List.length_append, List.length_append, nla_bytes_nil_length] at t3
            by_cases hc4 : (act_args_bytes as).length ≤
                skb_tailroom skb - b1.length - b2.length - 4
            · rw [ra.1 (by omega)]
              simp only [ne_eq, not_true_eq_false, if_false, sk_buff.append_append]
              have ne1 := nla_nest_end_append (skb.append (b1 ++ b2))
                NET_MAT_ACTION_ATTR_SIGNATURE (act_args_bytes as)
              simp only [sk_buff.append_append, sk_buff.append_data, List.append_assoc] at ne1
              simp only [List.append_assoc]
              rw [ne1]
              exact Results.of_ok rfl (by omega)
            · obtain ⟨e, s', hr', he⟩ := ra.2 (by omega)
              rw [hr']
              simp only [ne_eq, he, not_false_eq_true, if_true]
              exact Results.of_fail rfl he (by omega)
          · rw [nla_nest_start_short _ (by omega)]
            exact Results.of_fail rfl EMSGSIZE_ne (by omega)
    · rw [if_pos (w2.2 (by omega))]
      exact Results.of_fail rfl EMSGSIZE_ne (by omega)
  · rw [if_pos (w1.2 (by omega))]
    exact Results.of_fail rfl EMSGSIZE_ne (by omega)

theorem net_mat_put_actions_loop_results (skb0 : sk_buff) (acts : List net_mat_action) :
    ∀ (pre : List Nat), (∀ a ∈ acts, action_terminated a) →
      Results (net_mat_put_actions_loop skb0.data.length
          (skb0.append (nla_bytes NET_MAT_ACTIONS [] ++ pre)) acts)
        ((acts.flatMap action_record_bytes).length ≤
          skb_tailroom (skb0.append (nla_bytes NET_MAT_ACTIONS [] ++ pre)))
        (skb0.append (nest_bytes NET_MAT_ACTIONS (pre ++ acts.flatMap action_record_bytes))) := by
  induction acts with
  | nil =>
    intro pre _
    simp only [net_mat_put_actions_loop]
    exact Results.of_ok (by rw [nla_nest_end_append]; simp) (by simp)
  | cons a rest ih =>
    intro pre hwf
    have hn : action_terminated a := hwf a (List.mem_cons_self _ _)
    have hr : ∀ x ∈ rest, action_terminated x := fun x hx => hwf x (List.mem_cons_of_mem _ hx)
    simp only [net_mat_put_actions_loop, List.flatMap_cons, List.length_append]
    generalize hS : skb0.append (nla_bytes NET_MAT_ACTIONS [] ++ pre) = S
    have t1 := skb_tailroom_append S (nla_bytes NET_MAT_ACTION [])
    rw [nla_bytes_nil_length] at t1
    by_cases hc : 4 ≤ skb_tailroom S
    · rw [nla_nest_start_ok _ hc]
      simp only []
      have rn := net_mat_put_action_results a (S.append (nla_bytes NET_MAT_ACTION [])) hn
      by_cases hc1 : (action_bytes a).length ≤ skb_tailroom S - 4
      · rw [rn.1 (by omega)]
        simp only [ne_eq, not_true_eq_false, if_false, sk_buff.append_append]
        rw [nla_nest_end_append, ← hS]
        simp only [sk_buff.append_append, List.append_assoc]
        have := ih (pre ++ action_record_bytes a) hr
        simp only [List.append_assoc, action_record_bytes] at this
        refine this.congr ?_ (by simp only [action_record_bytes])
        subst hS
        simp only [skb_tailroom_append, List.length_append, nla_bytes_nil_length,
          nest_bytes_length, action_record_bytes] at hc hc1 ⊢
        omega
      · obtain ⟨e, s', hr', he'⟩ := rn.2 (by omega)
        rw [hr']
        simp only [ne_eq, he', not_false_eq_true, if_true]
        exact Results.of_fail rfl EMSGSIZE_ne
          (by simp only [action_record_bytes, nest_bytes_length]; omega)
    · rw [nla_nest_start_short _ (by omega)]
      exact Results.of_fail rfl EMSGSIZE_ne
        (by simp only [action_record_bytes, nest_bytes_length]; omega)

theorem net_mat_put_actions_results (skb : sk_buff) (acts : List net_mat_action)
    (hwf : ∀ a ∈ acts, action_terminated a) :
    Results (net_mat_put_actions skb acts) ((actions_bytes acts).length ≤ skb_tailroom skb)
      (skb.append (actions_bytes acts)) := by
  simp only [net_mat_put_actions, actions_bytes, nest_bytes_length]
  by_cases hc : 4 ≤ skb_tailroom skb
  · rw [nla_nest_start_ok _ hc]
    simp only []
    have := net_mat_put_actions_loop_results skb acts [] hwf
    simp only [List.append_nil, List.nil_append] at this
    refine this.congr ?_ rfl
    rw [skb_tailroom_append, nla_bytes_nil_length]
    omega
  · rw [nla_nest_start_short _ (by omega)]
    exact Results.of_fail rfl EMSGSIZE_ne (by omega)

/-! ## Attribute trees -/

theorem Attrs.bytes_append (a b : Attrs) : (a.append b).bytes = a.bytes ++ b.bytes := by
  induction a with
  | nil => rfl
  | leaf ty p rest ih => simp only [Attrs.append, Attrs.bytes, ih, List.append_assoc]
  | nest ty kids rest _ ih => simp only [Attrs.append, Attrs.bytes, ih, List.append_assoc]

theorem Attrs.bytes_seq {α : Type} (f : α → Attrs) (l : List α) :
    (Attrs.seq f l).bytes = l.flatMap (fun x => (f x).bytes) := by
  induction l with
  | nil => rfl
  | cons x xs ih => simp only [Attrs.seq, Attrs.bytes_append, ih, List.flatMap_cons]

theorem nla_len_nla_bytes (ty : Nat) (p r : List Nat) :
    nla_len (nla_bytes ty p ++ r) = (NLA_HDRLEN + p.length) % 65536 := by
  simp only [nla_len, nla_bytes, le_bytes_two, nla_attr_size, List.cons_append, List.nil_append,
    List.getD_cons_zero, List.getD_cons_succ]
  omega

theorem nla_len_nest_bytes (ty : Nat) (b r : List Nat) :
    nla_len (nest_bytes ty b ++ r) = (NLA_HDRLEN + b.length) % 65536 := by
  simp only [nla_len, nest_bytes, le_bytes_two, List.cons_append, List.nil_append,
    List.getD_cons_zero, List.getD_cons_succ]
  omega

theorem Attrs.bytes_length_mod (t : Attrs) : t.bytes.length % 4 = 0 := by
  induction t with
  | nil => rfl
  | leaf ty p rest ih =>
    simp only [Attrs.bytes, List.length_append, nla_bytes_length, nla_total_size, NLA_ALIGN]
    omega
  | nest ty kids rest ihk ihr =>
    simp only [Attrs.bytes, List.length_append, nest_bytes_length]
    omega

/-- A sequence of attributes of fewer than 65536 bytes is well formed, and the aligned
sizes of its attributes add up to its length. -/
theorem Attrs.wf_of_lt (t : Attrs) :
    t.bytes.length < 65536 → t.wf ∧ t.bytes.length = t.sizes := by
  induction t with
  | nil => intro _; exact ⟨trivial, rfl⟩
  | leaf ty p rest ih =>
    intro h
    have e := nla_len_nla_bytes ty p []
    rw [List.append_nil] at e
    simp only [Attrs.bytes, List.length_append, nla_bytes_length, nla_total_size, NLA_ALIGN,
      nla_attr_size, NLA_HDRLEN] at h
    simp only [NLA_HDRLEN] at e
    obtain ⟨w, s⟩ := ih (by omega)
    simp only [Attrs.wf, Attrs.sizes, Attrs.bytes, List.length_append, nla_bytes_length,
      nla_total_size, NLA_ALIGN, nla_attr_size, NLA_HDRLEN, e]
    refine ⟨⟨by omega, w⟩, ?_⟩
    rw [← s]
    have : (4 + p.length) % 65536 = 4 + p.length := by omega
    rw [this]
  | nest ty kids rest ihk ihr =>
    intro h
    have e := nla_len_nest_bytes ty kids.bytes []
    rw [List.append_nil] at e
    simp only [Attrs.bytes, List.length_append, nest_bytes_length] at h
    simp only [NLA_HDRLEN] at e
    obtain ⟨wk, sk⟩ := ihk (by omega)
    obtain ⟨wr, sr⟩ := ihr (by omega)
    have hm := Attrs.bytes_length_mod kids
    simp only [Attrs.wf, Attrs.sizes, Attrs.bytes, List.length_append, nest_bytes_length,
      NLA_ALIGN, NLA_HDRLEN, e]
    have : (4 + kids.bytes.length) % 65536 = 4 + kids.bytes.length := by omega
    rw [this]
    refine ⟨⟨⟨by omega, sk, wk⟩, wr⟩, ?_⟩
    omega

theorem Attrs.bytes_nil : Attrs.nil.bytes = [] := rfl

theorem Attrs.bytes_leaf (ty : Nat) (p : List Nat) (rest : Attrs) :
    (Attrs.leaf ty p rest).bytes = nla_bytes ty p ++ rest.bytes := rfl

theorem Attrs.bytes_nest (ty : Nat) (kids rest : Attrs) :
    (Attrs.nest ty kids rest).bytes = nest_bytes ty kids.bytes ++ rest.bytes := rfl

theorem field_tree_bytes (f : net_mat_field) : (field_tree f).bytes = field_bytes f := by
  simp only [field_tree, field_bytes, Attrs.bytes_nest, Attrs.bytes_leaf, Attrs.bytes_nil,
    string_attr, u32_attr, List.append_nil, List.append_assoc]

theorem header_tree_bytes (h : net_mat_header) : (header_tree h).bytes = header_bytes h := by
  simp only [header_tree, header_bytes, Attrs.bytes_nest, Attrs.bytes_leaf, Attrs.bytes_nil,
    Attrs.bytes_seq, field_tree_bytes, string_attr, u32_attr, fields_bytes, List.append_nil,
    List.append_assoc]

theorem headers_tree_bytes (hs : List net_mat_header) :
    (headers_tree hs).bytes = headers_bytes hs := by
  simp only [headers_tree, headers_bytes, Attrs.bytes_nest, Attrs.bytes_leaf, Attrs.bytes_nil,
    Attrs.bytes_seq, header_tree_bytes, List.append_nil]

theorem field_ref_top_tree_bytes (r : net_mat_field_ref) (rest : Attrs) :
    (field_ref_top_tree r rest).bytes = field_ref_top_bytes r ++ rest.bytes := by
  simp only [field_ref_top_tree, field_ref_top_bytes, Attrs.bytes_nest, Attrs.bytes_leaf,
    Attrs.bytes_nil, u32_attr, List.append_assoc]

theorem field_ref_vals_tree_bytes (r : net_mat_field_ref) :
    (field_ref_vals_tree r).bytes = field_ref_vals_bytes r := by
  unfold field_ref_vals_tree field_ref_vals_bytes
  split_ifs <;> simp [Attrs.bytes_nest, Attrs.bytes_leaf, Attrs.bytes_nil,
  u8_attr, u16_attr, u32_attr, u64_attr]

theorem jump_entry_tree_bytes (j : net_mat_jump_table) :
    (jump_entry_tree j).bytes = jump_entry_bytes j := by
  simp only [jump_entry_tree, jump_entry_bytes, Attrs.bytes_nest, Attrs.bytes_leaf,
    Attrs.bytes_nil, field_ref_top_tree_bytes, field_ref_vals_tree_bytes, u32_attr,
    List.append_nil, List.append_assoc]

theorem node_tree_bytes (n : net_mat_header_node) : (node_tree n).bytes = node_bytes n := by
  simp only [node_tree, node_bytes, header_node_bytes, Attrs.bytes_nest, Attrs.bytes_leaf,
    Attrs.bytes_nil, Attrs.bytes_seq, jump_entry_tree_bytes, string_attr, u32_attr, hdrs_bytes,
    header_ids, jump_bytes, List.append_nil, List.append_assoc]

theorem header_graph_tree_bytes (g : List net_mat_header_node) :
    (header_graph_tree g).bytes = header_graph_bytes g := by
  simp only [header_graph_tree, header_graph_bytes, Attrs.bytes_nest, Attrs.bytes_leaf,
    Attrs.bytes_nil, Attrs.bytes_seq, node_tree_bytes, List.append_nil]

theorem match_tree_bytes (m : net_mat_field_ref) : (match_tree m).bytes = match_bytes m := by
  simp only [match_tree, match_bytes, Attrs.bytes_nest, Attrs.bytes_leaf, Attrs.bytes_nil,
    field_ref_top_tree_bytes, List.append_nil]

theorem table_tree_bytes (t : net_mat_table) : (table_tree t).bytes = table_record_bytes t := by
  simp only [table_tree, table_record_bytes, table_bytes, Attrs.bytes_nest, Attrs.bytes_leaf,
    Attrs.bytes_nil, Attrs.bytes_seq, match_tree_bytes, string_attr, u32_attr, matches_bytes,
    table_actions_bytes, List.append_nil, List.append_assoc]

theorem tables_tree_bytes (ts : List (Option net_mat_table)) :
    (tables_tree ts).bytes = tables_bytes ts := by
  simp only [tables_tree, tables_bytes, Attrs.bytes_nest, Attrs.bytes_leaf, Attrs.bytes_nil,
    Attrs.bytes_seq, table_tree_bytes, List.append_nil]

theorem act_arg_value_tree_bytes (a : net_mat_action_arg) :
    (act_arg_value_tree a).bytes = act_arg_value_bytes a := by
  unfold act_arg_value_tree act_arg_value_bytes
  split_ifs <;> simp [Attrs.bytes_nest, Attrs.bytes_leaf, Attrs.bytes_nil,
  u8_attr, u16_attr, u32_attr, u64_attr]

theorem act_arg_tree_bytes (a : net_mat_action_arg) : (act_arg_tree a).bytes = act_arg_bytes a := by
  simp only [act_arg_tree, act_arg_bytes, Attrs.bytes_nest, Attrs.bytes_leaf, Attrs.bytes_nil,
    act_arg_value_tree_bytes, string_attr, u32_attr, List.append_nil, List.append_assoc]

theorem signature_tree_bytes (args : Option (List net_mat_action_arg)) :
    (signature_tree args).bytes = signature_bytes args := by
  unfold signature_tree signature_bytes
  cases args with
  | none => rfl
  | some as =>
    simp only []
    split_ifs
    · rfl
    · simp only [Attrs.bytes_nest, Attrs.bytes_leaf, Attrs.bytes_nil, Attrs.bytes_seq,
        act_arg_tree_bytes, act_args_bytes, List.append_nil]

theorem action_tree_bytes (a : net_mat_action) :
    (action_tree a).bytes = action_record_bytes a := by
  simp only [action_tree, action_record_bytes, action_bytes, Attrs.bytes_nest, Attrs.bytes_leaf,
    Attrs.bytes_nil, signature_tree_bytes, string_attr, u32_attr, List.append_nil,
    List.append_assoc]

theorem actions_tree_bytes (acts : List net_mat_action) :
    (actions_tree acts).bytes = actions_bytes acts := by
  simp only [actions_tree, actions_bytes, Attrs.bytes_nest, Attrs.bytes_leaf, Attrs.bytes_nil,
    Attrs.bytes_seq, action_tree_bytes, List.append_nil]

/-- What a successful list encoder has appended, once the appended bytes are known to be
those of the nest `t`: the buffer is the old one followed by `t`; when fewer
than 65536 bytes were appended, `t` is well formed and the length member of the outer
nest is the number of bytes appended. -/
theorem appended_nest {skb s : sk_buff} {r : Option (Int × sk_buff)} {fits : Prop}
    {b : List Nat} (t : Attrs) (hres : Results r fits (skb.append b)) (hb : t.bytes = b)
    (ht : t.one_nest) (hr : r = some (0, s)) :
    s.data = skb.data ++ t.bytes ∧
    (s.data.length < skb.data.length + 65536 →
      t.wf ∧ nla_len (s.data.drop skb.data.length) = (s.data.drop skb.data.length).length) := by
  have hs := (hres.eq_of_ok hr).1
  subst hs
  subst hb
  refine ⟨rfl, ?_⟩
  intro hl
  simp only [sk_buff.append, List.length_append] at hl
  have hw := Attrs.wf_of_lt t (by omega)
  refine ⟨hw.1, ?_⟩
  simp only [sk_buff.append, List.drop_left]
  match t, ht, hw, hl with
  | .nest ty kids .nil, _, hw, hl =>
    simp only [Attrs.bytes, List.append_nil, List.length_append, List.length_nil,
      nest_bytes_length] at hl ⊢
    have e := nla_len_nest_bytes ty kids.bytes []
    rw [List.append_nil] at e
    rw [e]
    simp only [NLA_HDRLEN]
    omega

theorem appends_nest_of_results {skb s : sk_buff} {r : Option (Int × sk_buff)} {fits : Prop}
    {b : List Nat} (t : Attrs) (hres : Results r fits (skb.append b)) (hb : t.bytes = b)
    (ht : t.one_nest) (hr : r = some (0, s)) (hl : s.data.length < skb.data.length + 65536) :
    appends_nest skb s t := by
  obtain ⟨h1, h2⟩ := appended_nest t hres hb ht hr
  exact ⟨ht, h1, (h2 hl).1, (h2 hl).2⟩

theorem appends_nest_len {skb : sk_buff} {b : List Nat} {t : Attrs}
    (h : appends_nest skb (skb.append b) t) : nla_len b = b.length := by
  have h4 := h.2.2.2
  simpa only [sk_buff.append, List.drop_left] using h4

/-! ## A successful encoder has seen the end of every array -/

theorem net_mat_put_fields_loop_ok_counted (fs : List net_mat_field) :
    ∀ (skb s : sk_buff) (count : Int), net_mat_put_fields_loop skb count fs = some (0, s) →
      0 ≤ count ∧ count.toNat ≤ fs.length := by
  induction fs with
  | nil =>
    intro skb s count h
    simp only [net_mat_put_fields_loop] at h
    split at h
    · rename_i hc; subst hc; simp
    · cases h
  | cons f rest ih =>
    intro skb s count h
    simp only [net_mat_put_fields_loop] at h
    split at h
    · rename_i hc; subst hc; simp
    · split at h
      · simp only [Option.some.injEq, Prod.mk.injEq] at h
        exact absurd h.1 EMSGSIZE_ne
      · split at h
        · simp only [Option.some.injEq, Prod.mk.injEq] at h
          exact absurd h.1 EMSGSIZE_ne
        · obtain ⟨h1, h2⟩ := ih _ _ _ h
          simp only [List.length_cons]
          omega

theorem net_mat_put_headers_loop_ok_counted (nest : Nat) (hs : List net_mat_header) :
    ∀ (skb s : sk_buff), net_mat_put_headers_loop nest skb hs = some (0, s) →
      ∀ h ∈ hs, header_counted h := by
  induction hs with
  | nil => intro skb s _ h hh; simp at hh
  | cons x rest ih =>
    intro skb s h
    simp only [net_mat_put_headers_loop] at h
    split at h
    · simp only [Option.some.injEq, Prod.mk.injEq] at h
      exact absurd h.1 EMSGSIZE_ne
    · split at h
      · simp only [Option.some.injEq, Prod.mk.injEq] at h
        exact absurd h.1 EMSGSIZE_ne
      · split at h
        · simp only [Option.some.injEq, Prod.mk.injEq] at h
          exact absurd h.1 EMSGSIZE_ne
        · split at h
          · cases h
          · rename_i e1 skb3 h3
            split at h
            · rename_i he
              simp only [Option.some.injEq, Prod.mk.injEq] at h
              exact absurd h.1 he
            · rename_i he
              have he0 : e1 = 0 := by simpa using he
              subst he0
              intro y hy
              rcases List.mem_cons.1 hy with e | e
              · subst e
                exact net_mat_put_fields_loop_ok_counted _ _ _ _ h3
              · exact ih _ _ h y e

theorem net_mat_put_headers_ok_counted {skb s : sk_buff} {hs : List net_mat_header}
    (h : net_mat_put_headers skb hs = some (0, s)) : ∀ x ∈ hs, header_counted x := by
  simp only [net_mat_put_headers] at h
  split at h
  · simp only [Option.some.injEq, Prod.mk.injEq] at h
    exact absurd h.1 EMSGSIZE_ne
  · exact net_mat_put_headers_loop_ok_counted _ _ _ _ h

theorem net_mat_put_hdrs_loop_ok_mem (hdrs : Nat) (l : List Nat) :
    ∀ (skb s : sk_buff), net_mat_put_hdrs_loop hdrs skb l = some (0, s) → 0 ∈ l := by
  induction l with
  | nil => intro skb s h; simp [net_mat_put_hdrs_loop] at h
  | cons x rest ih =>
    intro skb s h
    simp only [net_mat_put_hdrs_loop] at h
    split at h
    · rename_i hx; simp [hx]
    · split at h
      · simp only [Option.some.injEq, Prod.mk.injEq] at h
        exact absurd h.1 EMSGSIZE_ne
      · exact List.mem_cons_of_mem _ (ih _ _ h)

theorem net_mat_put_jump_loop_ok_mem (jumps : Nat) (l : List net_mat_jump_table) :
    ∀ (skb s : sk_buff), net_mat_put_jump_loop jumps skb l = some (0, s) →
      ∃ j ∈ l, j.node = 0 := by
  induction l with
  | nil => intro skb s h; simp [net_mat_put_jump_loop] at h
  | cons x rest ih =>
    intro skb s h
    simp only [net_mat_put_jump_loop] at h
    split at h
    · rename_i hx; exact ⟨x, List.mem_cons_self _ _, hx⟩
    · split at h
      · simp only [Option.some.injEq, Prod.mk.injEq] at h
        exact absurd h.1 EMSGSIZE_ne
      · split at h
        · simp only [Option.some.injEq, Prod.mk.injEq] at h
          exact absurd h.1 EMSGSIZE_ne
        · split at h
          · simp only [Option.some.injEq, Prod.mk.injEq] at h
            exact absurd h.1 EMSGSIZE_ne
          · split at h
            · simp only [Option.some.injEq, Prod.mk.injEq] at h
              exact absurd h.1 EMSGSIZE_ne
            · obtain ⟨m, hm, h0⟩ := ih _ _ h
              exact ⟨m, List.mem_cons_of_mem _ hm, h0⟩

theorem net_mat_put_header_node_ok_terminated {skb s : sk_buff} {n : net_mat_header_node}
    (h : net_mat_put_header_node skb n = some (0, s)) : node_terminated n := by
  simp only [net_mat_put_header_node] at h
  split at h
  · simp only [Option.some.injEq, Prod.mk.injEq] at h
    exact absurd h.1 EMSGSIZE_ne
  · split at h
    · simp only [Option.some.injEq, Prod.mk.injEq] at h
      exact absurd h.1 EMSGSIZE_ne
    · split at h
      · cases h
      · rename_i e1 skb2 h2
        split at h
        · rename_i he
          simp only [Option.some.injEq, Prod.mk.injEq] at h
          exact absurd h.1 he
        · rename_i he
          have he0 : e1 = 0 := by simpa using he
          subst he0
          split at h
          · simp only [Option.some.injEq, Prod.mk.injEq] at h
            exact absurd h.1 EMSGSIZE_ne
          · split at h
            · cases h
            · rename_i e2 skb4 h4
              split at h
              · rename_i he2
                simp only [Option.some.injEq, Prod.mk.injEq] at h
                exact absurd h.1 he2
              · rename_i he2
                have he20 : e2 = 0 := by simpa using he2
                subst he20
                exact ⟨net_mat_put_hdrs_loop_ok_mem _ _ _ _ h2,
                  net_mat_put_jump_loop_ok_mem _ _ _ _ h4⟩

theorem net_mat_put_header_graph_loop_ok_terminated (nodes : Nat)
    (g : List net_mat_header_node) :
    ∀ (skb s : sk_buff), net_mat_put_header_graph_loop nodes skb g = some (0, s) →
      ∀ n ∈ g, node_terminated n := by
  induction g with
  | nil => intro skb s _ n hn; simp at hn
  | cons x rest ih =>
    intro skb s h
    simp only [net_mat_put_header_graph_loop] at h
    split at h
    · simp only [Option.some.injEq, Prod.mk.injEq] at h
      exact absurd h.1 EMSGSIZE_ne
    · split at h
      · cases h
      · rename_i e1 skb2 h2
        split at h
        · rename_i he
          simp only [Option.some.injEq, Prod.mk.injEq] at h
          exact absurd h.1 he
        · rename_i he
          have he0 : e1 = 0 := by simpa using he
          subst he0
          intro y hy
          rcases List.mem_cons.1 hy with e | e
          · subst e
            exact net_mat_put_header_node_ok_terminated h2
          · exact ih _ _ h y e

theorem net_mat_put_header_graph_ok_terminated {skb s : sk_buff}
    {g : List net_mat_header_node} (h : net_mat_put_header_graph skb g = some (0, s)) :
    ∀ n ∈ g, node_terminated n := by
  simp only [net_mat_put_header_graph] at h
  split at h
  · simp only [Option.some.injEq, Prod.mk.injEq] at h
    exact absurd h.1 EMSGSIZE_ne
  · exact net_mat_put_header_graph_loop_ok_terminated _ _ _ _ h

theorem net_mat_put_tables_loop_ok_terminated (nest : Nat) (ts : List (Option net_mat_table)) :
    ∀ (skb s : sk_buff), net_mat_put_tables_loop nest skb ts = some (0, s) →
      tables_terminated ts ∧ ∀ t ∈ table_entries ts, table_terminated t := by
  induction ts with
  | nil => intro skb s h; simp [net_mat_put_tables_loop] at h
  | cons ot rest ih =>
    intro skb s h
    cases ot with
    | none => simp [net_mat_put_tables_loop] at h
    | some tbl =>
      simp only [net_mat_put_tables_loop] at h
      split at h
      · rename_i hu
        refine ⟨Or.inl hu, ?_⟩
        intro t ht
        simp [table_entries, hu] at ht
      · rename_i hu
        split at h
        · simp only [Option.some.injEq, Prod.mk.injEq] at h
          exact absurd h.1 EMSGSIZE_ne
        · split at h
          · cases h
          · rename_i e1 skb2 h2
            split at h
            · rename_i he
              simp only [Option.some.injEq, Prod.mk.injEq] at h
              exact absurd h.1 he
            · rename_i he
              have he0 : e1 = 0 := by simpa using he
              subst he0
              obtain ⟨i1, i2⟩ := ih _ _ h
              refine ⟨Or.inr i1, ?_⟩
              intro t ht
              simp only [table_entries, if_neg hu, List.mem_cons] at ht
              rcases ht with e | e
              · subst e
                exact net_mat_put_table_ok_terminated h2
              · exact i2 t e

theorem net_mat_put_tables_ok_terminated {skb s : sk_buff} {ts : List (Option net_mat_table)}
    (h : net_mat_put_tables skb ts = some (0, s)) (hn : ts.head? ≠ some none) :
    tables_terminated ts ∧ ∀ t ∈ table_entries ts, table_terminated t := by
  simp only [net_mat_put_tables] at h
  split at h
  · simp only [Option.some.injEq, Prod.mk.injEq] at h
    exact absurd h.1 EMSGSIZE_ne
  · split at h
    · cases h
    · exact absurd rfl hn
    · exact net_mat_put_tables_loop_ok_terminated _ _ _ _ h

theorem net_mat_put_act_args_ok_mem (l : List net_mat_action_arg) :
    ∀ (skb s : sk_buff), net_mat_put_act_args skb l = some (0, s) → ∃ a ∈ l, a.type = 0 := by
  induction l with
  | nil => intro skb s h; simp [net_mat_put_act_args] at h
  | cons x rest ih =>
    intro skb s h
    simp only [net_mat_put_act_args] at h
    split at h
    · rename_i hx; exact ⟨x, List.mem_cons_self _ _, hx⟩
    · split at h
      · simp only [Option.some.injEq, Prod.mk.injEq] at h
        exact absurd h.1 ENOMEM_ne
      · split at h
        · simp only [Option.some.injEq, Prod.mk.injEq] at h
          exact absurd h.1 EMSGSIZE_ne
        · split at h
          · simp only [Option.some.injEq, Prod.mk.injEq] at h
            exact absurd h.1 EMSGSIZE_ne
          · split at h
            · simp only [Option.some.injEq, Prod.mk.injEq] at h
              exact absurd h.1 EMSGSIZE_ne
            · obtain ⟨m, hm, h0⟩ := ih _ _ h
              exact ⟨m, List.mem_cons_of_mem _ hm, h0⟩

theorem count_args_mem (l : List net_mat_action_arg) :
    ∀ n, count_args l = some n → ∃ a ∈ l, strlen a.name = 0 := by
  induction l with
  | nil => intro n h; simp [count_args] at h
  | cons x rest ih =>
    intro n h
    simp only [count_args] at h
    split at h
    · cases hc : count_args rest with
      | none => rw [hc] at h; simp at h
      | some m =>
        obtain ⟨a, ha, h0⟩ := ih m hc
        exact ⟨a, List.mem_cons_of_mem _ ha, h0⟩
    · rename_i hx
      exact ⟨x, List.mem_cons_self _ _, by omega⟩

theorem net_mat_put_action_ok_terminated {skb s : sk_buff} {a : net_mat_action}
    (h : net_mat_put_action skb a = some (0, s)) : action_terminated a := by
  simp only [net_mat_put_action] at h
  unfold action_terminated
  split at h
  · simp only [Option.some.injEq, Prod.mk.injEq] at h
    exact absurd h.1 EMSGSIZE_ne
  · split at h
    · simp only [Option.some.injEq, Prod.mk.injEq] at h
      exact absurd h.1 EMSGSIZE_ne
    · split at h
      · trivial
      · rename_i as ha
        split at h
        · cases h
        · rename_i n hn
          refine ⟨count_args_mem as n hn, ?_⟩
          intro hne
          split at h
          · split at h
            · simp only [Option.some.injEq, Prod.mk.injEq] at h
              exact absurd h.1 EMSGSIZE_ne
            · split at h
              · cases h
              · rename_i e1 skb4 h4
                split at h
                · rename_i he
                  simp only [Option.some.injEq, Prod.mk.injEq] at h
                  exact absurd h.1 he
                · rename_i he
                  have he0 : e1 = 0 := by simpa using he
                  subst he0
                  exact net_mat_put_act_args_ok_mem _ _ _ h4
          · rename_i h0
            have : n = 0 := by simpa using h0
            subst this
            exact absurd hn hne

theorem net_mat_put_actions_loop_ok_terminated (actions : Nat) (acts : List net_mat_action) :
    ∀ (skb s : sk_buff), net_mat_put_actions_loop actions skb acts = some (0, s) →
      ∀ a ∈ acts, action_terminated a := by
  induction acts with
  | nil => intro skb s _ a ha; simp at ha
  | cons x rest ih =>
    intro skb s h
    simp only [net_mat_put_actions_loop] at h
    split at h
    · simp only [Option.some.injEq, Prod.mk.injEq] at h
      exact absurd h.1 EMSGSIZE_ne
    · split at h
      · cases h
      · rename_i e1 skb2 h2
        split at h
        · simp only [Option.some.injEq, Prod.mk.injEq] at h
          exact absurd h.1 EMSGSIZE_ne
        · rename_i he
          have he0 : e1 = 0 := by simpa using he
          subst he0
          intro y hy
          rcases List.mem_cons.1 hy with e | e
          · subst e
            exact net_mat_put_action_ok_terminated h2
          · exact ih _ _ h y e

theorem net_mat_put_actions_ok_terminated {skb s : sk_buff} {acts : List net_mat_action}
    (h : net_mat_put_actions skb acts = some (0, s)) : ∀ a ∈ acts, action_terminated a := by
  simp only [net_mat_put_actions] at h
  split at h
  · simp only [Option.some.injEq, Prod.mk.injEq] at h
    exact absurd h.1 EMSGSIZE_ne
  · exact net_mat_put_actions_loop_ok_terminated _ _ _ _ h

/-! ## Field reference values and table records -/

theorem le_bytes_mod (w : Nat) : ∀ v : Nat, le_bytes w (v % 256 ^ w) = le_bytes w v := by
  induction w with
  | zero => intro v; rfl
  | succ k ih =>
    intro v
    simp only [le_bytes]
    have h1 : v % 256 ^ (k + 1) % 256 = v % 256 :=
      Nat.mod_mod_of_dvd v (Dvd.intro_left (256 ^ k) rfl)
    have h2 : v % 256 ^ (k + 1) / 256 = v / 256 % 256 ^ k := by
      rw [pow_succ, Nat.mul_comm, Nat.mod_mul_right_div_self]
    rw [h1, h2, ih]

theorem takeWhile_get {α : Type} (p : α → Bool) (l : List α) :
    ∀ (k : Nat) (x : α), (l.takeWhile p)[k]? = some x → l[k]? = some x ∧ p x = true := by
  induction l with
  | nil => intro k x h; simp at h
  | cons a rest ih =>
    intro k x h
    by_cases ha : p a = true
    · rw [List.takeWhile_cons_of_pos ha] at h
      cases k with
      | zero =>
        simp only [List.getElem?_cons_zero, Option.some.injEq] at h ⊢
        subst h
        exact ⟨rfl, ha⟩
      | succ k =>
        simp only [List.getElem?_cons_succ] at h ⊢
        exact ih k x h
    · rw [List.takeWhile_cons_of_neg ha] at h
      simp at h

/-- The value and mask attributes of a typed field reference: both payloads are
`2 ^ (type - 1)` bytes of the stored value and mask. -/
theorem field_ref_vals_bytes_typed (ref : net_mat_field_ref)
    (h1 : NET_MAT_FIELD_REF_ATTR_TYPE_U8 ≤ ref.type)
    (h4 : ref.type ≤ NET_MAT_FIELD_REF_ATTR_TYPE_U64) :
    field_ref_vals_bytes ref =
      nla_bytes NET_MAT_FIELD_REF_VALUE (le_bytes (2 ^ (ref.type.toNat - 1)) ref.value) ++
      nla_bytes NET_MAT_FIELD_REF_MASK (le_bytes (2 ^ (ref.type.toNat - 1)) ref.mask) := by
  obtain ⟨c1, c2, c3, c4⟩ := field_ref_type_consts
  rw [c1] at h1
  rw [c4] at h4
  have hcases : ref.type = 1 ∨ ref.type = 2 ∨ ref.type = 3 ∨ ref.type = 4 := by omega
  have m1 := le_bytes_mod 1
  have m2 := le_bytes_mod 2
  have m4 := le_bytes_mod 4
  have m8 := le_bytes_mod 8
  rcases hcases with h | h | h | h
  · have e : field_ref_vals_bytes ref = u8_attr NET_MAT_FIELD_REF_VALUE ref.value_u8 ++
        u8_attr NET_MAT_FIELD_REF_MASK ref.mask_u8 := by
      simp [field_ref_vals_bytes, h, c1]
    have w : 2 ^ ((1 : Int).toNat - 1) = 1 := by decide
    have p : 2 ^ 8 = 256 ^ 1 := by decide
    rw [e, h, w]
    simp only [u8_attr, net_mat_field_ref.value_u8, net_mat_field_ref.mask_u8]
    rw [p, m1, m1]
  · have e : field_ref_vals_bytes ref = u16_attr NET_MAT_FIELD_REF_VALUE ref.value_u16 ++
        u16_attr NET_MAT_FIELD_REF_MASK ref.mask_u16 := by
      simp [field_ref_vals_bytes, h, c1, c2]
    have w : 2 ^ ((2 : Int).toNat - 1) = 2 := by decide
    have p : 2 ^ 16 = 256 ^ 2 := by decide
    rw [e, h, w]
    simp only [u16_attr, net_mat_field_ref.value_u16, net_mat_field_ref.mask_u16]
    rw [p, m2, m2]
  · have e : field_ref_vals_bytes ref = u32_attr NET_MAT_FIELD_REF_VALUE ref.value_u32 ++
        u32_attr NET_MAT_FIELD_REF_MASK ref.mask_u32 := by
      simp [field_ref_vals_bytes, h, c1, c2, c3]
    have w : 2 ^ ((3 : Int).toNat - 1) = 4 := by decide
    have p : 2 ^ 32 = 256 ^ 4 := by decide
    rw [e, h, w]
    simp only [u32_attr, net_mat_field_ref.value_u32, net_mat_field_ref.mask_u32]
    rw [p, m4, m4]
  · have e : field_ref_vals_bytes ref = u64_attr NET_MAT_FIELD_REF_VALUE ref.value_u64 ++
        u64_attr NET_MAT_FIELD_REF_MASK ref.mask_u64 := by
      simp [field_ref_vals_bytes, h, c1, c2, c3, c4]
    have w : 2 ^ ((4 : Int).toNat - 1) = 8 := by decide
    have p : 2 ^ 64 = 256 ^ 8 := by decide
    rw [e, h, w]
    simp only [u64_attr, net_mat_field_ref.value_u64, net_mat_field_ref.mask_u64]
    rw [p, m8, m8]

/-- A typed field reference: the call returns 0 exactly when the tailroom holds the two
attributes, and then the VALUE and MASK attributes have been appended. -/
theorem net_mat_put_field_ref_vals_typed (skb : sk_buff) (ref : net_mat_field_ref)
    (h1 : NET_MAT_FIELD_REF_ATTR_TYPE_U8 ≤ ref.type)
    (h4 : ref.type ≤ NET_MAT_FIELD_REF_ATTR_TYPE_U64) :
    ((net_mat_put_field_ref_vals skb ref).1 = 0 ↔
      2 * NLA_ALIGN (NLA_HDRLEN + 2 ^ (ref.type.toNat - 1)) ≤ skb_tailroom skb) ∧
    ((net_mat_put_field_ref_vals skb ref).1 = 0 →
      (net_mat_put_field_ref_vals skb ref).2 = skb.append
        (nla_bytes NET_MAT_FIELD_REF_VALUE (le_bytes (2 ^ (ref.type.toNat - 1)) ref.value) ++
         nla_bytes NET_MAT_FIELD_REF_MASK (le_bytes (2 ^ (ref.type.toNat - 1)) ref.mask))) := by
  have hw := Writes_field_ref_vals ref skb
  beta_reduce at hw
  rw [field_ref_vals_bytes_typed ref h1 h4] at hw
  have hl : (nla_bytes NET_MAT_FIELD_REF_VALUE (le_bytes (2 ^ (ref.type.toNat - 1)) ref.value) ++
      nla_bytes NET_MAT_FIELD_REF_MASK (le_bytes (2 ^ (ref.type.toNat - 1)) ref.mask)).length =
      2 * NLA_ALIGN (NLA_HDRLEN + 2 ^ (ref.type.toNat - 1)) := by
    simp only [List.length_append, nla_bytes_length, nla_total_size, nla_attr_size,
      le_bytes_length]
    omega
  rw [hl] at hw
  refine ⟨⟨fun h0 => ?_, fun hc => ?_⟩, fun h0 => ?_⟩
  · by_contra hn
    exact hw.2 (by omega) h0
  · rw [hw.1 hc]
  · by_cases hc : 2 * NLA_ALIGN (NLA_HDRLEN + 2 ^ (ref.type.toNat - 1)) ≤ skb_tailroom skb
    · rw [hw.1 hc]
    · exact absurd h0 (hw.2 (by omega))

/-! ## The default header graph as a graph -/

theorem graph_succs_edge {g : List net_mat_header_node} {u v : Nat}
    (h : v ∈ graph_succs g u) : graph_edge g u v := by
  simp only [graph_succs, List.mem_flatMap, List.mem_filter, decide_eq_true_eq] at h
  obtain ⟨n, ⟨hn, hu⟩, hv⟩ := h
  exact ⟨n, hn, hu, hv⟩

theorem graph_reach_sound (g : List net_mat_header_node) (src : Nat) :
    ∀ (k : Nat) (s : List Nat), (∀ x ∈ s, Relation.ReflTransGen (graph_edge g) src x) →
      ∀ v ∈ graph_reach g k s, Relation.ReflTransGen (graph_edge g) src v := by
  intro k
  induction k with
  | zero => intro s hs v hv; exact hs v hv
  | succ k ih =>
    intro s hs v hv
    simp only [graph_reach] at hv
    refine ih _ ?_ v hv
    intro x hx
    rcases List.mem_append.1 hx with h | h
    · exact hs x h
    · obtain ⟨y, hy, hxy⟩ := List.mem_flatMap.1 h
      exact Relation.ReflTransGen.tail (hs y hy) (graph_succs_edge hxy)

theorem trans_edge_lt {g : List net_mat_header_node}
    (hg : ∀ n ∈ g, ∀ v ∈ node_targets n, n.uid < v) {u v : Nat}
    (h : Relation.TransGen (graph_edge g) u v) : u < v := by
  induction h with
  | single e =>
    obtain ⟨n, hn, hu, hv⟩ := e
    rw [← hu]
    exact hg n hn _ hv
  | tail _ e ih =>
    obtain ⟨n, hn, hu, hv⟩ := e
    have := hg n hn _ hv
    rw [hu] at this
    exact Nat.lt_trans ih this

theorem Attrs.bytes_length_total (t : Attrs) : t.bytes.length = t.total := by
  induction t with
  | nil => rfl
  | leaf ty p rest ih =>
    simp only [Attrs.bytes, Attrs.total, List.length_append, nla_bytes_length, nla_total_size,
      nla_attr_size, ih]
  | nest ty kids rest ihk ihr =>
    simp only [Attrs.bytes, Attrs.total, List.length_append, nest_bytes_length, ihk, ihr,
      NLA_HDRLEN]

/-! ## Values and masks of matches, field references of unknown type -/

theorem net_mat_put_field_ref_top_clear_vals (skb : sk_buff) (m : net_mat_field_ref) :
    net_mat_put_field_ref_top skb (clear_vals m) = net_mat_put_field_ref_top skb m := rfl

theorem net_mat_put_matches_loop_clear_vals (mnest : Nat) (l : List net_mat_field_ref) :
    ∀ (l' : List net_mat_field_ref) (skb : sk_buff), l.map clear_vals = l'.map clear_vals →
      net_mat_put_matches_loop mnest skb l = net_mat_put_matches_loop mnest skb l' := by
  induction l with
  | nil =>
    intro l' skb h
    cases l' with
    | nil => rfl
    | cons a b => simp at h
  | cons m rest ih =>
    intro l' skb h
    cases l' with
    | nil => simp at h
    | cons m' rest' =>
      simp only [List.map_cons, List.cons.injEq] at h
      obtain ⟨hm, hr⟩ := h
      have hi : (clear_vals m).«instance» = (clear_vals m').«instance» := by rw [hm]
      change m.«instance» = m'.«instance» at hi
      have ht : ∀ s, net_mat_put_field_ref_top s m = net_mat_put_field_ref_top s m' := by
        intro s
        rw [← net_mat_put_field_ref_top_clear_vals s m, hm,
          net_mat_put_field_ref_top_clear_vals]
      simp only [net_mat_put_matches_loop, hi, ht]
      split
      · rfl
      · split
        · rfl
        · split
          · rfl
          · exact ih rest' _ hr

theorem net_mat_put_table_clear_vals (t : net_mat_table) (ms : List net_mat_field_ref)
    (skb : sk_buff) (h : ms.map clear_vals = t.«matches».map clear_vals) :
    net_mat_put_table skb { t with «matches» := ms } = net_mat_put_table skb t := by
  simp only [net_mat_put_table]
  split
  · rfl
  · split
    · rfl
    · rw [net_mat_put_matches_loop_clear_vals _ _ _ _ h]

theorem match_bytes_length (m : net_mat_field_ref) : (match_bytes m).length = 44 := by
  simp only [match_bytes, field_ref_top_bytes, nest_bytes_length, List.length_append,
    u32_attr_length]

theorem field_ref_vals_bytes_unknown (ref : net_mat_field_ref)
    (h8 : ref.type ≠ NET_MAT_FIELD_REF_ATTR_TYPE_U8)
    (h16 : ref.type ≠ NET_MAT_FIELD_REF_ATTR_TYPE_U16)
    (h32 : ref.type ≠ NET_MAT_FIELD_REF_ATTR_TYPE_U32)
    (h64 : ref.type ≠ NET_MAT_FIELD_REF_ATTR_TYPE_U64) : field_ref_vals_bytes ref = [] := by
  simp only [field_ref_vals_bytes, h8, h16, h32, h64, if_false]

theorem net_mat_put_field_ref_vals_unknown (skb : sk_buff) (ref : net_mat_field_ref)
    (h8 : ref.type ≠ NET_MAT_FIELD_REF_ATTR_TYPE_U8)
    (h16 : ref.type ≠ NET_MAT_FIELD_REF_ATTR_TYPE_U16)
    (h32 : ref.type ≠ NET_MAT_FIELD_REF_ATTR_TYPE_U32)
    (h64 : ref.type ≠ NET_MAT_FIELD_REF_ATTR_TYPE_U64) :
    net_mat_put_field_ref_vals skb ref = (0, skb) := by
  simp only [net_mat_put_field_ref_vals, h8, h16, h32, h64, if_false, ite_self]

/-- A call that leaves the buffer as it was has not appended a nest: a nest has at least
the 4 bytes of its header. -/
theorem not_appends_nest_self (skb : sk_buff) (t : Attrs) : ¬ appends_nest skb skb t := by
  intro h
  have hb : t.bytes = [] := List.self_eq_append_right.1 h.2.1
  have h1 := h.1
  cases t with
  | nil => exact h1
  | leaf ty p rest => exact h1
  | nest ty kids rest =>
    have hl := congrArg List.length hb
    simp only [Attrs.bytes_nest, List.length_append, nest_bytes_length, List.length_nil] at hl
    omega

/-! ## Argument arrays that follow the sentinel convention -/

set_option maxRecDepth 100000

/-- C1: whenever `net_mat_put_headers` returns an error, the message buffer (its
written bytes and its room, hence the write cursor) is exactly the buffer before
the call, at whichever nest start or leaf write the failure occurred. -/
theorem put_headers_error_restores_buffer (skb : sk_buff) (headers : List net_mat_header)
    (err : Int) (skb' : sk_buff) (h : net_mat_put_headers skb headers = some (err, skb'))
    (herr : err ≠ 0) : skb' = skb :=
  net_mat_put_headers_rollback h herr

/-- Witness for C1: the second header fails at the bitwidth leaf of its field, after
the first header and its field nest were closed. -/
theorem put_headers_error_restores_buffer_witness :
    net_mat_put_headers ⟨[7, 7], 106⟩
        [⟨[101], 1, 1, [⟨[97, 98], 1, 48⟩]⟩, ⟨[102], 2, 1, [⟨[99], 1, 16⟩]⟩]
      = some (-90, ⟨[7, 7], 106⟩) ∧ (-90 : Int) ≠ 0 ∧
    (⟨[7, 7], 106⟩ : sk_buff) = ⟨[7, 7], 106⟩ :=
  ⟨by decide, by decide,
    put_headers_error_restores_buffer ⟨[7, 7], 106⟩
      [⟨[101], 1, 1, [⟨[97, 98], 1, 48⟩]⟩, ⟨[102], 2, 1, [⟨[99], 1, 16⟩]⟩] (-90) ⟨[7, 7], 106⟩
      (by decide) (by decide)⟩

/-- C2: whenever `net_mat_put_header_graph` returns an error, the message buffer is
exactly the buffer before the call, wherever inside `net_mat_put_header_node` the
failure occurred. -/
theorem put_header_graph_error_restores_buffer (skb : sk_buff)
    (g : List net_mat_header_node) (err : Int) (skb' : sk_buff)
    (h : net_mat_put_header_graph skb g = some (err, skb')) (herr : err ≠ 0) : skb' = skb :=
  net_mat_put_header_graph_rollback h herr

/-- Witness for C2: the only jump entry fails at its mask leaf, after the header-id
nest was closed and the value leaf was written. -/
theorem put_header_graph_error_restores_buffer_witness :
    net_mat_put_header_graph ⟨[5], 106⟩
        [⟨[97], 1, [1, 0], [⟨⟨0, 1, 3, 0, 2, 2048, 65535⟩, 4⟩, ⟨⟨0, 0, 0, 0, 0, 0, 0⟩, 0⟩]⟩]
      = some (-90, ⟨[5], 106⟩) ∧ (-90 : Int) ≠ 0 ∧ (⟨[5], 106⟩ : sk_buff) = ⟨[5], 106⟩ :=
  ⟨by decide, by decide,
    put_header_graph_error_restores_buffer ⟨[5], 106⟩
      [⟨[97], 1, [1, 0], [⟨⟨0, 1, 3, 0, 2, 2048, 65535⟩, 4⟩, ⟨⟨0, 0, 0, 0, 0, 0, 0⟩, 0⟩]⟩]
      (-90) ⟨[5], 106⟩ (by decide) (by decide)⟩

/-- C3: whenever `net_mat_put_tables` returns an error, the message buffer is exactly
the buffer before the call, wherever inside `net_mat_put_table` the failure
occurred. -/
theorem put_tables_error_restores_buffer (skb : sk_buff)
    (tables : List (Option net_mat_table)) (err : Int) (skb' : sk_buff)
    (h : net_mat_put_tables skb tables = some (err, skb')) (herr : err ≠ 0) : skb' = skb :=
  net_mat_put_tables_rollback h herr

/-- Witness for C3: the second table fails at its last action-uid leaf, after the
first table and both of its nests were closed. -/
theorem put_tables_error_restores_buffer_witness :
    net_mat_put_tables ⟨[5], 175⟩
        [some ⟨[97], 1, 0, 0, 8, 0, 0, [⟨1, 2, 3, 1, 2, 0, 0⟩, ⟨0, 0, 0, 0, 0, 0, 0⟩], [1, 0]⟩,
         some ⟨[98], 2, 1, 0, 8, 0, 0, [⟨0, 0, 0, 0, 0, 0, 0⟩], [1, 2, 0]⟩,
         some ⟨[], 0, 0, 0, 0, 0, 0, [], []⟩]
      = some (-90, ⟨[5], 175⟩) ∧ (-90 : Int) ≠ 0 ∧ (⟨[5], 175⟩ : sk_buff) = ⟨[5], 175⟩ :=
  ⟨by decide, by decide,
    put_tables_error_restores_buffer ⟨[5], 175⟩
      [some ⟨[97], 1, 0, 0, 8, 0, 0, [⟨1, 2, 3, 1, 2, 0, 0⟩, ⟨0, 0, 0, 0, 0, 0, 0⟩], [1, 0]⟩,
       some ⟨[98], 2, 1, 0, 8, 0, 0, [⟨0, 0, 0, 0, 0, 0, 0⟩], [1, 2, 0]⟩,
       some ⟨[], 0, 0, 0, 0, 0, 0, [], []⟩]
      (-90) ⟨[5], 175⟩ (by decide) (by decide)⟩

/-- C4: whenever `net_mat_put_actions` returns an error, the message buffer is
exactly the buffer before the call, wherever inside `net_mat_put_action` or
`net_mat_put_act_args` the failure occurred. -/
theorem put_actions_error_restores_buffer (skb : sk_buff) (acts : List net_mat_action)
    (err : Int) (skb' : sk_buff) (h : net_mat_put_actions skb acts = some (err, skb'))
    (herr : err ≠ 0) : skb' = skb :=
  net_mat_put_actions_rollback h herr

/-- Witness for C4: the second action fails at the value leaf of its argument, after
the first action was closed. -/
theorem put_actions_error_restores_buffer_witness :
    net_mat_put_actions ⟨[5], 75⟩
        [⟨[100], 2, none⟩, ⟨[115], 1, some [⟨[112], 4, 0⟩, ⟨[], 0, 0⟩]⟩]
      = some (-90, ⟨[5], 75⟩) ∧ (-90 : Int) ≠ 0 ∧ (⟨[5], 75⟩ : sk_buff) = ⟨[5], 75⟩ :=
  ⟨by decide, by decide,
    put_actions_error_restores_buffer ⟨[5], 75⟩
      [⟨[100], 2, none⟩, ⟨[115], 1, some [⟨[112], 4, 0⟩, ⟨[], 0, 0⟩]⟩]
      (-90) ⟨[5], 75⟩ (by decide) (by decide)⟩

/-! ## Claims on the encoded form -/

/-- C10: with terminated arrays and enough tailroom, `net_mat_put_header_node` returns
0 and appends exactly the NAME string, the UID, a HDRS nest with one u32 per header
id before the first zero id, and a JUMP nest with one JUMP_ENTRY record per jump
entry before the first entry with `node == 0`; the `k`-th record encodes `jump[k]`
(NEXT_NODE, then INSTANCE, HEADER, FIELD, MASK_TYPE, TYPE, then the VALUE/MASK pair
of a typed reference). -/
theorem put_header_node_appends_record (node : net_mat_header_node) (skb : sk_buff)
    (ht : node_terminated node)
    (hc : (header_node_bytes node).length ≤ skb_tailroom skb) :
    net_mat_put_header_node skb node = some (0, skb.append
      (string_attr NET_MAT_HEADER_NODE_NAME node.name ++
       u32_attr NET_MAT_HEADER_NODE_UID node.uid ++
       nest_bytes NET_MAT_HEADER_NODE_HDRS
         ((node.hdrs.takeWhile (fun h => decide (h ≠ 0))).flatMap
           (fun h => u32_attr NET_MAT_HEADER_NODE_HDRS_VALUE h)) ++
       nest_bytes NET_MAT_HEADER_NODE_JUMP
         ((jump_entries node.jump).flatMap (fun j =>
           nest_bytes NET_MAT_JUMP_ENTRY
             (u32_attr NET_MAT_FIELD_REF_NEXT_NODE j.node ++ field_ref_top_bytes j.field ++
               field_ref_vals_bytes j.field))))) ∧
    ∀ (k : Nat) (j : net_mat_jump_table), (jump_entries node.jump)[k]? = some j →
      node.jump[k]? = some j ∧ j.node ≠ 0 :=
  ⟨(net_mat_put_header_node_results node skb ht).1 hc, jump_entries_get node.jump⟩

/-- Witness for C10: a node with one header id, a typed jump entry and a second entry
behind the terminator. -/
theorem put_header_node_appends_record_witness :
    node_terminated ⟨[97], 1, [1, 0],
        [⟨⟨0, 1, 3, 0, 2, 2048, 65535⟩, 4⟩, ⟨⟨0, 0, 0, 0, 0, 0, 0⟩, 0⟩,
         ⟨⟨0, 0, 0, 0, 0, 0, 0⟩, 7⟩]⟩ ∧
    net_mat_put_header_node ⟨[5], 200⟩ ⟨[97], 1, [1, 0],
        [⟨⟨0, 1, 3, 0, 2, 2048, 65535⟩, 4⟩, ⟨⟨0, 0, 0, 0, 0, 0, 0⟩, 0⟩,
         ⟨⟨0, 0, 0, 0, 0, 0, 0⟩, 7⟩]⟩ =
      some (0, ⟨[5, 6, 0, 1, 0, 97, 0, 0, 0, 8, 0, 2, 0, 1, 0, 0, 0,
        12, 0, 3, 0, 8, 0, 1, 0, 1, 0, 0, 0,
        72, 0, 4, 0, 68, 0, 1, 0, 8, 0, 1, 0, 4, 0, 0, 0, 8, 0, 2, 0, 0, 0, 0, 0,
        8, 0, 3, 0, 1, 0, 0, 0, 8, 0, 4, 0, 3, 0, 0, 0, 8, 0, 5, 0, 0, 0, 0, 0,
        8, 0, 6, 0, 2, 0, 0, 0, 6, 0, 7, 0, 0, 8, 0, 0, 6, 0, 8, 0, 255, 255, 0, 0], 200⟩) :=
  ⟨by decide,
    (put_header_node_appends_record ⟨[97], 1, [1, 0],
        [⟨⟨0, 1, 3, 0, 2, 2048, 65535⟩, 4⟩, ⟨⟨0, 0, 0, 0, 0, 0, 0⟩, 0⟩,
         ⟨⟨0, 0, 0, 0, 0, 0, 0⟩, 7⟩]⟩ ⟨[5], 200⟩ (by decide) (by decide)).1⟩

theorem net_mat_put_field_ref_vals_errno (skb : sk_buff) (ref : net_mat_field_ref) :
    (net_mat_put_field_ref_vals skb ref).1 = 0 ∨
      (net_mat_put_field_ref_vals skb ref).1 = -EMSGSIZE := by
  simp only [net_mat_put_field_ref_vals]
  split_ifs <;> simp

/-- Counterexample to C8: a u16 field reference whose stored value is 70000 (more than
16 bits) is encoded without error; the VALUE attribute holds the low 16 bits
(70000 mod 65536 = 4464, bytes 112 and 17). -/
theorem put_field_ref_vals_u16_wide_value_succeeds :
    (⟨1, 1, 3, 1, 2, 70000, 65535⟩ : net_mat_field_ref).type
        = NET_MAT_FIELD_REF_ATTR_TYPE_U16 ∧
    2 ^ 16 ≤ (⟨1, 1, 3, 1, 2, 70000, 65535⟩ : net_mat_field_ref).value ∧
    net_mat_put_field_ref_vals ⟨[], 16⟩ ⟨1, 1, 3, 1, 2, 70000, 65535⟩ =
      (0, ⟨[6, 0, 7, 0, 112, 17, 0, 0, 6, 0, 8, 0, 255, 255, 0, 0], 16⟩) := by
  decide

/-- C8 (amended): `net_mat_put_field_ref_vals` has no width check.  For a u16 field
reference and at least 16 bytes of tailroom it returns 0 and appends a VALUE attribute
holding the stored value modulo `2 ^ 16` and a MASK attribute holding the stored mask
modulo `2 ^ 16`; with less tailroom it returns `-EMSGSIZE`. -/
theorem put_field_ref_vals_u16_emits_low_bits (skb : sk_buff) (ref : net_mat_field_ref)
    (ht : ref.type = NET_MAT_FIELD_REF_ATTR_TYPE_U16) :
    (16 ≤ skb_tailroom skb →
      net_mat_put_field_ref_vals skb ref = (0, skb.append
        (u16_attr NET_MAT_FIELD_REF_VALUE (ref.value % 2 ^ 16) ++
         u16_attr NET_MAT_FIELD_REF_MASK (ref.mask % 2 ^ 16)))) ∧
    (skb_tailroom skb < 16 → (net_mat_put_field_ref_vals skb ref).1 = -EMSGSIZE) := by
  have hw := Writes_field_ref_vals ref skb
  beta_reduce at hw
  have hb : field_ref_vals_bytes ref =
      u16_attr NET_MAT_FIELD_REF_VALUE (ref.value % 2 ^ 16) ++
        u16_attr NET_MAT_FIELD_REF_MASK (ref.mask % 2 ^ 16) := by
    simp [field_ref_vals_bytes, ht, net_mat_field_ref.value_u16, net_mat_field_ref.mask_u16,
      NET_MAT_FIELD_REF_ATTR_TYPE_U16, NET_MAT_FIELD_REF_ATTR_TYPE_U8]
  have hl : (field_ref_vals_bytes ref).length = 16 := by
    rw [hb]
    simp [u16_attr, nla_bytes_length, le_bytes_length, nla_total_size, nla_attr_size, NLA_ALIGN,
      NLA_HDRLEN]
  rw [hl] at hw
  rw [hb] at hw
  refine ⟨hw.1, fun h => ?_⟩
  rcases net_mat_put_field_ref_vals_errno skb ref with h0 | h0
  · exact absurd h0 (hw.2 h)
  · exact h0

/-- Witness for C8 (amended). -/
theorem put_field_ref_vals_u16_emits_low_bits_witness :
    (⟨1, 1, 3, 1, 2, 70000, 65535⟩ : net_mat_field_ref).type
        = NET_MAT_FIELD_REF_ATTR_TYPE_U16 ∧
    ((16 ≤ skb_tailroom ⟨[], 16⟩ →
      net_mat_put_field_ref_vals ⟨[], 16⟩ ⟨1, 1, 3, 1, 2, 70000, 65535⟩ =
        (0, (⟨[], 16⟩ : sk_buff).append
          (u16_attr NET_MAT_FIELD_REF_VALUE (70000 % 2 ^ 16) ++
           u16_attr NET_MAT_FIELD_REF_MASK (65535 % 2 ^ 16)))) ∧
     (skb_tailroom ⟨[], 16⟩ < 16 →
      (net_mat_put_field_ref_vals ⟨[], 16⟩ ⟨1, 1, 3, 1, 2, 70000, 65535⟩).1 = -EMSGSIZE)) :=
  ⟨by decide, put_field_ref_vals_u16_emits_low_bits ⟨[], 16⟩ ⟨1, 1, 3, 1, 2, 70000, 65535⟩
    (by decide)⟩

/-- Counterexample to C9: the action `drop` with an argument array that holds only the
sentinel is encoded as NAME and UID alone; the appended bytes are not NAME, UID and an
empty SIGNATURE nest. -/
theorem put_action_sentinel_only_no_signature :
    net_mat_put_action ⟨[], 64⟩ ⟨[100, 114, 111, 112], 2, some [⟨[], 0, 0⟩]⟩ =
      some (0, ⟨[9, 0, 1, 0, 100, 114, 111, 112, 0, 0, 0, 0, 8, 0, 2, 0, 2, 0, 0, 0], 64⟩) ∧
    [9, 0, 1, 0, 100, 114, 111, 112, 0, 0, 0, 0, 8, 0, 2, 0, 2, 0, 0, 0] ≠
      string_attr NET_MAT_ACTION_ATTR_NAME [100, 114, 111, 112] ++
        u32_attr NET_MAT_ACTION_ATTR_UID 2 ++ nest_bytes NET_MAT_ACTION_ATTR_SIGNATURE [] := by
  decide

/-- C9 (amended): for every action name and uid, `net_mat_put_action` behaves the same
for an absent argument array and for an argument array whose first entry has an empty
name (as the sentinel has); with enough tailroom both return 0 and append the NAME
attribute followed by the UID attribute, and no SIGNATURE nest. -/
theorem put_action_sentinel_only_same_as_absent (skb : sk_buff) (name : List Nat) (uid : Nat)
    (sentinel : net_mat_action_arg) (rest : List net_mat_action_arg)
    (hn : strlen sentinel.name = 0) :
    net_mat_put_action skb ⟨name, uid, some (sentinel :: rest)⟩ =
      net_mat_put_action skb ⟨name, uid, none⟩ ∧
    ((string_attr NET_MAT_ACTION_ATTR_NAME name ++
        u32_attr NET_MAT_ACTION_ATTR_UID uid).length ≤ skb_tailroom skb →
      net_mat_put_action skb ⟨name, uid, none⟩ = some (0, skb.append
        (string_attr NET_MAT_ACTION_ATTR_NAME name ++ u32_attr NET_MAT_ACTION_ATTR_UID uid))) := by
  constructor
  · simp only [net_mat_put_action, count_args, hn, gt_iff_lt, lt_self_iff_false, if_false,
      ne_eq, not_true_eq_false]
  · intro hc
    rw [List.length_append] at hc
    have w1 := Writes_string NET_MAT_ACTION_ATTR_NAME name skb
    have w2 := Writes_u32 NET_MAT_ACTION_ATTR_UID uid
      (skb.append (string_attr NET_MAT_ACTION_ATTR_NAME name))
    beta_reduce at w1 w2
    have t1 := skb_tailroom_append skb (string_attr NET_MAT_ACTION_ATTR_NAME name)
    simp only [net_mat_put_action]
    rw [w1.1 (by omega), if_neg (by simp)]
    simp only []
    rw [w2.1 (by omega), if_neg (by simp)]
    simp only [sk_buff.append_append]

/-- Witness for C9 (amended). -/
theorem put_action_sentinel_only_same_as_absent_witness :
    strlen (⟨[], 0, 0⟩ : net_mat_action_arg).name = 0 ∧
    net_mat_put_action ⟨[], 64⟩ ⟨[100, 114, 111, 112], 2, some [⟨[], 0, 0⟩]⟩ =
      net_mat_put_action ⟨[], 64⟩ ⟨[100, 114, 111, 112], 2, none⟩ :=
  ⟨by decide,
    (put_action_sentinel_only_same_as_absent ⟨[], 64⟩ [100, 114, 111, 112] 2 ⟨[], 0, 0⟩ []
      (by decide)).1⟩

/-- C5: two valid header lists whose successful encodings by `net_mat_put_headers`
append the same bytes describe the same headers in the same order, each with the same
name string, uid and ordered fields (name string, uid, bit width); so the appended
bytes determine the list, as the decoder of a round trip needs. -/
theorem put_headers_round_trip (skb skb' s s' : sk_buff) (hs hs' : List net_mat_header)
    (hv : ∀ h ∈ hs, header_valid h) (hv' : ∀ h ∈ hs', header_valid h)
    (hr : net_mat_put_headers skb hs = some (0, s))
    (hr' : net_mat_put_headers skb' hs' = some (0, s'))
    (he : s.data.drop skb.data.length = s'.data.drop skb'.data.length) :
    hs.map header_view = hs'.map header_view := by
  rw [net_mat_put_headers_data hv hr, net_mat_put_headers_data hv' hr'] at he
  have h1 := nest_bytes_inj he
  exact headers_stream_inj hs hs' hv hv' h1

/-- Witness for C5: two lists that differ only behind the terminating zero of a name
are encoded alike into two different buffers. -/
theorem put_headers_round_trip_witness :
    (∀ h ∈ [(⟨[101], 1, 1, [⟨[97, 98], 1, 48⟩]⟩ : net_mat_header)], header_valid h) ∧
    (∀ h ∈ [(⟨[101, 0, 9], 1, 1, [⟨[97, 98, 0], 1, 48⟩]⟩ : net_mat_header)], header_valid h) ∧
    [(⟨[101], 1, 1, [⟨[97, 98], 1, 48⟩]⟩ : net_mat_header)].map header_view =
      [(⟨[101, 0, 9], 1, 1, [⟨[97, 98, 0], 1, 48⟩]⟩ : net_mat_header)].map header_view :=
  ⟨by decide, by decide,
    put_headers_round_trip ⟨[], 100⟩ ⟨[7, 7], 100⟩
      ⟨[56, 0, 4, 0, 52, 0, 1, 0, 6, 0, 1, 0, 101, 0, 0, 0, 8, 0, 2, 0, 1, 0, 0, 0,
        32, 0, 3, 0, 28, 0, 1, 0, 7, 0, 1, 0, 97, 98, 0, 0, 8, 0, 2, 0, 1, 0, 0, 0,
        8, 0, 3, 0, 48, 0, 0, 0], 100⟩
      ⟨[7, 7, 56, 0, 4, 0, 52, 0, 1, 0, 6, 0, 1, 0, 101, 0, 0, 0, 8, 0, 2, 0, 1, 0, 0, 0,
        32, 0, 3, 0, 28, 0, 1, 0, 7, 0, 1, 0, 97, 98, 0, 0, 8, 0, 2, 0, 1, 0, 0, 0,
        8, 0, 3, 0, 48, 0, 0, 0], 100⟩
      [⟨[101], 1, 1, [⟨[97, 98], 1, 48⟩]⟩] [⟨[101, 0, 9], 1, 1, [⟨[97, 98, 0], 1, 48⟩]⟩]
      (by decide) (by decide) (by decide) (by decide) (by decide)⟩

/-- C6: two valid header graphs whose successful encodings by
`net_mat_put_header_graph` append the same bytes have the same node sequence, and node
by node the same name string, uid, header-id sequence and jump entries in the same
order, each entry with the same next-node id, instance, header, field, mask_type, type,
value and mask; so the appended bytes determine the graph, as the decoder of a round
trip needs. -/
theorem put_header_graph_round_trip (skb skb' s s' : sk_buff)
    (g g' : List net_mat_header_node)
    (hv : ∀ n ∈ g, node_valid n) (hv' : ∀ n ∈ g', node_valid n)
    (hr : net_mat_put_header_graph skb g = some (0, s))
    (hr' : net_mat_put_header_graph skb' g' = some (0, s'))
    (he : s.data.drop skb.data.length = s'.data.drop skb'.data.length) :
    g.map node_view = g'.map node_view := by
  rw [net_mat_put_header_graph_data hv hr, net_mat_put_header_graph_data hv' hr'] at he
  have h1 := nest_bytes_inj he
  exact nodes_stream_inj g g' hv hv' h1

/-- Witness for C6: two graphs that differ only behind the terminators of the name, of
the header ids and of the jump table are encoded alike into two different buffers. -/
theorem put_header_graph_round_trip_witness :
    (∀ n ∈ [(⟨[97], 1, [1, 0], [⟨⟨0, 1, 3, 0, 2, 2048, 65535⟩, 4⟩,
        ⟨⟨0, 0, 0, 0, 0, 0, 0⟩, 4294967295⟩, ⟨⟨0, 0, 0, 0, 0, 0, 0⟩, 0⟩]⟩ :
        net_mat_header_node)], node_valid n) ∧
    (∀ n ∈ [(⟨[97, 0, 5], 1, [1, 0, 9], [⟨⟨0, 1, 3, 0, 2, 2048, 65535⟩, 4⟩,
        ⟨⟨0, 0, 0, 0, 0, 0, 0⟩, 4294967295⟩, ⟨⟨7, 7, 7, 7, 7, 7, 7⟩, 0⟩,
        ⟨⟨0, 0, 0, 0, 0, 0, 0⟩, 3⟩]⟩ : net_mat_header_node)], node_valid n) ∧
    [(⟨[97], 1, [1, 0], [⟨⟨0, 1, 3, 0, 2, 2048, 65535⟩, 4⟩,
        ⟨⟨0, 0, 0, 0, 0, 0, 0⟩, 4294967295⟩, ⟨⟨0, 0, 0, 0, 0, 0, 0⟩, 0⟩]⟩ :
        net_mat_header_node)].map node_view =
      [(⟨[97, 0, 5], 1, [1, 0, 9], [⟨⟨0, 1, 3, 0, 2, 2048, 65535⟩, 4⟩,
        ⟨⟨0, 0, 0, 0, 0, 0, 0⟩, 4294967295⟩, ⟨⟨7, 7, 7, 7, 7, 7, 7⟩, 0⟩,
        ⟨⟨0, 0, 0, 0, 0, 0, 0⟩, 3⟩]⟩ : net_mat_header_node)].map node_view :=
  ⟨by decide, by decide,
    put_header_graph_round_trip ⟨[], 200⟩ ⟨[5], 200⟩
      ((⟨[], 200⟩ : sk_buff).append (header_graph_bytes
        [⟨[97], 1, [1, 0], [⟨⟨0, 1, 3, 0, 2, 2048, 65535⟩, 4⟩,
          ⟨⟨0, 0, 0, 0, 0, 0, 0⟩, 4294967295⟩, ⟨⟨0, 0, 0, 0, 0, 0, 0⟩, 0⟩]⟩]))
      ((⟨[5], 200⟩ : sk_buff).append (header_graph_bytes
        [⟨[97, 0, 5], 1, [1, 0, 9], [⟨⟨0, 1, 3, 0, 2, 2048, 65535⟩, 4⟩,
          ⟨⟨0, 0, 0, 0, 0, 0, 0⟩, 4294967295⟩, ⟨⟨7, 7, 7, 7, 7, 7, 7⟩, 0⟩,
          ⟨⟨0, 0, 0, 0, 0, 0, 0⟩, 3⟩]⟩]))
      [⟨[97], 1, [1, 0], [⟨⟨0, 1, 3, 0, 2, 2048, 65535⟩, 4⟩,
        ⟨⟨0, 0, 0, 0, 0, 0, 0⟩, 4294967295⟩, ⟨⟨0, 0, 0, 0, 0, 0, 0⟩, 0⟩]⟩]
      [⟨[97, 0, 5], 1, [1, 0, 9], [⟨⟨0, 1, 3, 0, 2, 2048, 65535⟩, 4⟩,
        ⟨⟨0, 0, 0, 0, 0, 0, 0⟩, 4294967295⟩, ⟨⟨7, 7, 7, 7, 7, 7, 7⟩, 0⟩,
        ⟨⟨0, 0, 0, 0, 0, 0, 0⟩, 3⟩]⟩]
      (by decide) (by decide) (by decide) (by decide) (by decide)⟩

/-- Counterexample to C7: two valid table arrays whose only table differs in `type`, in
the type argument and in the value and mask of its match are encoded by
`net_mat_put_tables` to the same bytes, so the encoding does not determine these
members. -/
theorem put_tables_encoding_drops_type_and_match_values :
    tables_valid
      [some ⟨[97], 1, 0, 0, 8, 0, 0, [⟨1, 2, 3, 1, 2, 5, 65535⟩, ⟨0, 0, 0, 0, 0, 0, 0⟩], [1, 0]⟩,
       some ⟨[], 0, 0, 0, 0, 0, 0, [], []⟩] ∧
    tables_valid
      [some ⟨[97], 1, 0, 0, 8, 2, 7, [⟨1, 2, 3, 1, 2, 6, 255⟩, ⟨0, 0, 0, 0, 0, 0, 0⟩], [1, 0]⟩,
       some ⟨[], 0, 0, 0, 0, 0, 0, [], []⟩] ∧
    ref_valid ⟨1, 2, 3, 1, 2, 5, 65535⟩ ∧ ref_valid ⟨1, 2, 3, 1, 2, 6, 255⟩ ∧
    (net_mat_put_tables ⟨[], 200⟩
      [some ⟨[97], 1, 0, 0, 8, 0, 0, [⟨1, 2, 3, 1, 2, 5, 65535⟩, ⟨0, 0, 0, 0, 0, 0, 0⟩], [1, 0]⟩,
       some ⟨[], 0, 0, 0, 0, 0, 0, [], []⟩]).map Prod.fst = some 0 ∧
    net_mat_put_tables ⟨[], 200⟩
      [some ⟨[97], 1, 0, 0, 8, 0, 0, [⟨1, 2, 3, 1, 2, 5, 65535⟩, ⟨0, 0, 0, 0, 0, 0, 0⟩], [1, 0]⟩,
       some ⟨[], 0, 0, 0, 0, 0, 0, [], []⟩] =
    net_mat_put_tables ⟨[], 200⟩
      [some ⟨[97], 1, 0, 0, 8, 2, 7, [⟨1, 2, 3, 1, 2, 6, 255⟩, ⟨0, 0, 0, 0, 0, 0, 0⟩], [1, 0]⟩,
       some ⟨[], 0, 0, 0, 0, 0, 0, [], []⟩] ∧
    (⟨[97], 1, 0, 0, 8, 0, 0, [⟨1, 2, 3, 1, 2, 5, 65535⟩, ⟨0, 0, 0, 0, 0, 0, 0⟩], [1, 0]⟩ :
      net_mat_table).type ≠
    (⟨[97], 1, 0, 0, 8, 2, 7, [⟨1, 2, 3, 1, 2, 6, 255⟩, ⟨0, 0, 0, 0, 0, 0, 0⟩], [1, 0]⟩ :
      net_mat_table).type ∧
    (⟨[97], 1, 0, 0, 8, 0, 0, [⟨1, 2, 3, 1, 2, 5, 65535⟩, ⟨0, 0, 0, 0, 0, 0, 0⟩], [1, 0]⟩ :
      net_mat_table).bpf_map_arg ≠
    (⟨[97], 1, 0, 0, 8, 2, 7, [⟨1, 2, 3, 1, 2, 6, 255⟩, ⟨0, 0, 0, 0, 0, 0, 0⟩], [1, 0]⟩ :
      net_mat_table).bpf_map_arg ∧
    (⟨1, 2, 3, 1, 2, 5, 65535⟩ : net_mat_field_ref).value ≠
      (⟨1, 2, 3, 1, 2, 6, 255⟩ : net_mat_field_ref).value ∧
    (⟨1, 2, 3, 1, 2, 5, 65535⟩ : net_mat_field_ref).mask ≠
      (⟨1, 2, 3, 1, 2, 6, 255⟩ : net_mat_field_ref).mask := by
  decide

/-- C7 (amended): two valid table arrays whose successful encodings by
`net_mat_put_tables` append the same bytes have the same tables in the same order, each
with the same name string, uid, source, apply_action and size, the same matches in
order with the same instance, header, field, mask_type and type, and the same action
uids in order.  (The members `type` and the type argument of a table and the value and
mask of a match are not encoded.) -/
theorem put_tables_round_trip_encoded_members (skb skb' s s' : sk_buff)
    (ts ts' : List (Option net_mat_table))
    (hv : tables_valid ts) (hv' : tables_valid ts')
    (hr : net_mat_put_tables skb ts = some (0, s))
    (hr' : net_mat_put_tables skb' ts' = some (0, s'))
    (he : s.data.drop skb.data.length = s'.data.drop skb'.data.length) :
    (table_entries ts).map table_view = (table_entries ts').map table_view := by
  rw [net_mat_put_tables_data hv hr, net_mat_put_tables_data hv' hr'] at he
  have h1 := nest_bytes_inj he
  exact tables_stream_inj _ _ hv.2 hv'.2 h1

/-- Witness for C7 (amended): the two arrays of the counterexample, encoded into two
different buffers. -/
theorem put_tables_round_trip_encoded_members_witness :
    tables_valid
      [some ⟨[97], 1, 0, 0, 8, 0, 0, [⟨1, 2, 3, 1, 2, 5, 65535⟩, ⟨0, 0, 0, 0, 0, 0, 0⟩], [1, 0]⟩,
       some ⟨[], 0, 0, 0, 0, 0, 0, [], []⟩] ∧
    tables_valid
      [some ⟨[97], 1, 0, 0, 8, 2, 7, [⟨1, 2, 3, 1, 2, 6, 255⟩, ⟨0, 0, 0, 0, 0, 0, 0⟩], [1, 0]⟩,
       some ⟨[], 0, 0, 0, 0, 0, 0, [], []⟩] ∧
    (table_entries
      [some ⟨[97], 1, 0, 0, 8, 0, 0, [⟨1, 2, 3, 1, 2, 5, 65535⟩, ⟨0, 0, 0, 0, 0, 0, 0⟩], [1, 0]⟩,
       some ⟨[], 0, 0, 0, 0, 0, 0, [], []⟩]).map table_view =
    (table_entries
      [some ⟨[97], 1, 0, 0, 8, 2, 7, [⟨1, 2, 3, 1, 2, 6, 255⟩, ⟨0, 0, 0, 0, 0, 0, 0⟩], [1, 0]⟩,
       some ⟨[], 0, 0, 0, 0, 0, 0, [], []⟩]).map table_view :=
  ⟨by decide, by decide,
    put_tables_round_trip_encoded_members ⟨[], 200⟩ ⟨[5], 200⟩
      ((⟨[], 200⟩ : sk_buff).append (tables_bytes
        [some ⟨[97], 1, 0, 0, 8, 0, 0, [⟨1, 2, 3, 1, 2, 5, 65535⟩, ⟨0, 0, 0, 0, 0, 0, 0⟩],
          [1, 0]⟩, some ⟨[], 0, 0, 0, 0, 0, 0, [], []⟩]))
      ((⟨[5], 200⟩ : sk_buff).append (tables_bytes
        [some ⟨[97], 1, 0, 0, 8, 2, 7, [⟨1, 2, 3, 1, 2, 6, 255⟩, ⟨0, 0, 0, 0, 0, 0, 0⟩],
          [1, 0]⟩, some ⟨[], 0, 0, 0, 0, 0, 0, [], []⟩]))
      [some ⟨[97], 1, 0, 0, 8, 0, 0, [⟨1, 2, 3, 1, 2, 5, 65535⟩, ⟨0, 0, 0, 0, 0, 0, 0⟩], [1, 0]⟩,
       some ⟨[], 0, 0, 0, 0, 0, 0, [], []⟩]
      [some ⟨[97], 1, 0, 0, 8, 2, 7, [⟨1, 2, 3, 1, 2, 6, 255⟩, ⟨0, 0, 0, 0, 0, 0, 0⟩], [1, 0]⟩,
       some ⟨[], 0, 0, 0, 0, 0, 0, [], []⟩]
      (by decide) (by decide) (by decide) (by decide) (by decide)⟩

/-- C13: for every table whose `matches` array starts with an entry with
`instance == 0`, whatever follows that entry and whatever its other members hold, a
successful `net_mat_put_table` appends the five leaf attributes, then a MATCHES nest
that is present and has no children (the four bytes of its header, with length 4), then
the ACTIONS nest. -/
theorem put_table_first_match_zero_gives_empty_matches_nest (skb s : sk_buff)
    (t : net_mat_table) (m : net_mat_field_ref) (rest : List net_mat_field_ref)
    (hm : t.«matches» = m :: rest) (h0 : m.«instance» = 0)
    (hr : net_mat_put_table skb t = some (0, s)) :
    s = skb.append
      (string_attr NET_MAT_TABLE_ATTR_NAME t.name ++
       u32_attr NET_MAT_TABLE_ATTR_UID t.uid ++
       u32_attr NET_MAT_TABLE_ATTR_SOURCE t.source ++
       u32_attr NET_MAT_TABLE_ATTR_APPLY t.apply_action ++
       u32_attr NET_MAT_TABLE_ATTR_SIZE t.size ++
       nest_bytes NET_MAT_TABLE_ATTR_MATCHES [] ++
       nest_bytes NET_MAT_TABLE_ATTR_ACTIONS (table_actions_bytes t.actions)) ∧
    nest_bytes NET_MAT_TABLE_ATTR_MATCHES [] = [4, 0, 8, 0] := by
  have hd := net_mat_put_table_data hr
  have hb : matches_bytes t.«matches» = [] := by
    simp [matches_bytes, match_entries, hm, h0]
  rw [table_bytes, hb] at hd
  exact ⟨hd, by decide⟩

/-- Witness for C13: the first match entry has `instance == 0` and other members set;
a second entry follows it. -/
theorem put_table_first_match_zero_gives_empty_matches_nest_witness :
    (⟨[97], 1, 0, 0, 8, 0, 0, [⟨0, 2, 3, 1, 2, 5, 255⟩, ⟨1, 2, 3, 1, 2, 0, 0⟩], [1, 0]⟩ :
      net_mat_table).«matches» = ⟨0, 2, 3, 1, 2, 5, 255⟩ :: [⟨1, 2, 3, 1, 2, 0, 0⟩] ∧
    (⟨0, 2, 3, 1, 2, 5, 255⟩ : net_mat_field_ref).«instance» = 0 ∧
    net_mat_put_table ⟨[], 100⟩
      ⟨[97], 1, 0, 0, 8, 0, 0, [⟨0, 2, 3, 1, 2, 5, 255⟩, ⟨1, 2, 3, 1, 2, 0, 0⟩], [1, 0]⟩ =
      some (0, ⟨[6, 0, 1, 0, 97, 0, 0, 0, 8, 0, 2, 0, 1, 0, 0, 0, 8, 0, 3, 0, 0, 0, 0, 0,
        8, 0, 4, 0, 0, 0, 0, 0, 8, 0, 5, 0, 8, 0, 0, 0, 4, 0, 8, 0,
        12, 0, 9, 0, 8, 0, 2, 0, 1, 0, 0, 0], 100⟩) ∧
    nest_bytes NET_MAT_TABLE_ATTR_MATCHES [] = [4, 0, 8, 0] :=
  ⟨rfl, rfl, by decide,
    (put_table_first_match_zero_gives_empty_matches_nest ⟨[], 100⟩
      ⟨[6, 0, 1, 0, 97, 0, 0, 0, 8, 0, 2, 0, 1, 0, 0, 0, 8, 0, 3, 0, 0, 0, 0, 0,
        8, 0, 4, 0, 0, 0, 0, 0, 8, 0, 5, 0, 8, 0, 0, 0, 4, 0, 8, 0,
        12, 0, 9, 0, 8, 0, 2, 0, 1, 0, 0, 0], 100⟩
      ⟨[97], 1, 0, 0, 8, 0, 0, [⟨0, 2, 3, 1, 2, 5, 255⟩, ⟨1, 2, 3, 1, 2, 0, 0⟩], [1, 0]⟩
      ⟨0, 2, 3, 1, 2, 5, 255⟩ [⟨1, 2, 3, 1, 2, 0, 0⟩] rfl rfl (by decide)).2⟩

/-- C12: at a table array whose first slot is `NULL`, `net_mat_put_tables` jumps to
`errout` with `err == 0`: it cancels the TABLES nest it had started and returns 0, so
nothing is appended; at a table array whose first table has `uid == 0` it returns 0 and
appends the TABLES nest without children. -/
theorem put_tables_null_first_slot_appends_nothing :
    net_mat_put_tables ⟨[], 100⟩ [none] = some (0, ⟨[], 100⟩) ∧
    net_mat_put_tables ⟨[], 100⟩ [some ⟨[], 0, 0, 0, 0, 0, 0, [], []⟩] =
      some (0, ⟨[4, 0, 3, 0], 100⟩) ∧
    nest_bytes NET_MAT_TABLES [] = [4, 0, 3, 0] := by
  decide

/-! ## Claims on the default catalogs and the query handlers -/

/-- Counterexample to C14: on a device without `ndo_mat_get_headers` the get-headers
handler sends one reply whose body is the encoding of `net_mat_linux_header_list`, and
the headers of that list are named ether, vlan, ipv4, tcp, udp, vxlan in this order,
which is not the order ether, vlan, vxlan, ipv4, tcp, udp. -/
theorem get_headers_default_reply_lists_vxlan_last :
    (net_mat_table_cmd_get_headers ⟨some 3776, 16, fun _ => 0⟩
        ⟨some 1, some 3, 77, 5, [⟨3, ⟨none, none, none⟩⟩]⟩).map
      (fun r => (r.1, r.2.replies.map (fun m => m.data.drop 36))) =
      some (0, [headers_bytes net_mat_linux_header_list]) ∧
    net_mat_linux_header_list.map (fun h => cstr h.name) =
      [ascii "ether", ascii "vlan", ascii "ipv4", ascii "tcp", ascii "udp", ascii "vxlan"] ∧
    net_mat_linux_header_list.map (fun h => cstr h.name) ≠
      [ascii "ether", ascii "vlan", ascii "vxlan", ascii "ipv4", ascii "tcp", ascii "udp"] := by
  refine ⟨?_, by decide, by decide⟩
  have hd : net_mat_get_dev ⟨some 1, some 3, 77, 5, [⟨3, ⟨none, none, none⟩⟩]⟩ =
      some ⟨3, ⟨none, none, none⟩⟩ := by decide
  have hl := default_headers_length
  have hn : (⟨some 3776, 16, fun _ => 0⟩ : kernel_env).nlmsg_new = some 3776 := rfl
  rw [get_headers_reply hd (Or.inr ⟨rfl, rfl⟩)
    (fun x hx => header_valid_counted (default_headers_valid x hx)) hn (by omega)]
  simp only [Option.map_some', replied, List.map_cons, List.map_nil]
  rw [reply_msg_body _ _ _ (reply_head_length _ _ _ _ _)]

/-- C14 (scenario A, amended): on a device without `ndo_mat_get_headers`, when the reply
buffer can be allocated and holds the 36 bytes of the head and the 1388 bytes of the
body, the get-headers handler sends exactly one reply; its body is the encoding of
`net_mat_linux_header_list`, and every list of valid headers with this encoding names
its headers ether, vlan, ipv4, tcp, udp, vxlan, in this order. -/
theorem get_headers_default_reply_lists_default_headers (env : kernel_env) (info : genl_info)
    (dev : net_device) (room : Nat)
    (hd : net_mat_get_dev info = some dev)
    (hop : dev.netdev_ops.ndo_mat_get_headers = none)
    (hn : env.nlmsg_new = some room) (hr : 36 + 1388 ≤ room) :
    ∃ msg : sk_buff,
      net_mat_table_cmd_get_headers env info = some (env.genlmsg_reply msg, replied msg) ∧
      msg.data.drop 36 = headers_bytes net_mat_linux_header_list ∧
      ∀ hs : List net_mat_header, (∀ h ∈ hs, header_valid h) →
        headers_bytes hs = msg.data.drop 36 →
        hs.map (fun h => cstr h.name) =
          [ascii "ether", ascii "vlan", ascii "ipv4", ascii "tcp", ascii "udp",
            ascii "vxlan"] := by
  have hl := default_headers_length
  refine ⟨_, get_headers_reply hd (Or.inr ⟨hop, rfl⟩)
    (fun x hx => header_valid_counted (default_headers_valid x hx)) hn (by omega), ?_, ?_⟩
  · exact reply_msg_body _ _ _ (reply_head_length _ _ _ _ _)
  · intro hs hv he
    rw [reply_msg_body _ _ _ (reply_head_length _ _ _ _ _)] at he
    have hv2 := headers_stream_inj hs net_mat_linux_header_list hv default_headers_valid
      (nest_bytes_inj he)
    have hm : (hs.map header_view).map (fun v => v.1) =
        (net_mat_linux_header_list.map header_view).map (fun v => v.1) := by rw [hv2]
    simp only [List.map_map] at hm
    have e : ((fun v : List Nat × Int × List (List Nat × Int × Int) => v.1) ∘ header_view) =
        fun h => cstr h.name := rfl
    rw [e] at hm
    rw [hm]
    decide

/-- Witness for C14: a request for the device with interface index 3, which has no
operations of its own, with a reply buffer of 3776 bytes. -/
theorem get_headers_default_reply_lists_default_headers_witness :
    net_mat_get_dev ⟨some 1, some 3, 77, 5, [⟨3, ⟨none, none, none⟩⟩]⟩ =
      some ⟨3, ⟨none, none, none⟩⟩ ∧
    ∃ msg : sk_buff,
      net_mat_table_cmd_get_headers ⟨some 3776, 16, fun _ => 0⟩
        ⟨some 1, some 3, 77, 5, [⟨3, ⟨none, none, none⟩⟩]⟩ = some (0, replied msg) ∧
      msg.data.drop 36 = headers_bytes net_mat_linux_header_list ∧
      ∀ hs : List net_mat_header, (∀ h ∈ hs, header_valid h) →
        headers_bytes hs = msg.data.drop 36 →
        hs.map (fun h => cstr h.name) =
          [ascii "ether", ascii "vlan", ascii "ipv4", ascii "tcp", ascii "udp",
            ascii "vxlan"] :=
  ⟨by decide, get_headers_default_reply_lists_default_headers ⟨some 3776, 16, fun _ => 0⟩
    ⟨some 1, some 3, 77, 5, [⟨3, ⟨none, none, none⟩⟩]⟩ ⟨3, ⟨none, none, none⟩⟩ 3776
    (by decide) rfl rfl (by decide)⟩

/-- C15 (scenario B): the Ethernet node of the default header graph has the uid
`HEADER_INSTANCE_ETHERNET`; first-match-wins evaluation of its jump entries, where an
entry matches when the field value and the entry value agree under the entry mask, on a
packet whose ethertype is 0x0800 selects `HEADER_INSTANCE_IPV4`; and the nodes of the
graph with that uid are exactly the node named ipv4. -/
theorem default_graph_ethertype_ipv4_selects_ipv4_node (pkt : Int → Int → Nat)
    (h : pkt HEADER_ETHERNET HEADER_ETHERNET_ETHERTYPE = 0x0800) :
    net_mat_linux_header_graph.filter (fun n => decide (n.uid = HEADER_INSTANCE_ETHERNET)) =
      [net_mat_node_ethernet] ∧
    select_next_node pkt net_mat_node_ethernet.jump = some HEADER_INSTANCE_IPV4 ∧
    (net_mat_linux_header_graph.filter (fun n => decide (n.uid = HEADER_INSTANCE_IPV4))).map
      (fun n => cstr n.name) = [ascii "ipv4"] := by
  refine ⟨by decide, ?_, by decide⟩
  have e : net_mat_node_ethernet.jump = net_mat_parse_ethernet := rfl
  rw [e]
  unfold net_mat_parse_ethernet
  simp only [select_next_node, jump_entry_matches]
  rw [if_neg (by decide)]
  simp only [h]
  rw [if_pos (by decide)]

/-- Witness for C15: a packet all of whose fields read 0x0800. -/
theorem default_graph_ethertype_ipv4_selects_ipv4_node_witness :
    (fun _ _ => 0x0800 : Int → Int → Nat) HEADER_ETHERNET HEADER_ETHERNET_ETHERTYPE = 0x0800 ∧
    select_next_node (fun _ _ => 0x0800) net_mat_node_ethernet.jump =
      some HEADER_INSTANCE_IPV4 :=
  ⟨rfl, (default_graph_ethertype_ipv4_selects_ipv4_node (fun _ _ => 0x0800) rfl).2.1⟩

/-- C16: with a device found and an operation `ndo_mat_get_hdr_graph` that returns
`NULL`, the get-header-graph handler returns `-EBUSY` and has not called `dev_put`,
whereas the get-headers handler, with an operation `ndo_mat_get_headers` that returns
`NULL`, returns `-EBUSY` after one `dev_put`. -/
theorem get_header_graph_null_graph_skips_dev_put (env : kernel_env) (info : genl_info)
    (dev : net_device) (hd : net_mat_get_dev info = some dev) :
    (dev.netdev_ops.ndo_mat_get_hdr_graph = some none →
      net_mat_table_cmd_get_header_graph env info = some (-EBUSY, ⟨0, 0, 0, []⟩)) ∧
    (dev.netdev_ops.ndo_mat_get_headers = some none →
      net_mat_table_cmd_get_headers env info = some (-EBUSY, ⟨1, 0, 0, []⟩)) := by
  constructor
  · intro h
    simp only [net_mat_table_cmd_get_header_graph, hd, h]
    rfl
  · intro h
    simp only [net_mat_table_cmd_get_headers, hd, h]
    rfl

/-- Witness for C16: a device with interface index 3 both of whose operations return
`NULL`. -/
theorem get_header_graph_null_graph_skips_dev_put_witness :
    net_mat_get_dev ⟨some 1, some 3, 77, 5, [⟨3, ⟨some none, some none, none⟩⟩]⟩ =
      some ⟨3, ⟨some none, some none, none⟩⟩ ∧
    (net_mat_table_cmd_get_header_graph ⟨some 3776, 16, fun _ => 0⟩
      ⟨some 1, some 3, 77, 5, [⟨3, ⟨some none, some none, none⟩⟩]⟩).map
        (fun r => (r.1, r.2.dev_put)) = some (-16, 0) ∧
    (net_mat_table_cmd_get_headers ⟨some 3776, 16, fun _ => 0⟩
      ⟨some 1, some 3, 77, 5, [⟨3, ⟨some none, some none, none⟩⟩]⟩).map
        (fun r => (r.1, r.2.dev_put)) = some (-16, 1) := by
  have t := get_header_graph_null_graph_skips_dev_put ⟨some 3776, 16, fun _ => 0⟩
    ⟨some 1, some 3, 77, 5, [⟨3, ⟨some none, some none, none⟩⟩]⟩
    ⟨3, ⟨some none, some none, none⟩⟩ (by decide)
  refine ⟨by decide, ?_, ?_⟩
  · rw [t.1 rfl]; rfl
  · rw [t.2 rfl]; rfl

/-- C17 (scenario D): when the device lookup yields no device, because an identifier
attribute is missing, the identifier type is not the interface index, or no device of
the namespace has the interface index, each of the four query handlers returns `-EINVAL`
and has neither allocated a message, nor sent a reply, nor called `dev_put`. -/
theorem handlers_without_device_return_einval (env : kernel_env) (info : genl_info)
    (h : info.attr_identifier_type = none ∨ info.attr_identifier = none ∨
      (∃ t, info.attr_identifier_type = some t ∧
        int_of_u32 t ≠ NET_MAT_IDENTIFIER_IFINDEX) ∨
      (∃ id, info.attr_identifier = some id ∧
        ∀ d ∈ info.net, d.ifindex ≠ int_of_u32 id)) :
    net_mat_get_dev info = none ∧
    net_mat_table_cmd_get_tables env info = some (-EINVAL, ⟨0, 0, 0, []⟩) ∧
    net_mat_table_cmd_get_headers env info = some (-EINVAL, ⟨0, 0, 0, []⟩) ∧
    net_mat_table_cmd_get_actions env info = some (-EINVAL, ⟨0, 0, 0, []⟩) ∧
    net_mat_table_cmd_get_header_graph env info = some (-EINVAL, ⟨0, 0, 0, []⟩) := by
  have hd : net_mat_get_dev info = none := by
    unfold net_mat_get_dev
    rcases h with h | h | ⟨t, ht, hne⟩ | ⟨id, hi, hall⟩
    · rw [h]
    · rw [h]
      cases info.attr_identifier_type <;> rfl
    · rw [ht]
      cases info.attr_identifier with
      | none => rfl
      | some id => simp only [if_neg hne]
    · rw [hi]
      cases info.attr_identifier_type with
      | none => rfl
      | some t =>
        simp only []
        split
        · unfold dev_get_by_index
          rw [List.find?_eq_none]
          intro d hdm
          simpa using hall d hdm
        · rfl
  refine ⟨hd, ?_, ?_, ?_, ?_⟩
  · simp only [net_mat_table_cmd_get_tables, hd]; rfl
  · simp only [net_mat_table_cmd_get_headers, hd]; rfl
  · simp only [net_mat_table_cmd_get_actions, hd]; rfl
  · simp only [net_mat_table_cmd_get_header_graph, hd]; rfl

/-- Witness for C17: a request for the interface index 4 in a namespace whose only
device has the interface index 3. -/
theorem handlers_without_device_return_einval_witness :
    (∃ id, (⟨some 1, some 4, 77, 5, [⟨3, ⟨none, none, none⟩⟩]⟩ : genl_info).attr_identifier =
        some id ∧
      ∀ d ∈ (⟨some 1, some 4, 77, 5, [⟨3, ⟨none, none, none⟩⟩]⟩ : genl_info).net,
        d.ifindex ≠ int_of_u32 id) ∧
    net_mat_table_cmd_get_headers ⟨some 3776, 16, fun _ => 0⟩
      ⟨some 1, some 4, 77, 5, [⟨3, ⟨none, none, none⟩⟩]⟩ = some (-22, ⟨0, 0, 0, []⟩) :=
  ⟨⟨4, rfl, by decide⟩,
    (handlers_without_device_return_einval ⟨some 3776, 16, fun _ => 0⟩
      ⟨some 1, some 4, 77, 5, [⟨3, ⟨none, none, none⟩⟩]⟩
      (Or.inr (Or.inr (Or.inr ⟨4, rfl, by decide⟩)))).2.2.1⟩

/-- C18: with a device found, the get-tables handler returns `-EOPNOTSUPP` when the
device has no operation `ndo_mat_get_tables` and `-EBUSY` when the operation returns
`NULL`; the two codes differ, and on both paths no message is allocated and no reply is
sent.  When the operation returns a table array that is present but empty (its first slot
is `NULL`, or its first table has `uid == 0`) and the reply buffer can be allocated with
room for 40 bytes, the handler sends one reply and returns the value of `genlmsg_reply`;
the body of the reply is empty in the first case and the TABLES nest without children in
the second. -/
theorem get_tables_distinguishes_missing_op_null_and_empty (env : kernel_env)
    (info : genl_info) (dev : net_device) (hd : net_mat_get_dev info = some dev) :
    (dev.netdev_ops.ndo_mat_get_tables = none →
      net_mat_table_cmd_get_tables env info = some (-EOPNOTSUPP, ⟨1, 0, 0, []⟩)) ∧
    (dev.netdev_ops.ndo_mat_get_tables = some none →
      net_mat_table_cmd_get_tables env info = some (-EBUSY, ⟨1, 0, 0, []⟩)) ∧
    -EOPNOTSUPP ≠ -EBUSY ∧
    (∀ (room : Nat) (rest : List (Option net_mat_table)),
      dev.netdev_ops.ndo_mat_get_tables = some (some (none :: rest)) →
      env.nlmsg_new = some room → 40 ≤ room →
      ∃ msg : sk_buff,
        net_mat_table_cmd_get_tables env info = some (env.genlmsg_reply msg, replied msg) ∧
        msg.data.drop 36 = []) ∧
    (∀ (room : Nat) (t : net_mat_table) (rest : List (Option net_mat_table)),
      dev.netdev_ops.ndo_mat_get_tables = some (some (some t :: rest)) → t.uid = 0 →
      env.nlmsg_new = some room → 40 ≤ room →
      ∃ msg : sk_buff,
        net_mat_table_cmd_get_tables env info = some (env.genlmsg_reply msg, replied msg) ∧
        msg.data.drop 36 = nest_bytes NET_MAT_TABLES []) := by
  refine ⟨?_, ?_, by decide, ?_, ?_⟩
  · intro h
    simp only [net_mat_table_cmd_get_tables, hd, h]
    rfl
  · intro h
    simp only [net_mat_table_cmd_get_tables, hd, h]
    rfl
  · intro room rest hop hn hr
    have hl := reply_head_length env.family_id info.snd_portid info.snd_seq
      NET_MAT_TABLE_CMD_GET_TABLES dev.ifindex
    refine ⟨_, get_tables_reply hd hop hn (by omega) ?_,
      reply_msg_body _ [] _ hl⟩
    rw [sk_buff.append_nil]
    apply net_mat_put_tables_null_first
    simp only [skb_tailroom, hl]
    omega
  · intro room t rest hop hu hn hr
    have hl := reply_head_length env.family_id info.snd_portid info.snd_seq
      NET_MAT_TABLE_CMD_GET_TABLES dev.ifindex
    refine ⟨_, get_tables_reply hd hop hn (by omega) ?_,
      reply_msg_body _ (nest_bytes NET_MAT_TABLES []) _ hl⟩
    apply net_mat_put_tables_uid_zero_first _ _ _ hu
    simp only [skb_tailroom, hl]
    omega

/-- Witness for C18: a device with interface index 3 whose operation returns a table
array that holds only the terminating table. -/
theorem get_tables_distinguishes_missing_op_null_and_empty_witness :
    net_mat_get_dev ⟨some 1, some 3, 77, 5,
        [⟨3, ⟨none, none, some (some [some ⟨[], 0, 0, 0, 0, 0, 0, [], []⟩])⟩⟩]⟩ =
      some ⟨3, ⟨none, none, some (some [some ⟨[], 0, 0, 0, 0, 0, 0, [], []⟩])⟩⟩ ∧
    ∃ msg : sk_buff,
      net_mat_table_cmd_get_tables ⟨some 3776, 16, fun _ => 0⟩ ⟨some 1, some 3, 77, 5,
        [⟨3, ⟨none, none, some (some [some ⟨[], 0, 0, 0, 0, 0, 0, [], []⟩])⟩⟩]⟩ =
        some (0, replied msg) ∧
      msg.data.drop 36 = nest_bytes NET_MAT_TABLES [] :=
  ⟨by decide,
    (get_tables_distinguishes_missing_op_null_and_empty ⟨some 3776, 16, fun _ => 0⟩
      ⟨some 1, some 3, 77, 5,
        [⟨3, ⟨none, none, some (some [some ⟨[], 0, 0, 0, 0, 0, 0, [], []⟩])⟩⟩]⟩
      ⟨3, ⟨none, none, some (some [some ⟨[], 0, 0, 0, 0, 0, 0, [], []⟩])⟩⟩
      (by decide)).2.2.2.2 3776 ⟨[], 0, 0, 0, 0, 0, 0, [], []⟩ [] rfl rfl rfl (by decide)⟩

/-- C19: with a device found and a reply buffer that can be allocated with room for the
36 bytes of the head and the body, the get-headers handler sends one reply whose body is
the encoding of the header list that `ndo_mat_get_headers` returns when the device has
this operation, and the encoding of `net_mat_linux_header_list` when it has not; the
get-header-graph handler does the same with `ndo_mat_get_hdr_graph` and
`net_mat_linux_header_graph`. -/
theorem get_headers_and_graph_reply_encodes_selected_catalog (env : kernel_env)
    (info : genl_info) (dev : net_device) (room : Nat)
    (hd : net_mat_get_dev info = some dev) (hn : env.nlmsg_new = some room) :
    (∀ h : List net_mat_header, dev.netdev_ops.ndo_mat_get_headers = some (some h) →
      (∀ x ∈ h, header_counted x) → 36 + (headers_bytes h).length ≤ room →
      ∃ msg : sk_buff,
        net_mat_table_cmd_get_headers env info = some (env.genlmsg_reply msg, replied msg) ∧
        msg.data.drop 36 = headers_bytes h) ∧
    (dev.netdev_ops.ndo_mat_get_headers = none → 36 + 1388 ≤ room →
      ∃ msg : sk_buff,
        net_mat_table_cmd_get_headers env info = some (env.genlmsg_reply msg, replied msg) ∧
        msg.data.drop 36 = headers_bytes net_mat_linux_header_list) ∧
    (∀ g : List net_mat_header_node, dev.netdev_ops.ndo_mat_get_hdr_graph = some (some g) →
      (∀ x ∈ g, node_terminated x) → 36 + (header_graph_bytes g).length ≤ room →
      ∃ msg : sk_buff,
        net_mat_table_cmd_get_header_graph env info =
          some (env.genlmsg_reply msg, replied msg) ∧
        msg.data.drop 36 = header_graph_bytes g) ∧
    (dev.netdev_ops.ndo_mat_get_hdr_graph = none → 36 + 1420 ≤ room →
      ∃ msg : sk_buff,
        net_mat_table_cmd_get_header_graph env info =
          some (env.genlmsg_reply msg, replied msg) ∧
        msg.data.drop 36 = header_graph_bytes net_mat_linux_header_graph) := by
  have hl := default_headers_length
  have hg := default_graph_length
  refine ⟨?_, ?_, ?_, ?_⟩
  · intro h hop hc hr
    exact ⟨_, get_headers_reply hd (Or.inl hop) hc hn hr,
      reply_msg_body _ _ _ (reply_head_length _ _ _ _ _)⟩
  · intro hop hr
    exact ⟨_, get_headers_reply hd (Or.inr ⟨hop, rfl⟩)
      (fun x hx => header_valid_counted (default_headers_valid x hx)) hn (by omega),
      reply_msg_body _ _ _ (reply_head_length _ _ _ _ _)⟩
  · intro g hop hc hr
    exact ⟨_, get_header_graph_reply hd (Or.inl hop) hc hn hr,
      reply_msg_body _ _ _ (reply_head_length _ _ _ _ _)⟩
  · intro hop hr
    exact ⟨_, get_header_graph_reply hd (Or.inr ⟨hop, rfl⟩)
      (fun x hx => (default_graph_valid x hx).2.2.1) hn (by omega),
      reply_msg_body _ _ _ (reply_head_length _ _ _ _ _)⟩

/-- Witness for C19: a device with interface index 3 whose `ndo_mat_get_headers` returns
the list of the one header `net_mat_vlan` and which has no `ndo_mat_get_hdr_graph`. -/
theorem get_headers_and_graph_reply_encodes_selected_catalog_witness :
    net_mat_get_dev ⟨some 1, some 3, 77, 5, [⟨3, ⟨some (some [net_mat_vlan]), none, none⟩⟩]⟩ =
      some ⟨3, ⟨some (some [net_mat_vlan]), none, none⟩⟩ ∧
    (∃ msg : sk_buff,
      net_mat_table_cmd_get_headers ⟨some 3776, 16, fun _ => 0⟩
        ⟨some 1, some 3, 77, 5, [⟨3, ⟨some (some [net_mat_vlan]), none, none⟩⟩]⟩ =
        some (0, replied msg) ∧
      msg.data.drop 36 = headers_bytes [net_mat_vlan]) ∧
    ∃ msg : sk_buff,
      net_mat_table_cmd_get_header_graph ⟨some 3776, 16, fun _ => 0⟩
        ⟨some 1, some 3, 77, 5, [⟨3, ⟨some (some [net_mat_vlan]), none, none⟩⟩]⟩ =
        some (0, replied msg) ∧
      msg.data.drop 36 = header_graph_bytes net_mat_linux_header_graph :=
  ⟨by decide,
    (get_headers_and_graph_reply_encodes_selected_catalog ⟨some 3776, 16, fun _ => 0⟩
      ⟨some 1, some 3, 77, 5, [⟨3, ⟨some (some [net_mat_vlan]), none, none⟩⟩]⟩
      ⟨3, ⟨some (some [net_mat_vlan]), none, none⟩⟩ 3776 (by decide) rfl).1
      [net_mat_vlan] rfl (by decide) (by decide),
    (get_headers_and_graph_reply_encodes_selected_catalog ⟨some 3776, 16, fun _ => 0⟩
      ⟨some 1, some 3, 77, 5, [⟨3, ⟨some (some [net_mat_vlan]), none, none⟩⟩]⟩
      ⟨3, ⟨some (some [net_mat_vlan]), none, none⟩⟩ 3776 (by decide) rfl).2.2.2
      rfl (by decide)⟩

/-- Whenever one of the four list encoders returns 0 and has appended fewer than 65536
bytes (for `net_mat_put_tables`: on a table array whose first slot is not `NULL`), the
appended bytes are one well-formed nest, namely the tree of the encoded list: the length
member of the outer nest is the number of bytes appended, the length member of every nest
in it is its 4-byte header plus the aligned sizes of its children, and the children fill
its payload. -/
theorem list_encoders_append_one_well_formed_nest (skb s : sk_buff)
    (hl : s.data.length < skb.data.length + 65536) :
    (∀ hs : List net_mat_header,
      net_mat_put_headers skb hs = some (0, s) → appends_nest skb s (headers_tree hs)) ∧
    (∀ acts : List net_mat_action,
      net_mat_put_actions skb acts = some (0, s) → appends_nest skb s (actions_tree acts)) ∧
    (∀ g : List net_mat_header_node,
      net_mat_put_header_graph skb g = some (0, s) →
      appends_nest skb s (header_graph_tree g)) ∧
    (∀ ts : List (Option net_mat_table), ts.head? ≠ some none →
      net_mat_put_tables skb ts = some (0, s) → appends_nest skb s (tables_tree ts)) := by
  refine ⟨?_, ?_, ?_, ?_⟩
  · intro hs hr
    exact appends_nest_of_results _
      (net_mat_put_headers_results skb hs (net_mat_put_headers_ok_counted hr))
      (headers_tree_bytes hs) trivial hr hl
  · intro acts hr
    exact appends_nest_of_results _
      (net_mat_put_actions_results skb acts (net_mat_put_actions_ok_terminated hr))
      (actions_tree_bytes acts) trivial hr hl
  · intro g hr
    exact appends_nest_of_results _
      (net_mat_put_header_graph_results skb g (net_mat_put_header_graph_ok_terminated hr))
      (header_graph_tree_bytes g) trivial hr hl
  · intro ts hn hr
    obtain ⟨ht, hc⟩ := net_mat_put_tables_ok_terminated hr hn
    exact appends_nest_of_results _ (net_mat_put_tables_results skb ts ht hc)
      (tables_tree_bytes ts) trivial hr hl

/-- The default action list and the first two headers of the default header list, each
encoded into an empty buffer with room for 400 bytes, are one well-formed nest. -/
theorem list_encoders_append_one_well_formed_nest_witness :
    net_mat_put_actions ⟨[], 400⟩ net_mat_linux_action_list =
      some (0, ⟨actions_bytes net_mat_linux_action_list, 400⟩) ∧
    appends_nest ⟨[], 400⟩ ⟨actions_bytes net_mat_linux_action_list, 400⟩
      (actions_tree net_mat_linux_action_list) ∧
    net_mat_put_headers ⟨[], 400⟩ [net_mat_ethernet, net_mat_vlan] =
      some (0, ⟨headers_bytes [net_mat_ethernet, net_mat_vlan], 400⟩) ∧
    appends_nest ⟨[], 400⟩ ⟨headers_bytes [net_mat_ethernet, net_mat_vlan], 400⟩
      (headers_tree [net_mat_ethernet, net_mat_vlan]) :=
  ⟨by decide,
    (list_encoders_append_one_well_formed_nest ⟨[], 400⟩
      ⟨actions_bytes net_mat_linux_action_list, 400⟩ (by decide)).2.1
      net_mat_linux_action_list (by decide),
    by decide,
    (list_encoders_append_one_well_formed_nest ⟨[], 400⟩
      ⟨headers_bytes [net_mat_ethernet, net_mat_vlan], 400⟩ (by decide)).1
      [net_mat_ethernet, net_mat_vlan] (by decide)⟩

/-- C11: at a table array whose first slot is `NULL`, `net_mat_put_tables` returns 0 and
leaves the buffer as it was: the call succeeds and the bytes it has appended are not a
nest, whatever the tree.  The get-tables handler of a device whose operation returns such
an array sends a reply with an empty body.  At a table array whose first table has
`uid == 0` the function appends the TABLES nest without children, which is one
well-formed nest. -/
theorem put_tables_null_first_slot_is_not_a_nest :
    net_mat_put_tables ⟨[1, 2, 3, 4], 64⟩ [none] = some (0, ⟨[1, 2, 3, 4], 64⟩) ∧
    (∀ t : Attrs, ¬ appends_nest ⟨[1, 2, 3, 4], 64⟩ ⟨[1, 2, 3, 4], 64⟩ t) ∧
    (net_mat_table_cmd_get_tables ⟨some 3776, 16, fun _ => 0⟩
        ⟨some 1, some 3, 77, 5, [⟨3, ⟨none, none, some (some [none])⟩⟩]⟩).map
      (fun r => (r.1, r.2.replies.map (fun m => m.data.drop 36))) = some (0, [[]]) ∧
    net_mat_put_tables ⟨[1, 2, 3, 4], 64⟩ [some ⟨[], 0, 0, 0, 0, 0, 0, [], []⟩] =
      some (0, ⟨[1, 2, 3, 4] ++ nest_bytes NET_MAT_TABLES [], 64⟩) ∧
    appends_nest ⟨[1, 2, 3, 4], 64⟩ ⟨[1, 2, 3, 4] ++ nest_bytes NET_MAT_TABLES [], 64⟩
      (tables_tree [some ⟨[], 0, 0, 0, 0, 0, 0, [], []⟩]) :=
  ⟨by decide, not_appends_nest_self _, by decide, by decide,
    (list_encoders_append_one_well_formed_nest ⟨[1, 2, 3, 4], 64⟩
      ⟨[1, 2, 3, 4] ++ nest_bytes NET_MAT_TABLES [], 64⟩ (by decide)).2.2.2
      [some ⟨[], 0, 0, 0, 0, 0, 0, [], []⟩] (by decide) (by decide)⟩

/-! ## Claims on table records, field reference values and action arguments -/

/-- Counterexample to C21: for a table whose action array is `{ACTION_SET_EGRESS_PORT, 0}`,
`net_mat_put_table` fills the ACTIONS nest with one u32 attribute of type
`NET_MAT_ACTION_ATTR_UID` holding the uid, 8 bytes in all; this is not the `NET_MAT_ACTION`
record of the action `set_egress_port` with its NAME, UID and SIGNATURE attributes. -/
theorem put_table_actions_nest_holds_bare_uids :
    net_mat_put_table ⟨[], 100⟩
        ⟨[116], 1, 0, 0, 0, 0, 0, [⟨0, 0, 0, 0, 0, 0, 0⟩], [ACTION_SET_EGRESS_PORT, 0]⟩ =
      some (0, ⟨string_attr NET_MAT_TABLE_ATTR_NAME [116] ++
        u32_attr NET_MAT_TABLE_ATTR_UID 1 ++ u32_attr NET_MAT_TABLE_ATTR_SOURCE 0 ++
        u32_attr NET_MAT_TABLE_ATTR_APPLY 0 ++ u32_attr NET_MAT_TABLE_ATTR_SIZE 0 ++
        nest_bytes NET_MAT_TABLE_ATTR_MATCHES [] ++
        nest_bytes NET_MAT_TABLE_ATTR_ACTIONS
          (u32_attr NET_MAT_ACTION_ATTR_UID ACTION_SET_EGRESS_PORT), 100⟩) ∧
    u32_attr NET_MAT_ACTION_ATTR_UID ACTION_SET_EGRESS_PORT = [8, 0, 2, 0, 1, 0, 0, 0] ∧
    set_egress_port.uid = ACTION_SET_EGRESS_PORT ∧
    u32_attr NET_MAT_ACTION_ATTR_UID ACTION_SET_EGRESS_PORT ≠
      action_record_bytes set_egress_port := by
  decide

/-- C21 (amended): with a device whose operation `ndo_mat_get_tables` returns a
terminated table array and a reply buffer with room for the 36 bytes of the head and the
body, the get-tables handler sends one reply whose body is the TABLES nest of one TABLE
nest per table, and the ACTIONS nest of each table holds, for every action uid before the
terminating 0 of `actions` and in this order, one u32 attribute of type
`NET_MAT_ACTION_ATTR_UID` with the uid as its payload: 8 bytes, a 4-byte attribute header
of length 8 and type 2 and the uid in four bytes. -/
theorem get_tables_reply_lists_action_uids (env : kernel_env) (info : genl_info)
    (dev : net_device) (ts : List (Option net_mat_table)) (room : Nat)
    (hd : net_mat_get_dev info = some dev)
    (hop : dev.netdev_ops.ndo_mat_get_tables = some (some ts))
    (hterm : tables_terminated ts) (hwf : ∀ t ∈ table_entries ts, table_terminated t)
    (hn : env.nlmsg_new = some room) (hr : 36 + (tables_bytes ts).length ≤ room) :
    (∃ msg : sk_buff,
      net_mat_table_cmd_get_tables env info = some (env.genlmsg_reply msg, replied msg) ∧
      msg.data.drop 36 = nest_bytes NET_MAT_TABLES ((table_entries ts).flatMap fun t =>
        nest_bytes NET_MAT_TABLE
          (string_attr NET_MAT_TABLE_ATTR_NAME t.name ++
           u32_attr NET_MAT_TABLE_ATTR_UID t.uid ++
           u32_attr NET_MAT_TABLE_ATTR_SOURCE t.source ++
           u32_attr NET_MAT_TABLE_ATTR_APPLY t.apply_action ++
           u32_attr NET_MAT_TABLE_ATTR_SIZE t.size ++
           nest_bytes NET_MAT_TABLE_ATTR_MATCHES (matches_bytes t.«matches») ++
           nest_bytes NET_MAT_TABLE_ATTR_ACTIONS
             ((t.actions.takeWhile fun a => decide (a ≠ 0)).flatMap fun a =>
               u32_attr NET_MAT_ACTION_ATTR_UID a)))) ∧
    ∀ a : Nat, u32_attr NET_MAT_ACTION_ATTR_UID a = [8, 0, 2, 0] ++ le_bytes 4 a := by
  have hl := reply_head_length env.family_id info.snd_portid info.snd_seq
    NET_MAT_TABLE_CMD_GET_TABLES dev.ifindex
  refine ⟨⟨_, get_tables_reply hd hop hn (by omega) ?_,
    reply_msg_body _ (tables_bytes ts) _ hl⟩, fun a => u32_attr_eq _ a⟩
  apply (net_mat_put_tables_results _ ts hterm hwf).1
  simp only [skb_tailroom, hl]
  omega

/-- Witness for C21 (amended): a device with interface index 3 whose operation returns
one table with the actions `{ACTION_SET_EGRESS_PORT, ACTION_DROP_PACKET, 0}` and the
terminating table. -/
theorem get_tables_reply_lists_action_uids_witness :
    net_mat_get_dev ⟨some 1, some 3, 77, 5, [⟨3, ⟨none, none, some (some
        [some ⟨[116], 1, 0, 0, 8, 0, 0, [⟨0, 0, 0, 0, 0, 0, 0⟩],
          [ACTION_SET_EGRESS_PORT, ACTION_DROP_PACKET, 0]⟩,
         some ⟨[], 0, 0, 0, 0, 0, 0, [], []⟩])⟩⟩]⟩ =
      some ⟨3, ⟨none, none, some (some
        [some ⟨[116], 1, 0, 0, 8, 0, 0, [⟨0, 0, 0, 0, 0, 0, 0⟩],
          [ACTION_SET_EGRESS_PORT, ACTION_DROP_PACKET, 0]⟩,
         some ⟨[], 0, 0, 0, 0, 0, 0, [], []⟩])⟩⟩ ∧
    ∃ msg : sk_buff,
      net_mat_table_cmd_get_tables ⟨some 3776, 16, fun _ => 0⟩
        ⟨some 1, some 3, 77, 5, [⟨3, ⟨none, none, some (some
          [some ⟨[116], 1, 0, 0, 8, 0, 0, [⟨0, 0, 0, 0, 0, 0, 0⟩],
            [ACTION_SET_EGRESS_PORT, ACTION_DROP_PACKET, 0]⟩,
           some ⟨[], 0, 0, 0, 0, 0, 0, [], []⟩])⟩⟩]⟩ = some (0, replied msg) ∧
      msg.data.drop 36 = nest_bytes NET_MAT_TABLES
        (nest_bytes NET_MAT_TABLE
          (string_attr NET_MAT_TABLE_ATTR_NAME [116] ++
           u32_attr NET_MAT_TABLE_ATTR_UID 1 ++
           u32_attr NET_MAT_TABLE_ATTR_SOURCE 0 ++
           u32_attr NET_MAT_TABLE_ATTR_APPLY 0 ++
           u32_attr NET_MAT_TABLE_ATTR_SIZE 8 ++
           nest_bytes NET_MAT_TABLE_ATTR_MATCHES [] ++
           nest_bytes NET_MAT_TABLE_ATTR_ACTIONS
             (u32_attr NET_MAT_ACTION_ATTR_UID ACTION_SET_EGRESS_PORT ++
              u32_attr NET_MAT_ACTION_ATTR_UID ACTION_DROP_PACKET))) :=
  ⟨by decide,
    (get_tables_reply_lists_action_uids ⟨some 3776, 16, fun _ => 0⟩
      ⟨some 1, some 3, 77, 5, [⟨3, ⟨none, none, some (some
        [some ⟨[116], 1, 0, 0, 8, 0, 0, [⟨0, 0, 0, 0, 0, 0, 0⟩],
          [ACTION_SET_EGRESS_PORT, ACTION_DROP_PACKET, 0]⟩,
         some ⟨[], 0, 0, 0, 0, 0, 0, [], []⟩])⟩⟩]⟩
      ⟨3, ⟨none, none, some (some
        [some ⟨[116], 1, 0, 0, 8, 0, 0, [⟨0, 0, 0, 0, 0, 0, 0⟩],
          [ACTION_SET_EGRESS_PORT, ACTION_DROP_PACKET, 0]⟩,
         some ⟨[], 0, 0, 0, 0, 0, 0, [], []⟩])⟩⟩
      [some ⟨[116], 1, 0, 0, 8, 0, 0, [⟨0, 0, 0, 0, 0, 0, 0⟩],
          [ACTION_SET_EGRESS_PORT, ACTION_DROP_PACKET, 0]⟩,
         some ⟨[], 0, 0, 0, 0, 0, 0, [], []⟩]
      3776 (by decide) rfl (by decide) (by decide) rfl (by decide)).1⟩

/-- Counterexample to C22: for a field reference of type u8, whose type tag is 1,
`net_mat_put_field_ref_vals` appends a VALUE and a MASK attribute with a payload of one
byte each, not of `2 ^ 1` bytes. -/
theorem put_field_ref_vals_u8_payload_is_one_byte :
    (⟨1, 1, 3, 1, 1, 5, 255⟩ : net_mat_field_ref).type = NET_MAT_FIELD_REF_ATTR_TYPE_U8 ∧
    NET_MAT_FIELD_REF_ATTR_TYPE_U8 = 1 ∧
    net_mat_put_field_ref_vals ⟨[], 16⟩ ⟨1, 1, 3, 1, 1, 5, 255⟩ =
      (0, ⟨nla_bytes NET_MAT_FIELD_REF_VALUE [5] ++ nla_bytes NET_MAT_FIELD_REF_MASK [255],
        16⟩) ∧
    nla_len (nla_bytes NET_MAT_FIELD_REF_VALUE [5]) = NLA_HDRLEN + 1 ∧
    nla_len (nla_bytes NET_MAT_FIELD_REF_MASK [255]) = NLA_HDRLEN + 1 ∧
    NLA_HDRLEN + 1 ≠
      NLA_HDRLEN + 2 ^ (⟨1, 1, 3, 1, 1, 5, 255⟩ : net_mat_field_ref).type.toNat := by
  decide

/-- C22 (amended): for a field reference whose type tag `t` is one of u8, u16, u32, u64
(the tags 1 to 4), `net_mat_put_field_ref_vals` returns 0 exactly when the tailroom
holds the two attributes, and then it has appended a VALUE and a MASK attribute whose
payloads are the `2 ^ (t - 1)` low bytes of the stored value and mask. -/
theorem put_field_ref_vals_payload_width (skb : sk_buff) (ref : net_mat_field_ref)
    (h1 : NET_MAT_FIELD_REF_ATTR_TYPE_U8 ≤ ref.type)
    (h4 : ref.type ≤ NET_MAT_FIELD_REF_ATTR_TYPE_U64) :
    (le_bytes (2 ^ (ref.type.toNat - 1)) ref.value).length = 2 ^ (ref.type.toNat - 1) ∧
    (le_bytes (2 ^ (ref.type.toNat - 1)) ref.mask).length = 2 ^ (ref.type.toNat - 1) ∧
    ((net_mat_put_field_ref_vals skb ref).1 = 0 ↔
      2 * NLA_ALIGN (NLA_HDRLEN + 2 ^ (ref.type.toNat - 1)) ≤ skb_tailroom skb) ∧
    ((net_mat_put_field_ref_vals skb ref).1 = 0 →
      (net_mat_put_field_ref_vals skb ref).2 = skb.append
        (nla_bytes NET_MAT_FIELD_REF_VALUE (le_bytes (2 ^ (ref.type.toNat - 1)) ref.value) ++
         nla_bytes NET_MAT_FIELD_REF_MASK (le_bytes (2 ^ (ref.type.toNat - 1)) ref.mask))) := by
  obtain ⟨a, b⟩ := net_mat_put_field_ref_vals_typed skb ref h1 h4
  exact ⟨le_bytes_length _ _, le_bytes_length _ _, a, b⟩

/-- Witness for C22 (amended): a u32 field reference and 16 bytes of tailroom. -/
theorem put_field_ref_vals_payload_width_witness :
    NET_MAT_FIELD_REF_ATTR_TYPE_U8 ≤ (⟨1, 1, 3, 1, 3, 5, 255⟩ : net_mat_field_ref).type ∧
    (⟨1, 1, 3, 1, 3, 5, 255⟩ : net_mat_field_ref).type ≤ NET_MAT_FIELD_REF_ATTR_TYPE_U64 ∧
    (net_mat_put_field_ref_vals ⟨[], 16⟩ ⟨1, 1, 3, 1, 3, 5, 255⟩).2 =
      (⟨[], 16⟩ : sk_buff).append
        (nla_bytes NET_MAT_FIELD_REF_VALUE (le_bytes (2 ^ ((3 : Int).toNat - 1)) 5) ++
         nla_bytes NET_MAT_FIELD_REF_MASK (le_bytes (2 ^ ((3 : Int).toNat - 1)) 255)) :=
  ⟨by decide, by decide,
    (put_field_ref_vals_payload_width ⟨[], 16⟩ ⟨1, 1, 3, 1, 3, 5, 255⟩ (by decide)
      (by decide)).2.2.2 (by decide)⟩

/-- C23: `net_mat_put_field_ref_vals` returns 0 and leaves the buffer as it is for a field
reference of unspecified type; for a field reference of type u8, u16, u32 or u64 it
returns 0 or `-EMSGSIZE`, and when it returns 0 it has appended exactly one VALUE
attribute followed by one MASK attribute, both with a payload of the same width `w`
(1, 2, 4 or 8 bytes). -/
theorem put_field_ref_vals_value_and_mask_together (skb : sk_buff) (ref : net_mat_field_ref) :
    (ref.type = NET_MAT_FIELD_REF_ATTR_TYPE_UNSPEC →
      net_mat_put_field_ref_vals skb ref = (0, skb)) ∧
    (ref.type = NET_MAT_FIELD_REF_ATTR_TYPE_U8 ∨ ref.type = NET_MAT_FIELD_REF_ATTR_TYPE_U16 ∨
      ref.type = NET_MAT_FIELD_REF_ATTR_TYPE_U32 ∨ ref.type = NET_MAT_FIELD_REF_ATTR_TYPE_U64 →
      ((net_mat_put_field_ref_vals skb ref).1 = 0 ∨
        (net_mat_put_field_ref_vals skb ref).1 = -EMSGSIZE) ∧
      ((net_mat_put_field_ref_vals skb ref).1 = 0 →
        ∃ w : Nat, (w = 1 ∨ w = 2 ∨ w = 4 ∨ w = 8) ∧
          (le_bytes w ref.value).length = w ∧ (le_bytes w ref.mask).length = w ∧
          (net_mat_put_field_ref_vals skb ref).2 = skb.append
            (nla_bytes NET_MAT_FIELD_REF_VALUE (le_bytes w ref.value) ++
             nla_bytes NET_MAT_FIELD_REF_MASK (le_bytes w ref.mask)))) := by
  obtain ⟨c1, c2, c3, c4⟩ := field_ref_type_consts
  constructor
  · intro h
    have h0 : ref.type = 0 := h
    simp only [net_mat_put_field_ref_vals, h0, if_true]
  · intro h
    have h1 : NET_MAT_FIELD_REF_ATTR_TYPE_U8 ≤ ref.type := by
      rw [c1]; rcases h with h | h | h | h <;> rw [h] <;> decide
    have h4 : ref.type ≤ NET_MAT_FIELD_REF_ATTR_TYPE_U64 := by
      rw [c4]; rcases h with h | h | h | h <;> rw [h] <;> decide
    refine ⟨net_mat_put_field_ref_vals_errno skb ref, fun h0 => ?_⟩
    refine ⟨2 ^ (ref.type.toNat - 1), ?_, le_bytes_length _ _, le_bytes_length _ _,
      (net_mat_put_field_ref_vals_typed skb ref h1 h4).2 h0⟩
    rcases h with h | h | h | h <;> rw [h] <;> decide

/-- Witness for C23: a u16 field reference with 16 bytes of tailroom. -/
theorem put_field_ref_vals_value_and_mask_together_witness :
    (⟨1, 1, 3, 1, 2, 2048, 65535⟩ : net_mat_field_ref).type =
      NET_MAT_FIELD_REF_ATTR_TYPE_U16 ∧
    (net_mat_put_field_ref_vals ⟨[], 16⟩ ⟨1, 1, 3, 1, 2, 2048, 65535⟩).1 = 0 ∧
    ∃ w : Nat, (w = 1 ∨ w = 2 ∨ w = 4 ∨ w = 8) ∧
      (le_bytes w 2048).length = w ∧ (le_bytes w 65535).length = w ∧
      (net_mat_put_field_ref_vals ⟨[], 16⟩ ⟨1, 1, 3, 1, 2, 2048, 65535⟩).2 =
        (⟨[], 16⟩ : sk_buff).append
          (nla_bytes NET_MAT_FIELD_REF_VALUE (le_bytes w 2048) ++
           nla_bytes NET_MAT_FIELD_REF_MASK (le_bytes w 65535)) :=
  ⟨rfl, by decide,
    ((put_field_ref_vals_value_and_mask_together ⟨[], 16⟩
      ⟨1, 1, 3, 1, 2, 2048, 65535⟩).2 (Or.inr (Or.inl rfl))).2 (by decide)⟩

/-- C25: for a table with terminated arrays and enough tailroom, `net_mat_put_table`
returns 0 and appends, in this order, the NAME string, UID, SOURCE, APPLY and SIZE, a
MATCHES nest with one FIELD_REF record per match before the first match with
`instance == 0`, and an ACTIONS nest with one u32 per action uid before the first zero
uid; the `k`-th record encodes `matches[k]`, the `k`-th u32 holds `actions[k]`, and the
terminating match and the terminating zero uid are not encoded. -/
theorem put_table_appends_record (t : net_mat_table) (skb : sk_buff)
    (ht : table_terminated t) (hc : (table_bytes t).length ≤ skb_tailroom skb) :
    net_mat_put_table skb t = some (0, skb.append
      (string_attr NET_MAT_TABLE_ATTR_NAME t.name ++
       u32_attr NET_MAT_TABLE_ATTR_UID t.uid ++
       u32_attr NET_MAT_TABLE_ATTR_SOURCE t.source ++
       u32_attr NET_MAT_TABLE_ATTR_APPLY t.apply_action ++
       u32_attr NET_MAT_TABLE_ATTR_SIZE t.size ++
       nest_bytes NET_MAT_TABLE_ATTR_MATCHES
         ((match_entries t.«matches»).flatMap (fun m =>
           nest_bytes NET_MAT_FIELD_REF (field_ref_top_bytes m))) ++
       nest_bytes NET_MAT_TABLE_ATTR_ACTIONS
         ((table_action_ids t.actions).flatMap (fun a =>
           u32_attr NET_MAT_ACTION_ATTR_UID a)))) ∧
    (∀ (k : Nat) (m : net_mat_field_ref), (match_entries t.«matches»)[k]? = some m →
      t.«matches»[k]? = some m ∧ m.«instance» ≠ 0) ∧
    (∀ (k : Nat) (a : Nat), (table_action_ids t.actions)[k]? = some a →
      t.actions[k]? = some a ∧ a ≠ 0) := by
  refine ⟨(net_mat_put_table_results t skb ht).1 hc, ?_, ?_⟩
  · intro k m h
    have := takeWhile_get _ _ k m h
    exact ⟨this.1, by simpa using this.2⟩
  · intro k a h
    have := takeWhile_get _ _ k a h
    exact ⟨this.1, by simpa using this.2⟩

/-- Witness for C25: a table with one match, two action uids and further entries behind
the terminators. -/
theorem put_table_appends_record_witness :
    table_terminated ⟨[116], 1, 2, 3, 4, 5, 6,
        [⟨1, 1, 3, 1, 2, 2048, 65535⟩, ⟨0, 0, 0, 0, 0, 0, 0⟩, ⟨2, 1, 1, 1, 1, 0, 0⟩],
        [3, 4, 0, 5]⟩ ∧
    net_mat_put_table ⟨[], 200⟩ ⟨[116], 1, 2, 3, 4, 5, 6,
        [⟨1, 1, 3, 1, 2, 2048, 65535⟩, ⟨0, 0, 0, 0, 0, 0, 0⟩, ⟨2, 1, 1, 1, 1, 0, 0⟩],
        [3, 4, 0, 5]⟩ =
      some (0, ⟨[6, 0, 1, 0, 116, 0, 0, 0, 8, 0, 2, 0, 1, 0, 0, 0, 8, 0, 3, 0, 2, 0, 0, 0,
        8, 0, 4, 0, 3, 0, 0, 0, 8, 0, 5, 0, 4, 0, 0, 0,
        48, 0, 8, 0, 44, 0, 1, 0, 8, 0, 2, 0, 1, 0, 0, 0, 8, 0, 3, 0, 1, 0, 0, 0,
        8, 0, 4, 0, 3, 0, 0, 0, 8, 0, 5, 0, 1, 0, 0, 0, 8, 0, 6, 0, 2, 0, 0, 0,
        20, 0, 9, 0, 8, 0, 2, 0, 3, 0, 0, 0, 8, 0, 2, 0, 4, 0, 0, 0], 200⟩) :=
  ⟨by decide,
    (put_table_appends_record ⟨[116], 1, 2, 3, 4, 5, 6,
        [⟨1, 1, 3, 1, 2, 2048, 65535⟩, ⟨0, 0, 0, 0, 0, 0, 0⟩, ⟨2, 1, 1, 1, 1, 0, 0⟩],
        [3, 4, 0, 5]⟩ ⟨[], 200⟩ (by decide) (by decide)).1⟩

/-- C26: the done sentinel `NET_MAT_JUMP_TABLE_DONE`, stored in the u32 member `node`,
is `2 ^ 32 - 1`; it is not 0 and not the uid of a node of the default graph.  For a node
whose first jump entry has the done sentinel as its next node, `net_mat_put_header_node`
encodes that entry as a JUMP_ENTRY record with NEXT_NODE `2 ^ 32 - 1` and goes on with
the entries behind it; the walk over a jump table ends at an entry exactly when its
`node` is 0. -/
theorem done_sentinel_is_ordinary_jump_entry :
    u32_of_int NET_MAT_JUMP_TABLE_DONE = 2 ^ 32 - 1 ∧
    u32_of_int NET_MAT_JUMP_TABLE_DONE ≠ 0 ∧
    (∀ n ∈ net_mat_linux_header_graph, n.uid ≠ u32_of_int NET_MAT_JUMP_TABLE_DONE) ∧
    (∀ (node : net_mat_header_node) (j : net_mat_jump_table) (rest : List net_mat_jump_table)
      (skb : sk_buff), node.jump = j :: rest → j.node = u32_of_int NET_MAT_JUMP_TABLE_DONE →
      node_terminated node → (header_node_bytes node).length ≤ skb_tailroom skb →
      net_mat_put_header_node skb node = some (0, skb.append
        (string_attr NET_MAT_HEADER_NODE_NAME node.name ++
         u32_attr NET_MAT_HEADER_NODE_UID node.uid ++
         nest_bytes NET_MAT_HEADER_NODE_HDRS (hdrs_bytes node.hdrs) ++
         nest_bytes NET_MAT_HEADER_NODE_JUMP
           (nest_bytes NET_MAT_JUMP_ENTRY
             (u32_attr NET_MAT_FIELD_REF_NEXT_NODE (2 ^ 32 - 1) ++
               field_ref_top_bytes j.field ++ field_ref_vals_bytes j.field) ++
            jump_bytes rest)))) ∧
    (∀ (j : net_mat_jump_table) (rest : List net_mat_jump_table),
      (j.node = 0 → jump_entries (j :: rest) = []) ∧
      (j.node ≠ 0 → jump_entries (j :: rest) = j :: jump_entries rest)) := by
  have hd : u32_of_int NET_MAT_JUMP_TABLE_DONE = 2 ^ 32 - 1 := by decide
  refine ⟨hd, by decide, by decide, ?_, ?_⟩
  · intro node j rest skb hj hn ht hc
    have hne : j.node ≠ 0 := by rw [hn]; decide
    have r := (net_mat_put_header_node_results node skb ht).1 hc
    rw [r]
    simp only [header_node_bytes, hj, jump_bytes_cons_ne rest hne, jump_entry_bytes, hn, hd]
  · intro j rest
    constructor
    · intro h; simp [jump_entries, h]
    · intro h; simp [jump_entries, h]

/-- Witness for C26: the node `tcp` of the default graph, whose jump table is
`net_mat_terminal_headers`, with 100 bytes of tailroom. -/
theorem done_sentinel_is_ordinary_jump_entry_witness :
    net_mat_node_tcp.jump = ⟨⟨0, 0, 0, 0, 0, 0, 0⟩, u32_of_int NET_MAT_JUMP_TABLE_DONE⟩ ::
      [⟨⟨0, 0, 0, 0, 0, 0, 0⟩, 0⟩] ∧
    net_mat_put_header_node ⟨[], 100⟩ net_mat_node_tcp = some (0, (⟨[], 100⟩ : sk_buff).append
      (string_attr NET_MAT_HEADER_NODE_NAME net_mat_node_tcp.name ++
       u32_attr NET_MAT_HEADER_NODE_UID net_mat_node_tcp.uid ++
       nest_bytes NET_MAT_HEADER_NODE_HDRS (hdrs_bytes net_mat_node_tcp.hdrs) ++
       nest_bytes NET_MAT_HEADER_NODE_JUMP
         (nest_bytes NET_MAT_JUMP_ENTRY
           (u32_attr NET_MAT_FIELD_REF_NEXT_NODE (2 ^ 32 - 1) ++
             field_ref_top_bytes ⟨0, 0, 0, 0, 0, 0, 0⟩ ++
             field_ref_vals_bytes ⟨0, 0, 0, 0, 0, 0, 0⟩) ++
          jump_bytes [⟨⟨0, 0, 0, 0, 0, 0, 0⟩, 0⟩]))) :=
  ⟨by decide,
    done_sentinel_is_ordinary_jump_entry.2.2.2.1 net_mat_node_tcp
      ⟨⟨0, 0, 0, 0, 0, 0, 0⟩, u32_of_int NET_MAT_JUMP_TABLE_DONE⟩
      [⟨⟨0, 0, 0, 0, 0, 0, 0⟩, 0⟩] ⟨[], 100⟩ (by decide) rfl (by decide) (by decide)⟩

/-- C28: every header id in the `hdrs` array of a node of the default header graph is the
uid of a header of the default header list. -/
theorem default_graph_header_ids_are_published :
    ∀ n ∈ net_mat_linux_header_graph, ∀ u ∈ header_ids n.hdrs,
      ∃ h ∈ net_mat_linux_header_list, h.uid = (u : Int) := by
  decide

/-- Witness for C28: the node `vxlan` and its header id `HEADER_VXLAN`. -/
theorem default_graph_header_ids_are_published_witness :
    net_mat_node_vxlan ∈ net_mat_linux_header_graph ∧
    HEADER_VXLAN ∈ header_ids net_mat_node_vxlan.hdrs ∧
    ∃ h ∈ net_mat_linux_header_list, h.uid = (HEADER_VXLAN : Int) :=
  ⟨by decide, by decide,
    default_graph_header_ids_are_published net_mat_node_vxlan (by decide) HEADER_VXLAN
      (by decide)⟩

/-- C29: the typed jump entry of the node `vlan` of the default graph tests the field
`HEADER_ETHERNET_ETHERTYPE` of the header `HEADER_ETHERNET`, while the only header id of
the node is `HEADER_VLAN`, and so does the typed jump entry of the node `inner_vlan`;
these are the two nodes of the default graph with a typed jump entry on a field of a
header that is not theirs. -/
theorem default_graph_vlan_jump_tests_ethernet_field :
    header_ids net_mat_node_vlan.hdrs = [HEADER_VLAN] ∧
    (jump_entries net_mat_node_vlan.jump).map
        (fun j => (j.field.type, j.field.header, j.field.field)) =
      [(NET_MAT_FIELD_REF_ATTR_TYPE_U16, (HEADER_ETHERNET : Int),
        (HEADER_ETHERNET_ETHERTYPE : Int))] ∧
    header_ids net_mat_node_vlan_inner.hdrs = [HEADER_VLAN] ∧
    (jump_entries net_mat_node_vlan_inner.jump).map
        (fun j => (j.field.type, j.field.header, j.field.field)) =
      [(NET_MAT_FIELD_REF_ATTR_TYPE_U16, (HEADER_ETHERNET : Int),
        (HEADER_ETHERNET_ETHERTYPE : Int))] ∧
    net_mat_linux_header_graph.filter (fun (n : net_mat_header_node) =>
        decide (∃ j ∈ jump_entries n.jump,
          j.field.type ≠ NET_MAT_FIELD_REF_ATTR_TYPE_UNSPEC ∧
          ¬ jump_on_own_field net_mat_linux_header_list n j)) =
      [net_mat_node_vlan, net_mat_node_vlan_inner] := by
  decide

/-! ## Claims on the default header graph -/

/-- C27: in the default header graph the node uids are pairwise distinct; the next node
of every jump entry is the done sentinel or the uid of a node of the graph; no node is
reached from itself along one or more edges; the ethernet node is the only node without
an incoming edge, and every node is reached from it; and every node without an outgoing
edge has a jump table that is empty or holds the done sentinel. -/
theorem default_graph_is_well_formed :
    (net_mat_linux_header_graph.map (fun n => n.uid)).Nodup ∧
    (∀ n ∈ net_mat_linux_header_graph, ∀ j ∈ jump_entries n.jump,
      j.node = u32_of_int NET_MAT_JUMP_TABLE_DONE ∨
      ∃ m ∈ net_mat_linux_header_graph, m.uid = j.node) ∧
    (∀ u : Nat, ¬ Relation.TransGen (graph_edge net_mat_linux_header_graph) u u) ∧
    net_mat_linux_header_graph.filter
        (fun n => decide (no_incoming net_mat_linux_header_graph n)) =
      [net_mat_node_ethernet] ∧
    (∀ n ∈ net_mat_linux_header_graph,
      Relation.ReflTransGen (graph_edge net_mat_linux_header_graph)
        net_mat_node_ethernet.uid n.uid) ∧
    (∀ n ∈ net_mat_linux_header_graph, node_targets n = [] →
      jump_entries n.jump = [] ∨
      ∃ j ∈ jump_entries n.jump, j.node = u32_of_int NET_MAT_JUMP_TABLE_DONE) := by
  refine ⟨by decide, by decide, ?_, by decide, ?_, by decide⟩
  · intro u h
    exact Nat.lt_irrefl u (trans_edge_lt (by decide) h)
  · intro n hn
    have hr : n.uid ∈ graph_reach net_mat_linux_header_graph 6 [net_mat_node_ethernet.uid] := by
      revert n
      decide
    exact graph_reach_sound _ _ 6 _
      (fun x hx => by rw [List.mem_singleton.1 hx]) _ hr

/-- Witness for C27: the node `inner_udp` is reached from the ethernet node. -/
theorem default_graph_is_well_formed_witness :
    net_mat_node_udp_inner ∈ net_mat_linux_header_graph ∧
    Relation.ReflTransGen (graph_edge net_mat_linux_header_graph)
      net_mat_node_ethernet.uid net_mat_node_udp_inner.uid :=
  ⟨by decide, default_graph_is_well_formed.2.2.2.2.1 net_mat_node_udp_inner (by decide)⟩

/-- C30: for a header list whose field counts stay within the field arrays,
`net_mat_put_headers` returns 0 exactly when the tailroom is at least the encoded size of
the list, the sum of the aligned sizes of the attributes it writes; it then appends the
encoding of the list, whatever the room and the earlier content of the buffer; with less
tailroom it returns an error and leaves the buffer as it was. -/
theorem put_headers_fails_only_for_capacity (hs : List net_mat_header)
    (hc : ∀ h ∈ hs, header_counted h) (skb : sk_buff) :
    ((∃ s, net_mat_put_headers skb hs = some (0, s)) ↔
      (headers_tree hs).total ≤ skb_tailroom skb) ∧
    ((headers_tree hs).total ≤ skb_tailroom skb →
      net_mat_put_headers skb hs = some (0, ⟨skb.data ++ headers_bytes hs, skb.room⟩)) ∧
    (skb_tailroom skb < (headers_tree hs).total →
      ∃ e, e ≠ 0 ∧ net_mat_put_headers skb hs = some (e, skb)) ∧
    (headers_tree hs).bytes = headers_bytes hs ∧
    (∀ (skb' s s' : sk_buff), net_mat_put_headers skb hs = some (0, s) →
      net_mat_put_headers skb' hs = some (0, s') →
      s.data.drop skb.data.length = s'.data.drop skb'.data.length) := by
  have ht : (headers_tree hs).total = (headers_bytes hs).length := by
    rw [← Attrs.bytes_length_total, headers_tree_bytes]
  rw [ht]
  have r := net_mat_put_headers_results skb hs hc
  refine ⟨⟨?_, fun h => ⟨_, r.1 h⟩⟩, fun h => r.1 h, ?_, headers_tree_bytes hs, ?_⟩
  · rintro ⟨s, h⟩
    exact (r.eq_of_ok h).2
  · intro h
    obtain ⟨e, s', hr, he⟩ := r.2 (by omega)
    have := net_mat_put_headers_rollback hr he
    subst this
    exact ⟨e, he, hr⟩
  · intro skb' s s' h h'
    have r' := net_mat_put_headers_results skb' hs hc
    rw [(r.eq_of_ok h).1, (r'.eq_of_ok h').1]
    simp [sk_buff.append]

/-- Witness for C30: the first two headers of the default list and an empty buffer with
room for 400 bytes. -/
theorem put_headers_fails_only_for_capacity_witness :
    (∀ h ∈ [net_mat_ethernet, net_mat_vlan], header_counted h) ∧
    (headers_tree [net_mat_ethernet, net_mat_vlan]).total ≤ skb_tailroom ⟨[], 400⟩ ∧
    net_mat_put_headers ⟨[], 400⟩ [net_mat_ethernet, net_mat_vlan] =
      some (0, ⟨[] ++ headers_bytes [net_mat_ethernet, net_mat_vlan], 400⟩) :=
  ⟨by decide, by decide,
    (put_headers_fails_only_for_capacity [net_mat_ethernet, net_mat_vlan] (by decide)
      ⟨[], 400⟩).2.1 (by decide)⟩

/-! ## Claims on values and masks that are not transmitted -/

/-- C31: a FIELD_REF record of a table holds INSTANCE, HEADER, FIELD, MASK_TYPE and TYPE
and nothing else, 44 bytes whatever the type of the match; for a table with terminated
arrays and enough tailroom `net_mat_put_table` fills the MATCHES nest with these records;
and for every buffer it gives the same result for two tables that differ only in the
values and masks of their matches. -/
theorem put_table_drops_match_values (t : net_mat_table) (ms : List net_mat_field_ref)
    (skb : sk_buff) (h : ms.map clear_vals = t.«matches».map clear_vals) :
    net_mat_put_table skb { t with «matches» := ms } = net_mat_put_table skb t ∧
    (∀ m : net_mat_field_ref,
      match_bytes m = nest_bytes NET_MAT_FIELD_REF
        (u32_attr NET_MAT_FIELD_REF_INSTANCE (u32_of_int m.«instance») ++
         u32_attr NET_MAT_FIELD_REF_HEADER (u32_of_int m.header) ++
         u32_attr NET_MAT_FIELD_REF_FIELD (u32_of_int m.field) ++
         u32_attr NET_MAT_FIELD_REF_MASK_TYPE (u32_of_int m.mask_type) ++
         u32_attr NET_MAT_FIELD_REF_TYPE (u32_of_int m.type)) ∧
      (match_bytes m).length = 44) ∧
    (table_terminated t → (table_bytes t).length ≤ skb_tailroom skb →
      net_mat_put_table skb t = some (0, skb.append
        (string_attr NET_MAT_TABLE_ATTR_NAME t.name ++
         u32_attr NET_MAT_TABLE_ATTR_UID t.uid ++
         u32_attr NET_MAT_TABLE_ATTR_SOURCE t.source ++
         u32_attr NET_MAT_TABLE_ATTR_APPLY t.apply_action ++
         u32_attr NET_MAT_TABLE_ATTR_SIZE t.size ++
         nest_bytes NET_MAT_TABLE_ATTR_MATCHES
           ((match_entries t.«matches»).flatMap match_bytes) ++
         nest_bytes NET_MAT_TABLE_ATTR_ACTIONS (table_actions_bytes t.actions)))) :=
  ⟨net_mat_put_table_clear_vals t ms skb h,
    fun m => ⟨rfl, match_bytes_length m⟩,
    fun ht hc => (net_mat_put_table_results t skb ht).1 hc⟩

/-- Witness for C31: two tables whose u16 match differs in value and mask. -/
theorem put_table_drops_match_values_witness :
    [(⟨1, 1, 3, 1, 2, 34525, 255⟩ : net_mat_field_ref), ⟨0, 0, 0, 0, 0, 0, 0⟩].map clear_vals =
      [(⟨1, 1, 3, 1, 2, 2048, 65535⟩ : net_mat_field_ref), ⟨0, 0, 0, 0, 0, 0, 0⟩].map
        clear_vals ∧
    net_mat_put_table ⟨[], 200⟩ ⟨[116], 1, 2, 3, 4, 5, 6,
        [⟨1, 1, 3, 1, 2, 34525, 255⟩, ⟨0, 0, 0, 0, 0, 0, 0⟩], [3, 0]⟩ =
      net_mat_put_table ⟨[], 200⟩ ⟨[116], 1, 2, 3, 4, 5, 6,
        [⟨1, 1, 3, 1, 2, 2048, 65535⟩, ⟨0, 0, 0, 0, 0, 0, 0⟩], [3, 0]⟩ :=
  ⟨by decide,
    (put_table_drops_match_values ⟨[116], 1, 2, 3, 4, 5, 6,
        [⟨1, 1, 3, 1, 2, 2048, 65535⟩, ⟨0, 0, 0, 0, 0, 0, 0⟩], [3, 0]⟩
      [⟨1, 1, 3, 1, 2, 34525, 255⟩, ⟨0, 0, 0, 0, 0, 0, 0⟩] ⟨[], 200⟩ (by decide)).1⟩

/-- C32: for a field reference whose type is none of u8, u16, u32 and u64, and so for
every type outside unspecified, u8, u16, u32 and u64, `net_mat_put_field_ref_vals`
returns 0 and leaves the buffer as it is, whatever the tailroom, while
`net_mat_put_field_ref_top` with 40 bytes of tailroom writes the type in its TYPE
attribute; a node with terminated arrays whose first jump entry has such a field
reference is encoded with return value 0 when the tailroom suffices, the record of that
entry holding NEXT_NODE and the five attributes of the reference and no VALUE or MASK. -/
theorem put_field_ref_unknown_type_has_no_value (skb : sk_buff) (ref : net_mat_field_ref)
    (h8 : ref.type ≠ NET_MAT_FIELD_REF_ATTR_TYPE_U8)
    (h16 : ref.type ≠ NET_MAT_FIELD_REF_ATTR_TYPE_U16)
    (h32 : ref.type ≠ NET_MAT_FIELD_REF_ATTR_TYPE_U32)
    (h64 : ref.type ≠ NET_MAT_FIELD_REF_ATTR_TYPE_U64) :
    net_mat_put_field_ref_vals skb ref = (0, skb) ∧
    (40 ≤ skb_tailroom skb →
      net_mat_put_field_ref_top skb ref = (0, skb.append
        (u32_attr NET_MAT_FIELD_REF_INSTANCE (u32_of_int ref.«instance») ++
         u32_attr NET_MAT_FIELD_REF_HEADER (u32_of_int ref.header) ++
         u32_attr NET_MAT_FIELD_REF_FIELD (u32_of_int ref.field) ++
         u32_attr NET_MAT_FIELD_REF_MASK_TYPE (u32_of_int ref.mask_type) ++
         u32_attr NET_MAT_FIELD_REF_TYPE (u32_of_int ref.type)))) ∧
    (∀ (node : net_mat_header_node) (next : Nat) (rest : List net_mat_jump_table)
      (s : sk_buff), node.jump = ⟨ref, next⟩ :: rest → next ≠ 0 → node_terminated node →
      (header_node_bytes node).length ≤ skb_tailroom s →
      net_mat_put_header_node s node = some (0, s.append
        (string_attr NET_MAT_HEADER_NODE_NAME node.name ++
         u32_attr NET_MAT_HEADER_NODE_UID node.uid ++
         nest_bytes NET_MAT_HEADER_NODE_HDRS (hdrs_bytes node.hdrs) ++
         nest_bytes NET_MAT_HEADER_NODE_JUMP
           (nest_bytes NET_MAT_JUMP_ENTRY
             (u32_attr NET_MAT_FIELD_REF_NEXT_NODE next ++ field_ref_top_bytes ref) ++
            jump_bytes rest)))) := by
  refine ⟨net_mat_put_field_ref_vals_unknown skb ref h8 h16 h32 h64, ?_, ?_⟩
  · intro hc
    have hw := Writes_field_ref_top ref skb
    beta_reduce at hw
    have hl : (field_ref_top_bytes ref).length = 40 := by
      simp only [field_ref_top_bytes, List.length_append, u32_attr_length]
    rw [hl] at hw
    exact hw.1 hc
  · intro node next rest s hj hn ht hc
    have hne : (⟨ref, next⟩ : net_mat_jump_table).node ≠ 0 := hn
    rw [(net_mat_put_header_node_results node s ht).1 hc]
    simp only [header_node_bytes, hj, jump_bytes_cons_ne rest hne, jump_entry_bytes,
      field_ref_vals_bytes_unknown ref h8 h16 h32 h64, List.append_nil]

/-- Witness for C32: a field reference of type 9 and a node whose jump table starts with
it. -/
theorem put_field_ref_unknown_type_has_no_value_witness :
    (⟨0, 1, 3, 0, 9, 2048, 65535⟩ : net_mat_field_ref).type ≠
      NET_MAT_FIELD_REF_ATTR_TYPE_UNSPEC ∧
    net_mat_put_field_ref_vals ⟨[], 0⟩ ⟨0, 1, 3, 0, 9, 2048, 65535⟩ = (0, ⟨[], 0⟩) ∧
    net_mat_put_header_node ⟨[], 100⟩
        ⟨[97], 1, [1, 0], [⟨⟨0, 1, 3, 0, 9, 2048, 65535⟩, 4⟩, ⟨⟨0, 0, 0, 0, 0, 0, 0⟩, 0⟩]⟩ =
      some (0, (⟨[], 100⟩ : sk_buff).append
        (string_attr NET_MAT_HEADER_NODE_NAME [97] ++
         u32_attr NET_MAT_HEADER_NODE_UID 1 ++
         nest_bytes NET_MAT_HEADER_NODE_HDRS (hdrs_bytes [1, 0]) ++
         nest_bytes NET_MAT_HEADER_NODE_JUMP
           (nest_bytes NET_MAT_JUMP_ENTRY
             (u32_attr NET_MAT_FIELD_REF_NEXT_NODE 4 ++
               field_ref_top_bytes ⟨0, 1, 3, 0, 9, 2048, 65535⟩) ++
            jump_bytes [⟨⟨0, 0, 0, 0, 0, 0, 0⟩, 0⟩]))) :=
  ⟨by decide,
    (put_field_ref_unknown_type_has_no_value ⟨[], 0⟩ ⟨0, 1, 3, 0, 9, 2048, 65535⟩
      (by decide) (by decide) (by decide) (by decide)).1,
    (put_field_ref_unknown_type_has_no_value ⟨[], 0⟩ ⟨0, 1, 3, 0, 9, 2048, 65535⟩
      (by decide) (by decide) (by decide) (by decide)).2.2
      ⟨[97], 1, [1, 0], [⟨⟨0, 1, 3, 0, 9, 2048, 65535⟩, 4⟩, ⟨⟨0, 0, 0, 0, 0, 0, 0⟩, 0⟩]⟩
      4 [⟨⟨0, 0, 0, 0, 0, 0, 0⟩, 0⟩] ⟨[], 100⟩ rfl (by decide) (by decide) (by decide)⟩

end FlowTable
